import Mathlib

/-!
# DXF importer: a shallow embedding of `code/AssetLib/DXF/DXFLoader.cpp`

The development follows the importer stage by stage: the record stream is
parsed into blocks of polylines and insertions (`ParsePolyLineVertex`,
`ParsePolyLine`, `Parse3DFace`, `ParseInsertion`, `ParseBlock`, `ParseBlocks`,
`ParseEntities`, `InternReadFile`), insertions are expanded
(`ExpandBlockReferences`) and the entity block is assembled into meshes
(`ConvertMeshes`, `GenerateHierarchy`, `GenerateMaterials`).

Conventions of the embedding.

* `float` values are rationals: every statement about coordinates is a
  statement of exact arithmetic.
* `unsigned int` values are naturals. A value that comes from the input, or
  from a subtraction that can pass below zero, is reduced explicitly
  (`toUnsigned`, `% 4294967296`). Sizes of vectors held in memory and the
  counters that run over them are taken to fit an `unsigned int`, as the source
  does when it casts them, and are plain naturals.
* `std::vector` is `List`, `push_back` appends at the end; a vector of
  `shared_ptr` to polylines is a list of polylines (the importer never stores a
  null pointer).
* A thrown `DeadlyImportError` is `Except.error` carrying the message.
* Log calls (`ASSIMP_LOG_WARN` and friends) have no effect on the data and are
  left out.
* A call `v.reserve(n)` with a count `n` taken from the input either throws
  (`std::bad_alloc`, `std::length_error`), which ends the import, or returns
  and leaves the contents of the vector as they are. The parsers record the
  number of bytes asked for (`reserved`, in `PolyLineState` and `FileData`) and
  go on as in the case that the call returns; `InternReadFile` takes the size
  of the largest block the allocator grants, `available`, and stops with
  `ImportError.badAlloc` when a recorded request is larger. What the parsers
  return next to a request that is refused is never used. The growth of a
  vector by `push_back`, the calls of `reserve` with a count bounded by the
  number of positions already stored, and the arrays of `ConvertMeshes`, whose
  sizes are sums of stored face counts, are taken to be granted.
* `aiString::Set` stores a text of fewer than 1024 bytes and refuses a longer
  one, which leaves the name empty (`aiString.Set`).
-/

set_option autoImplicit false

/-- Modelled from the spec: the three-component vector `aiVector3D` of the host
library (declared outside the listed sources); components are exact rationals,
the default value is the zero vector. -/
structure aiVector3D where
  x : ℚ := 0
  y : ℚ := 0
  z : ℚ := 0
deriving DecidableEq

/-- Modelled from the spec: the RGBA colour `aiColor4D` of the host library
(declared outside the listed sources). -/
structure aiColor4D where
  r : ℚ := 0
  g : ℚ := 0
  b : ℚ := 0
  a : ℚ := 0
deriving DecidableEq

/-- Modelled from the spec: the 4x4 matrix `aiMatrix4x4` of the host library
(declared outside the listed sources). The entries are named as in the library,
row by row (`a1 .. a4` is the first row), which is also the order in which
`InternReadFile` passes sixteen numbers to the constructor; the default value is
the identity. -/
structure aiMatrix4x4 where
  a1 : ℚ := 1
  a2 : ℚ := 0
  a3 : ℚ := 0
  a4 : ℚ := 0
  b1 : ℚ := 0
  b2 : ℚ := 1
  b3 : ℚ := 0
  b4 : ℚ := 0
  c1 : ℚ := 0
  c2 : ℚ := 0
  c3 : ℚ := 1
  c4 : ℚ := 0
  d1 : ℚ := 0
  d2 : ℚ := 0
  d3 : ℚ := 0
  d4 : ℚ := 1
deriving DecidableEq

namespace aiVector3D

/-- Unary minus of a vector (`-bl_src.base`). -/
def neg (v : aiVector3D) : aiVector3D := ⟨-v.x, -v.y, -v.z⟩

/-- Squared Euclidean length. -/
def SquareLength (v : aiVector3D) : ℚ := v.x * v.x + v.y * v.y + v.z * v.z

/-- The test `v.Length()` used as a condition (`Length() != 0`). `Length` is the
square root of `SquareLength`; in exact arithmetic the root is zero exactly when
its argument is, so the test is stated on the squared length. -/
def LengthNonzero (v : aiVector3D) : Prop := v.SquareLength ≠ 0

instance (v : aiVector3D) : Decidable v.LengthNonzero :=
  inferInstanceAs (Decidable (v.SquareLength ≠ 0))

end aiVector3D

namespace aiMatrix4x4

/-- Modelled from the spec: `aiMatrix4x4::Translation(v, out)`, the identity
with the translation in the fourth column. -/
def Translation (v : aiVector3D) : aiMatrix4x4 :=
  { a4 := v.x, b4 := v.y, c4 := v.z }

/-- Modelled from the spec: `aiMatrix4x4::Scaling(v, out)`, the identity with
the scale factors on the diagonal. -/
def Scaling (v : aiVector3D) : aiMatrix4x4 :=
  { a1 := v.x, b2 := v.y, c3 := v.z }

/-- Modelled from the spec: the matrix product `m * n` of the host library (rows
of `m` against columns of `n`); the statement `trafo *= n` of the source is
`trafo := mul trafo n`. -/
def mul (m n : aiMatrix4x4) : aiMatrix4x4 :=
  { a1 := m.a1 * n.a1 + m.a2 * n.b1 + m.a3 * n.c1 + m.a4 * n.d1
    a2 := m.a1 * n.a2 + m.a2 * n.b2 + m.a3 * n.c2 + m.a4 * n.d2
    a3 := m.a1 * n.a3 + m.a2 * n.b3 + m.a3 * n.c3 + m.a4 * n.d3
    a4 := m.a1 * n.a4 + m.a2 * n.b4 + m.a3 * n.c4 + m.a4 * n.d4
    b1 := m.b1 * n.a1 + m.b2 * n.b1 + m.b3 * n.c1 + m.b4 * n.d1
    b2 := m.b1 * n.a2 + m.b2 * n.b2 + m.b3 * n.c2 + m.b4 * n.d2
    b3 := m.b1 * n.a3 + m.b2 * n.b3 + m.b3 * n.c3 + m.b4 * n.d3
    b4 := m.b1 * n.a4 + m.b2 * n.b4 + m.b3 * n.c4 + m.b4 * n.d4
    c1 := m.c1 * n.a1 + m.c2 * n.b1 + m.c3 * n.c1 + m.c4 * n.d1
    c2 := m.c1 * n.a2 + m.c2 * n.b2 + m.c3 * n.c2 + m.c4 * n.d2
    c3 := m.c1 * n.a3 + m.c2 * n.b3 + m.c3 * n.c3 + m.c4 * n.d3
    c4 := m.c1 * n.a4 + m.c2 * n.b4 + m.c3 * n.c4 + m.c4 * n.d4
    d1 := m.d1 * n.a1 + m.d2 * n.b1 + m.d3 * n.c1 + m.d4 * n.d1
    d2 := m.d1 * n.a2 + m.d2 * n.b2 + m.d3 * n.c2 + m.d4 * n.d2
    d3 := m.d1 * n.a3 + m.d2 * n.b3 + m.d3 * n.c3 + m.d4 * n.d3
    d4 := m.d1 * n.a4 + m.d2 * n.b4 + m.d3 * n.c4 + m.d4 * n.d4 }

/-- Modelled from the spec: the product of a matrix with a point, `m * v`, of
the host library; the statement `v *= trafo` of the source is
`v := transform trafo v`. The point is a column, so in a product of matrices the
factor written last acts on the point first. The source relies on this: its
comment at the `Translation(insert.pos)` factor explains that the translation
is put in front of the scaling factor so that the insertion position is not
multiplied by the scale. -/
def transform (m : aiMatrix4x4) (v : aiVector3D) : aiVector3D :=
  { x := m.a1 * v.x + m.a2 * v.y + m.a3 * v.z + m.a4
    y := m.b1 * v.x + m.b2 * v.y + m.b3 * v.z + m.b4
    z := m.c1 * v.x + m.c2 * v.y + m.c3 * v.z + m.c4 }

end aiMatrix4x4

namespace DXF

/-- Modelled from the spec: one record of the stream as the `LineReader` of
`DXFHelper.h` (outside the listed sources) presents it: the group code, the
value text, and the three numeric readings of the value that the reader offers
(`ValueAsFloat`, `ValueAsSignedInt`, `ValueAsUnsignedInt`). How text is turned
into a number is the reader's business and is left open: the numeric readings
are carried by the record. -/
structure Record where
  GroupCode : Int
  Value : String
  ValueAsFloat : ℚ := 0
  ValueAsSignedInt : Int := 0
  ValueAsUnsignedInt : Nat := 0
deriving DecidableEq

/-- The test `reader.Is(gc, what)` on the current record. -/
def Record.Is (r : Record) (gc : Int) (what : String) : Bool :=
  decide (r.GroupCode = gc ∧ r.Value = what)

/-- Modelled from the spec: the `LineReader`, as the records from the current
one onwards. `End()` is the empty list, `++reader` drops the head, and every
test on the current record is a test on the head. -/
abbrev LineReader := List Record

/-- The test `reader.Is(gc, what)`; at the end of the stream no record is
current and the test fails. -/
def LineReader.Is (reader : LineReader) (gc : Int) (what : String) : Bool :=
  match reader with
  | [] => false
  | r :: _ => r.Is gc what

/-- Modelled from the spec: `DXF::PolyLine` of `DXFHelper.h`. -/
structure PolyLine where
  positions : List aiVector3D := []
  colors : List aiColor4D := []
  indices : List Nat := []
  counts : List Nat := []
  flags : Nat := 0
  layer : String := ""
deriving DecidableEq

/-- Modelled from the spec: `DXF::InsertBlock` of `DXFHelper.h`; the scale
defaults to `(1,1,1)`, position and angle to zero. -/
structure InsertBlock where
  pos : aiVector3D := {}
  scale : aiVector3D := ⟨1, 1, 1⟩
  angle : ℚ := 0
  name : String := ""
deriving DecidableEq

/-- Modelled from the spec: `DXF::Block` of `DXFHelper.h`. -/
structure Block where
  lines : List PolyLine := []
  insertions : List InsertBlock := []
  name : String := ""
  base : aiVector3D := {}
deriving DecidableEq

/-- Modelled from the spec: `DXF::FileData` of `DXFHelper.h`, which has the one
member `blocks`. The field `reserved` is no member of the source: it holds the
numbers of bytes that `reserve` was called for while this file data was built,
in the order of the calls, so that the parsers can pass the requests on to
`InternReadFile`. -/
structure FileData where
  blocks : List Block := []
  reserved : List Nat := []
deriving DecidableEq

/-- Modelled from the spec: `DXF::BlockMap`, the map from block names to
blocks. The source stores pointers into `FileData.blocks`; a pointer is the
position of the block in that list. -/
abbrev BlockMap := String → Option Nat

end DXF

open DXF

/-- Conversion of an `int` to `unsigned int`. -/
def toUnsigned (v : Int) : Nat := (v % 4294967296).toNat

/-- The default colour of vertices without a colour record. -/
def AI_DXF_DEFAULT_COLOR : aiColor4D := ⟨0.6, 0.6, 0.6, 0.6⟩

/-- The AutoCAD colour index table, entry by entry as in the source. -/
def g_aclrDxfIndexColors : List aiColor4D := [
  aiColor4D.mk 0.0 0.0 0.0 1.0, -- dxf color code 0
  aiColor4D.mk 1.0 0.0 0.0 1.0, -- dxf color code 1
  aiColor4D.mk 1.0 1.0 0.0 1.0, -- dxf color code 2
  aiColor4D.mk 0.0 1.0 0.0 1.0, -- dxf color code 3
  aiColor4D.mk 0.0 1.0 1.0 1.0, -- dxf color code 4
  aiColor4D.mk 0.0 0.0 1.0 1.0, -- dxf color code 5
  aiColor4D.mk 1.0 0.0 1.0 1.0, -- dxf color code 6
  aiColor4D.mk 1.0 1.0 1.0 1.0, -- dxf color code 7
  aiColor4D.mk 0.3 0.3 0.3 1.0, -- dxf color code 8
  aiColor4D.mk 0.5 0.5 0.5 1.0, -- dxf color code 9
  aiColor4D.mk 1.0 0.0 0.0 1.0, -- dxf color code 10
  aiColor4D.mk 1.0 0.7 0.7 1.0, -- dxf color code 11
  aiColor4D.mk 0.7 0.0 0.0 1.0, -- dxf color code 12
  aiColor4D.mk 0.7 0.5 0.5 1.0, -- dxf color code 13
  aiColor4D.mk 0.5 0.0 0.0 1.0, -- dxf color code 14
  aiColor4D.mk 0.5 0.3 0.3 1.0, -- dxf color code 15
  aiColor4D.mk 0.4 0.0 0.0 1.0, -- dxf color code 16
  aiColor4D.mk 0.4 0.3 0.3 1.0, -- dxf color code 17
  aiColor4D.mk 0.3 0.0 0.0 1.0, -- dxf color code 18
  aiColor4D.mk 0.3 0.2 0.2 1.0, -- dxf color code 19
  aiColor4D.mk 1.0 0.2 0.0 1.0, -- dxf color code 20
  aiColor4D.mk 1.0 0.7 0.7 1.0, -- dxf color code 21
  aiColor4D.mk 0.7 0.2 0.0 1.0, -- dxf color code 22
  aiColor4D.mk 0.7 0.6 0.5 1.0, -- dxf color code 23
  aiColor4D.mk 0.5 0.1 0.0 1.0, -- dxf color code 24
  aiColor4D.mk 0.5 0.4 0.3 1.0, -- dxf color code 25
  aiColor4D.mk 0.4 0.1 0.0 1.0, -- dxf color code 26
  aiColor4D.mk 0.4 0.3 0.3 1.0, -- dxf color code 27
  aiColor4D.mk 0.3 0.1 0.0 1.0, -- dxf color code 28
  aiColor4D.mk 0.3 0.2 0.2 1.0, -- dxf color code 29
  aiColor4D.mk 1.0 0.5 0.0 1.0, -- dxf color code 30
  aiColor4D.mk 1.0 0.8 0.7 1.0, -- dxf color code 31
  aiColor4D.mk 0.7 0.4 0.0 1.0, -- dxf color code 32
  aiColor4D.mk 0.7 0.6 0.5 1.0, -- dxf color code 33
  aiColor4D.mk 0.5 0.3 0.0 1.0, -- dxf color code 34
  aiColor4D.mk 0.5 0.4 0.3 1.0, -- dxf color code 35
  aiColor4D.mk 0.4 0.2 0.0 1.0, -- dxf color code 36
  aiColor4D.mk 0.4 0.3 0.3 1.0, -- dxf color code 37
  aiColor4D.mk 0.3 0.2 0.0 1.0, -- dxf color code 38
  aiColor4D.mk 0.3 0.3 0.2 1.0, -- dxf color code 39
  aiColor4D.mk 1.0 0.7 0.0 1.0, -- dxf color code 40
  aiColor4D.mk 1.0 0.9 0.7 1.0, -- dxf color code 41
  aiColor4D.mk 0.7 0.6 0.0 1.0, -- dxf color code 42
  aiColor4D.mk 0.7 0.7 0.5 1.0, -- dxf color code 43
  aiColor4D.mk 0.5 0.4 0.0 1.0, -- dxf color code 44
  aiColor4D.mk 0.5 0.5 0.3 1.0, -- dxf color code 45
  aiColor4D.mk 0.4 0.3 0.0 1.0, -- dxf color code 46
  aiColor4D.mk 0.4 0.4 0.3 1.0, -- dxf color code 47
  aiColor4D.mk 0.3 0.2 0.0 1.0, -- dxf color code 48
  aiColor4D.mk 0.3 0.3 0.2 1.0, -- dxf color code 49
  aiColor4D.mk 1.0 1.0 0.0 1.0, -- dxf color code 50
  aiColor4D.mk 1.0 1.0 0.7 1.0, -- dxf color code 51
  aiColor4D.mk 0.7 0.7 0.0 1.0, -- dxf color code 52
  aiColor4D.mk 0.7 0.7 0.5 1.0, -- dxf color code 53
  aiColor4D.mk 0.5 0.5 0.0 1.0, -- dxf color code 54
  aiColor4D.mk 0.5 0.5 0.3 1.0, -- dxf color code 55
  aiColor4D.mk 0.4 0.4 0.0 1.0, -- dxf color code 56
  aiColor4D.mk 0.4 0.4 0.3 1.0, -- dxf color code 57
  aiColor4D.mk 0.3 0.3 0.0 1.0, -- dxf color code 58
  aiColor4D.mk 0.3 0.3 0.2 1.0, -- dxf color code 59
  aiColor4D.mk 0.7 1.0 0.0 1.0, -- dxf color code 60
  aiColor4D.mk 0.9 1.0 0.7 1.0, -- dxf color code 61
  aiColor4D.mk 0.6 0.7 0.0 1.0, -- dxf color code 62
  aiColor4D.mk 0.7 0.7 0.5 1.0, -- dxf color code 63
  aiColor4D.mk 0.4 0.5 0.0 1.0, -- dxf color code 64
  aiColor4D.mk 0.5 0.5 0.3 1.0, -- dxf color code 65
  aiColor4D.mk 0.3 0.4 0.0 1.0, -- dxf color code 66
  aiColor4D.mk 0.4 0.4 0.3 1.0, -- dxf color code 67
  aiColor4D.mk 0.2 0.3 0.0 1.0, -- dxf color code 68
  aiColor4D.mk 0.3 0.3 0.2 1.0, -- dxf color code 69
  aiColor4D.mk 0.5 1.0 0.0 1.0, -- dxf color code 70
  aiColor4D.mk 0.8 1.0 0.7 1.0, -- dxf color code 71
  aiColor4D.mk 0.4 0.7 0.0 1.0, -- dxf color code 72
  aiColor4D.mk 0.6 0.7 0.5 1.0, -- dxf color code 73
  aiColor4D.mk 0.3 0.5 0.0 1.0, -- dxf color code 74
  aiColor4D.mk 0.4 0.5 0.3 1.0, -- dxf color code 75
  aiColor4D.mk 0.2 0.4 0.0 1.0, -- dxf color code 76
  aiColor4D.mk 0.3 0.4 0.3 1.0, -- dxf color code 77
  aiColor4D.mk 0.2 0.3 0.0 1.0, -- dxf color code 78
  aiColor4D.mk 0.3 0.3 0.2 1.0, -- dxf color code 79
  aiColor4D.mk 0.2 1.0 0.0 1.0, -- dxf color code 80
  aiColor4D.mk 0.7 1.0 0.7 1.0, -- dxf color code 81
  aiColor4D.mk 0.2 0.7 0.0 1.0, -- dxf color code 82
  aiColor4D.mk 0.6 0.7 0.5 1.0, -- dxf color code 83
  aiColor4D.mk 0.1 0.5 0.0 1.0, -- dxf color code 84
  aiColor4D.mk 0.4 0.5 0.3 1.0, -- dxf color code 85
  aiColor4D.mk 0.1 0.4 0.0 1.0, -- dxf color code 86
  aiColor4D.mk 0.3 0.4 0.3 1.0, -- dxf color code 87
  aiColor4D.mk 0.1 0.3 0.0 1.0, -- dxf color code 88
  aiColor4D.mk 0.2 0.3 0.2 1.0, -- dxf color code 89
  aiColor4D.mk 0.0 1.0 0.0 1.0, -- dxf color code 90
  aiColor4D.mk 0.7 1.0 0.7 1.0, -- dxf color code 91
  aiColor4D.mk 0.0 0.7 0.0 1.0, -- dxf color code 92
  aiColor4D.mk 0.5 0.7 0.5 1.0, -- dxf color code 93
  aiColor4D.mk 0.0 0.5 0.0 1.0, -- dxf color code 94
  aiColor4D.mk 0.3 0.5 0.3 1.0, -- dxf color code 95
  aiColor4D.mk 0.0 0.4 0.0 1.0, -- dxf color code 96
  aiColor4D.mk 0.3 0.4 0.3 1.0, -- dxf color code 97
  aiColor4D.mk 0.0 0.3 0.0 1.0, -- dxf color code 98
  aiColor4D.mk 0.2 0.3 0.2 1.0, -- dxf color code 99
  aiColor4D.mk 0.0 1.0 0.2 1.0, -- dxf color code 100
  aiColor4D.mk 0.7 1.0 0.7 1.0, -- dxf color code 101
  aiColor4D.mk 0.0 0.7 0.2 1.0, -- dxf color code 102
  aiColor4D.mk 0.5 0.7 0.6 1.0, -- dxf color code 103
  aiColor4D.mk 0.0 0.5 0.1 1.0, -- dxf color code 104
  aiColor4D.mk 0.3 0.5 0.4 1.0, -- dxf color code 105
  aiColor4D.mk 0.0 0.4 0.1 1.0, -- dxf color code 106
  aiColor4D.mk 0.3 0.4 0.3 1.0, -- dxf color code 107
  aiColor4D.mk 0.0 0.3 0.1 1.0, -- dxf color code 108
  aiColor4D.mk 0.2 0.3 0.2 1.0, -- dxf color code 109
  aiColor4D.mk 0.0 1.0 0.5 1.0, -- dxf color code 110
  aiColor4D.mk 0.7 1.0 0.8 1.0, -- dxf color code 111
  aiColor4D.mk 0.0 0.7 0.4 1.0, -- dxf color code 112
  aiColor4D.mk 0.5 0.7 0.6 1.0, -- dxf color code 113
  aiColor4D.mk 0.0 0.5 0.3 1.0, -- dxf color code 114
  aiColor4D.mk 0.3 0.5 0.4 1.0, -- dxf color code 115
  aiColor4D.mk 0.0 0.4 0.2 1.0, -- dxf color code 116
  aiColor4D.mk 0.3 0.4 0.3 1.0, -- dxf color code 117
  aiColor4D.mk 0.0 0.3 0.2 1.0, -- dxf color code 118
  aiColor4D.mk 0.2 0.3 0.3 1.0, -- dxf color code 119
  aiColor4D.mk 0.0 1.0 0.7 1.0, -- dxf color code 120
  aiColor4D.mk 0.7 1.0 0.9 1.0, -- dxf color code 121
  aiColor4D.mk 0.0 0.7 0.6 1.0, -- dxf color code 122
  aiColor4D.mk 0.5 0.7 0.7 1.0, -- dxf color code 123
  aiColor4D.mk 0.0 0.5 0.4 1.0, -- dxf color code 124
  aiColor4D.mk 0.3 0.5 0.5 1.0, -- dxf color code 125
  aiColor4D.mk 0.0 0.4 0.3 1.0, -- dxf color code 126
  aiColor4D.mk 0.3 0.4 0.4 1.0, -- dxf color code 127
  aiColor4D.mk 0.0 0.3 0.2 1.0, -- dxf color code 128
  aiColor4D.mk 0.2 0.3 0.3 1.0, -- dxf color code 129
  aiColor4D.mk 0.0 1.0 1.0 1.0, -- dxf color code 130
  aiColor4D.mk 0.7 1.0 1.0 1.0, -- dxf color code 131
  aiColor4D.mk 0.0 0.7 0.7 1.0, -- dxf color code 132
  aiColor4D.mk 0.5 0.7 0.7 1.0, -- dxf color code 133
  aiColor4D.mk 0.0 0.5 0.5 1.0, -- dxf color code 134
  aiColor4D.mk 0.3 0.5 0.5 1.0, -- dxf color code 135
  aiColor4D.mk 0.0 0.4 0.4 1.0, -- dxf color code 136
  aiColor4D.mk 0.3 0.4 0.4 1.0, -- dxf color code 137
  aiColor4D.mk 0.0 0.3 0.3 1.0, -- dxf color code 138
  aiColor4D.mk 0.2 0.3 0.3 1.0, -- dxf color code 139
  aiColor4D.mk 0.0 0.7 1.0 1.0, -- dxf color code 140
  aiColor4D.mk 0.7 0.9 1.0 1.0, -- dxf color code 141
  aiColor4D.mk 0.0 0.6 0.7 1.0, -- dxf color code 142
  aiColor4D.mk 0.5 0.7 0.7 1.0, -- dxf color code 143
  aiColor4D.mk 0.0 0.4 0.5 1.0, -- dxf color code 144
  aiColor4D.mk 0.3 0.5 0.5 1.0, -- dxf color code 145
  aiColor4D.mk 0.0 0.3 0.4 1.0, -- dxf color code 146
  aiColor4D.mk 0.3 0.4 0.4 1.0, -- dxf color code 147
  aiColor4D.mk 0.0 0.2 0.3 1.0, -- dxf color code 148
  aiColor4D.mk 0.2 0.3 0.3 1.0, -- dxf color code 149
  aiColor4D.mk 0.0 0.5 1.0 1.0, -- dxf color code 150
  aiColor4D.mk 0.7 0.8 1.0 1.0, -- dxf color code 151
  aiColor4D.mk 0.0 0.4 0.7 1.0, -- dxf color code 152
  aiColor4D.mk 0.5 0.6 0.7 1.0, -- dxf color code 153
  aiColor4D.mk 0.0 0.3 0.5 1.0, -- dxf color code 154
  aiColor4D.mk 0.3 0.4 0.5 1.0, -- dxf color code 155
  aiColor4D.mk 0.0 0.2 0.4 1.0, -- dxf color code 156
  aiColor4D.mk 0.3 0.3 0.4 1.0, -- dxf color code 157
  aiColor4D.mk 0.0 0.2 0.3 1.0, -- dxf color code 158
  aiColor4D.mk 0.2 0.3 0.3 1.0, -- dxf color code 159
  aiColor4D.mk 0.0 0.2 1.0 1.0, -- dxf color code 160
  aiColor4D.mk 0.7 0.7 1.0 1.0, -- dxf color code 161
  aiColor4D.mk 0.0 0.2 0.7 1.0, -- dxf color code 162
  aiColor4D.mk 0.5 0.6 0.7 1.0, -- dxf color code 163
  aiColor4D.mk 0.0 0.1 0.5 1.0, -- dxf color code 164
  aiColor4D.mk 0.3 0.4 0.5 1.0, -- dxf color code 165
  aiColor4D.mk 0.0 0.1 0.4 1.0, -- dxf color code 166
  aiColor4D.mk 0.3 0.3 0.4 1.0, -- dxf color code 167
  aiColor4D.mk 0.0 0.1 0.3 1.0, -- dxf color code 168
  aiColor4D.mk 0.2 0.2 0.3 1.0, -- dxf color code 169
  aiColor4D.mk 0.0 0.0 1.0 1.0, -- dxf color code 170
  aiColor4D.mk 0.7 0.7 1.0 1.0, -- dxf color code 171
  aiColor4D.mk 0.0 0.0 0.7 1.0, -- dxf color code 172
  aiColor4D.mk 0.5 0.5 0.7 1.0, -- dxf color code 173
  aiColor4D.mk 0.0 0.0 0.5 1.0, -- dxf color code 174
  aiColor4D.mk 0.3 0.3 0.5 1.0, -- dxf color code 175
  aiColor4D.mk 0.0 0.0 0.4 1.0, -- dxf color code 176
  aiColor4D.mk 0.3 0.3 0.4 1.0, -- dxf color code 177
  aiColor4D.mk 0.0 0.0 0.3 1.0, -- dxf color code 178
  aiColor4D.mk 0.2 0.2 0.3 1.0, -- dxf color code 179
  aiColor4D.mk 0.2 0.0 1.0 1.0, -- dxf color code 180
  aiColor4D.mk 0.7 0.7 1.0 1.0, -- dxf color code 181
  aiColor4D.mk 0.2 0.0 0.7 1.0, -- dxf color code 182
  aiColor4D.mk 0.6 0.5 0.7 1.0, -- dxf color code 183
  aiColor4D.mk 0.1 0.0 0.5 1.0, -- dxf color code 184
  aiColor4D.mk 0.4 0.3 0.5 1.0, -- dxf color code 185
  aiColor4D.mk 0.1 0.0 0.4 1.0, -- dxf color code 186
  aiColor4D.mk 0.3 0.3 0.4 1.0, -- dxf color code 187
  aiColor4D.mk 0.1 0.0 0.3 1.0, -- dxf color code 188
  aiColor4D.mk 0.2 0.2 0.3 1.0, -- dxf color code 189
  aiColor4D.mk 0.5 0.0 1.0 1.0, -- dxf color code 190
  aiColor4D.mk 0.8 0.7 1.0 1.0, -- dxf color code 191
  aiColor4D.mk 0.4 0.0 0.7 1.0, -- dxf color code 192
  aiColor4D.mk 0.6 0.5 0.7 1.0, -- dxf color code 193
  aiColor4D.mk 0.3 0.0 0.5 1.0, -- dxf color code 194
  aiColor4D.mk 0.4 0.3 0.5 1.0, -- dxf color code 195
  aiColor4D.mk 0.2 0.0 0.4 1.0, -- dxf color code 196
  aiColor4D.mk 0.3 0.3 0.4 1.0, -- dxf color code 197
  aiColor4D.mk 0.2 0.0 0.3 1.0, -- dxf color code 198
  aiColor4D.mk 0.3 0.2 0.3 1.0, -- dxf color code 199
  aiColor4D.mk 0.7 0.0 1.0 1.0, -- dxf color code 200
  aiColor4D.mk 0.9 0.7 1.0 1.0, -- dxf color code 201
  aiColor4D.mk 0.6 0.0 0.7 1.0, -- dxf color code 202
  aiColor4D.mk 0.7 0.5 0.7 1.0, -- dxf color code 203
  aiColor4D.mk 0.4 0.0 0.5 1.0, -- dxf color code 204
  aiColor4D.mk 0.5 0.3 0.5 1.0, -- dxf color code 205
  aiColor4D.mk 0.3 0.0 0.4 1.0, -- dxf color code 206
  aiColor4D.mk 0.4 0.3 0.4 1.0, -- dxf color code 207
  aiColor4D.mk 0.2 0.0 0.3 1.0, -- dxf color code 208
  aiColor4D.mk 0.3 0.2 0.3 1.0, -- dxf color code 209
  aiColor4D.mk 1.0 0.0 1.0 1.0, -- dxf color code 210
  aiColor4D.mk 1.0 0.7 1.0 1.0, -- dxf color code 211
  aiColor4D.mk 0.7 0.0 0.7 1.0, -- dxf color code 212
  aiColor4D.mk 0.7 0.5 0.7 1.0, -- dxf color code 213
  aiColor4D.mk 0.5 0.0 0.5 1.0, -- dxf color code 214
  aiColor4D.mk 0.5 0.3 0.5 1.0, -- dxf color code 215
  aiColor4D.mk 0.4 0.0 0.4 1.0, -- dxf color code 216
  aiColor4D.mk 0.4 0.3 0.4 1.0, -- dxf color code 217
  aiColor4D.mk 0.3 0.0 0.3 1.0, -- dxf color code 218
  aiColor4D.mk 0.3 0.2 0.3 1.0, -- dxf color code 219
  aiColor4D.mk 1.0 0.0 0.7 1.0, -- dxf color code 220
  aiColor4D.mk 1.0 0.7 0.9 1.0, -- dxf color code 221
  aiColor4D.mk 0.7 0.0 0.6 1.0, -- dxf color code 222
  aiColor4D.mk 0.7 0.5 0.7 1.0, -- dxf color code 223
  aiColor4D.mk 0.5 0.0 0.4 1.0, -- dxf color code 224
  aiColor4D.mk 0.5 0.3 0.5 1.0, -- dxf color code 225
  aiColor4D.mk 0.4 0.0 0.3 1.0, -- dxf color code 226
  aiColor4D.mk 0.4 0.3 0.4 1.0, -- dxf color code 227
  aiColor4D.mk 0.3 0.0 0.2 1.0, -- dxf color code 228
  aiColor4D.mk 0.3 0.2 0.3 1.0, -- dxf color code 229
  aiColor4D.mk 1.0 0.0 0.5 1.0, -- dxf color code 230
  aiColor4D.mk 1.0 0.7 0.8 1.0, -- dxf color code 231
  aiColor4D.mk 0.7 0.0 0.4 1.0, -- dxf color code 232
  aiColor4D.mk 0.7 0.5 0.6 1.0, -- dxf color code 233
  aiColor4D.mk 0.5 0.0 0.3 1.0, -- dxf color code 234
  aiColor4D.mk 0.5 0.3 0.4 1.0, -- dxf color code 235
  aiColor4D.mk 0.4 0.0 0.2 1.0, -- dxf color code 236
  aiColor4D.mk 0.4 0.3 0.3 1.0, -- dxf color code 237
  aiColor4D.mk 0.3 0.0 0.2 1.0, -- dxf color code 238
  aiColor4D.mk 0.3 0.2 0.3 1.0, -- dxf color code 239
  aiColor4D.mk 1.0 0.0 0.2 1.0, -- dxf color code 240
  aiColor4D.mk 1.0 0.7 0.7 1.0, -- dxf color code 241
  aiColor4D.mk 0.7 0.0 0.2 1.0, -- dxf color code 242
  aiColor4D.mk 0.7 0.5 0.6 1.0, -- dxf color code 243
  aiColor4D.mk 0.5 0.0 0.1 1.0, -- dxf color code 244
  aiColor4D.mk 0.5 0.3 0.4 1.0, -- dxf color code 245
  aiColor4D.mk 0.4 0.0 0.1 1.0, -- dxf color code 246
  aiColor4D.mk 0.4 0.3 0.3 1.0, -- dxf color code 247
  aiColor4D.mk 0.3 0.0 0.1 1.0, -- dxf color code 248
  aiColor4D.mk 0.3 0.2 0.2 1.0, -- dxf color code 249
  aiColor4D.mk 0.2 0.2 0.2 1.0, -- dxf color code 250
  aiColor4D.mk 0.3 0.3 0.3 1.0, -- dxf color code 251
  aiColor4D.mk 0.4 0.4 0.4 1.0, -- dxf color code 252
  aiColor4D.mk 0.5 0.5 0.5 1.0, -- dxf color code 253
  aiColor4D.mk 0.7 0.7 0.7 1.0, -- dxf color code 254
  aiColor4D.mk 1.0 1.0 1.0 1.0 -- dxf color code 255
]

/-- The number of entries of the colour table
(`sizeof(table)/sizeof(table[0])`). -/
def AI_DXF_NUM_INDEX_COLORS : Nat := g_aclrDxfIndexColors.length

/-- The array read `g_aclrDxfIndexColors[i]`. A read outside the table is
undefined in the source; here it would give the default colour
(`colour_lookup_in_bounds` shows that the importer never does it). -/
def colorAt (i : Nat) : aiColor4D :=
  (g_aclrDxfIndexColors[i]?).getD AI_DXF_DEFAULT_COLOR

/-- The name of the block that holds the ENTITIES section. -/
def AI_DXF_ENTITIES_MAGIC_BLOCK : String := "$ASSIMP_ENTITIES_MAGIC"

def GroupCode_Name : Int := 2
def GroupCode_XComp : Int := 10
def GroupCode_YComp : Int := 20
def GroupCode_ZComp : Int := 30

def DXF_POLYLINE_FLAG_CLOSED : Nat := 0x1
def DXF_POLYLINE_FLAG_POLYFACEMESH : Nat := 0x40
def DXF_VERTEX_FLAG_PART_OF_POLYFACE : Nat := 0x80
def DXF_VERTEX_FLAG_HAS_POSITIONS : Nat := 0x40

namespace DXFImporter

/-! ### `ParsePolyLineVertex` -/

/-- The local variables of `ParsePolyLineVertex`. The array `indices[4]` with
its fill counter `cnti` is the list of the values stored so far: `cnti` is its
length and `indices[cnti++] = v` appends `v`. -/
structure VertexState where
  indices : List Nat := []
  flags : Nat := 0
  out : aiVector3D := {}
  clr : aiColor4D := AI_DXF_DEFAULT_COLOR
deriving DecidableEq

/-- The fill counter `cnti`. -/
def VertexState.cnti (st : VertexState) : Nat := st.indices.length

/-- The `switch` of `ParsePolyLineVertex` on one record. For the codes 71..74
the braced block stores the absolute value of the index, and the statement that
follows the block stores it once more before the `break`; the `break` inside
the block (taken when `cnti == 4`) leaves the `switch`. -/
def ParsePolyLineVertex.step (st : VertexState) (r : Record) : VertexState :=
  if r.GroupCode = 8 then st
  else if r.GroupCode = 70 then { st with flags := r.ValueAsUnsignedInt }
  else if r.GroupCode = GroupCode_XComp then { st with out := { st.out with x := r.ValueAsFloat } }
  else if r.GroupCode = GroupCode_YComp then { st with out := { st.out with y := r.ValueAsFloat } }
  else if r.GroupCode = GroupCode_ZComp then { st with out := { st.out with z := r.ValueAsFloat } }
  else if r.GroupCode = 71 ∨ r.GroupCode = 72 ∨ r.GroupCode = 73 ∨ r.GroupCode = 74 then
    if st.cnti = 4 then st
    else
      let index := r.ValueAsSignedInt
      let st1 : VertexState :=
        if index ≥ 0 then { st with indices := st.indices ++ [toUnsigned index] }
        else { st with indices := st.indices ++ [toUnsigned (-index)] }
      { st1 with indices := st1.indices ++ [toUnsigned (|r.ValueAsSignedInt|)] }
  else if r.GroupCode = 62 then
    { st with clr := colorAt (r.ValueAsUnsignedInt % AI_DXF_NUM_INDEX_COLORS) }
  else st

/-- The `while` loop of `ParsePolyLineVertex`: records are consumed until the
stream ends or a record of group code 0 is met, which stays current. -/
def ParsePolyLineVertex.loop : LineReader → VertexState → LineReader × VertexState
  | [], st => ([], st)
  | r :: rs, st =>
    if r.GroupCode = 0 then (r :: rs, st)
    else ParsePolyLineVertex.loop rs (ParsePolyLineVertex.step st r)

/-- The statement `--line.counts.back()` on an `unsigned int` vector. -/
def decBack : List Nat → List Nat
  | [] => []
  | [c] => [(c + 4294967295) % 4294967296]
  | c :: d :: cs => c :: decBack (d :: cs)

/-- The `for` loop over the stored indices at the end of
`ParsePolyLineVertex`: a zero index decrements the face count pushed last and
removes it when it reaches zero; any other index is stored zero-based. -/
def ParsePolyLineVertex.pushIndices : List Nat → PolyLine → PolyLine
  | [], line => line
  | idx :: rest, line =>
    if idx = 0 then
      let counts1 := decBack line.counts
      let counts2 := if counts1.getLast? = some 0 then counts1.dropLast else counts1
      ParsePolyLineVertex.pushIndices rest { line with counts := counts2 }
    else
      ParsePolyLineVertex.pushIndices rest
        { line with indices := line.indices ++ [idx - 1] }

/-- The tail of `ParsePolyLineVertex` after the loop: a face definition when
index slots were filled, a position and colour sample otherwise. -/
def ParsePolyLineVertex.emit (st : VertexState) (line : PolyLine) : PolyLine :=
  if st.cnti ≠ 0 then
    ParsePolyLineVertex.pushIndices st.indices { line with counts := line.counts ++ [st.cnti] }
  else
    { line with positions := line.positions ++ [st.out], colors := line.colors ++ [st.clr] }

/-- `DXFImporter::ParsePolyLineVertex(reader, line)`: the reader after the call
and the polyline after the call. -/
def ParsePolyLineVertex (reader : LineReader) (line : PolyLine) : LineReader × PolyLine :=
  let res := ParsePolyLineVertex.loop reader {}
  (res.1, ParsePolyLineVertex.emit res.2 line)

theorem ParsePolyLineVertex_loop_length_le (reader : LineReader) (st : VertexState) :
    (ParsePolyLineVertex.loop reader st).1.length ≤ reader.length := by
  induction reader generalizing st with
  | nil => simp [ParsePolyLineVertex.loop]
  | cons r rs ih =>
    simp only [ParsePolyLineVertex.loop]
    split
    · simp
    · exact Nat.le_succ_of_le (ih _)

theorem ParsePolyLineVertex_length_le (reader : LineReader) (line : PolyLine) :
    (ParsePolyLineVertex reader line).1.length ≤ reader.length :=
  ParsePolyLineVertex_loop_length_le reader {}

/-! ### Access to the block under construction -/

/-- Applies `f` to `output.blocks.back()`. Every caller has pushed a block
before, so the list is not empty where the source takes `back()`. -/
def modifyBack (f : Block → Block) (output : FileData) : FileData :=
  match output.blocks.getLast? with
  | none => output
  | some b => { output with blocks := output.blocks.dropLast ++ [f b] }

/-- The statement `output.blocks.back().lines.push_back(line)`. -/
def pushLine (output : FileData) (line : PolyLine) : FileData :=
  modifyBack (fun b => { b with lines := b.lines ++ [line] }) output

/-- The statement `output.blocks.back().lines.pop_back()`. -/
def popLine (output : FileData) : FileData :=
  modifyBack (fun b => { b with lines := b.lines.dropLast }) output

/-- The writes through the reference `line = *output.blocks.back().lines.back()`:
the polyline pushed last is replaced by its final value. -/
def setBackLine (output : FileData) (line : PolyLine) : FileData :=
  modifyBack (fun b => { b with lines := b.lines.dropLast ++ [line] }) output

/-- The file data after further calls of `reserve`: the requests are added to
those recorded before. -/
def noteReserved (output : FileData) (requests : List Nat) : FileData :=
  { output with reserved := output.reserved ++ requests }

/-! ### `ParsePolyLine` -/

/-- Modelled from the spec: the size in bytes of an `aiVector3D`, three
components of type `float`. -/
def sizeof_aiVector3D : Nat := 12

/-- Modelled from the spec: the size in bytes of an `unsigned int`. -/
def sizeof_unsigned_int : Nat := 4

/-- The polyline under construction and the two count hints of
`ParsePolyLine`, with the numbers of bytes that `line.positions.reserve` and
`line.indices.reserve` were called for, in the order of the calls. -/
structure PolyLineState where
  line : PolyLine := {}
  iguess : Nat := 0
  vguess : Nat := 0
  reserved : List Nat := []
deriving DecidableEq

/-- The `switch` of `ParsePolyLine` on one record that is not a VERTEX
marker. Case 71 is `vguess = reader.ValueAsSignedInt();
line.positions.reserve(vguess);` and case 72 is the same for `iguess` and
`line.indices`: the hint is stored and the request for `vguess` positions, or
`iguess` indices, is recorded. -/
def ParsePolyLine.step (st : PolyLineState) (r : Record) : PolyLineState :=
  if r.GroupCode = 70 then
    if st.line.flags = 0 then
      { st with line := { st.line with flags := toUnsigned r.ValueAsSignedInt } }
    else st
  else if r.GroupCode = 71 then
    { st with
      vguess := toUnsigned r.ValueAsSignedInt
      reserved := st.reserved ++ [sizeof_aiVector3D * toUnsigned r.ValueAsSignedInt] }
  else if r.GroupCode = 72 then
    { st with
      iguess := toUnsigned r.ValueAsSignedInt
      reserved := st.reserved ++ [sizeof_unsigned_int * toUnsigned r.ValueAsSignedInt] }
  else if r.GroupCode = 8 then { st with line := { st.line with layer := r.Value } }
  else st

/-- The `while` loop of `ParsePolyLine`. It ends at the end of the stream, at
an ENDSEC marker, or when the vertex parser returns on a SEQEND marker. -/
def ParsePolyLine.loop (reader : LineReader) (st : PolyLineState) :
    LineReader × PolyLineState :=
  match reader with
  | [] => ([], st)
  | r :: rs =>
    if r.Is 0 "ENDSEC" then (r :: rs, st)
    else if r.Is 0 "VERTEX" then
      let res := ParsePolyLineVertex rs st.line
      if res.1.Is 0 "SEQEND" then (res.1, { st with line := res.2 })
      else ParsePolyLine.loop res.1 { st with line := res.2 }
    else ParsePolyLine.loop rs (ParsePolyLine.step st r)
termination_by reader.length
decreasing_by
  · exact Nat.lt_succ_of_le (ParsePolyLineVertex_length_le _ _)
  · exact Nat.lt_succ_self _

/-- The `for` loop that joins consecutive positions pairwise:
`i` runs below `positions.size()/2`. -/
def ParsePolyLine.pairs (line : PolyLine) : PolyLine :=
  (List.range (line.positions.length / 2)).foldl
    (fun l i => { l with indices := l.indices ++ [i * 2, i * 2 + 1], counts := l.counts ++ [2] })
    line

/-- The expression `static_cast<unsigned int>(size - 1)` for the size of a
vector. The size fits an `unsigned int`; the subtraction wraps for an empty
vector only, and the conversion then gives the largest `unsigned int`. -/
def sizeMinusOne (size : Nat) : Nat :=
  if size = 0 then 4294967295 else size - 1

/-- The branch of `ParsePolyLine` for a plain polyline without indices: the
pairwise segments and, for a closed polyline, the segment from the last
position (`positions.size()-1`) to the first. The two calls of `reserve` of
this branch ask for `guess` and `guess/2` elements, where `guess` is at most
the number of positions plus one; they are not recorded. -/
def ParsePolyLine.segments (line : PolyLine) : PolyLine :=
  let line1 := ParsePolyLine.pairs line
  if line1.flags &&& DXF_POLYLINE_FLAG_CLOSED ≠ 0 then
    { line1 with
      indices := line1.indices ++ [sizeMinusOne line1.positions.length, 0]
      counts := line1.counts ++ [2] }
  else line1

/-- The part of `ParsePolyLine` after the loop, on the parsed polyline:
`none` when the polyline is dropped (`pop_back`), otherwise its final value. -/
def ParsePolyLine.finish (line : PolyLine) : Option PolyLine :=
  if line.flags &&& DXF_POLYLINE_FLAG_POLYFACEMESH ≠ 0 then
    if line.positions.length < 3 ∨ line.indices.length < 3 then none
    else some line
  else if line.indices.length = 0 ∧ line.counts.length = 0 then
    some (ParsePolyLine.segments line)
  else some line

/-- `DXFImporter::ParsePolyLine(reader, output)`: the reader and the file data
after the call. The requests that the loop made with `reserve` are added to
those of the file data. With an allocator that grants blocks of at most
`available` bytes the call throws exactly when one of these requests is larger
(`reserveThrows`); the pair is what the call returns when it does not throw. -/
def ParsePolyLine (reader : LineReader) (output : FileData) : LineReader × FileData :=
  let output1 := pushLine output {}
  let res := ParsePolyLine.loop reader {}
  let output2 := noteReserved output1 res.2.reserved
  match ParsePolyLine.finish res.2.line with
  | none => (res.1, popLine output2)
  | some line => (res.1, setBackLine output2 line)

theorem ParsePolyLine_loop_length_le (reader : LineReader) (st : PolyLineState) :
    (ParsePolyLine.loop reader st).1.length ≤ reader.length := by
  induction reader, st using ParsePolyLine.loop.induct with
  | case1 st => simp [ParsePolyLine.loop]
  | case2 st r rs h => rw [ParsePolyLine.loop]; simp [h]
  | case3 st r rs h1 h2 res h3 =>
    rw [ParsePolyLine.loop]; simp only [h1, h2]
    simp only [res] at h3
    simp only [h3, if_true, Bool.false_eq_true, if_false]
    exact Nat.le_succ_of_le (ParsePolyLineVertex_length_le rs st.line)
  | case4 st r rs h1 h2 res h3 ih =>
    rw [ParsePolyLine.loop]; simp only [h1, h2]
    simp only [res] at h3 ih
    simp only [h3, if_true, Bool.false_eq_true, if_false]
    exact le_trans ih (Nat.le_succ_of_le (ParsePolyLineVertex_length_le rs st.line))
  | case5 st r rs h1 h2 ih =>
    rw [ParsePolyLine.loop]; simp only [h1, h2, if_true, Bool.false_eq_true, if_false]
    exact Nat.le_succ_of_le ih

theorem ParsePolyLine_length_le (reader : LineReader) (output : FileData) :
    (ParsePolyLine reader output).1.length ≤ reader.length := by
  unfold ParsePolyLine
  simp only
  split <;> exact ParsePolyLine_loop_length_le reader {}

/-! ### `Parse3DFace` -/

/-- The local variables of `Parse3DFace`: the layer of the polyline under
construction, the four corners `vip[0..3]`, the colour, and the flags
`b[0..3]` (`b[2]` and `b[3]` record the first and second corner, `b[0]` and
`b[1]` the third and fourth). -/
structure FaceState where
  layer : String := ""
  vip0 : aiVector3D := {}
  vip1 : aiVector3D := {}
  vip2 : aiVector3D := {}
  vip3 : aiVector3D := {}
  clr : aiColor4D := AI_DXF_DEFAULT_COLOR
  b0 : Bool := false
  b1 : Bool := false
  b2 : Bool := false
  b3 : Bool := false
deriving DecidableEq

/-- The array read `vip[i]`. -/
def FaceState.vip (st : FaceState) (i : Nat) : aiVector3D :=
  match i with
  | 0 => st.vip0
  | 1 => st.vip1
  | 2 => st.vip2
  | _ => st.vip3

/-- The `switch` of `Parse3DFace` on one record. -/
def Parse3DFace.step (st : FaceState) (r : Record) : FaceState :=
  if r.GroupCode = 8 then { st with layer := r.Value }
  else if r.GroupCode = 10 then { st with vip0 := { st.vip0 with x := r.ValueAsFloat }, b2 := true }
  else if r.GroupCode = 20 then { st with vip0 := { st.vip0 with y := r.ValueAsFloat }, b2 := true }
  else if r.GroupCode = 30 then { st with vip0 := { st.vip0 with z := r.ValueAsFloat }, b2 := true }
  else if r.GroupCode = 11 then { st with vip1 := { st.vip1 with x := r.ValueAsFloat }, b3 := true }
  else if r.GroupCode = 21 then { st with vip1 := { st.vip1 with y := r.ValueAsFloat }, b3 := true }
  else if r.GroupCode = 31 then { st with vip1 := { st.vip1 with z := r.ValueAsFloat }, b3 := true }
  else if r.GroupCode = 12 then { st with vip2 := { st.vip2 with x := r.ValueAsFloat }, b0 := true }
  else if r.GroupCode = 22 then { st with vip2 := { st.vip2 with y := r.ValueAsFloat }, b0 := true }
  else if r.GroupCode = 32 then { st with vip2 := { st.vip2 with z := r.ValueAsFloat }, b0 := true }
  else if r.GroupCode = 13 then { st with vip3 := { st.vip3 with x := r.ValueAsFloat }, b1 := true }
  else if r.GroupCode = 23 then { st with vip3 := { st.vip3 with y := r.ValueAsFloat }, b1 := true }
  else if r.GroupCode = 33 then { st with vip3 := { st.vip3 with z := r.ValueAsFloat }, b1 := true }
  else if r.GroupCode = 62 then
    { st with clr := colorAt (r.ValueAsUnsignedInt % AI_DXF_NUM_INDEX_COLORS) }
  else st

/-- The `while` loop of `Parse3DFace`: it stops at the end of the stream or at
the first record of group code 0. -/
def Parse3DFace.loop : LineReader → FaceState → LineReader × FaceState
  | [], st => ([], st)
  | r :: rs, st =>
    if r.GroupCode = 0 then (r :: rs, st)
    else Parse3DFace.loop rs (Parse3DFace.step st r)

/-- The part of `Parse3DFace` after the loop: `none` when the sanity check
drops the entity, otherwise the polyline with one face of `cnt` corners. -/
def Parse3DFace.emit (st : FaceState) : Option PolyLine :=
  if (st.b1 && !st.b0) || !st.b2 || !st.b3 then none
  else
    let cnt := 2 + (if st.b0 then 1 else 0) + (if st.b1 then 1 else 0)
    let line : PolyLine := { layer := st.layer, counts := [cnt] }
    some ((List.range cnt).foldl
      (fun l i =>
        { l with
          indices := l.indices ++ [l.positions.length]
          positions := l.positions ++ [st.vip i]
          colors := l.colors ++ [st.clr] })
      line)

/-- `DXFImporter::Parse3DFace(reader, output)`. -/
def Parse3DFace (reader : LineReader) (output : FileData) : LineReader × FileData :=
  let output1 := pushLine output {}
  let res := Parse3DFace.loop reader {}
  match Parse3DFace.emit res.2 with
  | none => (res.1, popLine output1)
  | some line => (res.1, setBackLine output1 line)

theorem Parse3DFace_loop_length_le (reader : LineReader) (st : FaceState) :
    (Parse3DFace.loop reader st).1.length ≤ reader.length := by
  induction reader generalizing st with
  | nil => simp [Parse3DFace.loop]
  | cons r rs ih =>
    simp only [Parse3DFace.loop]
    split
    · simp
    · exact Nat.le_succ_of_le (ih _)

theorem Parse3DFace_length_le (reader : LineReader) (output : FileData) :
    (Parse3DFace reader output).1.length ≤ reader.length := by
  unfold Parse3DFace
  simp only
  split <;> exact Parse3DFace_loop_length_le reader {}

/-! ### `ParseInsertion` -/

/-- The `switch` of `ParseInsertion` on one record. -/
def ParseInsertion.step (bl : InsertBlock) (r : Record) : InsertBlock :=
  if r.GroupCode = GroupCode_Name then { bl with name := r.Value }
  else if r.GroupCode = GroupCode_XComp then { bl with pos := { bl.pos with x := r.ValueAsFloat } }
  else if r.GroupCode = GroupCode_YComp then { bl with pos := { bl.pos with y := r.ValueAsFloat } }
  else if r.GroupCode = GroupCode_ZComp then { bl with pos := { bl.pos with z := r.ValueAsFloat } }
  else if r.GroupCode = 41 then { bl with scale := { bl.scale with x := r.ValueAsFloat } }
  else if r.GroupCode = 42 then { bl with scale := { bl.scale with y := r.ValueAsFloat } }
  else if r.GroupCode = 43 then { bl with scale := { bl.scale with z := r.ValueAsFloat } }
  else if r.GroupCode = 50 then { bl with angle := r.ValueAsFloat }
  else bl

/-- The `while` loop of `ParseInsertion`: it stops at the end of the stream or
at the first record of group code 0. -/
def ParseInsertion.loop : LineReader → InsertBlock → LineReader × InsertBlock
  | [], bl => ([], bl)
  | r :: rs, bl =>
    if r.GroupCode = 0 then (r :: rs, bl)
    else ParseInsertion.loop rs (ParseInsertion.step bl r)

/-- `DXFImporter::ParseInsertion(reader, output)`: a fresh insertion is put at
the end of the insertions of the last block and filled in by the loop. -/
def ParseInsertion (reader : LineReader) (output : FileData) : LineReader × FileData :=
  let res := ParseInsertion.loop reader {}
  (res.1, modifyBack (fun b => { b with insertions := b.insertions ++ [res.2] }) output)

theorem ParseInsertion_loop_length_le (reader : LineReader) (bl : InsertBlock) :
    (ParseInsertion.loop reader bl).1.length ≤ reader.length := by
  induction reader generalizing bl with
  | nil => simp [ParseInsertion.loop]
  | cons r rs ih =>
    simp only [ParseInsertion.loop]
    split
    · simp
    · exact Nat.le_succ_of_le (ih _)

theorem ParseInsertion_length_le (reader : LineReader) (output : FileData) :
    (ParseInsertion reader output).1.length ≤ reader.length :=
  ParseInsertion_loop_length_le reader {}

/-! ### Entities that are recognised and skipped -/

/-- `ParseLWPolyLine`: a warning only. -/
def ParseLWPolyLine (reader : LineReader) (output : FileData) : LineReader × FileData :=
  (reader, output)

/-- `Parse3DSolid`: a warning only. -/
def Parse3DSolid (reader : LineReader) (output : FileData) : LineReader × FileData :=
  (reader, output)

/-- `ParseMesh`: a warning only. -/
def ParseMesh (reader : LineReader) (output : FileData) : LineReader × FileData :=
  (reader, output)

/-- `ParseSurface`: a warning only. -/
def ParseSurface (reader : LineReader) (output : FileData) : LineReader × FileData :=
  (reader, output)

/-- `ParseAcShClass`: a warning only. -/
def ParseAcShClass (reader : LineReader) (output : FileData) : LineReader × FileData :=
  (reader, output)

/-- The entity names dispatched to `Parse3DFace`. -/
def isFaceEntity (r : Record) : Bool :=
  r.Is 0 "3DFACE" || r.Is 0 "SOLID" || r.Is 0 "LINE" || r.Is 0 "3DLINE"

/-- The entity names dispatched to `Parse3DSolid`. -/
def isSolidEntity (r : Record) : Bool :=
  r.Is 0 "3DSOLID" || r.Is 0 "REGION" || r.Is 0 "BODY"

/-- The entity names dispatched to `ParseSurface`. -/
def isSurfaceEntity (r : Record) : Bool :=
  r.Is 0 "SURFACE" || r.Is 0 "EXTRUDEDSURFACE" || r.Is 0 "LOFTEDSURFACE"
    || r.Is 0 "NURBSURFACE" || r.Is 0 "PLANESURFACE" || r.Is 0 "REVOLVEDSURFACE"
    || r.Is 0 "SWEPTSURFACE"

/-- The entity names dispatched to `ParseAcShClass`. -/
def isAcShEntity (r : Record) : Bool :=
  r.Is 0 "ACSH_BOOLEAN_CLASS" || r.Is 0 "ACSH_BOX_CLASS" || r.Is 0 "ACSH_BREP_CLASS"
    || r.Is 0 "ACSH_CHAMFER_CLASS" || r.Is 0 "ACSH_CONE_CLASS" || r.Is 0 "ACSH_CYLINDER_CLASS"
    || r.Is 0 "ACSH_EXTRUSION_CLASS" || r.Is 0 "ACSH_FILLET_CLASS" || r.Is 0 "ACSH_HISTORY_CLASS"
    || r.Is 0 "ACSH_LOFT_CLASS" || r.Is 0 "ACSH_PYRAMID_CLASS" || r.Is 0 "ACSH_REVOLVE_CLASS"
    || r.Is 0 "ACSH_SPHERE_CLASS" || r.Is 0 "ACSH_SWEEP_CLASS" || r.Is 0 "ACSH_TORUS_CLASS"
    || r.Is 0 "ACSH_WEDGE_CLASS"

/-! ### `ParseBlock`, `ParseBlocks`, `ParseEntities` -/

/-- The `switch` at the head of the loop of `ParseBlock`: name and origin of
the block. -/
def ParseBlock.header (block : Block) (r : Record) : Block :=
  if r.GroupCode = GroupCode_Name then { block with name := r.Value }
  else if r.GroupCode = GroupCode_XComp then { block with base := { block.base with x := r.ValueAsFloat } }
  else if r.GroupCode = GroupCode_YComp then { block with base := { block.base with y := r.ValueAsFloat } }
  else if r.GroupCode = GroupCode_ZComp then { block with base := { block.base with z := r.ValueAsFloat } }
  else block

/-- The `for` loop in the INSERT branch of `ParseBlock`: it advances while the
current record is an ATTRIB or a SEQEND marker. -/
def ParseBlock.skipAttribs : LineReader → LineReader
  | [] => []
  | r :: rs =>
    if r.Is 0 "ATTRIB" || r.Is 0 "SEQEND" then ParseBlock.skipAttribs rs else r :: rs

theorem ParseBlock_skipAttribs_length_le (reader : LineReader) :
    (ParseBlock.skipAttribs reader).length ≤ reader.length := by
  induction reader with
  | nil => simp [ParseBlock.skipAttribs]
  | cons r rs ih =>
    simp only [ParseBlock.skipAttribs]
    split
    · exact Nat.le_succ_of_le ih
    · simp

/-- The outcome of one pass through the body of a parser loop: the loop is
left (`done`: a `break`, or the loop condition is false) or entered again
(`next`: `continue`, or the end of the body). -/
inductive Step where
  | done (reader : LineReader) (output : FileData)
  | next (reader : LineReader) (output : FileData)
deriving DecidableEq

/-- The body of the `while` loop of `ParseBlock` with `r` the current record
and `rs` the records after it. The loop is left at an ENDBLK marker and by the
`break` of the INSERT branch. -/
def ParseBlock.body (r : Record) (rs : LineReader) (output : FileData) : Step :=
  if r.Is 0 "ENDBLK" then Step.done (r :: rs) output
  else
    let output1 := modifyBack (fun b => ParseBlock.header b r) output
    if r.Is 0 "POLYLINE" then
      let res := ParsePolyLine rs output1
      Step.next res.1 res.2
    else if r.Is 0 "LWPOLYLINE" then
      let res := ParseLWPolyLine rs output1
      Step.next res.1 res.2
    else if r.Is 0 "INSERT" then
      Step.done (ParseBlock.skipAttribs (r :: rs)) output1
    else if isFaceEntity r then
      let res := Parse3DFace rs output1
      Step.next res.1 res.2
    else if isSolidEntity r then
      let res := Parse3DSolid rs output1
      Step.next res.1 res.2
    else if r.Is 0 "MESH" then
      let res := ParseMesh rs output1
      Step.next res.1 res.2
    else if isSurfaceEntity r then
      let res := ParseSurface rs output1
      Step.next res.1 res.2
    else if isAcShEntity r then
      let res := ParseAcShClass rs output1
      Step.next res.1 res.2
    else Step.next rs output1

theorem ParseBlock_body_next_le {r : Record} {rs : LineReader} {output : FileData}
    {reader1 : LineReader} {output1 : FileData}
    (h : ParseBlock.body r rs output = Step.next reader1 output1) :
    reader1.length ≤ rs.length := by
  unfold ParseBlock.body at h
  simp only [ParseLWPolyLine, Parse3DSolid, ParseMesh, ParseSurface, ParseAcShClass] at h
  split_ifs at h <;>
    (injection h with h1 h2; subst h1; first
      | exact ParsePolyLine_length_le _ _
      | exact Parse3DFace_length_le _ _
      | exact le_refl _)

theorem ParseBlock_body_done_le {r : Record} {rs : LineReader} {output : FileData}
    {reader1 : LineReader} {output1 : FileData}
    (h : ParseBlock.body r rs output = Step.done reader1 output1) :
    reader1.length ≤ (r :: rs).length := by
  unfold ParseBlock.body at h
  simp only [ParseLWPolyLine, Parse3DSolid, ParseMesh, ParseSurface, ParseAcShClass] at h
  split_ifs at h <;>
    (injection h with h1 h2; subst h1; first
      | exact ParseBlock_skipAttribs_length_le _
      | exact le_refl _)

set_option linter.unusedVariables false in
/-- The `while` loop of `ParseBlock`. -/
def ParseBlock.loop (reader : LineReader) (output : FileData) : LineReader × FileData :=
  match reader with
  | [] => ([], output)
  | r :: rs =>
    match h : ParseBlock.body r rs output with
    | Step.done reader1 output1 => (reader1, output1)
    | Step.next reader1 output1 => ParseBlock.loop reader1 output1
termination_by reader.length
decreasing_by exact Nat.lt_succ_of_le (ParseBlock_body_next_le h)

/-- `DXFImporter::ParseBlock(reader, output)`: a new block is pushed and
filled. -/
def ParseBlock (reader : LineReader) (output : FileData) : LineReader × FileData :=
  ParseBlock.loop reader { output with blocks := output.blocks ++ [{}] }

theorem ParseBlock_loop_nil (output : FileData) :
    ParseBlock.loop [] output = ([], output) := by
  rw [ParseBlock.loop]

theorem ParseBlock_loop_cons (r : Record) (rs : LineReader) (output : FileData) :
    ParseBlock.loop (r :: rs) output =
      match ParseBlock.body r rs output with
      | Step.done reader1 output1 => (reader1, output1)
      | Step.next reader1 output1 => ParseBlock.loop reader1 output1 := by
  rw [ParseBlock.loop]
  split <;> rename_i h <;> rw [h]

theorem ParseBlock_loop_length_le (reader : LineReader) (output : FileData) :
    (ParseBlock.loop reader output).1.length ≤ reader.length := by
  induction reader, output using ParseBlock.loop.induct with
  | case1 output => simp [ParseBlock_loop_nil]
  | case2 output r rs reader1 output1 h =>
    rw [ParseBlock_loop_cons, h]
    exact ParseBlock_body_done_le h
  | case3 output r rs reader1 output1 h ih =>
    rw [ParseBlock_loop_cons, h]
    exact le_trans ih (Nat.le_succ_of_le (ParseBlock_body_next_le h))

theorem ParseBlock_length_le (reader : LineReader) (output : FileData) :
    (ParseBlock reader output).1.length ≤ reader.length :=
  ParseBlock_loop_length_le reader _

/-- The `while` loop of `ParseBlocks`: it ends at the end of the stream or at
an ENDSEC marker; every BLOCK marker starts a block. -/
def ParseBlocks (reader : LineReader) (output : FileData) : LineReader × FileData :=
  match reader with
  | [] => ([], output)
  | r :: rs =>
    if r.Is 0 "ENDSEC" then (r :: rs, output)
    else if r.Is 0 "BLOCK" then
      let res := ParseBlock rs output
      ParseBlocks res.1 res.2
    else ParseBlocks rs output
termination_by reader.length
decreasing_by
  · exact Nat.lt_succ_of_le (ParseBlock_length_le _ _)
  · exact Nat.lt_succ_self _

/-- The body of the `while` loop of `ParseEntities` with `r` the current
record and `rs` the records after it. -/
def ParseEntities.body (r : Record) (rs : LineReader) (output : FileData) : Step :=
  if r.Is 0 "ENDSEC" then Step.done (r :: rs) output
  else if r.Is 0 "POLYLINE" then
    let res := ParsePolyLine rs output
    Step.next res.1 res.2
  else if r.Is 0 "LWPOLYLINE" then
    let res := ParseLWPolyLine rs output
    Step.next res.1 res.2
  else if r.Is 0 "INSERT" then
    let res := ParseInsertion rs output
    Step.next res.1 res.2
  else if isFaceEntity r then
    let res := Parse3DFace rs output
    Step.next res.1 res.2
  else if isSolidEntity r then
    let res := Parse3DSolid rs output
    Step.next res.1 res.2
  else if r.Is 0 "MESH" then
    let res := ParseMesh rs output
    Step.next res.1 res.2
  else if isSurfaceEntity r then
    let res := ParseSurface rs output
    Step.next res.1 res.2
  else if isAcShEntity r then
    let res := ParseAcShClass rs output
    Step.next res.1 res.2
  else Step.next rs output

theorem ParseEntities_body_next_le {r : Record} {rs : LineReader} {output : FileData}
    {reader1 : LineReader} {output1 : FileData}
    (h : ParseEntities.body r rs output = Step.next reader1 output1) :
    reader1.length ≤ rs.length := by
  unfold ParseEntities.body at h
  simp only [ParseLWPolyLine, Parse3DSolid, ParseMesh, ParseSurface, ParseAcShClass] at h
  split_ifs at h <;>
    (injection h with h1 h2; subst h1; first
      | exact ParsePolyLine_length_le _ _
      | exact Parse3DFace_length_le _ _
      | exact ParseInsertion_length_le _ _
      | exact le_refl _)

theorem ParseEntities_body_done_eq {r : Record} {rs : LineReader} {output : FileData}
    {reader1 : LineReader} {output1 : FileData}
    (h : ParseEntities.body r rs output = Step.done reader1 output1) :
    reader1 = r :: rs ∧ r.Is 0 "ENDSEC" = true := by
  unfold ParseEntities.body at h
  split_ifs at h with h0
  injection h with h1 h2
  exact ⟨h1.symm, h0⟩

set_option linter.unusedVariables false in
/-- The `while` loop of `ParseEntities`. -/
def ParseEntities.loop (reader : LineReader) (output : FileData) : LineReader × FileData :=
  match reader with
  | [] => ([], output)
  | r :: rs =>
    match h : ParseEntities.body r rs output with
    | Step.done reader1 output1 => (reader1, output1)
    | Step.next reader1 output1 => ParseEntities.loop reader1 output1
termination_by reader.length
decreasing_by exact Nat.lt_succ_of_le (ParseEntities_body_next_le h)

/-- `DXFImporter::ParseEntities(reader, output)`: a new block with the reserved
name is pushed and filled. -/
def ParseEntities (reader : LineReader) (output : FileData) : LineReader × FileData :=
  ParseEntities.loop reader
    { output with blocks := output.blocks ++ [{ name := AI_DXF_ENTITIES_MAGIC_BLOCK }] }

/-- `DXFImporter::SkipSection(reader)`: the reader is advanced to the end of
the stream or to the next ENDSEC marker. -/
def SkipSection : LineReader → LineReader
  | [] => []
  | r :: rs => if r.Is 0 "ENDSEC" then r :: rs else SkipSection rs

/-- `DXFImporter::ParseHeader(reader, output)`: the same scan as
`SkipSection`; the file data is not touched. -/
def ParseHeader : LineReader → FileData → LineReader × FileData
  | [], output => ([], output)
  | r :: rs, output => if r.Is 0 "ENDSEC" then (r :: rs, output) else ParseHeader rs output

theorem SkipSection_length_le (reader : LineReader) :
    (SkipSection reader).length ≤ reader.length := by
  induction reader with
  | nil => simp [SkipSection]
  | cons r rs ih =>
    simp only [SkipSection]
    split
    · simp
    · exact Nat.le_succ_of_le ih

theorem ParseHeader_length_le (reader : LineReader) (output : FileData) :
    (ParseHeader reader output).1.length ≤ reader.length := by
  induction reader with
  | nil => simp [ParseHeader]
  | cons r rs ih =>
    simp only [ParseHeader]
    split
    · simp
    · exact Nat.le_succ_of_le ih

theorem ParseBlocks_length_le (reader : LineReader) (output : FileData) :
    (ParseBlocks reader output).1.length ≤ reader.length := by
  induction reader, output using ParseBlocks.induct with
  | case1 output => simp [ParseBlocks]
  | case2 output r rs h => rw [ParseBlocks]; simp [h]
  | case3 output r rs h h1 res ih =>
    rw [ParseBlocks]; simp only [h, h1, if_true, Bool.false_eq_true, if_false]
    exact le_trans ih (Nat.le_succ_of_le (ParseBlock_length_le _ _))
  | case4 output r rs h h1 ih =>
    rw [ParseBlocks]; simp only [h, h1, if_true, Bool.false_eq_true, if_false]
    exact Nat.le_succ_of_le ih

theorem ParseEntities_loop_nil (output : FileData) :
    ParseEntities.loop [] output = ([], output) := by
  rw [ParseEntities.loop]

theorem ParseEntities_loop_cons (r : Record) (rs : LineReader) (output : FileData) :
    ParseEntities.loop (r :: rs) output =
      match ParseEntities.body r rs output with
      | Step.done reader1 output1 => (reader1, output1)
      | Step.next reader1 output1 => ParseEntities.loop reader1 output1 := by
  rw [ParseEntities.loop]
  split <;> rename_i h <;> rw [h]

theorem ParseEntities_loop_length_le (reader : LineReader) (output : FileData) :
    (ParseEntities.loop reader output).1.length ≤ reader.length := by
  induction reader, output using ParseEntities.loop.induct with
  | case1 output => simp [ParseEntities_loop_nil]
  | case2 output r rs reader1 output1 h =>
    rw [ParseEntities_loop_cons, h]
    simp only
    rw [(ParseEntities_body_done_eq h).1]
  | case3 output r rs reader1 output1 h ih =>
    rw [ParseEntities_loop_cons, h]
    exact le_trans ih (Nat.le_succ_of_le (ParseEntities_body_next_le h))

theorem Record.Is_code {r : Record} {gc : Int} {what : String} (h : r.Is gc what = true) :
    r.GroupCode = gc := by
  simp only [Record.Is, decide_eq_true_eq] at h
  exact h.1

theorem Record.Is_zero_of_ne {r : Record} (h : r.GroupCode ≠ 0) (what : String) :
    r.Is 0 what = false := by
  simp [Record.Is, h]

theorem Record.Is_two_ne_zero {r : Record} {what : String} (h : r.Is 2 what = true) :
    r.GroupCode ≠ 0 := by
  rw [Record.Is_code h]; decide

theorem ParseBlocks_length_lt (r : Record) (rs : LineReader) (output : FileData)
    (h : r.GroupCode ≠ 0) : (ParseBlocks (r :: rs) output).1.length < (r :: rs).length := by
  rw [ParseBlocks]
  simp only [Record.Is_zero_of_ne h, if_true, Bool.false_eq_true, if_false]
  exact Nat.lt_succ_of_le (ParseBlocks_length_le _ _)

theorem ParseEntities_body_of_ne {r : Record} (h : r.GroupCode ≠ 0) (rs : LineReader)
    (output : FileData) : ParseEntities.body r rs output = Step.next rs output := by
  simp [ParseEntities.body, Record.Is_zero_of_ne h, isFaceEntity, isSolidEntity,
    isSurfaceEntity, isAcShEntity]

theorem ParseEntities_length_lt (r : Record) (rs : LineReader) (output : FileData)
    (h : r.GroupCode ≠ 0) : (ParseEntities (r :: rs) output).1.length < (r :: rs).length := by
  unfold ParseEntities
  rw [ParseEntities_loop_cons, ParseEntities_body_of_ne h]
  exact Nat.lt_succ_of_le (ParseEntities_loop_length_le _ _)

theorem SkipSection_length_lt (r : Record) (rs : LineReader)
    (h : r.GroupCode ≠ 0) : (SkipSection (r :: rs)).length < (r :: rs).length := by
  simp only [SkipSection, Record.Is_zero_of_ne h, Bool.false_eq_true, if_false]
  exact Nat.lt_succ_of_le (SkipSection_length_le _)

theorem ParseHeader_length_lt (r : Record) (rs : LineReader) (output : FileData)
    (h : r.GroupCode ≠ 0) : (ParseHeader (r :: rs) output).1.length < (r :: rs).length := by
  simp only [ParseHeader, Record.Is_zero_of_ne h, Bool.false_eq_true, if_false]
  exact Nat.lt_succ_of_le (ParseHeader_length_le _ _)

/-- The body of the top-level `while` loop of `InternReadFile` on the current
record `r` followed by `rs`. The section parsers are entered with the section
name record still current. The flag `eof` only selects a warning and is left
out. -/
def InternReadFile.body (r : Record) (rs : LineReader) (output : FileData) : Step :=
  if r.Is 2 "BLOCKS" then
    let res := ParseBlocks (r :: rs) output
    Step.next res.1 res.2
  else if r.Is 2 "ENTITIES" then
    let res := ParseEntities (r :: rs) output
    Step.next res.1 res.2
  else if r.Is 2 "CLASSES" || r.Is 2 "TABLES" then
    Step.next (SkipSection (r :: rs)) output
  else if r.Is 2 "HEADER" then
    let res := ParseHeader (r :: rs) output
    Step.next res.1 res.2
  else if r.GroupCode = 999 then Step.next rs output
  else if r.Is 0 "EOF" then Step.done (r :: rs) output
  else Step.next rs output

theorem InternReadFile_body_next_le {r : Record} {rs : LineReader} {output : FileData}
    {reader1 : LineReader} {output1 : FileData}
    (h : InternReadFile.body r rs output = Step.next reader1 output1) :
    reader1.length ≤ rs.length := by
  unfold InternReadFile.body at h
  split_ifs at h with h1 h2 h3 h4
  · injection h with h5 h6; subst h5
    exact Nat.le_of_lt_succ (ParseBlocks_length_lt _ _ _ (Record.Is_two_ne_zero h1))
  · injection h with h5 h6; subst h5
    exact Nat.le_of_lt_succ (ParseEntities_length_lt _ _ _ (Record.Is_two_ne_zero h2))
  · injection h with h5 h6; subst h5
    refine Nat.le_of_lt_succ (SkipSection_length_lt _ _ ?_)
    rcases (Bool.or_eq_true _ _).mp h3 with h | h <;> exact Record.Is_two_ne_zero h
  · injection h with h5 h6; subst h5
    exact Nat.le_of_lt_succ (ParseHeader_length_lt _ _ _ (Record.Is_two_ne_zero h4))
  · injection h with h5 h6; subst h5; exact le_refl _
  · injection h with h5 h6; subst h5; exact le_refl _

set_option linter.unusedVariables false in
/-- The top-level `while` loop of `InternReadFile`; the result is the parsed
file data. -/
def InternReadFile.loop (reader : LineReader) (output : FileData) : FileData :=
  match reader with
  | [] => output
  | r :: rs =>
    match h : InternReadFile.body r rs output with
    | Step.done _ output1 => output1
    | Step.next reader1 output1 => InternReadFile.loop reader1 output1
termination_by reader.length
decreasing_by exact Nat.lt_succ_of_le (InternReadFile_body_next_le h)

theorem InternReadFile_loop_nil (output : FileData) :
    InternReadFile.loop [] output = output := by
  rw [InternReadFile.loop]

theorem InternReadFile_loop_cons (r : Record) (rs : LineReader) (output : FileData) :
    InternReadFile.loop (r :: rs) output =
      match InternReadFile.body r rs output with
      | Step.done _ output1 => output1
      | Step.next reader1 output1 => InternReadFile.loop reader1 output1 := by
  rw [InternReadFile.loop]
  split <;> rename_i h <;> rw [h]

/-! ### `ExpandBlockReferences` -/

/-- Applies `f` to the element at position `n`, when there is one. -/
def modifyAt {α : Type} (f : α → α) : List α → Nat → List α
  | [], _ => []
  | a :: as, 0 => f a :: as
  | a :: as, n + 1 => a :: modifyAt f as n

/-- The copy `pl_out` of a source polyline `pl_in` made for one insertion,
after the coordinate transformation. The matrix is built as in the source:
`Translation(-base)`, then `*= Translation(insert.pos)`, then
`*= Scaling(insert.scale)`; the rotation angle only takes part in the
condition. -/
def ExpandBlockReferences.copy (bl_src : Block) (insert : InsertBlock) (pl_in : PolyLine) :
    PolyLine :=
  if bl_src.base.LengthNonzero ∨ insert.scale.x ≠ 1 ∨ insert.scale.y ≠ 1 ∨ insert.scale.z ≠ 1
      ∨ insert.angle ≠ 0 ∨ insert.pos.LengthNonzero then
    let trafo := aiMatrix4x4.Translation bl_src.base.neg
    let trafo := trafo.mul (aiMatrix4x4.Translation insert.pos)
    let trafo := trafo.mul (aiMatrix4x4.Scaling insert.scale)
    { pl_in with positions := pl_in.positions.map trafo.transform }
  else pl_in

/-- The body of the loop of `ExpandBlockReferences` for one insertion.
`blocks` is the list of all blocks, `bl` the position of the target block in
it, and the map yields positions in the same list, so a source block that is
the target itself is read in its current state. The inner loop runs over the
polylines the source block has when the insertion is reached
(`size = bl_src.lines.size()`), and pushes each copy on the target. -/
def ExpandBlockReferences.insertOne (bl : Nat) (blocks_by_name : BlockMap)
    (blocks : List Block) (insert : InsertBlock) : List Block :=
  match blocks_by_name insert.name with
  | none => blocks
  | some i =>
    match blocks[i]? with
    | none => blocks
    | some bl_src =>
      bl_src.lines.foldl
        (fun bs pl_in =>
          modifyAt
            (fun b => { b with lines := b.lines ++ [ExpandBlockReferences.copy bl_src insert pl_in] })
            bs bl)
        blocks

/-- The loop of `ExpandBlockReferences` over a list of insertions. -/
def ExpandBlockReferences.run (bl : Nat) (blocks_by_name : BlockMap)
    (insertions : List InsertBlock) (blocks : List Block) : List Block :=
  insertions.foldl (ExpandBlockReferences.insertOne bl blocks_by_name) blocks

/-- `DXFImporter::ExpandBlockReferences(bl, blocks_by_name)`, on the list of
all blocks with `bl` the position of the target block: the insertions of the
target are expanded in order. -/
def ExpandBlockReferences (blocks : List Block) (bl : Nat) (blocks_by_name : BlockMap) :
    List Block :=
  match blocks[bl]? with
  | none => blocks
  | some target => ExpandBlockReferences.run bl blocks_by_name target.insertions blocks

/-! ### The output scene -/

end DXFImporter

/-- Modelled from the spec: the size of the character buffer of an `aiString`
of the host library (`MAXLEN`, in later versions `AI_MAXLEN`), 1024 bytes with
the closing zero byte. -/
def AI_MAXLEN : Nat := 1024

/-- Modelled from the spec: `aiString::Set(pString)` of the host library on a
string that is still empty, as every name is when the importer sets it. A
text of more than `AI_MAXLEN - 1` bytes is refused and the string stays
empty; a shorter text is stored. The length counts bytes. -/
def aiString.Set (pString : String) : String :=
  if pString.utf8ByteSize > AI_MAXLEN - 1 then "" else pString

/-- Modelled from the spec: a face of the output mesh, its list of vertex
indices (`mNumIndices` is the length of the list). -/
structure aiFace where
  mIndices : List Nat := []
deriving DecidableEq

/-- Modelled from the spec: the output mesh `aiMesh` of the host library, with
the members the importer sets; `mColors` is colour channel 0. -/
structure aiMesh where
  mName : String := ""
  mVertices : List aiVector3D := []
  mColors : List aiColor4D := []
  mFaces : List aiFace := []
  mNumVertices : Nat := 0
  mNumFaces : Nat := 0
  mPrimitiveTypes : Nat := 0
  mMaterialIndex : Nat := 0
deriving DecidableEq

/-- Modelled from the spec: a node `aiNode` of the output hierarchy. The
children are owned by the node; `mParent` of a child is the node that lists
it. -/
inductive aiNode where
  | mk (mName : String) (mTransformation : aiMatrix4x4) (mMeshes : List Nat)
      (mChildren : List aiNode)

namespace aiNode

def mName : aiNode → String
  | mk n _ _ _ => n

def mTransformation : aiNode → aiMatrix4x4
  | mk _ t _ _ => t

def mMeshes : aiNode → List Nat
  | mk _ _ m _ => m

def mChildren : aiNode → List aiNode
  | mk _ _ _ c => c

end aiNode

/-- Modelled from the spec: the default material built by `GenerateMaterials`,
as its four properties. -/
structure aiMaterial where
  name : String
  diffuse : aiColor4D
  specular : aiColor4D
  ambient : aiColor4D
deriving DecidableEq

/-- Modelled from the spec: the output scene `aiScene`. A mesh slot that was
allocated and never assigned is `none` (a null pointer). -/
structure aiScene where
  mNumMeshes : Nat := 0
  mMeshes : List (Option aiMesh) := []
  mRootNode : Option aiNode := none
  mMaterials : List aiMaterial := []

/-- Modelled from the spec: the primitive type bit `aiPrimitiveType_POINT` of
the host library. -/
def aiPrimitiveType_POINT : Nat := 0x1

/-- Modelled from the spec: the primitive type bit `aiPrimitiveType_LINE`. -/
def aiPrimitiveType_LINE : Nat := 0x2

/-- Modelled from the spec: the primitive type bit
`aiPrimitiveType_TRIANGLE`. -/
def aiPrimitiveType_TRIANGLE : Nat := 0x4

/-- Modelled from the spec: the primitive type bit `aiPrimitiveType_POLYGON`. -/
def aiPrimitiveType_POLYGON : Nat := 0x8

/-- Modelled from the spec: the name of the default material
(`AI_DEFAULT_MATERIAL_NAME` of the host library). -/
def AI_DEFAULT_MATERIAL_NAME : String := "DefaultMaterial"

/-- The ways in which the importer stops without a scene. `deadly` is a thrown
`DeadlyImportError` with its message. `undefinedRead` marks a read that the
source performs outside a vector (behind the end of `indices`, or in `colors`
at a position that only `positions` has); the source has no defined behaviour
there, and no statement is made about it. `badAlloc` is the exception that a
call of `reserve` throws when the allocator does not grant the request
(`std::bad_alloc`, or `std::length_error` for a count beyond `max_size()`). -/
inductive ImportError where
  | deadly (msg : String)
  | undefinedRead
  | badAlloc
deriving DecidableEq

namespace DXFImporter

/-! ### `ConvertMeshes` -/

/-- The state of the first loop of `ConvertMeshes`: the map `layers` from layer
names to mesh numbers (a `std::map`, kept in the order of its keys), the
polylines per mesh number `corr`, the counter `cur` and the mesh count of the
scene. -/
structure Buckets where
  layers : List (String × Nat) := []
  corr : List (List PolyLine) := []
  cur : Nat := 0
  mNumMeshes : Nat := 0
deriving DecidableEq

/-- The lookup `layers.find(name)`: the mesh number stored for the name. -/
def mapFind (layers : List (String × Nat)) (name : String) : Option Nat :=
  (layers.find? (fun e => e.1 = name)).map (fun e => e.2)

/-- The insertion `layers[name] = v` of a new key into the ordered map: the
entry is placed in front of the first entry with a greater key. -/
def mapInsert : List (String × Nat) → String → Nat → List (String × Nat)
  | [], name, v => [(name, v)]
  | e :: es, name, v =>
    if name < e.1 then (name, v) :: e :: es
    else if name = e.1 then (name, v) :: es
    else e :: mapInsert es name v

/-- The body of the first loop of `ConvertMeshes` for one polyline of the
entity block. -/
def ConvertMeshes.bucketOne (bk : Buckets) (pl : PolyLine) : Buckets :=
  if pl.positions.length ≠ 0 then
    match mapFind bk.layers pl.layer with
    | none =>
      { layers := mapInsert bk.layers pl.layer bk.cur
        corr := bk.corr ++ [[pl]]
        cur := bk.cur + 1
        mNumMeshes := bk.mNumMeshes + 1 }
    | some idx => { bk with corr := modifyAt (fun pv => pv ++ [pl]) bk.corr idx }
  else bk

/-- The first loop of `ConvertMeshes`: the polylines of the entity block that
have positions are sorted into buckets by layer. -/
def ConvertMeshes.bucket (lines : List PolyLine) : Buckets :=
  lines.foldl ConvertMeshes.bucketOne {}

/-- The arrays of the mesh under construction with the write positions
(`verts`, `colors` and `faces` are filled front to back), the primitive bits
and the vertex counter. -/
structure MeshBuild where
  verts : List aiVector3D := []
  colors : List aiColor4D := []
  faces : List aiFace := []
  prims : Nat := 0
  overall_indices : Nat := 0
deriving DecidableEq

/-- The innermost loop of `ConvertMeshes` (`i` runs below `facenumv`): `n`
corners are still to be written, `it` is the iterator into the indices of the
polyline (the indices not yet read) and `face` the indices of the face written
so far. -/
def ConvertMeshes.corners (pl : PolyLine) :
    Nat → List Nat → List Nat → MeshBuild → Except ImportError (List Nat × List Nat × MeshBuild)
  | 0, it, face, st => Except.ok (it, face, st)
  | n + 1, it, face, st =>
    match it with
    | [] => Except.error ImportError.undefinedRead
    | idx :: it1 =>
      if idx ≥ pl.positions.length then
        Except.error (ImportError.deadly "DXF: vertex index out of bounds")
      else
        match pl.positions[idx]?, pl.colors[idx]? with
        | some v, some c =>
          ConvertMeshes.corners pl n it1 (face ++ [st.overall_indices])
            { st with
              verts := st.verts ++ [v]
              colors := st.colors ++ [c]
              overall_indices := st.overall_indices + 1 }
        | _, _ => Except.error ImportError.undefinedRead

/-- The primitive bit of a face with `n` indices (the `switch` on
`face.mNumIndices`). -/
def primitiveBit (n : Nat) : Nat :=
  if n = 1 then aiPrimitiveType_POINT
  else if n = 2 then aiPrimitiveType_LINE
  else if n = 3 then aiPrimitiveType_TRIANGLE
  else aiPrimitiveType_POLYGON

/-- The loop of `ConvertMeshes` over the face counts of one polyline. -/
def ConvertMeshes.faces (pl : PolyLine) :
    List Nat → List Nat → MeshBuild → Except ImportError MeshBuild
  | [], _, st => Except.ok st
  | facenumv :: counts, it, st =>
    match ConvertMeshes.corners pl facenumv it [] st with
    | Except.error e => Except.error e
    | Except.ok (it1, face, st1) =>
      ConvertMeshes.faces pl counts it1
        { st1 with
          faces := st1.faces ++ [{ mIndices := face }]
          prims := st1.prims ||| primitiveBit facenumv }

/-- The loop of `ConvertMeshes` over the polylines of one bucket. -/
def ConvertMeshes.lines : List PolyLine → MeshBuild → Except ImportError MeshBuild
  | [], st => Except.ok st
  | pl :: pls, st =>
    match ConvertMeshes.faces pl pl.counts pl.indices st with
    | Except.error e => Except.error e
    | Except.ok st1 => ConvertMeshes.lines pls st1

/-- The body of the second loop of `ConvertMeshes`: the mesh of one layer, built
from the polylines of its bucket. `cvert` and `cface` are the sizes computed
before the arrays are allocated. The name is set with
`mesh->mName.Set(elem.first)`, which stores a layer name of fewer than 1024
bytes and leaves the name empty for a longer one. -/
def ConvertMeshes.buildMesh (name : String) (bucket : List PolyLine) :
    Except ImportError aiMesh :=
  let cvert := (bucket.map (fun pl => pl.counts.sum)).sum
  let cface := (bucket.map (fun pl => pl.counts.length)).sum
  match ConvertMeshes.lines bucket {} with
  | Except.error e => Except.error e
  | Except.ok st =>
    Except.ok
      { mName := aiString.Set name
        mVertices := st.verts
        mColors := st.colors
        mFaces := st.faces
        mNumVertices := cvert
        mNumFaces := cface
        mPrimitiveTypes := st.prims
        mMaterialIndex := 0 }

/-- The second loop of `ConvertMeshes`: the entries of `layers` are visited in
the order of the map and the mesh of each entry is stored at its number. -/
def ConvertMeshes.meshes (corr : List (List PolyLine)) :
    List (String × Nat) → List (Option aiMesh) → Except ImportError (List (Option aiMesh))
  | [], mMeshes => Except.ok mMeshes
  | elem :: layers, mMeshes =>
    match ConvertMeshes.buildMesh elem.1 (corr.getD elem.2 []) with
    | Except.error e => Except.error e
    | Except.ok mesh => ConvertMeshes.meshes corr layers (mMeshes.set elem.2 (some mesh))

/-- `DXFImporter::GenerateHierarchy`: the root node, and one child per mesh
unless there is exactly one mesh. The name of the root is set with
`mName.Set("<DXF_ROOT>")`, which stores the ten bytes of the literal; the name
of a child is the name of its mesh, copied. -/
def GenerateHierarchy (pScene : aiScene) : aiScene :=
  if pScene.mNumMeshes = 1 then
    { pScene with mRootNode := some (aiNode.mk "<DXF_ROOT>" {} [0] []) }
  else
    { pScene with
      mRootNode := some (aiNode.mk "<DXF_ROOT>" {} []
        ((List.range pScene.mNumMeshes).map (fun m =>
          aiNode.mk (((pScene.mMeshes.getD m none).map (fun mesh => mesh.mName)).getD "")
            {} [m] []))) }

/-- `DXFImporter::GenerateMaterials`: the single default material. -/
def GenerateMaterials (pScene : aiScene) : aiScene :=
  { pScene with
    mMaterials :=
      [{ name := AI_DEFAULT_MATERIAL_NAME
         diffuse := ⟨0.9, 0.9, 0.9, 1.0⟩
         specular := ⟨1.0, 1.0, 1.0, 1.0⟩
         ambient := ⟨0.05, 0.05, 0.05, 1.0⟩ }] }

/-- The loop of `ConvertMeshes` that indexes the blocks by name and looks for
the first block with the reserved name: `i` is the position of the block
visited. -/
def ConvertMeshes.index : List Block → Nat → BlockMap → Option Nat → BlockMap × Option Nat
  | [], _, blocks_by_name, entities => (blocks_by_name, entities)
  | bl :: bls, i, blocks_by_name, entities =>
    ConvertMeshes.index bls (i + 1)
      (fun name => if name = bl.name then some i else blocks_by_name name)
      (if entities.isNone ∧ bl.name = AI_DXF_ENTITIES_MAGIC_BLOCK then some i else entities)

/-- The part of `ConvertMeshes` after the insertions are expanded, on the
polylines of the entity block: buckets, meshes, hierarchy and material. -/
def ConvertMeshes.assemble (lines : List PolyLine) : Except ImportError aiScene :=
  let bk := ConvertMeshes.bucket lines
  if bk.mNumMeshes = 0 then
    Except.error (ImportError.deadly "DXF: this file contains no 3d data")
  else
    match ConvertMeshes.meshes bk.corr bk.layers (List.replicate bk.mNumMeshes none) with
    | Except.error e => Except.error e
    | Except.ok mMeshes =>
      Except.ok (GenerateMaterials (GenerateHierarchy
        { mNumMeshes := bk.mNumMeshes, mMeshes := mMeshes }))

/-- `DXFImporter::ConvertMeshes(pScene, output)` on a fresh scene: the scene
built from the parsed file data, or the error thrown. -/
def ConvertMeshes (output : FileData) : Except ImportError aiScene :=
  if output.blocks = [] then
    Except.error (ImportError.deadly "DXF: no data blocks loaded")
  else
    match ConvertMeshes.index output.blocks 0 (fun _ => none) none with
    | (_, none) => Except.error (ImportError.deadly "DXF: no ENTITIES data block loaded")
    | (blocks_by_name, some entities) =>
      let blocks := ExpandBlockReferences output.blocks entities blocks_by_name
      ConvertMeshes.assemble ((blocks.getD entities {}).lines)

/-- The statement that a call of `reserve` for `bytes` bytes throws, when
`available` is the size in bytes of the largest block the allocator grants: a
request is refused exactly when it is larger. A request for no more than the
capacity a vector already has is granted by the library without the
allocator; this agrees with the rule as long as the allocator has granted that
capacity before. -/
def reserveThrows (available bytes : Nat) : Bool :=
  decide (available < bytes)

/-- `DXFImporter::InternReadFile` from the record stream on: the sections are
parsed, the meshes are built, and the root transformation is multiplied from
the left by the matrix that turns the scene about the x axis. Opening the file
and the test for the binary format come before the first record and are not
part of this function. `available` is the size in bytes of the largest block
the allocator grants: when a call of `reserve` made while the sections were
parsed asked for more, the call has thrown and the import ends there. -/
def InternReadFile (available : Nat) (reader : LineReader) : Except ImportError aiScene :=
  let output := InternReadFile.loop reader {}
  if output.reserved.any (reserveThrows available) then Except.error ImportError.badAlloc
  else
    match ConvertMeshes output with
    | Except.error e => Except.error e
    | Except.ok pScene =>
      Except.ok
        { pScene with
          mRootNode := pScene.mRootNode.map (fun root =>
            aiNode.mk root.mName
              (aiMatrix4x4.mul
                { a1 := 1, a2 := 0, a3 := 0, a4 := 0
                  b1 := 0, b2 := 0, b3 := 1, b4 := 0
                  c1 := 0, c2 := -1, c3 := 0, c4 := 0
                  d1 := 0, d2 := 0, d3 := 0, d4 := 1 }
                root.mTransformation)
              root.mMeshes root.mChildren) }

/-! ### Notions and sample inputs used in the statements -/

/-- The transformation applied to one position of a copied polyline, in
coordinates: scale, then add the insertion position, then subtract the origin
of the source block. -/
def insertedPosition (bl_src : Block) (insert : InsertBlock) (v : aiVector3D) : aiVector3D :=
  { x := insert.scale.x * v.x + insert.pos.x - bl_src.base.x
    y := insert.scale.y * v.y + insert.pos.y - bl_src.base.y
    z := insert.scale.z * v.z + insert.pos.z - bl_src.base.z }

/-- An entity block with one polyline and one insertion of a block that does
not exist. -/
def sampleDangling : Block :=
  { name := AI_DXF_ENTITIES_MAGIC_BLOCK, lines := [{ positions := [⟨1, 2, 3⟩], colors := [AI_DXF_DEFAULT_COLOR] }],
    insertions := [{ name := "MISSING" }] }

/-- The map of a file whose only block is the entity block. -/
def sampleOnlyEntities : BlockMap :=
  fun n => if n = AI_DXF_ENTITIES_MAGIC_BLOCK then some 0 else none

/-- A stream in which no record is the section name BLOCKS or ENTITIES. -/
def NoGeometrySection (reader : LineReader) : Prop :=
  ∀ r ∈ reader, r.Is 2 "BLOCKS" = false ∧ r.Is 2 "ENTITIES" = false

/-- A file with a HEADER, a TABLES and a CLASSES section and the EOF marker. -/
def sampleNoGeometry : LineReader :=
  [⟨0, "SECTION", 0, 0, 0⟩, ⟨2, "HEADER", 0, 0, 0⟩, ⟨9, "$ACADVER", 0, 0, 0⟩,
    ⟨1, "AC1009", 0, 0, 0⟩, ⟨0, "ENDSEC", 0, 0, 0⟩,
    ⟨0, "SECTION", 0, 0, 0⟩, ⟨2, "TABLES", 0, 0, 0⟩, ⟨0, "ENDSEC", 0, 0, 0⟩,
    ⟨0, "SECTION", 0, 0, 0⟩, ⟨2, "CLASSES", 0, 0, 0⟩, ⟨0, "ENDSEC", 0, 0, 0⟩,
    ⟨0, "EOF", 0, 0, 0⟩]

/-- A polyline without indices has no face counts. -/
def NoCountsWithoutIndices (line : PolyLine) : Prop :=
  line.indices = [] → line.counts = []

/-- The records of a closed polyline on layer "L" with the four corners of
the unit square, as they follow the POLYLINE marker. -/
def sampleClosedSquare : LineReader :=
  [⟨8, "L", 0, 0, 0⟩, ⟨70, "1", 1, 1, 1⟩,
    ⟨0, "VERTEX", 0, 0, 0⟩, ⟨10, "0", 0, 0, 0⟩, ⟨20, "0", 0, 0, 0⟩,
    ⟨0, "VERTEX", 0, 0, 0⟩, ⟨10, "1", 1, 1, 1⟩, ⟨20, "0", 0, 0, 0⟩,
    ⟨0, "VERTEX", 0, 0, 0⟩, ⟨10, "1", 1, 1, 1⟩, ⟨20, "1", 1, 1, 1⟩,
    ⟨0, "VERTEX", 0, 0, 0⟩, ⟨10, "0", 0, 0, 0⟩, ⟨20, "1", 1, 1, 1⟩,
    ⟨0, "SEQEND", 0, 0, 0⟩, ⟨0, "ENDSEC", 0, 0, 0⟩]

/-- The indices of a polyline that the walk of `ConvertMeshes` reads: as many
as the face counts add up to. -/
def walked (pl : PolyLine) : List Nat := pl.indices.take pl.counts.sum

/-- The condition under which the walk of `ConvertMeshes` over a polyline
stays inside its vectors and meets no index out of bounds: there are at least
as many indices as the face counts ask for, and each index read is a position
of `positions` and of `colors`. -/
def ReadSafe (pl : PolyLine) : Prop :=
  pl.counts.sum ≤ pl.indices.length ∧
    ∀ i ∈ walked pl, i < pl.positions.length ∧ i < pl.colors.length

/-- The faces that number consecutive vertices from `start` on, one face of
`c` corners for each entry `c` of `counts`. -/
def consecutiveFaces : List Nat → Nat → List aiFace
  | [], _ => []
  | c :: counts, start => { mIndices := List.range' start c } :: consecutiveFaces counts (start + c)

/-- The positions that the corners of the polylines refer to, corner by
corner. -/
def cornerPositions : List PolyLine → List aiVector3D
  | [] => []
  | pl :: pls => (walked pl).map (fun i => pl.positions.getD i {}) ++ cornerPositions pls

/-- The colours that the corners of the polylines refer to, corner by
corner. -/
def cornerColors : List PolyLine → List aiColor4D
  | [] => []
  | pl :: pls => (walked pl).map (fun i => pl.colors.getD i {}) ++ cornerColors pls

/-- The face counts of the polylines, one after the other. -/
def allCounts : List PolyLine → List Nat
  | [] => []
  | pl :: pls => pl.counts ++ allCounts pls

/-- The state of the mesh under construction after the polylines `pls` were
walked from the state `st`. -/
def walkedState (pls : List PolyLine) (st : MeshBuild) : MeshBuild :=
  { verts := st.verts ++ cornerPositions pls
    colors := st.colors ++ cornerColors pls
    faces := st.faces ++ consecutiveFaces (allCounts pls) st.overall_indices
    prims := (allCounts pls).foldl (fun p c => p ||| primitiveBit c) st.prims
    overall_indices := st.overall_indices + (allCounts pls).sum }

/-- The mesh that `buildMesh` returns for a bucket whose walk is safe. -/
def meshOf (name : String) (bucket : List PolyLine) : aiMesh :=
  { mName := aiString.Set name
    mVertices := cornerPositions bucket
    mColors := cornerColors bucket
    mFaces := consecutiveFaces (allCounts bucket) 0
    mNumVertices := (bucket.map (fun pl => pl.counts.sum)).sum
    mNumFaces := (bucket.map (fun pl => pl.counts.length)).sum
    mPrimitiveTypes := (allCounts bucket).foldl (fun p c => p ||| primitiveBit c) 0
    mMaterialIndex := 0 }

/-- The layer names of the polylines that have a position, each name once, in
the order of first appearance. -/
def firstSeenLayers (lines : List PolyLine) : List String :=
  lines.foldl
    (fun seen pl => if pl.positions ≠ [] ∧ pl.layer ∉ seen then seen ++ [pl.layer] else seen) []

/-- The polylines on the layer `name` that have a position, in their original
order. -/
def layerBucket (lines : List PolyLine) (name : String) : List PolyLine :=
  lines.filter (fun pl => decide (pl.positions ≠ [] ∧ pl.layer = name))

/-- The state of the bucket loop after the polylines `L`: `D` lists the layer
names met so far. -/
structure BucketInv (bk : Buckets) (D : List String) (L : List PolyLine) : Prop where
  nodup : D.Nodup
  cur : bk.cur = D.length
  num : bk.mNumMeshes = D.length
  len : bk.corr.length = D.length
  idxNodup : (bk.layers.map Prod.snd).Nodup
  layers : ∀ (name : String) (idx : Nat), (name, idx) ∈ bk.layers ↔ D[idx]? = some name
  corr : ∀ (idx : Nat) (name : String),
    D[idx]? = some name → bk.corr[idx]? = some (layerBucket L name)
  seen : ∀ p ∈ L, p.positions ≠ [] → p.layer ∈ D

/-- The mesh array after the second loop of `ConvertMeshes` when every bucket
is walked safely: each entry of `layers` stores the mesh of its bucket at its
number. -/
def storedMeshes (corr : List (List PolyLine)) (layers : List (String × Nat))
    (mMeshes : List (Option aiMesh)) : List (Option aiMesh) :=
  layers.foldl (fun acc e => acc.set e.2 (some (meshOf e.1 (corr.getD e.2 [])))) mMeshes

/-- An ENTITIES section with a LINE on layer "L" and a POLYLINE on the same
layer whose only VERTEX is a face record with the index slot `71 = 1`: the
polyline has no position. -/
def sampleFaceWithoutPositions : LineReader :=
  [⟨0, "SECTION", 0, 0, 0⟩, ⟨2, "ENTITIES", 0, 0, 0⟩,
    ⟨0, "LINE", 0, 0, 0⟩, ⟨8, "L", 0, 0, 0⟩,
    ⟨10, "0", 0, 0, 0⟩, ⟨20, "0", 0, 0, 0⟩, ⟨30, "0", 0, 0, 0⟩,
    ⟨11, "1", 1, 1, 1⟩, ⟨21, "0", 0, 0, 0⟩, ⟨31, "0", 0, 0, 0⟩,
    ⟨0, "POLYLINE", 0, 0, 0⟩, ⟨8, "L", 0, 0, 0⟩,
    ⟨0, "VERTEX", 0, 0, 0⟩, ⟨71, "1", 1, 1, 1⟩,
    ⟨0, "SEQEND", 0, 0, 0⟩,
    ⟨0, "ENDSEC", 0, 0, 0⟩, ⟨0, "EOF", 0, 0, 0⟩]

/-- The file data parsed from `sampleFaceWithoutPositions`. -/
def sampleFaceWithoutPositionsData : FileData :=
  { blocks := [
    { name := AI_DXF_ENTITIES_MAGIC_BLOCK
      lines := [
        { positions := [⟨0, 0, 0⟩, ⟨1, 0, 0⟩]
          colors := [AI_DXF_DEFAULT_COLOR, AI_DXF_DEFAULT_COLOR]
          indices := [0, 1]
          counts := [2]
          layer := "L" },
        { indices := [0, 0], counts := [2], layer := "L" }] }] }

/-- A polyline that has one position and a face whose later corners refer to
a sixth position. -/
def sampleOutOfBoundsLine : PolyLine :=
  { positions := [⟨0, 0, 0⟩]
    colors := [AI_DXF_DEFAULT_COLOR]
    indices := [0, 0, 5, 5]
    counts := [4]
    layer := "L" }

/-- An entity block with the polyline `sampleOutOfBoundsLine`. -/
def sampleOutOfBounds : FileData :=
  { blocks := [{ name := AI_DXF_ENTITIES_MAGIC_BLOCK, lines := [sampleOutOfBoundsLine] }] }

/-! ### Notions and sample inputs: insertions, the name map, face entities -/

/-- The polylines that one insertion adds to the target: nothing when the name
is not in the map, otherwise one copy of every polyline of the source block,
in the order of the source. -/
def insertedLines (blocks_by_name : BlockMap) (blocks : List Block) (insert : InsertBlock) :
    List PolyLine :=
  match blocks_by_name insert.name with
  | none => []
  | some i =>
    match blocks[i]? with
    | none => []
    | some bl_src => bl_src.lines.map (ExpandBlockReferences.copy bl_src insert)

/-- A polyline with the single position `(1,0,0)` on layer "B". -/
def samplePointB : PolyLine :=
  { positions := [⟨1, 0, 0⟩], colors := [AI_DXF_DEFAULT_COLOR], layer := "B" }

/-- A polyline with the single position `(5,5,5)` on layer "C". -/
def samplePointC : PolyLine :=
  { positions := [⟨5, 5, 5⟩], colors := [AI_DXF_DEFAULT_COLOR], layer := "C" }

/-- The insertion of block "B" at `(10,0,0)` with scale `(2,1,1)`. -/
def sampleInsertB : InsertBlock :=
  { name := "B", pos := ⟨10, 0, 0⟩, scale := ⟨2, 1, 1⟩ }

/-- The blocks of a file in which the entity block inserts "B" and a block
that does not exist, and "B" itself carries an insertion of "C". -/
def sampleNested : List Block :=
  [{ name := AI_DXF_ENTITIES_MAGIC_BLOCK, insertions := [sampleInsertB, { name := "MISSING" }] },
    { name := "B", base := ⟨3, 0, 0⟩, lines := [samplePointB], insertions := [{ name := "C" }] },
    { name := "C", lines := [samplePointC] }]

/-- The name map of `sampleNested`. -/
def sampleNestedMap : BlockMap :=
  fun n =>
    if n = "C" then some 2
    else if n = "B" then some 1
    else if n = AI_DXF_ENTITIES_MAGIC_BLOCK then some 0
    else none

/-- The position of the last block of the list that carries the name. -/
def lastNamed : List Block → String → Option Nat
  | [], _ => none
  | b :: bs, name =>
    match lastNamed bs name with
    | some i => some (i + 1)
    | none => if b.name = name then some 0 else none

/-- Two blocks named "B" between the entity block and a block "C". -/
def sampleDuplicateName : List Block :=
  [{ name := AI_DXF_ENTITIES_MAGIC_BLOCK, insertions := [{ name := "B" }] },
    { name := "B", lines := [samplePointB] },
    { name := "B", lines := [samplePointC] }]

/-- The records of the entity at the head of the reader: those before the
first record of group code 0. -/
def entityGroup (reader : LineReader) : List Record :=
  reader.takeWhile (fun r => decide (r.GroupCode ≠ 0))

/-- The last record of the group that carries the group code. -/
def lastWith (grp : List Record) (code : Int) : Option Record :=
  (grp.filter (fun r => decide (r.GroupCode = code))).getLast?

/-- The number given by the last record with the group code; zero when the
group has no such record. -/
def floatOf (grp : List Record) (code : Int) : ℚ :=
  match lastWith grp code with
  | some r => r.ValueAsFloat
  | none => 0

/-- Corner `k + 1` of the group (`k` is 0, 1, 2 or 3): its coordinates are the
values of the codes `10 + k`, `20 + k` and `30 + k`. -/
def groupCorner (grp : List Record) (k : Nat) : aiVector3D :=
  ⟨floatOf grp (10 + k), floatOf grp (20 + k), floatOf grp (30 + k)⟩

/-- Corner `k + 1` is present when the group has a record with one of its
three codes. -/
def hasCorner (grp : List Record) (k : Nat) : Bool :=
  grp.any (fun r =>
    decide (r.GroupCode = 10 + k ∨ r.GroupCode = 20 + k ∨ r.GroupCode = 30 + k))

/-- The colour of the entity: the table entry named by the last record of code
62, the default colour without such a record. -/
def groupColor (grp : List Record) : aiColor4D :=
  match lastWith grp 62 with
  | some r => colorAt (r.ValueAsUnsignedInt % AI_DXF_NUM_INDEX_COLORS)
  | none => AI_DXF_DEFAULT_COLOR

/-- The layer of the entity: the value of the last record of code 8. -/
def groupLayer (grp : List Record) : String :=
  match lastWith grp 8 with
  | some r => r.Value
  | none => ""

/-- The number of corners of a face entity: two, and one more for each of the
third and the fourth corner that is present. -/
def cornerCount (grp : List Record) : Nat :=
  2 + (if hasCorner grp 2 then 1 else 0) + (if hasCorner grp 3 then 1 else 0)

/-- The validity rule of a face entity on its records: the first and the
second corner are present, and the fourth only together with the third. -/
def ValidFace (grp : List Record) : Prop :=
  hasCorner grp 0 = true ∧ hasCorner grp 1 = true ∧
    (hasCorner grp 3 = true → hasCorner grp 2 = true)

/-- The local variables of `Parse3DFace` told from the records of the group. -/
def faceStateOf (grp : List Record) : FaceState :=
  { layer := groupLayer grp
    vip0 := groupCorner grp 0
    vip1 := groupCorner grp 1
    vip2 := groupCorner grp 2
    vip3 := groupCorner grp 3
    clr := groupColor grp
    b0 := hasCorner grp 2
    b1 := hasCorner grp 3
    b2 := hasCorner grp 0
    b3 := hasCorner grp 1 }

/-- The polyline that `Parse3DFace` builds for a valid group: one face of
`cornerCount` corners. -/
def faceLine (grp : List Record) : PolyLine :=
  { layer := groupLayer grp
    counts := [cornerCount grp]
    positions := (List.range (cornerCount grp)).map (groupCorner grp)
    colors := List.replicate (cornerCount grp) (groupColor grp)
    indices := List.range (cornerCount grp) }

/-- A LINE with both end points, on layer "L", followed by the section end. -/
def sampleLine : LineReader :=
  [⟨8, "L", 0, 0, 0⟩, ⟨10, "1", 1, 1, 1⟩, ⟨20, "2", 2, 2, 2⟩,
    ⟨11, "3", 3, 3, 3⟩, ⟨31, "4", 4, 4, 4⟩, ⟨0, "ENDSEC", 0, 0, 0⟩]

/-- A polyface mesh (flag 64) with a single position: too few vertices. -/
def samplePolyfaceShort : LineReader :=
  [⟨70, "64", 64, 64, 64⟩, ⟨0, "VERTEX", 0, 0, 0⟩, ⟨10, "1", 1, 1, 1⟩,
    ⟨0, "SEQEND", 0, 0, 0⟩]

/-- A polyface mesh (flag 64) with three positions and one face record with
the index slots `71 = 1` and `72 = 2`. -/
def samplePolyface : LineReader :=
  [⟨70, "64", 64, 64, 64⟩,
    ⟨0, "VERTEX", 0, 0, 0⟩, ⟨10, "1", 1, 1, 1⟩,
    ⟨0, "VERTEX", 0, 0, 0⟩, ⟨20, "1", 1, 1, 1⟩,
    ⟨0, "VERTEX", 0, 0, 0⟩, ⟨30, "1", 1, 1, 1⟩,
    ⟨0, "VERTEX", 0, 0, 0⟩, ⟨71, "1", 1, 1, 1⟩, ⟨72, "2", 2, 2, 2⟩,
    ⟨0, "SEQEND", 0, 0, 0⟩]

/-- The polyline parsed from `samplePolyface`. -/
def samplePolyfaceLine : PolyLine :=
  { positions := [⟨1, 0, 0⟩, ⟨0, 1, 0⟩, ⟨0, 0, 1⟩]
    colors := [AI_DXF_DEFAULT_COLOR, AI_DXF_DEFAULT_COLOR, AI_DXF_DEFAULT_COLOR]
    indices := [0, 0, 1, 1]
    counts := [4]
    flags := 64 }

/-- A POLYLINE on layer "A" with one VERTEX and no SEQEND, followed by a
3DFACE on layer "B" and the section end. -/
def samplePolylineNoSeqend : LineReader :=
  [⟨8, "A", 0, 0, 0⟩, ⟨0, "VERTEX", 0, 0, 0⟩, ⟨10, "1", 1, 1, 1⟩,
    ⟨0, "3DFACE", 0, 0, 0⟩, ⟨8, "B", 0, 0, 0⟩, ⟨10, "5", 5, 5, 5⟩,
    ⟨0, "ENDSEC", 0, 0, 0⟩]

/-- The polylines of the entity block after the insertions are expanded, as
`ConvertMeshes` passes them to the bucket loop; there are none when no block
has the reserved name. -/
def entityLines (output : FileData) : List PolyLine :=
  match ConvertMeshes.index output.blocks 0 (fun _ => none) none with
  | (_, none) => []
  | (blocks_by_name, some entities) =>
    ((ExpandBlockReferences output.blocks entities blocks_by_name).getD entities {}).lines

/-- A triangle drawn twice, with both windings: three positions, six corners. -/
def sampleTwoFaces : PolyLine :=
  { positions := [⟨0, 0, 0⟩, ⟨1, 0, 0⟩, ⟨0, 1, 0⟩]
    colors := [AI_DXF_DEFAULT_COLOR, AI_DXF_DEFAULT_COLOR, AI_DXF_DEFAULT_COLOR]
    indices := [0, 1, 2, 2, 1, 0]
    counts := [3, 3]
    layer := "L" }

/-- A segment on the layer of `sampleTwoFaces`. -/
def sampleSegment : PolyLine :=
  { positions := [⟨0, 0, 0⟩, ⟨1, 0, 0⟩]
    colors := [AI_DXF_DEFAULT_COLOR, AI_DXF_DEFAULT_COLOR]
    indices := [0, 1]
    counts := [2]
    layer := "L" }

/-- An entity block with the polylines `sampleTwoFaces` and `sampleSegment`. -/
def sampleTwoFacesData : FileData :=
  { blocks := [{ name := AI_DXF_ENTITIES_MAGIC_BLOCK, lines := [sampleTwoFaces, sampleSegment] }] }

/-! ### Notions and sample inputs: invariants, the scene, record groups of insertions and vertices -/

/-- Every polyline of every block of the file data satisfies `P`. -/
def AllLines (P : PolyLine → Prop) (output : FileData) : Prop :=
  ∀ b ∈ output.blocks, ∀ pl ∈ b.lines, P pl

/-- Every polyline that the final part of `ParsePolyLine` keeps satisfies
`P`, whatever the records were. -/
def PolyLineParserYields (P : PolyLine → Prop) : Prop :=
  ∀ (reader : LineReader) (line : PolyLine),
    ParsePolyLine.finish (ParsePolyLine.loop reader {}).2.line = some line → P line

/-- Every polyline that `Parse3DFace` emits satisfies `P`. -/
def FaceParserYields (P : PolyLine → Prop) : Prop :=
  ∀ (st : FaceState) (line : PolyLine), Parse3DFace.emit st = some line → P line

/-- An ENTITIES section with one POLYLINE: a VERTEX with a position and a
VERTEX that is a face record with the index slot `71 = 5`. -/
def sampleIndexBeyond : LineReader :=
  [⟨0, "SECTION", 0, 0, 0⟩, ⟨2, "ENTITIES", 0, 0, 0⟩,
    ⟨0, "POLYLINE", 0, 0, 0⟩, ⟨8, "L", 0, 0, 0⟩,
    ⟨0, "VERTEX", 0, 0, 0⟩, ⟨10, "1", 1, 1, 1⟩,
    ⟨0, "VERTEX", 0, 0, 0⟩, ⟨71, "5", 5, 5, 5⟩,
    ⟨0, "SEQEND", 0, 0, 0⟩,
    ⟨0, "ENDSEC", 0, 0, 0⟩, ⟨0, "EOF", 0, 0, 0⟩]

/-- The polyline parsed from `sampleIndexBeyond`. -/
def sampleIndexBeyondLine : PolyLine :=
  { positions := [⟨1, 0, 0⟩]
    colors := [AI_DXF_DEFAULT_COLOR]
    indices := [4, 4]
    counts := [2]
    layer := "L" }

/-- A segment on layer "B". -/
def sampleSegmentB : PolyLine :=
  { positions := [⟨0, 0, 0⟩, ⟨1, 0, 0⟩]
    colors := [AI_DXF_DEFAULT_COLOR, AI_DXF_DEFAULT_COLOR]
    indices := [0, 1]
    counts := [2]
    layer := "B" }

/-- A triangle on layer "A". -/
def sampleTriangleA : PolyLine :=
  { positions := [⟨0, 0, 0⟩, ⟨1, 0, 0⟩, ⟨0, 1, 0⟩]
    colors := [AI_DXF_DEFAULT_COLOR, AI_DXF_DEFAULT_COLOR, AI_DXF_DEFAULT_COLOR]
    indices := [0, 1, 2]
    counts := [3]
    layer := "A" }

/-- An entity block with a segment on layer "B" followed by a triangle on
layer "A". -/
def sampleTwoLayersData : FileData :=
  { blocks := [{ name := AI_DXF_ENTITIES_MAGIC_BLOCK, lines := [sampleSegmentB, sampleTriangleA] }] }

/-- The scene built from `sampleTwoLayersData`. -/
def sampleTwoLayersScene : aiScene :=
  GenerateMaterials (GenerateHierarchy
    { mNumMeshes := 2
      mMeshes := [some (meshOf "B" [sampleSegmentB]), some (meshOf "A" [sampleTriangleA])] })

/-- The number given by the last record with the group code; `d` when the
group has no such record. -/
def floatOr (grp : List Record) (code : Int) (d : ℚ) : ℚ :=
  match lastWith grp code with
  | some r => r.ValueAsFloat
  | none => d

/-- The text given by the last record with the group code; empty when the
group has no such record. -/
def textOf (grp : List Record) (code : Int) : String :=
  match lastWith grp code with
  | some r => r.Value
  | none => ""

/-- The insertion told from the records of an INSERT group: the name from code
2, the position from 10, 20, 30, the scale from 41, 42, 43 (1 without a
record) and the angle from 50. -/
def insertionOf (grp : List Record) : InsertBlock :=
  { name := textOf grp 2
    pos := ⟨floatOf grp 10, floatOf grp 20, floatOf grp 30⟩
    scale := ⟨floatOr grp 41 1, floatOr grp 42 1, floatOr grp 43 1⟩
    angle := floatOf grp 50 }

/-- The codes that `ParseInsertion` reads. -/
def isInsertionCode (r : Record) : Bool :=
  decide (r.GroupCode = 2 ∨ r.GroupCode = 10 ∨ r.GroupCode = 20 ∨ r.GroupCode = 30 ∨
    r.GroupCode = 41 ∨ r.GroupCode = 42 ∨ r.GroupCode = 43 ∨ r.GroupCode = 50)

/-- An INSERT group with a name, a position, one scale component given twice
and an angle, followed by the next entity. -/
def sampleInsertGroup : LineReader :=
  [⟨2, "B", 0, 0, 0⟩, ⟨10, "5", 5, 5, 5⟩, ⟨41, "2", 2, 2, 2⟩, ⟨41, "3", 3, 3, 3⟩,
    ⟨8, "L", 0, 0, 0⟩, ⟨50, "90", 90, 90, 90⟩, ⟨0, "LINE", 0, 0, 0⟩, ⟨10, "7", 7, 7, 7⟩]

/-- A VERTEX group has an index slot when one of its records has a code from
71 to 74. -/
def hasIndexSlot (grp : List Record) : Bool :=
  grp.any (fun r =>
    decide (r.GroupCode = 71 ∨ r.GroupCode = 72 ∨ r.GroupCode = 73 ∨ r.GroupCode = 74))

/-- A face record with the index slots `71 = 0` and `72 = 3`, followed by the
end of the vertex sequence. -/
def sampleZeroSlot : LineReader :=
  [⟨71, "0", 0, 0, 0⟩, ⟨72, "3", 3, 3, 3⟩, ⟨0, "SEQEND", 0, 0, 0⟩]

/-- The first value of a record of code 70 that is not zero as an
`unsigned int`; zero when there is none. -/
def firstNonZeroFlag : List Record → Nat
  | [] => 0
  | r :: rs =>
    if r.GroupCode = 70 ∧ toUnsigned r.ValueAsSignedInt ≠ 0 then toUnsigned r.ValueAsSignedInt
    else firstNonZeroFlag rs

/-- The records of a POLYLINE whose first flags record has the value 0 and
whose second has the value 1 (closed), with one VERTEX. -/
def sampleFlagsZeroFirst : LineReader :=
  [⟨70, "0", 0, 0, 0⟩, ⟨70, "1", 1, 1, 1⟩, ⟨0, "VERTEX", 0, 0, 0⟩, ⟨10, "1", 1, 1, 1⟩,
    ⟨0, "SEQEND", 0, 0, 0⟩]

/-- A stream that ends in the middle of a VERTEX of a POLYLINE of the
ENTITIES section: no SEQEND, no ENDSEC, no EOF. -/
def sampleTruncated : LineReader :=
  [⟨0, "SECTION", 0, 0, 0⟩, ⟨2, "ENTITIES", 0, 0, 0⟩,
    ⟨0, "POLYLINE", 0, 0, 0⟩, ⟨8, "L", 0, 0, 0⟩,
    ⟨0, "VERTEX", 0, 0, 0⟩, ⟨10, "1", 1, 1, 1⟩]

/-! ### Notions and sample inputs: empty meshes, the root rotation, entity blocks, block bodies, count hints -/

/-- A mesh with a name and nothing else: no vertex, no colour, no face, no
primitive type. -/
def emptyMesh (name : String) : aiMesh :=
  { mName := name
    mVertices := []
    mColors := []
    mFaces := []
    mNumVertices := 0
    mNumFaces := 0
    mPrimitiveTypes := 0
    mMaterialIndex := 0 }

/-- An entity block whose only polyline has a single position and no face. -/
def sampleSinglePoint : FileData :=
  { blocks := [{ name := AI_DXF_ENTITIES_MAGIC_BLOCK
                 lines := [{ positions := [⟨1, 2, 3⟩], colors := [AI_DXF_DEFAULT_COLOR],
                             layer := "L" }] }] }

/-- The matrix of the rotation about the x axis by the angle with cosine `c`
and sine `s`, for points written as columns and angles counted by the
right-hand rule: `(x, y, z)` goes to `(x, c y - s z, s y + c z)`. -/
def RotationX (c s : ℚ) : aiMatrix4x4 :=
  { b2 := c, b3 := -s, c2 := s, c3 := c }

/-- A target block with two insertions of the same block "B", the first one
scaled and moved. -/
def sampleTwice : List Block :=
  [{ name := AI_DXF_ENTITIES_MAGIC_BLOCK, insertions := [sampleInsertB, { name := "B" }] },
    { name := "B", lines := [samplePointB], insertions := [{ name := "C" }] }]

/-- The name map of `sampleTwice`. -/
def sampleTwiceMap : BlockMap :=
  fun n =>
    if n = "B" then some 1
    else if n = AI_DXF_ENTITIES_MAGIC_BLOCK then some 0
    else none

/-- The statement that two lists of blocks carry the same names at the same
places and agree on every block that does not carry the reserved entities
name. -/
def SameButEntityBlocks (post post2 : List Block) : Prop :=
  List.Forall₂
    (fun b c => b.name = c.name ∧ (b.name ≠ AI_DXF_ENTITIES_MAGIC_BLOCK → b = c)) post post2

/-- A block "B", the entity block that inserts it, and a second block with the
reserved name that carries a segment. -/
def sampleTwoEntityBlocks : List Block :=
  [{ name := "B", lines := [samplePointB] },
    { name := AI_DXF_ENTITIES_MAGIC_BLOCK, lines := [samplePointC], insertions := [{ name := "B" }] },
    { name := AI_DXF_ENTITIES_MAGIC_BLOCK, lines := [samplePointB, samplePointC] }]

/-- An ENTITIES section that is not closed by ENDSEC: the EOF record comes
third, and a LINE entity follows it. -/
def sampleEofInSection : LineReader :=
  [⟨0, "SECTION", 0, 0, 0⟩, ⟨2, "ENTITIES", 0, 0, 0⟩, ⟨0, "EOF", 0, 0, 0⟩,
    ⟨0, "LINE", 0, 0, 0⟩, ⟨8, "L", 0, 0, 0⟩,
    ⟨10, "0", 0, 0, 0⟩, ⟨20, "0", 0, 0, 0⟩, ⟨30, "0", 0, 0, 0⟩,
    ⟨11, "1", 1, 1, 1⟩, ⟨21, "0", 0, 0, 0⟩, ⟨31, "0", 0, 0, 0⟩]

/-- The stream `sampleEofInSection` up to and including its EOF record. -/
def sampleEofInSectionCut : LineReader :=
  [⟨0, "SECTION", 0, 0, 0⟩, ⟨2, "ENTITIES", 0, 0, 0⟩, ⟨0, "EOF", 0, 0, 0⟩]

/-- The segment from `(0,0,0)` to `(1,0,0)` on layer "L", as `Parse3DFace`
builds it from a LINE entity. -/
def sampleUnitSegment : PolyLine :=
  { positions := [⟨0, 0, 0⟩, ⟨1, 0, 0⟩]
    colors := [AI_DXF_DEFAULT_COLOR, AI_DXF_DEFAULT_COLOR]
    indices := [0, 1]
    counts := [2]
    layer := "L" }

/-- The entity names that the parser recognises and does not support. -/
def isUnsupportedEntity (r : Record) : Bool :=
  r.Is 0 "LWPOLYLINE" || isSolidEntity r || r.Is 0 "MESH" || isSurfaceEntity r || isAcShEntity r

/-- A BLOCKS section with the block "B" of origin `(1,0,0)` that holds an
LWPOLYLINE entity with a record of group code 10. -/
def sampleBlockWithLwPolyline : LineReader :=
  [⟨0, "SECTION", 0, 0, 0⟩, ⟨2, "BLOCKS", 0, 0, 0⟩,
    ⟨0, "BLOCK", 0, 0, 0⟩, ⟨2, "B", 0, 0, 0⟩, ⟨10, "1", 1, 1, 1⟩,
    ⟨0, "LWPOLYLINE", 0, 0, 0⟩, ⟨10, "5", 5, 5, 5⟩,
    ⟨0, "ENDBLK", 0, 0, 0⟩, ⟨0, "ENDSEC", 0, 0, 0⟩, ⟨0, "EOF", 0, 0, 0⟩]

/-- The stream `sampleBlockWithLwPolyline` without the LWPOLYLINE entity. -/
def sampleBlockPlain : LineReader :=
  [⟨0, "SECTION", 0, 0, 0⟩, ⟨2, "BLOCKS", 0, 0, 0⟩,
    ⟨0, "BLOCK", 0, 0, 0⟩, ⟨2, "B", 0, 0, 0⟩, ⟨10, "1", 1, 1, 1⟩,
    ⟨0, "ENDBLK", 0, 0, 0⟩, ⟨0, "ENDSEC", 0, 0, 0⟩, ⟨0, "EOF", 0, 0, 0⟩]

/-- The records of a stream that starts behind a POLYLINE marker, with the
values of the count hints erased: a record of group code 71 or 72 that stands
at the level of the polyline, which is outside a VERTEX group, keeps its group
code and loses its value. The flag tells whether the record of group code 0
met last was a VERTEX marker. -/
def hintsErased : Bool → LineReader → LineReader
  | _, [] => []
  | inVertex, r :: rs =>
    if r.GroupCode = 0 then r :: hintsErased (r.Is 0 "VERTEX") rs
    else if inVertex = false ∧ (r.GroupCode = 71 ∨ r.GroupCode = 72) then
      { GroupCode := r.GroupCode, Value := "" } :: hintsErased inVertex rs
    else r :: hintsErased inVertex rs

/-- The statement that two streams behind a POLYLINE marker differ at most in
the values of the count hints of the polyline level. -/
def SameButHints (reader1 reader2 : LineReader) : Prop :=
  hintsErased false reader1 = hintsErased false reader2

/-- A layer name of 1024 bytes, the letter a repeated. -/
def sampleLongLayer : String :=
  String.mk (List.replicate 1024 'a')

/-- An entity block whose only polyline has one position and lies on the
layer `sampleLongLayer`. -/
def sampleLongLayerData : FileData :=
  { blocks := [{ name := AI_DXF_ENTITIES_MAGIC_BLOCK
                 lines := [{ positions := [⟨1, 2, 3⟩], colors := [AI_DXF_DEFAULT_COLOR],
                             layer := sampleLongLayer }] }] }

/-- An entity block with a polyline on the layer `sampleLongLayer` followed by
a polyline on the layer "B", each with one position. -/
def sampleLongLayerTwo : FileData :=
  { blocks := [{ name := AI_DXF_ENTITIES_MAGIC_BLOCK
                 lines := [{ positions := [⟨1, 2, 3⟩], colors := [AI_DXF_DEFAULT_COLOR],
                             layer := sampleLongLayer },
                           { positions := [⟨4, 5, 6⟩], colors := [AI_DXF_DEFAULT_COLOR],
                             layer := "B" }] }] }

/-- An ENTITIES section with a POLYLINE of two vertices whose vertex count
hint (group code 71) is 2000000000. -/
def sampleHugeHint : LineReader :=
  [⟨0, "SECTION", 0, 0, 0⟩, ⟨2, "ENTITIES", 0, 0, 0⟩,
    ⟨0, "POLYLINE", 0, 0, 0⟩, ⟨8, "L", 0, 0, 0⟩,
    ⟨71, "2000000000", 2000000000, 2000000000, 2000000000⟩,
    ⟨0, "VERTEX", 0, 0, 0⟩, ⟨10, "1", 1, 1, 1⟩,
    ⟨0, "VERTEX", 0, 0, 0⟩, ⟨10, "2", 2, 2, 2⟩,
    ⟨0, "SEQEND", 0, 0, 0⟩, ⟨0, "ENDSEC", 0, 0, 0⟩, ⟨0, "EOF", 0, 0, 0⟩]

/-- The stream `sampleHugeHint` with the vertex count hint 2, the number of
vertices that follow. -/
def sampleSmallHint : LineReader :=
  [⟨0, "SECTION", 0, 0, 0⟩, ⟨2, "ENTITIES", 0, 0, 0⟩,
    ⟨0, "POLYLINE", 0, 0, 0⟩, ⟨8, "L", 0, 0, 0⟩,
    ⟨71, "2", 2, 2, 2⟩,
    ⟨0, "VERTEX", 0, 0, 0⟩, ⟨10, "1", 1, 1, 1⟩,
    ⟨0, "VERTEX", 0, 0, 0⟩, ⟨10, "2", 2, 2, 2⟩,
    ⟨0, "SEQEND", 0, 0, 0⟩, ⟨0, "ENDSEC", 0, 0, 0⟩, ⟨0, "EOF", 0, 0, 0⟩]

/-- The entity block parsed from `sampleHugeHint` and from `sampleSmallHint`:
one segment on layer "L". -/
def sampleHintBlocks : List Block :=
  [{ name := AI_DXF_ENTITIES_MAGIC_BLOCK
     lines := [{ positions := [⟨1, 0, 0⟩, ⟨2, 0, 0⟩]
                 colors := [AI_DXF_DEFAULT_COLOR, AI_DXF_DEFAULT_COLOR]
                 indices := [0, 1]
                 counts := [2]
                 layer := "L" }] }]

/-! # Theorems -/

/-! ## Names stored with `aiString::Set` -/

theorem aiString_Set_short (s : String) (h : s.utf8ByteSize < 1024) : aiString.Set s = s := by
  unfold aiString.Set AI_MAXLEN
  rw [if_neg (by omega)]

theorem aiString_Set_long (s : String) (h : 1024 ≤ s.utf8ByteSize) : aiString.Set s = "" := by
  unfold aiString.Set AI_MAXLEN
  rw [if_pos (by omega)]

theorem aiString_Set_L : aiString.Set "L" = "L" := rfl

theorem aiString_Set_A : aiString.Set "A" = "A" := rfl

theorem aiString_Set_B : aiString.Set "B" = "B" := rfl

theorem utf8ByteSize_go_replicate (n : Nat) :
    String.utf8ByteSize.go (List.replicate n 'a') = n := by
  induction n with
  | zero => rfl
  | succ n ih =>
    rw [List.replicate_succ, String.utf8ByteSize.go, ih]
    rfl

theorem sampleLongLayer_size : sampleLongLayer.utf8ByteSize = 1024 := by
  unfold sampleLongLayer
  exact utf8ByteSize_go_replicate 1024

theorem aiString_Set_sampleLongLayer : aiString.Set sampleLongLayer = "" :=
  aiString_Set_long _ (by rw [sampleLongLayer_size])

theorem sampleLongLayer_ne_empty : sampleLongLayer ≠ "" := by
  intro h
  have := sampleLongLayer_size
  rw [h] at this
  exact absurd this (by decide)

theorem sampleLongLayer_ne_B : sampleLongLayer ≠ "B" := by
  intro h
  have := sampleLongLayer_size
  rw [h] at this
  exact absurd this (by decide)

/-! ## Lists with one element changed -/

theorem modifyAt_getElem? {α : Type} (f : α → α) (l : List α) (n m : Nat) :
    (modifyAt f l n)[m]? = if m = n then (l[m]?).map f else l[m]? := by
  induction l generalizing n m with
  | nil => cases n <;> simp [modifyAt]
  | cons a as ih =>
    cases n with
    | zero =>
      cases m with
      | zero => simp [modifyAt]
      | succ m => simp [modifyAt]
    | succ n =>
      cases m with
      | zero => simp [modifyAt]
      | succ m => simp [modifyAt, ih]

theorem modifyAt_length {α : Type} (f : α → α) (l : List α) (n : Nat) :
    (modifyAt f l n).length = l.length := by
  induction l generalizing n with
  | nil => cases n <;> simp [modifyAt]
  | cons a as ih => cases n <;> simp [modifyAt, ih]

theorem modifyAt_modifyAt {α : Type} (f g : α → α) (l : List α) (n : Nat) :
    modifyAt f (modifyAt g l n) n = modifyAt (fun a => f (g a)) l n := by
  induction l generalizing n with
  | nil => cases n <;> simp [modifyAt]
  | cons a as ih => cases n <;> simp [modifyAt, ih]

theorem modifyAt_congr {α : Type} (f g : α → α) (l : List α) (n : Nat)
    (h : ∀ a, f a = g a) : modifyAt f l n = modifyAt g l n := by
  have : f = g := funext h
  rw [this]

theorem modifyAt_id {α : Type} (f : α → α) (l : List α) (n : Nat)
    (h : ∀ a, f a = a) : modifyAt f l n = l := by
  induction l generalizing n with
  | nil => cases n <;> simp [modifyAt]
  | cons a as ih => cases n <;> simp [modifyAt, ih, h]

theorem modifyAt_eq_set {α : Type} (f : α → α) (l : List α) (n : Nat) (a : α)
    (h : l[n]? = some a) : modifyAt f l n = l.set n (f a) := by
  induction l generalizing n with
  | nil => simp at h
  | cons b bs ih =>
    cases n with
    | zero => simp at h; simp [modifyAt, h]
    | succ n => simp at h; simp [modifyAt, ih n h]

/-! ## Expansion of insertions -/

/-- The pushes of the inner loop of `ExpandBlockReferences` add up to one
append to the target. -/
theorem foldl_push_lines (bl : Nat) (g : PolyLine → PolyLine) (ls : List PolyLine)
    (blocks : List Block) :
    ls.foldl (fun bs pl_in => modifyAt (fun b => { b with lines := b.lines ++ [g pl_in] }) bs bl)
        blocks =
      modifyAt (fun b => { b with lines := b.lines ++ ls.map g }) blocks bl := by
  induction ls generalizing blocks with
  | nil =>
    simp only [List.foldl_nil, List.map_nil, List.append_nil]
    exact (modifyAt_id _ _ _ (fun _ => rfl)).symm
  | cons pl pls ih =>
    simp only [List.foldl_cons, List.map_cons]
    rw [ih, modifyAt_modifyAt]
    apply modifyAt_congr
    intro a
    simp

theorem insertOne_unresolved (bl : Nat) (blocks_by_name : BlockMap) (blocks : List Block)
    (insert : InsertBlock) (h : blocks_by_name insert.name = none) :
    ExpandBlockReferences.insertOne bl blocks_by_name blocks insert = blocks := by
  simp [ExpandBlockReferences.insertOne, h]

theorem insertOne_resolved (bl i : Nat) (blocks_by_name : BlockMap) (blocks : List Block)
    (insert : InsertBlock) (bl_src : Block) (h : blocks_by_name insert.name = some i)
    (hs : blocks[i]? = some bl_src) :
    ExpandBlockReferences.insertOne bl blocks_by_name blocks insert =
      modifyAt
        (fun b =>
          { b with lines := b.lines ++ bl_src.lines.map (ExpandBlockReferences.copy bl_src insert) })
        blocks bl := by
  simp only [ExpandBlockReferences.insertOne, h, hs]
  exact foldl_push_lines bl _ _ _

theorem sq_sum_eq_zero {x y z : ℚ} (h : x * x + y * y + z * z = 0) : x = 0 ∧ y = 0 ∧ z = 0 := by
  have hx := mul_self_nonneg x
  have hy := mul_self_nonneg y
  have hz := mul_self_nonneg z
  refine ⟨?_, ?_, ?_⟩ <;> apply mul_self_eq_zero.mp <;> linarith

theorem copy_eq (bl_src : Block) (insert : InsertBlock) (pl_in : PolyLine) :
    ExpandBlockReferences.copy bl_src insert pl_in =
      { pl_in with positions := pl_in.positions.map (insertedPosition bl_src insert) } := by
  unfold ExpandBlockReferences.copy
  split
  · simp only [PolyLine.mk.injEq, and_true, true_and]
    apply List.map_congr_left
    intro v _
    simp only [aiMatrix4x4.transform, aiMatrix4x4.mul, aiMatrix4x4.Translation,
      aiMatrix4x4.Scaling, aiVector3D.neg, insertedPosition, aiVector3D.mk.injEq]
    refine ⟨?_, ?_, ?_⟩ <;> ring
  · rename_i h
    simp only [aiVector3D.LengthNonzero, aiVector3D.SquareLength, not_or, ne_eq,
      Decidable.not_not] at h
    obtain ⟨hb, hx, hy, hz, _, hp⟩ := h
    obtain ⟨b1, b2, b3⟩ := sq_sum_eq_zero hb
    obtain ⟨p1, p2, p3⟩ := sq_sum_eq_zero hp
    have : pl_in.positions.map (insertedPosition bl_src insert) = pl_in.positions := by
      conv_rhs => rw [← List.map_id pl_in.positions]
      apply List.map_congr_left
      intro v _
      simp [insertedPosition, hx, hy, hz, b1, b2, b3, p1, p2, p3]
    rw [this]

theorem run_nil (bl : Nat) (m : BlockMap) (blocks : List Block) :
    ExpandBlockReferences.run bl m [] blocks = blocks := rfl

theorem run_cons (bl : Nat) (m : BlockMap) (ins : InsertBlock) (rest : List InsertBlock)
    (blocks : List Block) :
    ExpandBlockReferences.run bl m (ins :: rest) blocks =
      ExpandBlockReferences.run bl m rest (ExpandBlockReferences.insertOne bl m blocks ins) := rfl

theorem run_append (bl : Nat) (m : BlockMap) (l1 l2 : List InsertBlock)
    (blocks : List Block) :
    ExpandBlockReferences.run bl m (l1 ++ l2) blocks =
      ExpandBlockReferences.run bl m l2 (ExpandBlockReferences.run bl m l1 blocks) := by
  simp [ExpandBlockReferences.run, List.foldl_append]

/-- Setting the insertion list of the target commutes with the expansion of
one insertion: the expansion reads polylines and origins only. -/
theorem insertOne_setInsertions (bl : Nat) (m : BlockMap) (X : List InsertBlock)
    (blocks : List Block) (ins : InsertBlock) :
    ExpandBlockReferences.insertOne bl m
        (modifyAt (fun b => { b with insertions := X }) blocks bl) ins =
      modifyAt (fun b => { b with insertions := X })
        (ExpandBlockReferences.insertOne bl m blocks ins) bl := by
  cases hm : m ins.name with
  | none => simp [ExpandBlockReferences.insertOne, hm]
  | some i =>
    cases hs : blocks[i]? with
    | none =>
      have : (modifyAt (fun b => { b with insertions := X }) blocks bl)[i]? = none := by
        rw [modifyAt_getElem?]; simp [hs]
      simp [ExpandBlockReferences.insertOne, hm, hs, this]
    | some src =>
      have hsrc : ∃ src1 : Block,
          (modifyAt (fun b => { b with insertions := X }) blocks bl)[i]? = some src1 ∧
          src1.lines = src.lines ∧ src1.base = src.base := by
        rw [modifyAt_getElem?]
        by_cases hi : i = bl
        · subst hi; exact ⟨{ src with insertions := X }, by simp [hs], rfl, rfl⟩
        · exact ⟨src, by simp [hi, hs], rfl, rfl⟩
      obtain ⟨src1, h1, h2, h3⟩ := hsrc
      rw [insertOne_resolved bl i m _ ins src1 hm h1, insertOne_resolved bl i m _ ins src hm hs,
        modifyAt_modifyAt, modifyAt_modifyAt]
      apply modifyAt_congr
      intro a
      have hc : ∀ pl, ExpandBlockReferences.copy src1 ins pl = ExpandBlockReferences.copy src ins pl := by
        intro pl
        rw [copy_eq, copy_eq]
        simp [insertedPosition, h3]
      simp [h2, hc]

theorem run_setInsertions (bl : Nat) (m : BlockMap) (X L : List InsertBlock)
    (blocks : List Block) :
    ExpandBlockReferences.run bl m L
        (modifyAt (fun b => { b with insertions := X }) blocks bl) =
      modifyAt (fun b => { b with insertions := X })
        (ExpandBlockReferences.run bl m L blocks) bl := by
  induction L generalizing blocks with
  | nil => rfl
  | cons ins rest ih => rw [run_cons, run_cons, insertOne_setInsertions, ih]

theorem run_unresolved (bl : Nat) (m : BlockMap) (L : List InsertBlock) (blocks : List Block)
    (h : ∀ ins ∈ L, m ins.name = none) : ExpandBlockReferences.run bl m L blocks = blocks := by
  induction L generalizing blocks with
  | nil => rfl
  | cons ins rest ih =>
    rw [run_cons, insertOne_unresolved bl m blocks ins (h ins (List.mem_cons_self _ _))]
    exact ih blocks (fun i hi => h i (List.mem_cons_of_mem _ hi))

/-- C6: an insertion of the target whose name is not a key of the map changes
nothing. The polylines of the target after the expansion are those obtained
when the insertion is removed from the target beforehand, and when no insertion
of the target resolves the blocks are unchanged. The function is total: no
error arises. -/
theorem unresolved_insertion_is_skipped (blocks : List Block) (bl : Nat)
    (blocks_by_name : BlockMap) (target : Block) (pre post : List InsertBlock)
    (ins : InsertBlock) (ht : blocks[bl]? = some target)
    (hins : target.insertions = pre ++ ins :: post)
    (hun : blocks_by_name ins.name = none) :
    ((ExpandBlockReferences blocks bl blocks_by_name)[bl]?).map (fun b => b.lines) =
      ((ExpandBlockReferences (blocks.set bl { target with insertions := pre ++ post }) bl
        blocks_by_name)[bl]?).map (fun b => b.lines) ∧
    ((∀ i ∈ target.insertions, blocks_by_name i.name = none) →
      ExpandBlockReferences blocks bl blocks_by_name = blocks) := by
  constructor
  · have hlt : bl < blocks.length := by
      rcases Nat.lt_or_ge bl blocks.length with h | h
      · exact h
      · rw [List.getElem?_eq_none h] at ht; cases ht
    have hset : blocks.set bl { target with insertions := pre ++ post } =
        modifyAt (fun b => { b with insertions := pre ++ post }) blocks bl :=
      (modifyAt_eq_set (fun b => { b with insertions := pre ++ post }) blocks bl target ht).symm
    have hget : (blocks.set bl { target with insertions := pre ++ post })[bl]? =
        some { target with insertions := pre ++ post } := by
      simp [List.getElem?_set, hlt]
    simp only [ExpandBlockReferences, ht, hget, hins]
    rw [hset, run_setInsertions, modifyAt_getElem?]
    simp only [if_true, Option.map_map]
    rw [run_append, run_cons, insertOne_unresolved _ _ _ _ hun, ← run_append]
    rfl
  · intro h
    simp only [ExpandBlockReferences, ht]
    exact run_unresolved bl blocks_by_name _ blocks h

theorem unresolved_insertion_is_skipped_witness :
    ((ExpandBlockReferences [sampleDangling] 0 sampleOnlyEntities)[0]?).map (fun b => b.lines) =
      ((ExpandBlockReferences
        ([sampleDangling].set 0 { sampleDangling with insertions := [] ++ [] }) 0
        sampleOnlyEntities)[0]?).map (fun b => b.lines) ∧
    ((∀ i ∈ sampleDangling.insertions, sampleOnlyEntities i.name = none) →
      ExpandBlockReferences [sampleDangling] 0 sampleOnlyEntities = [sampleDangling]) :=
  unresolved_insertion_is_skipped [sampleDangling] 0 sampleOnlyEntities sampleDangling [] []
    { name := "MISSING" } (by simp) (by simp [sampleDangling])
    (by simp [sampleOnlyEntities, AI_DXF_ENTITIES_MAGIC_BLOCK])

/-! ## Files without geometry sections -/

theorem SkipSection_mem (reader : LineReader) (x : Record) (h : x ∈ SkipSection reader) :
    x ∈ reader := by
  induction reader with
  | nil => simp [SkipSection] at h
  | cons r rs ih =>
    simp only [SkipSection] at h
    split at h
    · exact h
    · exact List.mem_cons_of_mem _ (ih h)

theorem ParseHeader_mem (reader : LineReader) (output : FileData) (x : Record)
    (h : x ∈ (ParseHeader reader output).1) : x ∈ reader := by
  induction reader with
  | nil => simp [ParseHeader] at h
  | cons r rs ih =>
    simp only [ParseHeader] at h
    split at h
    · exact h
    · exact List.mem_cons_of_mem _ (ih h)

theorem ParseHeader_output (reader : LineReader) (output : FileData) :
    (ParseHeader reader output).2 = output := by
  induction reader with
  | nil => simp [ParseHeader]
  | cons r rs ih =>
    simp only [ParseHeader]
    split
    · rfl
    · exact ih

theorem InternReadFile_body_no_geometry (r : Record) (rs : LineReader) (output : FileData)
    (h : NoGeometrySection (r :: rs)) :
    (∃ reader1, InternReadFile.body r rs output = Step.done reader1 output) ∨
    (∃ reader1, InternReadFile.body r rs output = Step.next reader1 output ∧
      NoGeometrySection reader1) := by
  have hr := h r (List.mem_cons_self _ _)
  have hrs : NoGeometrySection rs := fun x hx => h x (List.mem_cons_of_mem _ hx)
  unfold InternReadFile.body
  simp only [hr.1, hr.2, Bool.false_eq_true, if_false]
  split_ifs
  · right
    exact ⟨_, rfl, fun x hx => h x (SkipSection_mem _ x hx)⟩
  · right
    refine ⟨_, ?_, fun x hx => h x (ParseHeader_mem _ output x hx)⟩
    rw [ParseHeader_output]
  · right; exact ⟨_, rfl, hrs⟩
  · left; exact ⟨_, rfl⟩
  · right; exact ⟨_, rfl, hrs⟩

/-- Without a BLOCKS or ENTITIES section name the top-level loop leaves the
file data as it is. -/
theorem InternReadFile_loop_no_geometry (reader : LineReader) (output : FileData)
    (h : NoGeometrySection reader) : InternReadFile.loop reader output = output := by
  induction reader, output using InternReadFile.loop.induct with
  | case1 output => exact InternReadFile_loop_nil output
  | case2 output r rs reader1 output1 hb =>
    rw [InternReadFile_loop_cons, hb]
    rcases InternReadFile_body_no_geometry r rs output h with ⟨x, hx⟩ | ⟨x, hx, _⟩
    · rw [hb] at hx; injection hx with h1 h2
    · rw [hb] at hx; cases hx
  | case3 output r rs reader1 output1 hb ih =>
    rw [InternReadFile_loop_cons, hb]
    rcases InternReadFile_body_no_geometry r rs output h with ⟨x, hx⟩ | ⟨x, hx, hn⟩
    · rw [hb] at hx; cases hx
    · rw [hb] at hx; injection hx with h1 h2
      subst h1; subst h2
      exact ih hn

/-- C9 (as amended): a record stream that has neither a BLOCKS nor an
ENTITIES section (no record is one of these two section names; HEADER, TABLES
and CLASSES sections, comments and anything else may occur) is rejected with
the fatal error "DXF: no data blocks loaded", and no scene is returned,
whatever the allocator grants: such a stream makes no call of `reserve`. -/
theorem no_geometry_is_rejected (available : Nat) (reader : LineReader)
    (h : ∀ r ∈ reader, ¬ (r.GroupCode = 2 ∧ (r.Value = "BLOCKS" ∨ r.Value = "ENTITIES"))) :
    InternReadFile available reader =
      Except.error (ImportError.deadly "DXF: no data blocks loaded") := by
  have hn : NoGeometrySection reader := by
    intro r hr
    have := h r hr
    simp only [Record.Is, decide_eq_false_iff_not]
    constructor
    · intro hc; exact this ⟨hc.1, Or.inl hc.2⟩
    · intro hc; exact this ⟨hc.1, Or.inr hc.2⟩
  unfold InternReadFile
  simp only [InternReadFile_loop_no_geometry reader {} hn]
  simp [ConvertMeshes]

theorem no_geometry_is_rejected_witness :
    InternReadFile 0 sampleNoGeometry =
      Except.error (ImportError.deadly "DXF: no data blocks loaded") :=
  no_geometry_is_rejected 0 sampleNoGeometry (by simp [sampleNoGeometry])

/-- C9 (the claim as stated fails): for a file with only a HEADER, a TABLES and
a CLASSES section the error is "DXF: no data blocks loaded", which is not the
error "DXF: this file contains no 3d data", whatever the allocator grants. -/
theorem no_geometry_error_is_not_no_3d_data :
    (∀ available : Nat, InternReadFile available sampleNoGeometry =
      Except.error (ImportError.deadly "DXF: no data blocks loaded")) ∧
    (∀ available : Nat, InternReadFile available sampleNoGeometry ≠
      Except.error (ImportError.deadly "DXF: this file contains no 3d data")) := by
  have h : ∀ available : Nat, InternReadFile available sampleNoGeometry =
      Except.error (ImportError.deadly "DXF: no data blocks loaded") := by
    intro available
    unfold InternReadFile
    rw [InternReadFile_loop_no_geometry sampleNoGeometry {}
      (by intro r hr; simp [sampleNoGeometry] at hr; rcases hr with h | h | h | h | h | h | h | h | h | h | h | h <;> subst h <;> simp [Record.Is])]
    simp [ConvertMeshes]
  refine ⟨h, ?_⟩
  intro available
  rw [h]
  simp

/-! ## The vertex parser -/

theorem decBack_append (cs : List Nat) (c : Nat) :
    decBack (cs ++ [c]) = cs ++ [(c + 4294967295) % 4294967296] := by
  induction cs with
  | nil => simp [decBack]
  | cons a as ih =>
    cases as with
    | nil => simp [decBack]
    | cons b bs =>
      simp only [List.cons_append] at ih ⊢
      simp only [decBack, ih]

theorem getLast?_snoc {α : Type} (cs : List α) (c : α) : (cs ++ [c]).getLast? = some c := by
  simp

/-- The index loop of `ParsePolyLineVertex`, started after the count of the
slots was pushed: `k` corners are kept so far and the slots `idxs` are still to
be visited. The corners with a zero slot are dropped, the others are appended
zero-based, and the face count ends as the number of corners kept; it is
removed when no corner is kept. -/
theorem pushIndices_spec (idxs : List Nat) (k : Nat) (line : PolyLine) (cs : List Nat)
    (hc : line.counts = cs ++ [k + idxs.length]) (hb : k + idxs.length < 4294967296) :
    ParsePolyLineVertex.pushIndices idxs line =
      { line with
        indices := line.indices ++ (idxs.filter (fun i => i ≠ 0)).map (fun i => i - 1)
        counts :=
          if k + (idxs.filter (fun i => i ≠ 0)).length = 0 ∧ idxs ≠ [] then cs
          else cs ++ [k + (idxs.filter (fun i => i ≠ 0)).length] } := by
  induction idxs generalizing k line with
  | nil =>
    simp only [ParsePolyLineVertex.pushIndices, List.filter_nil, List.map_nil, List.append_nil,
      List.length_nil, Nat.add_zero, ne_eq, not_true_eq_false, and_false, if_false]
    simp only [List.length_nil, Nat.add_zero] at hc
    rw [← hc]
  | cons idx rest ih =>
    simp only [List.length_cons] at hc hb
    by_cases h0 : idx = 0
    · subst h0
      simp only [ParsePolyLineVertex.pushIndices, if_true, hc, decBack_append]
      have hdec : (k + (rest.length + 1) + 4294967295) % 4294967296 = k + rest.length := by
        omega
      rw [hdec]
      simp only [getLast?_snoc, List.dropLast_concat]
      by_cases hz : k + rest.length = 0
      · have hk : k = 0 := by omega
        have hr : rest = [] := List.length_eq_zero.mp (by omega)
        subst hk; subst hr
        simp [ParsePolyLineVertex.pushIndices]
      · have hne : (some (k + rest.length) = some 0) = False := by
          simp [hz]
        simp only [hne, if_false]
        rw [ih k _ rfl (by omega)]
        have hf : List.filter (fun i => decide (i ≠ 0)) (0 :: rest) =
            List.filter (fun i => decide (i ≠ 0)) rest := by simp
        have hcond : (k + (List.filter (fun i => decide (i ≠ 0)) rest).length = 0 ∧ rest ≠ []) ↔
            (k + (List.filter (fun i => decide (i ≠ 0)) rest).length = 0 ∧ 0 :: rest ≠ []) := by
          constructor
          · intro h; exact ⟨h.1, by simp⟩
          · intro h
            refine ⟨h.1, ?_⟩
            intro hr
            subst hr
            simp at hz
            omega
        rw [hf]
        simp only [hcond]
    · simp only [ParsePolyLineVertex.pushIndices, h0, if_false]
      rw [ih (k + 1) _ (by simp only [hc]; congr 2; omega) (by omega)]
      simp only [List.filter_cons, ne_eq, h0, not_false_eq_true, decide_True, if_true,
        List.map_cons, List.length_cons, List.append_assoc, List.singleton_append]
      have e1 : k + 1 + (List.filter (fun i => decide (¬i = 0)) rest).length =
          k + ((List.filter (fun i => decide (¬i = 0)) rest).length + 1) := by omega
      rw [e1]
      have e2 : ¬ (k + ((List.filter (fun i => decide (¬i = 0)) rest).length + 1) = 0) := by
        omega
      simp [e2]

theorem step_cnti (st : VertexState) (r : Record)
    (h : st.indices.length = 0 ∨ st.indices.length = 2 ∨ st.indices.length = 4) :
    (ParsePolyLineVertex.step st r).indices.length = 0 ∨
    (ParsePolyLineVertex.step st r).indices.length = 2 ∨
    (ParsePolyLineVertex.step st r).indices.length = 4 := by
  unfold ParsePolyLineVertex.step
  simp only [VertexState.cnti]
  split_ifs <;> first | exact h | (simp only [List.length_append, List.length_singleton]; omega)

theorem vertex_loop_cnti (reader : LineReader) (st : VertexState)
    (h : st.indices.length = 0 ∨ st.indices.length = 2 ∨ st.indices.length = 4) :
    (ParsePolyLineVertex.loop reader st).2.indices.length = 0 ∨
    (ParsePolyLineVertex.loop reader st).2.indices.length = 2 ∨
    (ParsePolyLineVertex.loop reader st).2.indices.length = 4 := by
  induction reader generalizing st with
  | nil => simpa [ParsePolyLineVertex.loop] using h
  | cons r rs ih =>
    simp only [ParsePolyLineVertex.loop]
    split
    · exact h
    · exact ih _ (step_cnti st r h)

/-- What `ParsePolyLineVertex` does to the polyline, by the number of index
slots stored: with no slot a position and a colour are appended; otherwise the
non-zero slots are appended zero-based to the indices and their number, when
it is not zero, to the counts. -/
theorem emit_spec (st : VertexState) (line : PolyLine) (h : st.indices.length ≤ 4) :
    ParsePolyLineVertex.emit st line =
      if st.indices = [] then
        { line with positions := line.positions ++ [st.out], colors := line.colors ++ [st.clr] }
      else
        { line with
          indices := line.indices ++ (st.indices.filter (fun i => i ≠ 0)).map (fun i => i - 1)
          counts :=
            if (st.indices.filter (fun i => i ≠ 0)).length = 0 then line.counts
            else line.counts ++ [(st.indices.filter (fun i => i ≠ 0)).length] } := by
  unfold ParsePolyLineVertex.emit
  simp only [VertexState.cnti]
  by_cases he : st.indices = []
  · simp [he]
  · have hl : st.indices.length ≠ 0 := fun h0 => he (List.length_eq_zero.mp h0)
    simp only [ne_eq, hl, not_false_eq_true, if_true, he, if_false]
    rw [pushIndices_spec st.indices 0 _ line.counts (by simp) (by omega)]
    simp [he]

/-- The polyline after `ParsePolyLineVertex`, for any reader. -/
theorem ParsePolyLineVertex_line (reader : LineReader) (line : PolyLine) :
    ∃ st : VertexState, st.indices.length ≤ 4 ∧
      (ParsePolyLineVertex reader line).2 = ParsePolyLineVertex.emit st line := by
  refine ⟨(ParsePolyLineVertex.loop reader {}).2, ?_, rfl⟩
  have := vertex_loop_cnti reader {} (Or.inl rfl)
  omega

theorem emit_noCounts (st : VertexState) (line : PolyLine) (h : st.indices.length ≤ 4)
    (hl : NoCountsWithoutIndices line) :
    NoCountsWithoutIndices (ParsePolyLineVertex.emit st line) := by
  rw [emit_spec st line h]
  unfold NoCountsWithoutIndices at hl ⊢
  split
  · exact hl
  · intro hi
    simp only [List.append_eq_nil, List.map_eq_nil_iff] at hi
    obtain ⟨ha, hb⟩ := hi
    simp only [hb, List.length_nil, if_true]
    exact hl ha

theorem ParsePolyLineVertex_noCounts (reader : LineReader) (line : PolyLine)
    (hl : NoCountsWithoutIndices line) :
    NoCountsWithoutIndices (ParsePolyLineVertex reader line).2 := by
  obtain ⟨st, h4, he⟩ := ParsePolyLineVertex_line reader line
  rw [he]
  exact emit_noCounts st line h4 hl

theorem polyline_step_noCounts (st : PolyLineState) (r : Record)
    (hl : NoCountsWithoutIndices st.line) :
    NoCountsWithoutIndices (ParsePolyLine.step st r).line := by
  unfold ParsePolyLine.step
  split_ifs <;> exact hl

theorem ParsePolyLine_loop_noCounts (reader : LineReader) (st : PolyLineState)
    (hl : NoCountsWithoutIndices st.line) :
    NoCountsWithoutIndices (ParsePolyLine.loop reader st).2.line := by
  induction reader, st using ParsePolyLine.loop.induct with
  | case1 st => rw [ParsePolyLine.loop]; exact hl
  | case2 st r rs h => rw [ParsePolyLine.loop]; simp only [h, if_true]; exact hl
  | case3 st r rs h1 h2 res h3 =>
    rw [ParsePolyLine.loop]; simp only [h1, h2]
    simp only [res] at h3
    simp only [h3, if_true, Bool.false_eq_true, if_false]
    exact ParsePolyLineVertex_noCounts rs st.line hl
  | case4 st r rs h1 h2 res h3 ih =>
    rw [ParsePolyLine.loop]; simp only [h1, h2]
    simp only [res] at h3 ih
    simp only [h3, if_true, Bool.false_eq_true, if_false]
    exact ih (ParsePolyLineVertex_noCounts rs st.line hl)
  | case5 st r rs h1 h2 ih =>
    rw [ParsePolyLine.loop]; simp only [h1, h2, if_true, Bool.false_eq_true, if_false]
    exact ih (polyline_step_noCounts st r hl)

/-! ## Plain polylines -/

theorem pairs_foldl (m : Nat) (line : PolyLine) :
    (List.range m).foldl
        (fun l i => { l with indices := l.indices ++ [i * 2, i * 2 + 1], counts := l.counts ++ [2] })
        line =
      { line with
        indices := line.indices ++ List.range (2 * m)
        counts := line.counts ++ List.replicate m 2 } := by
  induction m with
  | zero => simp
  | succ m ih =>
    rw [List.range_succ, List.foldl_append, ih]
    simp only [List.foldl_cons, List.foldl_nil, List.append_assoc, PolyLine.mk.injEq, true_and,
      List.append_cancel_left_eq, and_true]
    constructor
    · have : 2 * (m + 1) = 2 * m + 1 + 1 := by ring
      rw [this, List.range_succ, List.range_succ]
      simp [Nat.mul_comm]
    · rw [List.replicate_succ']

/-- C3: a polyline without the polyface-mesh flag whose records gave `n ≥ 1`
positions and no indices is stored with `n/2` faces of two corners on the
indices `0, 1, ..., 2*(n/2) - 1`, followed, when the closed flag is set, by one
more face of two corners on the indices `n-1, 0`. -/
theorem plain_polyline_segments (reader : LineReader) (output : FileData) (n : Nat)
    (hflag : (ParsePolyLine.loop reader {}).2.line.flags &&& DXF_POLYLINE_FLAG_POLYFACEMESH = 0)
    (hn : (ParsePolyLine.loop reader {}).2.line.positions.length = n) (h1 : 1 ≤ n)
    (hidx : (ParsePolyLine.loop reader {}).2.line.indices = []) :
    (ParsePolyLine reader output).2 =
      setBackLine (noteReserved (pushLine output {}) (ParsePolyLine.loop reader {}).2.reserved)
        { (ParsePolyLine.loop reader {}).2.line with
          counts := List.replicate (n / 2) 2 ++
            (if (ParsePolyLine.loop reader {}).2.line.flags &&& DXF_POLYLINE_FLAG_CLOSED ≠ 0
              then [2] else [])
          indices := List.range (2 * (n / 2)) ++
            (if (ParsePolyLine.loop reader {}).2.line.flags &&& DXF_POLYLINE_FLAG_CLOSED ≠ 0
              then [n - 1, 0] else []) } := by
  have hcnt : (ParsePolyLine.loop reader {}).2.line.counts = [] :=
    ParsePolyLine_loop_noCounts reader {} (fun _ => rfl) hidx
  have hfin : ParsePolyLine.finish (ParsePolyLine.loop reader {}).2.line =
      some (ParsePolyLine.segments (ParsePolyLine.loop reader {}).2.line) := by
    simp [ParsePolyLine.finish, hflag, hidx, hcnt]
  unfold ParsePolyLine
  simp only [hfin]
  congr 1
  unfold ParsePolyLine.segments ParsePolyLine.pairs
  rw [pairs_foldl]
  have hs : sizeMinusOne n = n - 1 := by
    unfold sizeMinusOne
    have : n ≠ 0 := by omega
    simp [this]
  simp only [hn, hidx, hcnt, List.nil_append, hs]
  split <;> simp

theorem sampleClosedSquare_loop :
    (ParsePolyLine.loop sampleClosedSquare {}).2.line =
      { positions := [⟨0, 0, 0⟩, ⟨1, 0, 0⟩, ⟨1, 1, 0⟩, ⟨0, 1, 0⟩]
        colors := [AI_DXF_DEFAULT_COLOR, AI_DXF_DEFAULT_COLOR, AI_DXF_DEFAULT_COLOR,
          AI_DXF_DEFAULT_COLOR]
        flags := 1
        layer := "L" } := by
  simp [sampleClosedSquare, ParsePolyLine.loop, ParsePolyLine.step, ParsePolyLineVertex,
    ParsePolyLineVertex.loop, ParsePolyLineVertex.step, ParsePolyLineVertex.emit,
    VertexState.cnti, toUnsigned, GroupCode_XComp, GroupCode_YComp, GroupCode_ZComp,
    Record.Is, LineReader.Is]

theorem sampleClosedSquare_reserved :
    (ParsePolyLine.loop sampleClosedSquare {}).2.reserved = [] := by
  simp [sampleClosedSquare, ParsePolyLine.loop, ParsePolyLine.step, ParsePolyLineVertex,
    ParsePolyLineVertex.loop, ParsePolyLineVertex.step, ParsePolyLineVertex.emit,
    VertexState.cnti, toUnsigned, GroupCode_XComp, GroupCode_YComp, GroupCode_ZComp,
    Record.Is, LineReader.Is]

theorem plain_polyline_segments_witness :
    (ParsePolyLine sampleClosedSquare { blocks := [{}] }).2 =
      { blocks := [{ lines := [
        { positions := [⟨0, 0, 0⟩, ⟨1, 0, 0⟩, ⟨1, 1, 0⟩, ⟨0, 1, 0⟩]
          colors := [AI_DXF_DEFAULT_COLOR, AI_DXF_DEFAULT_COLOR, AI_DXF_DEFAULT_COLOR,
            AI_DXF_DEFAULT_COLOR]
          counts := [2, 2, 2]
          indices := [0, 1, 2, 3, 3, 0]
          flags := 1
          layer := "L" }] }] } :=
  (plain_polyline_segments sampleClosedSquare { blocks := [{}] } 4
    (by rw [sampleClosedSquare_loop]; decide)
    (by rw [sampleClosedSquare_loop]; rfl) (by decide)
    (by rw [sampleClosedSquare_loop])).trans
    (by
      rw [sampleClosedSquare_loop, sampleClosedSquare_reserved]
      simp [setBackLine, pushLine, modifyBack, noteReserved, List.range, List.range.loop,
        List.replicate, DXF_POLYLINE_FLAG_CLOSED])

/-! ## Faces of a mesh -/

theorem consecutiveFaces_append (a b : List Nat) (s : Nat) :
    consecutiveFaces (a ++ b) s = consecutiveFaces a s ++ consecutiveFaces b (s + a.sum) := by
  induction a generalizing s with
  | nil => simp [consecutiveFaces]
  | cons x xs iha =>
    rw [List.cons_append]
    simp only [consecutiveFaces, iha, List.sum_cons, Nat.add_assoc, List.cons_append]

theorem consecutiveFaces_length (a : List Nat) (s : Nat) :
    (consecutiveFaces a s).length = a.length := by
  induction a generalizing s with
  | nil => simp [consecutiveFaces]
  | cons x xs iha => simp [consecutiveFaces, iha]

theorem corners_ok (pl : PolyLine) (n : Nat) (it face : List Nat) (st : MeshBuild)
    (hn : n ≤ it.length)
    (hr : ∀ i ∈ it.take n, i < pl.positions.length ∧ i < pl.colors.length) :
    ConvertMeshes.corners pl n it face st =
      Except.ok (it.drop n, face ++ List.range' st.overall_indices n,
        { st with
          verts := st.verts ++ (it.take n).map (fun i => pl.positions.getD i {})
          colors := st.colors ++ (it.take n).map (fun i => pl.colors.getD i {})
          overall_indices := st.overall_indices + n }) := by
  induction n generalizing it face st with
  | zero => simp [ConvertMeshes.corners]
  | succ n ih =>
    cases it with
    | nil => simp at hn
    | cons idx it1 =>
      have hidx : idx < pl.positions.length := (hr idx (by simp)).1
      have hidc : idx < pl.colors.length := (hr idx (by simp)).2
      simp only [ConvertMeshes.corners, ge_iff_le, Nat.not_le.mpr hidx, if_false,
        List.getElem?_eq_getElem hidx, List.getElem?_eq_getElem hidc]
      rw [ih it1 _ _ (by simpa using hn) (fun i hi => hr i (by simp [hi]))]
      simp only [List.drop_succ_cons, List.take_succ_cons, List.map_cons, List.append_assoc,
        List.singleton_append, List.range'_succ, List.getD_eq_getElem?_getD,
        List.getElem?_eq_getElem hidx, List.getElem?_eq_getElem hidc, Option.getD_some]
      simp [Nat.add_assoc]
      omega

theorem corners_inv (pl : PolyLine) (n : Nat) (it face : List Nat) (st : MeshBuild)
    (r : List Nat × List Nat × MeshBuild)
    (h : ConvertMeshes.corners pl n it face st = Except.ok r) :
    n ≤ it.length ∧ ∀ i ∈ it.take n, i < pl.positions.length ∧ i < pl.colors.length := by
  induction n generalizing it face st with
  | zero => simp
  | succ n ih =>
    cases it with
    | nil => simp [ConvertMeshes.corners] at h
    | cons idx it1 =>
      simp only [ConvertMeshes.corners] at h
      split at h
      · cases h
      · rename_i hidx
        have hidx1 : idx < pl.positions.length := Nat.lt_of_not_le hidx
        split at h
        · rename_i v c hv hc
          have hidc : idx < pl.colors.length := by
            by_contra hcon
            rw [List.getElem?_eq_none (Nat.le_of_not_lt hcon)] at hc
            cases hc
          obtain ⟨h1, h2⟩ := ih _ _ _ h
          refine ⟨by simpa using h1, ?_⟩
          intro i hi
          simp only [List.take_succ_cons, List.mem_cons] at hi
          rcases hi with hi | hi
          · subst hi; exact ⟨hidx1, hidc⟩
          · exact h2 i hi
        · cases h

theorem corners_oob (pl : PolyLine) (hc : pl.colors.length = pl.positions.length) (n : Nat)
    (it face : List Nat) (st : MeshBuild) (hn : n ≤ it.length)
    (hr : ∃ i ∈ it.take n, pl.positions.length ≤ i) :
    ConvertMeshes.corners pl n it face st =
      Except.error (ImportError.deadly "DXF: vertex index out of bounds") := by
  induction n generalizing it face st with
  | zero => simp at hr
  | succ n ih =>
    cases it with
    | nil => simp at hn
    | cons idx it1 =>
      by_cases hidx : pl.positions.length ≤ idx
      · simp [ConvertMeshes.corners, hidx]
      · have hidx1 : idx < pl.positions.length := Nat.lt_of_not_le hidx
        have hidc : idx < pl.colors.length := by rw [hc]; exact hidx1
        simp only [ConvertMeshes.corners, ge_iff_le, hidx, if_false,
          List.getElem?_eq_getElem hidx1, List.getElem?_eq_getElem hidc]
        apply ih it1 _ _ (by simpa using hn)
        obtain ⟨i, hi, hbad⟩ := hr
        simp only [List.take_succ_cons, List.mem_cons] at hi
        rcases hi with h | h
        · subst h; exact absurd hbad hidx
        · exact ⟨i, h, hbad⟩

theorem take_sum_cons (c : Nat) (counts it : List Nat) :
    it.take (c + counts.sum) = it.take c ++ (it.drop c).take counts.sum := by
  rw [List.take_add]

theorem faces_ok (pl : PolyLine) (counts it : List Nat) (st : MeshBuild)
    (hs : counts.sum ≤ it.length)
    (hr : ∀ i ∈ it.take counts.sum, i < pl.positions.length ∧ i < pl.colors.length) :
    ConvertMeshes.faces pl counts it st =
      Except.ok
        { verts := st.verts ++ (it.take counts.sum).map (fun i => pl.positions.getD i {})
          colors := st.colors ++ (it.take counts.sum).map (fun i => pl.colors.getD i {})
          faces := st.faces ++ consecutiveFaces counts st.overall_indices
          prims := counts.foldl (fun p c => p ||| primitiveBit c) st.prims
          overall_indices := st.overall_indices + counts.sum } := by
  induction counts generalizing it st with
  | nil => simp [ConvertMeshes.faces, consecutiveFaces]
  | cons c counts ih =>
    simp only [List.sum_cons] at hs hr
    rw [take_sum_cons] at hr
    have hle : c ≤ it.length := by omega
    simp only [ConvertMeshes.faces]
    rw [corners_ok pl c it [] st hle (fun i hi => hr i (List.mem_append_left _ hi))]
    simp only
    rw [ih (it.drop c) _ (by simp; omega) (fun i hi => hr i (List.mem_append_right _ hi))]
    simp only [List.nil_append, consecutiveFaces, List.foldl_cons, List.append_assoc,
      List.singleton_append, ← List.map_append, List.sum_cons, take_sum_cons, Nat.add_assoc]

theorem faces_inv (pl : PolyLine) (counts it : List Nat) (st r : MeshBuild)
    (h : ConvertMeshes.faces pl counts it st = Except.ok r) :
    counts.sum ≤ it.length ∧
      ∀ i ∈ it.take counts.sum, i < pl.positions.length ∧ i < pl.colors.length := by
  induction counts generalizing it st with
  | nil => simp
  | cons c counts ih =>
    simp only [ConvertMeshes.faces] at h
    split at h
    · cases h
    · rename_i it1 face st1 hcor
      obtain ⟨h1, h2⟩ := corners_inv pl c it [] st _ hcor
      rw [corners_ok pl c it [] st h1 h2] at hcor
      injection hcor with hcor
      injection hcor with hit hrest
      subst hit
      obtain ⟨h3, h4⟩ := ih _ _ h
      simp only [List.length_drop] at h3
      refine ⟨by simp only [List.sum_cons]; omega, ?_⟩
      intro i hi
      simp only [List.sum_cons, take_sum_cons, List.mem_append] at hi
      rcases hi with hi | hi
      · exact h2 i hi
      · exact h4 i hi

theorem faces_oob (pl : PolyLine) (hc : pl.colors.length = pl.positions.length)
    (counts it : List Nat) (st : MeshBuild) (hs : counts.sum = it.length)
    (hr : ∃ i ∈ it, pl.positions.length ≤ i) :
    ConvertMeshes.faces pl counts it st =
      Except.error (ImportError.deadly "DXF: vertex index out of bounds") := by
  induction counts generalizing it st with
  | nil =>
    have : it = [] := List.length_eq_zero.mp (by simpa using hs.symm)
    subst this
    simp at hr
  | cons c counts ih =>
    simp only [List.sum_cons] at hs
    have hle : c ≤ it.length := by omega
    simp only [ConvertMeshes.faces]
    by_cases hbad : ∃ i ∈ it.take c, pl.positions.length ≤ i
    · rw [corners_oob pl hc c it [] st hle hbad]
    · have hgood : ∀ i ∈ it.take c, i < pl.positions.length ∧ i < pl.colors.length := by
        intro i hi
        have : i < pl.positions.length := by
          by_contra hcon
          exact hbad ⟨i, hi, Nat.le_of_not_lt hcon⟩
        exact ⟨this, by rw [hc]; exact this⟩
      rw [corners_ok pl c it [] st hle hgood]
      simp only
      apply ih (it.drop c) _ (by simp; omega)
      obtain ⟨i, hi, hi2⟩ := hr
      rw [← List.take_append_drop c it, List.mem_append] at hi
      rcases hi with h | h
      · exact absurd hi2 (Nat.not_le.mpr (hgood i h).1)
      · exact ⟨i, h, hi2⟩

theorem lines_ok (pls : List PolyLine) (st : MeshBuild) (hs : ∀ pl ∈ pls, ReadSafe pl) :
    ConvertMeshes.lines pls st = Except.ok (walkedState pls st) := by
  induction pls generalizing st with
  | nil =>
    simp [ConvertMeshes.lines, walkedState, cornerPositions, cornerColors, allCounts,
      consecutiveFaces]
  | cons pl pls ih =>
    have hpl := hs pl (List.mem_cons_self _ _)
    simp only [ConvertMeshes.lines]
    rw [faces_ok pl pl.counts pl.indices st hpl.1 hpl.2]
    simp only
    rw [ih _ (fun p hp => hs p (List.mem_cons_of_mem _ hp))]
    simp only [walkedState, cornerPositions, cornerColors, allCounts, List.append_assoc,
      consecutiveFaces_append, List.foldl_append, List.sum_append, Nat.add_assoc, walked]

theorem lines_inv (pls : List PolyLine) (st r : MeshBuild)
    (h : ConvertMeshes.lines pls st = Except.ok r) : ∀ pl ∈ pls, ReadSafe pl := by
  induction pls generalizing st with
  | nil => simp
  | cons pl pls ih =>
    simp only [ConvertMeshes.lines] at h
    split at h
    · cases h
    · rename_i st1 hf
      intro p hp
      rcases List.mem_cons.mp hp with hp | hp
      · subst hp; exact faces_inv p p.counts p.indices st st1 hf
      · exact ih _ h p hp

theorem lines_oob (pls : List PolyLine) (st : MeshBuild)
    (hs : ∀ pl ∈ pls, pl.counts.sum = pl.indices.length ∧ pl.colors.length = pl.positions.length)
    (hr : ∃ pl ∈ pls, ∃ i ∈ pl.indices, pl.positions.length ≤ i) :
    ConvertMeshes.lines pls st =
      Except.error (ImportError.deadly "DXF: vertex index out of bounds") := by
  induction pls generalizing st with
  | nil => simp at hr
  | cons pl pls ih =>
    have hpl := hs pl (List.mem_cons_self _ _)
    simp only [ConvertMeshes.lines]
    by_cases hbad : ∃ i ∈ pl.indices, pl.positions.length ≤ i
    · rw [faces_oob pl hpl.2 pl.counts pl.indices st hpl.1 hbad]
    · have hgood : ∀ i ∈ pl.indices.take pl.counts.sum,
          i < pl.positions.length ∧ i < pl.colors.length := by
        intro i hi
        have : i < pl.positions.length := by
          by_contra hcon
          exact hbad ⟨i, List.mem_of_mem_take hi, Nat.le_of_not_lt hcon⟩
        exact ⟨this, by rw [hpl.2]; exact this⟩
      rw [faces_ok pl pl.counts pl.indices st (Nat.le_of_eq hpl.1) hgood]
      simp only
      apply ih _ (fun p hp => hs p (List.mem_cons_of_mem _ hp))
      obtain ⟨p, hp, hp2⟩ := hr
      rcases List.mem_cons.mp hp with h | h
      · subst h; exact absurd hp2 hbad
      · exact ⟨p, h, hp2⟩

theorem buildMesh_ok (name : String) (bucket : List PolyLine) (hs : ∀ pl ∈ bucket, ReadSafe pl) :
    ConvertMeshes.buildMesh name bucket = Except.ok (meshOf name bucket) := by
  unfold ConvertMeshes.buildMesh
  simp only [lines_ok bucket {} hs]
  simp [walkedState, meshOf]

theorem buildMesh_inv (name : String) (bucket : List PolyLine) (mesh : aiMesh)
    (h : ConvertMeshes.buildMesh name bucket = Except.ok mesh) : ∀ pl ∈ bucket, ReadSafe pl := by
  unfold ConvertMeshes.buildMesh at h
  simp only at h
  split at h
  · cases h
  · rename_i st hl
    exact lines_inv bucket {} st hl

theorem buildMesh_oob (name : String) (bucket : List PolyLine)
    (hs : ∀ pl ∈ bucket,
      pl.counts.sum = pl.indices.length ∧ pl.colors.length = pl.positions.length)
    (hr : ∃ pl ∈ bucket, ∃ i ∈ pl.indices, pl.positions.length ≤ i) :
    ConvertMeshes.buildMesh name bucket =
      Except.error (ImportError.deadly "DXF: vertex index out of bounds") := by
  unfold ConvertMeshes.buildMesh
  simp only [lines_oob bucket {} hs hr]

theorem allCounts_append (a b : List PolyLine) :
    allCounts (a ++ b) = allCounts a ++ allCounts b := by
  induction a with
  | nil => simp [allCounts]
  | cons x xs ih => simp [allCounts, ih]

theorem cornerPositions_append (a b : List PolyLine) :
    cornerPositions (a ++ b) = cornerPositions a ++ cornerPositions b := by
  induction a with
  | nil => simp [cornerPositions]
  | cons x xs ih => simp [cornerPositions, ih]

theorem cornerColors_append (a b : List PolyLine) :
    cornerColors (a ++ b) = cornerColors a ++ cornerColors b := by
  induction a with
  | nil => simp [cornerColors]
  | cons x xs ih => simp [cornerColors, ih]

theorem walked_length (pl : PolyLine) (h : ReadSafe pl) : (walked pl).length = pl.counts.sum := by
  simp [walked, h.1]

theorem cornerPositions_length (pls : List PolyLine) (h : ∀ p ∈ pls, ReadSafe p) :
    (cornerPositions pls).length = (allCounts pls).sum := by
  induction pls with
  | nil => simp [cornerPositions, allCounts]
  | cons x xs ih =>
    simp [cornerPositions, allCounts, walked_length x (h x (List.mem_cons_self _ _)),
      ih (fun p hp => h p (List.mem_cons_of_mem _ hp))]

theorem cornerColors_length (pls : List PolyLine) (h : ∀ p ∈ pls, ReadSafe p) :
    (cornerColors pls).length = (allCounts pls).sum := by
  induction pls with
  | nil => simp [cornerColors, allCounts]
  | cons x xs ih =>
    simp [cornerColors, allCounts, walked_length x (h x (List.mem_cons_self _ _)),
      ih (fun p hp => h p (List.mem_cons_of_mem _ hp))]

/-- C2: the mesh of a layer bucket is returned exactly when the walk over every
polyline of the bucket reads inside its vectors. In the returned mesh, for a
polyline `pl` of the bucket whose face counts add up to its number of indices
and whose indices are all below its number of positions, the face number `f`
of `pl` (`f` the number of counts before `c`) has exactly `c` corners, numbered
consecutively, and its corner `j` is a vertex of its own that carries the
position and the colour found at `indices[o + j]`, with `o` the sum of the
counts of the earlier faces of `pl`. Vertices of earlier polylines of the
bucket come first (`base`), and the mesh has one vertex and one colour per
corner. -/
theorem face_expansion (name : String) (bucket : List PolyLine) :
    ((∀ p ∈ bucket, ReadSafe p) ↔ ∃ mesh, ConvertMeshes.buildMesh name bucket = Except.ok mesh) ∧
    ∀ (mesh : aiMesh) (pre post : List PolyLine) (pl : PolyLine) (cpre cpost : List Nat)
      (c j : Nat),
      ConvertMeshes.buildMesh name bucket = Except.ok mesh →
      bucket = pre ++ pl :: post →
      pl.counts.sum = pl.indices.length →
      (∀ i ∈ pl.indices, i < pl.positions.length) →
      pl.counts = cpre ++ c :: cpost →
      j < c →
      ∃ (idx : Nat) (v : aiVector3D) (col : aiColor4D),
        pl.indices[cpre.sum + j]? = some idx ∧
        pl.positions[idx]? = some v ∧
        pl.colors[idx]? = some col ∧
        mesh.mFaces[(allCounts pre).length + cpre.length]? =
          some { mIndices := List.range' ((allCounts pre).sum + cpre.sum) c } ∧
        mesh.mVertices[(allCounts pre).sum + cpre.sum + j]? = some v ∧
        mesh.mColors[(allCounts pre).sum + cpre.sum + j]? = some col ∧
        mesh.mVertices.length = (allCounts bucket).sum ∧
        mesh.mColors.length = (allCounts bucket).sum := by
  constructor
  · constructor
    · intro h; exact ⟨_, buildMesh_ok name bucket h⟩
    · rintro ⟨mesh, h⟩; exact buildMesh_inv name bucket mesh h
  · intro mesh pre post pl cpre cpost c j hmesh hb hsum hrange hcounts hj
    have hsafe := buildMesh_inv name bucket mesh hmesh
    have hm : mesh = meshOf name bucket := by
      have := buildMesh_ok name bucket hsafe
      rw [hmesh] at this
      injection this
    have hpre : ∀ p ∈ pre, ReadSafe p := fun p hp => hsafe p (by rw [hb]; simp [hp])
    have hpl : ReadSafe pl := hsafe pl (by rw [hb]; simp)
    have hw : walked pl = pl.indices := by
      simp [walked, hsum]
    have hsumc : pl.counts.sum = cpre.sum + (c + cpost.sum) := by
      rw [hcounts]; simp
    have hlt : cpre.sum + j < pl.indices.length := by omega
    have hidx : pl.indices[cpre.sum + j] ∈ pl.indices := List.getElem_mem _
    have hp1 : pl.indices[cpre.sum + j] < pl.positions.length := hrange _ hidx
    have hc1 : pl.indices[cpre.sum + j] < pl.colors.length := (hpl.2 _ (by rw [hw]; exact hidx)).2
    refine ⟨pl.indices[cpre.sum + j], pl.positions[pl.indices[cpre.sum + j]],
      pl.colors[pl.indices[cpre.sum + j]], List.getElem?_eq_getElem hlt,
      List.getElem?_eq_getElem hp1, List.getElem?_eq_getElem hc1, ?_, ?_, ?_, ?_, ?_⟩
    · subst hm
      simp only [meshOf, hb, allCounts_append, allCounts, hcounts, consecutiveFaces_append,
        List.append_assoc, List.cons_append]
      rw [List.getElem?_append_right (by simp [consecutiveFaces_length])]
      simp only [consecutiveFaces_length, Nat.add_sub_cancel_left]
      rw [List.getElem?_append_right (by simp [consecutiveFaces_length])]
      simp [consecutiveFaces_length, consecutiveFaces]
    · subst hm
      simp only [meshOf, hb, cornerPositions_append, cornerPositions, hw]
      rw [List.getElem?_append_right (by rw [cornerPositions_length pre hpre]; omega)]
      rw [cornerPositions_length pre hpre]
      have e : (allCounts pre).sum + cpre.sum + j - (allCounts pre).sum = cpre.sum + j := by omega
      rw [e, List.getElem?_append_left (by simpa using hlt)]
      simp [List.getElem?_eq_getElem hlt, List.getD_eq_getElem?_getD,
        List.getElem?_eq_getElem hp1]
    · subst hm
      simp only [meshOf, hb, cornerColors_append, cornerColors, hw]
      rw [List.getElem?_append_right (by rw [cornerColors_length pre hpre]; omega)]
      rw [cornerColors_length pre hpre]
      have e : (allCounts pre).sum + cpre.sum + j - (allCounts pre).sum = cpre.sum + j := by omega
      rw [e, List.getElem?_append_left (by simpa using hlt)]
      simp [List.getElem?_eq_getElem hlt, List.getD_eq_getElem?_getD,
        List.getElem?_eq_getElem hc1]
    · subst hm
      exact cornerPositions_length bucket hsafe
    · subst hm
      exact cornerColors_length bucket hsafe

/-! ## Buckets by layer -/

theorem mapFind_some {layers : List (String × Nat)} {name : String} {idx : Nat}
    (h : mapFind layers name = some idx) : (name, idx) ∈ layers := by
  unfold mapFind at h
  cases hf : layers.find? (fun e => decide (e.1 = name)) with
  | none => simp [hf] at h
  | some e =>
    simp only [hf, Option.map_some', Option.some.injEq] at h
    have h1 := List.find?_some hf
    have h2 := List.mem_of_find?_eq_some hf
    simp only [decide_eq_true_eq] at h1
    rw [← h1, ← h]
    exact h2

theorem mapFind_none {layers : List (String × Nat)} {name : String}
    (h : mapFind layers name = none) (idx : Nat) : (name, idx) ∉ layers := by
  unfold mapFind at h
  simp only [Option.map_eq_none', List.find?_eq_none, decide_eq_true_eq] at h
  intro hm
  exact h _ hm rfl

theorem mapInsert_perm (layers : List (String × Nat)) (name : String) (v : Nat)
    (h : ∀ idx, (name, idx) ∉ layers) : (mapInsert layers name v).Perm ((name, v) :: layers) := by
  induction layers with
  | nil => simp [mapInsert]
  | cons e es ih =>
    simp only [mapInsert]
    split
    · exact List.Perm.refl _
    · split
      · rename_i heq
        exfalso
        exact h e.2 (by rw [heq]; simp)
      · have := ih (fun idx hm => h idx (List.mem_cons_of_mem _ hm))
        exact (List.Perm.cons e this).trans (List.Perm.swap _ _ _)

theorem layerBucket_snoc (L : List PolyLine) (pl : PolyLine) (name : String) :
    layerBucket (L ++ [pl]) name =
      if pl.positions ≠ [] ∧ pl.layer = name then layerBucket L name ++ [pl]
      else layerBucket L name := by
  unfold layerBucket
  rw [List.filter_append]
  by_cases h : pl.positions ≠ [] ∧ pl.layer = name
  · simp [h, List.filter_cons]
  · simp only [h, if_false]
    simp [List.filter_cons, h]

theorem nodup_getElem?_inj {D : List String} (hD : D.Nodup) {i j : Nat} {name : String}
    (hi : D[i]? = some name) (hj : D[j]? = some name) : i = j := by
  obtain ⟨hi1, hi2⟩ := List.getElem?_eq_some_iff.mp hi
  obtain ⟨hj1, hj2⟩ := List.getElem?_eq_some_iff.mp hj
  exact (List.Nodup.getElem_inj_iff hD).mp (hi2.trans hj2.symm)

theorem bucketOne_inv (bk : Buckets) (D : List String) (L : List PolyLine) (pl : PolyLine)
    (h : BucketInv bk D L) :
    BucketInv (ConvertMeshes.bucketOne bk pl)
      (if pl.positions ≠ [] ∧ pl.layer ∉ D then D ++ [pl.layer] else D) (L ++ [pl]) := by
  by_cases hp : pl.positions = []
  · have hb : ConvertMeshes.bucketOne bk pl = bk := by
      simp [ConvertMeshes.bucketOne, hp]
    rw [hb]
    simp only [hp, ne_eq, not_true_eq_false, false_and, if_false]
    refine { h with corr := ?_, seen := ?_ }
    · intro idx name hn
      rw [layerBucket_snoc]
      simp [hp, h.corr idx name hn]
    · intro p hpm hpp
      rcases List.mem_append.mp hpm with hm | hm
      · exact h.seen p hm hpp
      · simp only [List.mem_singleton] at hm
        subst hm
        exact absurd hp hpp
  · have hlen : pl.positions.length ≠ 0 := fun h0 => hp (List.length_eq_zero.mp h0)
    by_cases hin : pl.layer ∈ D
    · obtain ⟨i0, hi0⟩ := List.getElem?_of_mem hin
      have hmem0 : (pl.layer, i0) ∈ bk.layers := (h.layers _ _).mpr hi0
      cases hf : mapFind bk.layers pl.layer with
      | none => exact absurd hmem0 (mapFind_none hf i0)
      | some idx =>
        have hidx : D[idx]? = some pl.layer := (h.layers _ _).mp (mapFind_some hf)
        have hb : ConvertMeshes.bucketOne bk pl =
            { bk with corr := modifyAt (fun pv => pv ++ [pl]) bk.corr idx } := by
          simp [ConvertMeshes.bucketOne, hlen, hf]
        rw [hb]
        simp only [hin, not_true_eq_false, and_false, if_false]
        refine { nodup := h.nodup, cur := h.cur, num := h.num, len := ?_,
                 idxNodup := h.idxNodup, layers := h.layers, corr := ?_, seen := ?_ }
        · simp [modifyAt_length, h.len]
        · intro j name hn
          simp only [modifyAt_getElem?, layerBucket_snoc]
          by_cases hj : j = idx
          · subst hj
            have hname : name = pl.layer := by
              rw [hn] at hidx; exact Option.some.inj hidx
            subst hname
            simp [hp, h.corr j _ hn]
          · have hname : pl.layer ≠ name := by
              intro he
              subst he
              exact hj (nodup_getElem?_inj h.nodup hn hidx)
            simp [hj, hname, h.corr j name hn]
        · intro p hpm hpp
          rcases List.mem_append.mp hpm with hm | hm
          · exact h.seen p hm hpp
          · simp only [List.mem_singleton] at hm
            subst hm
            exact hin
    · have hnone : mapFind bk.layers pl.layer = none := by
        cases hf : mapFind bk.layers pl.layer with
        | none => rfl
        | some idx =>
          exact absurd (List.getElem?_mem ((h.layers _ _).mp (mapFind_some hf))) hin
      have hb : ConvertMeshes.bucketOne bk pl =
          { layers := mapInsert bk.layers pl.layer bk.cur
            corr := bk.corr ++ [[pl]]
            cur := bk.cur + 1
            mNumMeshes := bk.mNumMeshes + 1 } := by
        simp [ConvertMeshes.bucketOne, hlen, hnone]
      have hperm := mapInsert_perm bk.layers pl.layer bk.cur (mapFind_none hnone)
      rw [hb]
      simp only [ne_eq, hp, not_false_eq_true, hin, and_self, if_true]
      refine { nodup := ?_, cur := ?_, num := ?_, len := ?_, idxNodup := ?_, layers := ?_,
               corr := ?_, seen := ?_ }
      · exact List.Nodup.append h.nodup (List.nodup_singleton _) (by simpa using hin)
      · simp [h.cur]
      · simp [h.num]
      · simp [h.len]
      · have hp2 := hperm.map Prod.snd
        rw [hp2.nodup_iff]
        simp only [List.map_cons, List.nodup_cons]
        refine ⟨?_, h.idxNodup⟩
        intro hm
        obtain ⟨e, he, he2⟩ := List.mem_map.mp hm
        have : D[e.2]? = some e.1 := (h.layers e.1 e.2).mp he
        have hlt := (List.getElem?_eq_some_iff.mp this).1
        rw [he2, h.cur] at hlt
        exact Nat.lt_irrefl _ hlt
      · intro name idx
        rw [hperm.mem_iff, List.mem_cons, h.layers, h.cur]
        constructor
        · rintro (heq | hm)
          · injection heq with h1 h2
            subst h1; subst h2
            simp
          · rw [List.getElem?_append_left (List.getElem?_eq_some_iff.mp hm).1]
            exact hm
        · intro hm
          by_cases hlt : idx < D.length
          · rw [List.getElem?_append_left hlt] at hm
            exact Or.inr hm
          · left
            rw [List.getElem?_append_right (Nat.le_of_not_lt hlt)] at hm
            have hz : idx - D.length = 0 := by
              by_contra hne
              rw [List.getElem?_eq_none (by simp; omega)] at hm
              cases hm
            rw [hz] at hm
            simp only [List.getElem?_cons_zero, Option.some.injEq] at hm
            rw [← hm]
            congr 1
            omega
      · intro idx name hm
        rw [layerBucket_snoc]
        by_cases hlt : idx < D.length
        · rw [List.getElem?_append_left hlt] at hm
          have hne : pl.layer ≠ name := by
            intro he; subst he
            exact hin (List.getElem?_mem hm)
          rw [List.getElem?_append_left (by rw [h.len]; exact hlt)]
          simp [hne, h.corr idx name hm]
        · rw [List.getElem?_append_right (Nat.le_of_not_lt hlt)] at hm
          have hz : idx - D.length = 0 := by
            by_contra hne
            rw [List.getElem?_eq_none (by simp; omega)] at hm
            cases hm
          rw [hz] at hm
          simp only [List.getElem?_cons_zero, Option.some.injEq] at hm
          subst hm
          have hidx : idx = D.length := by omega
          subst hidx
          rw [List.getElem?_append_right (by rw [h.len])]
          have hempty : layerBucket L pl.layer = [] := by
            unfold layerBucket
            rw [List.filter_eq_nil_iff]
            intro p hpm
            simp only [decide_eq_true_eq, not_and]
            intro hpp he
            exact hin (he ▸ h.seen p hpm hpp)
          simp [h.len, hp, hempty]
      · intro p hpm hpp
        rcases List.mem_append.mp hpm with hm | hm
        · exact List.mem_append_left _ (h.seen p hm hpp)
        · simp only [List.mem_singleton] at hm
          subst hm
          simp

theorem firstSeenLayers_snoc (L : List PolyLine) (pl : PolyLine) :
    firstSeenLayers (L ++ [pl]) =
      if pl.positions ≠ [] ∧ pl.layer ∉ firstSeenLayers L then firstSeenLayers L ++ [pl.layer]
      else firstSeenLayers L := by
  simp [firstSeenLayers, List.foldl_append]

theorem bucket_inv_aux (more L : List PolyLine) (bk : Buckets)
    (h : BucketInv bk (firstSeenLayers L) L) :
    BucketInv (more.foldl ConvertMeshes.bucketOne bk) (firstSeenLayers (L ++ more))
      (L ++ more) := by
  induction more generalizing L bk with
  | nil => simpa using h
  | cons pl more ih =>
    have h1 := bucketOne_inv bk _ L pl h
    rw [← firstSeenLayers_snoc] at h1
    have := ih (L ++ [pl]) _ h1
    simpa using this

/-- After the first loop of `ConvertMeshes` the buckets are those of the layer
names in the order of first appearance. -/
theorem bucket_inv (lines : List PolyLine) :
    BucketInv (ConvertMeshes.bucket lines) (firstSeenLayers lines) lines := by
  have h0 : BucketInv {} (firstSeenLayers []) [] := by
    refine { nodup := ?_, cur := rfl, num := rfl, len := rfl, idxNodup := ?_, layers := ?_,
             corr := ?_, seen := ?_ }
    · simp [firstSeenLayers]
    · simp
    · intro name idx; simp [firstSeenLayers]
    · intro idx name hm; simp [firstSeenLayers] at hm
    · intro p hp; simp at hp
  have := bucket_inv_aux lines [] {} h0
  simpa [ConvertMeshes.bucket] using this

/-! ## The mesh array -/

theorem meshes_ok (corr : List (List PolyLine)) (layers : List (String × Nat))
    (mMeshes : List (Option aiMesh))
    (h : ∀ e ∈ layers, ∀ pl ∈ corr.getD e.2 [], ReadSafe pl) :
    ConvertMeshes.meshes corr layers mMeshes = Except.ok (storedMeshes corr layers mMeshes) := by
  induction layers generalizing mMeshes with
  | nil => simp [ConvertMeshes.meshes, storedMeshes]
  | cons e es ih =>
    simp only [ConvertMeshes.meshes]
    rw [buildMesh_ok e.1 _ (h e (List.mem_cons_self _ _))]
    simp only
    rw [ih _ (fun x hx => h x (List.mem_cons_of_mem _ hx))]
    simp [storedMeshes]

theorem meshes_inv (corr : List (List PolyLine)) (layers : List (String × Nat))
    (mMeshes r : List (Option aiMesh))
    (h : ConvertMeshes.meshes corr layers mMeshes = Except.ok r) :
    ∀ e ∈ layers, ∀ pl ∈ corr.getD e.2 [], ReadSafe pl := by
  induction layers generalizing mMeshes with
  | nil => simp
  | cons e es ih =>
    simp only [ConvertMeshes.meshes] at h
    split at h
    · cases h
    · rename_i mesh hb
      intro x hx
      rcases List.mem_cons.mp hx with hx | hx
      · subst hx; exact buildMesh_inv _ _ mesh hb
      · exact ih _ h x hx

theorem meshes_oob (corr : List (List PolyLine)) (layers : List (String × Nat))
    (mMeshes : List (Option aiMesh))
    (hs : ∀ e ∈ layers, ∀ pl ∈ corr.getD e.2 [],
      pl.counts.sum = pl.indices.length ∧ pl.colors.length = pl.positions.length)
    (hr : ∃ e ∈ layers, ∃ pl ∈ corr.getD e.2 [], ∃ i ∈ pl.indices, pl.positions.length ≤ i) :
    ConvertMeshes.meshes corr layers mMeshes =
      Except.error (ImportError.deadly "DXF: vertex index out of bounds") := by
  induction layers generalizing mMeshes with
  | nil => simp at hr
  | cons e es ih =>
    have he := hs e (List.mem_cons_self _ _)
    simp only [ConvertMeshes.meshes]
    by_cases hbad : ∃ pl ∈ corr.getD e.2 [], ∃ i ∈ pl.indices, pl.positions.length ≤ i
    · rw [buildMesh_oob e.1 _ he hbad]
    · have hgood : ∀ pl ∈ corr.getD e.2 [], ReadSafe pl := by
        intro pl hpl
        refine ⟨Nat.le_of_eq (he pl hpl).1, ?_⟩
        intro i hi
        have hi2 : i ∈ pl.indices := List.mem_of_mem_take hi
        have : i < pl.positions.length := by
          by_contra hcon
          exact hbad ⟨pl, hpl, i, hi2, Nat.le_of_not_lt hcon⟩
        exact ⟨this, by rw [(he pl hpl).2]; exact this⟩
      rw [buildMesh_ok e.1 _ hgood]
      simp only
      apply ih _ (fun x hx => hs x (List.mem_cons_of_mem _ hx))
      obtain ⟨x, hx, hx2⟩ := hr
      rcases List.mem_cons.mp hx with h | h
      · subst h; exact absurd hx2 hbad
      · exact ⟨x, h, hx2⟩

theorem storedMeshes_length (corr : List (List PolyLine)) (layers : List (String × Nat))
    (mMeshes : List (Option aiMesh)) :
    (storedMeshes corr layers mMeshes).length = mMeshes.length := by
  induction layers generalizing mMeshes with
  | nil => simp [storedMeshes]
  | cons e es ih =>
    have := ih (mMeshes.set e.2 (some (meshOf e.1 (corr.getD e.2 []))))
    simpa [storedMeshes] using this

theorem storedMeshes_other (corr : List (List PolyLine)) (layers : List (String × Nat))
    (mMeshes : List (Option aiMesh)) (j : Nat) (h : j ∉ layers.map Prod.snd) :
    (storedMeshes corr layers mMeshes)[j]? = mMeshes[j]? := by
  induction layers generalizing mMeshes with
  | nil => simp [storedMeshes]
  | cons e es ih =>
    simp only [List.map_cons, List.mem_cons, not_or] at h
    have := ih (mMeshes.set e.2 (some (meshOf e.1 (corr.getD e.2 [])))) h.2
    simp only [storedMeshes, List.foldl_cons] at this ⊢
    rw [this, List.getElem?_set_ne (fun hc => h.1 hc.symm)]

theorem storedMeshes_get (corr : List (List PolyLine)) (layers : List (String × Nat))
    (mMeshes : List (Option aiMesh)) (e : String × Nat) (he : e ∈ layers)
    (hn : (layers.map Prod.snd).Nodup) (hlt : e.2 < mMeshes.length) :
    (storedMeshes corr layers mMeshes)[e.2]? = some (some (meshOf e.1 (corr.getD e.2 []))) := by
  induction layers generalizing mMeshes with
  | nil => simp at he
  | cons x xs ih =>
    simp only [List.map_cons, List.nodup_cons] at hn
    rcases List.mem_cons.mp he with h | h
    · subst h
      have := storedMeshes_other corr xs (mMeshes.set e.2 (some (meshOf e.1 (corr.getD e.2 []))))
        e.2 hn.1
      simp only [storedMeshes, List.foldl_cons] at this ⊢
      rw [this]
      simp [List.getElem?_set, hlt]
    · have := ih (mMeshes.set x.2 (some (meshOf x.1 (corr.getD x.2 [])))) h hn.2
        (by simpa using hlt)
      simpa [storedMeshes] using this

theorem layerBucket_mem {lines : List PolyLine} {name : String} {pl : PolyLine}
    (h : pl ∈ layerBucket lines name) : pl ∈ lines ∧ pl.positions ≠ [] ∧ pl.layer = name := by
  unfold layerBucket at h
  rw [List.mem_filter] at h
  simp only [decide_eq_true_eq] at h
  exact ⟨h.1, h.2.1, h.2.2⟩

theorem mem_layerBucket {lines : List PolyLine} {pl : PolyLine} (h : pl ∈ lines)
    (hp : pl.positions ≠ []) : pl ∈ layerBucket lines pl.layer := by
  unfold layerBucket
  rw [List.mem_filter]
  exact ⟨h, by simp [hp]⟩

/-- The bucket of an entry of `layers` after the first loop. -/
theorem bucket_entry (lines : List PolyLine) (e : String × Nat)
    (he : e ∈ (ConvertMeshes.bucket lines).layers) :
    (ConvertMeshes.bucket lines).corr.getD e.2 [] = layerBucket lines e.1 ∧
      (firstSeenLayers lines)[e.2]? = some e.1 := by
  have inv := bucket_inv lines
  have h1 : (firstSeenLayers lines)[e.2]? = some e.1 := (inv.layers e.1 e.2).mp he
  have h2 := inv.corr e.2 e.1 h1
  exact ⟨by simp [List.getD_eq_getElem?_getD, h2], h1⟩

theorem firstSeenLayers_mem (lines : List PolyLine) (name : String)
    (h : name ∈ firstSeenLayers lines) :
    ∃ pl ∈ lines, pl.positions ≠ [] ∧ pl.layer = name := by
  induction lines using List.reverseRecOn with
  | nil => simp [firstSeenLayers] at h
  | append_singleton L pl ih =>
    rw [firstSeenLayers_snoc] at h
    split at h
    · rename_i hc
      rcases List.mem_append.mp h with hm | hm
      · obtain ⟨p, hp, hp2⟩ := ih hm
        exact ⟨p, List.mem_append_left _ hp, hp2⟩
      · simp only [List.mem_singleton] at hm
        exact ⟨pl, by simp, hc.1, hm.symm⟩
    · obtain ⟨p, hp, hp2⟩ := ih h
      exact ⟨p, List.mem_append_left _ hp, hp2⟩

/-- The result of `assemble` carries the mesh array unchanged. -/
theorem assemble_eq (lines : List PolyLine) :
    ConvertMeshes.assemble lines =
      if (firstSeenLayers lines).length = 0 then
        Except.error (ImportError.deadly "DXF: this file contains no 3d data")
      else
        match ConvertMeshes.meshes (ConvertMeshes.bucket lines).corr
            (ConvertMeshes.bucket lines).layers
            (List.replicate (firstSeenLayers lines).length none) with
        | Except.error e => Except.error e
        | Except.ok mMeshes =>
          Except.ok (GenerateMaterials (GenerateHierarchy
            { mNumMeshes := (firstSeenLayers lines).length, mMeshes := mMeshes })) := by
  unfold ConvertMeshes.assemble
  simp only [(bucket_inv lines).num]
  try rfl

theorem scene_meshes (pScene : aiScene) :
    (GenerateMaterials (GenerateHierarchy pScene)).mMeshes = pScene.mMeshes ∧
    (GenerateMaterials (GenerateHierarchy pScene)).mNumMeshes = pScene.mNumMeshes := by
  unfold GenerateMaterials GenerateHierarchy
  split <;> simp

theorem assemble_buckets_safe (lines : List PolyLine)
    (h : ∀ pl ∈ lines, pl.positions ≠ [] → ReadSafe pl) :
    ∀ e ∈ (ConvertMeshes.bucket lines).layers,
      ∀ pl ∈ (ConvertMeshes.bucket lines).corr.getD e.2 [], ReadSafe pl := by
  intro e he pl hpl
  rw [(bucket_entry lines e he).1] at hpl
  obtain ⟨h1, h2, _⟩ := layerBucket_mem hpl
  exact h pl h1 h2

theorem assemble_ok_safe (lines : List PolyLine) (scene : aiScene)
    (h : ConvertMeshes.assemble lines = Except.ok scene) :
    (firstSeenLayers lines).length ≠ 0 ∧
      (∀ pl ∈ lines, pl.positions ≠ [] → ReadSafe pl) ∧
      scene = GenerateMaterials (GenerateHierarchy
        { mNumMeshes := (firstSeenLayers lines).length
          mMeshes := storedMeshes (ConvertMeshes.bucket lines).corr
            (ConvertMeshes.bucket lines).layers
            (List.replicate (firstSeenLayers lines).length none) }) := by
  rw [assemble_eq] at h
  split at h
  · cases h
  · rename_i hne
    split at h
    · cases h
    · rename_i mMeshes hm
      have hsafeB := meshes_inv _ _ _ _ hm
      have hsafe : ∀ pl ∈ lines, pl.positions ≠ [] → ReadSafe pl := by
        intro pl hpl hpos
        have inv := bucket_inv lines
        obtain ⟨idx, hidx⟩ := List.getElem?_of_mem (inv.seen pl hpl hpos)
        have he : (pl.layer, idx) ∈ (ConvertMeshes.bucket lines).layers :=
          (inv.layers _ _).mpr hidx
        refine hsafeB _ he pl ?_
        rw [(bucket_entry lines _ he).1]
        exact mem_layerBucket hpl hpos
      refine ⟨hne, hsafe, ?_⟩
      rw [meshes_ok _ _ _ hsafeB] at hm
      injection hm with hm
      injection h with h
      rw [← h, hm]

/-- C8 (amended): the meshes are ordered by the first appearance of the layer
names among the polylines that have a position. A scene is returned exactly
when there is such a polyline and every such polyline is walked safely; then
the scene has one mesh per distinct layer name, mesh `i` belongs to the `i`-th
name in the order of first appearance and is the mesh built from the polylines
of that layer in their original order. Its name is what `aiString::Set` stores
for the layer name: the layer name when that has fewer than 1024 bytes, the
empty name otherwise. The order of the names as strings plays no part: layers
A, B, A give the meshes A, B and layers B, A, B give B, A. -/
theorem layer_bucketing_order (lines : List PolyLine) :
    ((firstSeenLayers lines ≠ [] ∧ ∀ pl ∈ lines, pl.positions ≠ [] → ReadSafe pl) ↔
      ∃ scene, ConvertMeshes.assemble lines = Except.ok scene) ∧
    (∀ scene, ConvertMeshes.assemble lines = Except.ok scene →
      scene.mNumMeshes = (firstSeenLayers lines).length ∧
      scene.mMeshes.length = (firstSeenLayers lines).length ∧
      ∀ (i : Nat) (name : String), (firstSeenLayers lines)[i]? = some name →
        ∃ mesh, scene.mMeshes[i]? = some (some mesh) ∧ mesh.mName = aiString.Set name ∧
          (name.utf8ByteSize < 1024 → mesh.mName = name) ∧
          (1024 ≤ name.utf8ByteSize → mesh.mName = "") ∧
          ConvertMeshes.buildMesh name
            (lines.filter (fun pl => decide (pl.positions ≠ [] ∧ pl.layer = name))) =
              Except.ok mesh) ∧
    (∀ p1 p2 p3 : PolyLine, p1.positions ≠ [] → p2.positions ≠ [] → p3.positions ≠ [] →
      firstSeenLayers [{ p1 with layer := "A" }, { p2 with layer := "B" },
        { p3 with layer := "A" }] = ["A", "B"] ∧
      firstSeenLayers [{ p1 with layer := "B" }, { p2 with layer := "A" },
        { p3 with layer := "B" }] = ["B", "A"]) := by
  refine ⟨⟨?_, ?_⟩, ?_, ?_⟩
  · rintro ⟨hne, hsafe⟩
    rw [assemble_eq]
    have hl : (firstSeenLayers lines).length ≠ 0 := fun h => hne (List.length_eq_zero.mp h)
    simp only [hl, if_false]
    rw [meshes_ok _ _ _ (assemble_buckets_safe lines hsafe)]
    exact ⟨_, rfl⟩
  · rintro ⟨scene, h⟩
    obtain ⟨h1, h2, _⟩ := assemble_ok_safe lines scene h
    exact ⟨fun hnil => h1 (by rw [hnil]; rfl), h2⟩
  · intro scene h
    obtain ⟨h1, h2, h3⟩ := assemble_ok_safe lines scene h
    have hsc := scene_meshes
      { mNumMeshes := (firstSeenLayers lines).length
        mMeshes := storedMeshes (ConvertMeshes.bucket lines).corr
          (ConvertMeshes.bucket lines).layers
          (List.replicate (firstSeenLayers lines).length none) }
    rw [← h3] at hsc
    refine ⟨hsc.2, ?_, ?_⟩
    · rw [hsc.1]; simp [storedMeshes_length]
    · intro i name hi
      have inv := bucket_inv lines
      have he : (name, i) ∈ (ConvertMeshes.bucket lines).layers := (inv.layers _ _).mpr hi
      have hb := (bucket_entry lines _ he).1
      have hlt : i < (firstSeenLayers lines).length := (List.getElem?_eq_some_iff.mp hi).1
      refine ⟨meshOf name (layerBucket lines name), ?_, rfl, aiString_Set_short name,
        aiString_Set_long name, ?_⟩
      · rw [hsc.1]
        have := storedMeshes_get (ConvertMeshes.bucket lines).corr
          (ConvertMeshes.bucket lines).layers
          (List.replicate (firstSeenLayers lines).length none) (name, i) he inv.idxNodup
          (by simpa using hlt)
        simp only at this
        rw [this, hb]
      · apply buildMesh_ok
        intro pl hpl
        obtain ⟨h4, h5, _⟩ := layerBucket_mem hpl
        exact h2 pl h4 h5
  · intro p1 p2 p3 h1 h2 h3
    constructor <;> simp [firstSeenLayers, h1, h2, h3]

theorem index_nil_of_some (blocks : List Block) (blocks_by_name : BlockMap) (entities : Nat)
    (h : ConvertMeshes.index blocks 0 (fun _ => none) none = (blocks_by_name, some entities)) :
    blocks ≠ [] := by
  intro hb
  subst hb
  simp [ConvertMeshes.index] at h

/-- C7 (as amended): when the entity block, after the insertions are expanded,
holds a polyline with at least one position that has an index at or beyond its
number of positions, and the polylines with positions of that block have as
many indices as their face counts add up to and as many colours as positions,
`ConvertMeshes` fails with the fatal error "DXF: vertex index out of bounds"
and returns no scene. -/
theorem index_out_of_bounds_is_fatal (output : FileData) (blocks_by_name : BlockMap)
    (entities : Nat)
    (hidx : ConvertMeshes.index output.blocks 0 (fun _ => none) none =
      (blocks_by_name, some entities))
    (hsafe : ∀ pl ∈ ((ExpandBlockReferences output.blocks entities blocks_by_name).getD
        entities {}).lines,
      pl.positions ≠ [] →
        pl.counts.sum = pl.indices.length ∧ pl.colors.length = pl.positions.length)
    (hbad : ∃ pl ∈ ((ExpandBlockReferences output.blocks entities blocks_by_name).getD
        entities {}).lines,
      pl.positions ≠ [] ∧ ∃ i ∈ pl.indices, pl.positions.length ≤ i) :
    ConvertMeshes output =
      Except.error (ImportError.deadly "DXF: vertex index out of bounds") := by
  have hne := index_nil_of_some output.blocks blocks_by_name entities hidx
  unfold ConvertMeshes
  simp only [hne, if_false, hidx]
  generalize ((ExpandBlockReferences output.blocks entities blocks_by_name).getD
    entities {}).lines = lines at hsafe hbad
  obtain ⟨pl, hpl, hpos, hi⟩ := hbad
  have inv := bucket_inv lines
  have hD : (firstSeenLayers lines).length ≠ 0 := by
    intro h0
    have := inv.seen pl hpl hpos
    rw [List.length_eq_zero.mp h0] at this
    simp at this
  rw [assemble_eq]
  simp only [hD, if_false]
  obtain ⟨idx, hidx2⟩ := List.getElem?_of_mem (inv.seen pl hpl hpos)
  have he : (pl.layer, idx) ∈ (ConvertMeshes.bucket lines).layers := (inv.layers _ _).mpr hidx2
  rw [meshes_oob]
  · intro e hem p hp
    rw [(bucket_entry lines e hem).1] at hp
    obtain ⟨h1, h2, _⟩ := layerBucket_mem hp
    exact hsafe p h1 h2
  · refine ⟨_, he, pl, ?_, hi⟩
    rw [(bucket_entry lines _ he).1]
    exact mem_layerBucket hpl hpos

theorem sampleFaceWithoutPositions_parse :
    InternReadFile.loop sampleFaceWithoutPositions {} = sampleFaceWithoutPositionsData := by
  simp [sampleFaceWithoutPositions, sampleFaceWithoutPositionsData, InternReadFile_loop_cons,
    InternReadFile_loop_nil, InternReadFile.body, ParseEntities, ParseEntities_loop_cons,
    ParseEntities_loop_nil, ParseEntities.body, Record.Is, LineReader.Is, isFaceEntity,
    isSolidEntity, isSurfaceEntity, isAcShEntity,
    Parse3DFace, Parse3DFace.loop, Parse3DFace.step, Parse3DFace.emit, FaceState.vip,
    ParsePolyLine, noteReserved, ParsePolyLine.loop, ParsePolyLine.step,
      ParsePolyLine.finish,
    ParsePolyLineVertex, ParsePolyLineVertex.loop, ParsePolyLineVertex.step,
    ParsePolyLineVertex.emit, ParsePolyLineVertex.pushIndices, VertexState.cnti, toUnsigned,
    GroupCode_XComp, GroupCode_YComp, GroupCode_ZComp, pushLine, popLine, setBackLine,
    modifyBack, noteReserved, DXF_POLYLINE_FLAG_POLYFACEMESH, List.range, List.range.loop]

/-- C7 (the claim as stated fails): the file `sampleFaceWithoutPositions` is
parsed to an entity block whose second polyline has the indices `0, 0` and no
position, so each index is at or beyond its number of positions; the import
does not fail, and the scene has the single mesh of the LINE: the polyline is
dropped without an error. -/
theorem polyline_without_positions_is_dropped :
    InternReadFile.loop sampleFaceWithoutPositions {} = sampleFaceWithoutPositionsData ∧
    (∃ pl ∈ ((ExpandBlockReferences sampleFaceWithoutPositionsData.blocks 0
          (ConvertMeshes.index sampleFaceWithoutPositionsData.blocks 0 (fun _ => none) none).1).getD
          0 {}).lines,
      ∃ i ∈ pl.indices, pl.positions.length ≤ i) ∧
    (∀ available : Nat,
      (InternReadFile available sampleFaceWithoutPositions).map (fun scene => scene.mMeshes) =
        Except.ok [some
          { mName := "L"
            mVertices := [⟨0, 0, 0⟩, ⟨1, 0, 0⟩]
            mColors := [AI_DXF_DEFAULT_COLOR, AI_DXF_DEFAULT_COLOR]
            mFaces := [{ mIndices := [0, 1] }]
            mNumVertices := 2
            mNumFaces := 1
            mPrimitiveTypes := aiPrimitiveType_LINE
            mMaterialIndex := 0 }]) := by
  refine ⟨sampleFaceWithoutPositions_parse, ?_, ?_⟩
  · refine ⟨{ indices := [0, 0], counts := [2], layer := "L" }, ?_, 0, by simp, by simp⟩
    simp [sampleFaceWithoutPositionsData, ExpandBlockReferences, ExpandBlockReferences.run]
  · intro available
    unfold InternReadFile
    simp only [sampleFaceWithoutPositions_parse]
    simp [sampleFaceWithoutPositionsData, ConvertMeshes, ConvertMeshes.index,
      AI_DXF_ENTITIES_MAGIC_BLOCK, ExpandBlockReferences, ExpandBlockReferences.run,
      ConvertMeshes.assemble, ConvertMeshes.bucket, ConvertMeshes.bucketOne, mapFind, mapInsert,
      modifyAt, ConvertMeshes.meshes, ConvertMeshes.buildMesh, ConvertMeshes.lines,
      ConvertMeshes.faces, ConvertMeshes.corners, primitiveBit, GenerateHierarchy,
      GenerateMaterials, Except.map, aiPrimitiveType_LINE, aiString_Set_L]

theorem index_out_of_bounds_is_fatal_witness :
    ConvertMeshes sampleOutOfBounds =
      Except.error (ImportError.deadly "DXF: vertex index out of bounds") :=
  index_out_of_bounds_is_fatal sampleOutOfBounds
    (ConvertMeshes.index sampleOutOfBounds.blocks 0 (fun _ => none) none).1 0
    (by simp [sampleOutOfBounds, ConvertMeshes.index, AI_DXF_ENTITIES_MAGIC_BLOCK])
    (by
      intro pl hpl _
      simp [sampleOutOfBounds, ExpandBlockReferences, ExpandBlockReferences.run] at hpl
      subst hpl
      simp [sampleOutOfBoundsLine])
    (by
      refine ⟨sampleOutOfBoundsLine, ?_, by simp [sampleOutOfBoundsLine], 5,
        by simp [sampleOutOfBoundsLine], by simp [sampleOutOfBoundsLine]⟩
      simp [sampleOutOfBounds, ExpandBlockReferences, ExpandBlockReferences.run])

/-! ## Face definition records of a polyface mesh -/

/-- C1 (evaluation of the code): a VERTEX record with the single index slot
`71 = 1` yields a face of two corners `0, 0`, not of one corner; a record with
the three slots `1, 2, -3` yields the four corners `0, 0, 1, 1` and loses the
third corner. Every slot is stored twice and the slots after the second are
ignored. -/
theorem ParsePolyLineVertex_stores_each_slot_twice :
    ParsePolyLineVertex
        [⟨71, "1", 1, 1, 1⟩, ⟨0, "SEQEND", 0, 0, 0⟩] {} =
      ([⟨0, "SEQEND", 0, 0, 0⟩], { counts := [2], indices := [0, 0] }) ∧
    ParsePolyLineVertex
        [⟨71, "1", 1, 1, 1⟩, ⟨72, "2", 2, 2, 2⟩, ⟨73, "-3", -3, -3, 0⟩,
          ⟨0, "SEQEND", 0, 0, 0⟩] {} =
      ([⟨0, "SEQEND", 0, 0, 0⟩], { counts := [4], indices := [0, 0, 1, 1] }) := by
  constructor <;>
  simp [ParsePolyLineVertex, ParsePolyLineVertex.loop, ParsePolyLineVertex.step,
    ParsePolyLineVertex.emit, ParsePolyLineVertex.pushIndices, VertexState.cnti, toUnsigned,
    GroupCode_XComp, GroupCode_YComp, GroupCode_ZComp]

set_option maxRecDepth 8000 in
theorem AI_DXF_NUM_INDEX_COLORS_eq : AI_DXF_NUM_INDEX_COLORS = 256 := by
  decide

/-- C10: a group-62 record with unsigned value `n`, in a VERTEX and in a
3DFACE/LINE/SOLID entity alike, sets the colour to entry `n mod 256` of the
colour table; the table has 256 entries, the read is inside the table, and the
value 256 gives the same colour as the value 0. -/
theorem colour_index_wraps (st : VertexState) (fst : FaceState) (r : Record)
    (h : r.GroupCode = 62) :
    (ParsePolyLineVertex.step st r).clr = colorAt (r.ValueAsUnsignedInt % 256) ∧
    (Parse3DFace.step fst r).clr = colorAt (r.ValueAsUnsignedInt % 256) ∧
    g_aclrDxfIndexColors.length = 256 ∧
    r.ValueAsUnsignedInt % 256 < g_aclrDxfIndexColors.length ∧
    g_aclrDxfIndexColors[r.ValueAsUnsignedInt % 256]? =
      some (colorAt (r.ValueAsUnsignedInt % 256)) ∧
    (r.ValueAsUnsignedInt = 256 →
      (ParsePolyLineVertex.step st r).clr = colorAt 0 ∧ (Parse3DFace.step fst r).clr = colorAt 0) := by
  have hlen : g_aclrDxfIndexColors.length = 256 := AI_DXF_NUM_INDEX_COLORS_eq
  have hlt : r.ValueAsUnsignedInt % 256 < g_aclrDxfIndexColors.length := by
    rw [hlen]; exact Nat.mod_lt _ (by decide)
  have h1 : (ParsePolyLineVertex.step st r).clr = colorAt (r.ValueAsUnsignedInt % 256) := by
    simp [ParsePolyLineVertex.step, h, GroupCode_XComp, GroupCode_YComp, GroupCode_ZComp,
      AI_DXF_NUM_INDEX_COLORS_eq]
  have h2 : (Parse3DFace.step fst r).clr = colorAt (r.ValueAsUnsignedInt % 256) := by
    simp [Parse3DFace.step, h, AI_DXF_NUM_INDEX_COLORS_eq]
  refine ⟨h1, h2, hlen, hlt, ?_, ?_⟩
  · unfold colorAt
    rw [List.getElem?_eq_getElem hlt]
    rfl
  · intro h256
    rw [h1, h2, h256]
    exact ⟨rfl, rfl⟩

theorem colour_index_wraps_witness :
    (ParsePolyLineVertex.step {} ⟨62, "256", 256, 256, 256⟩).clr = colorAt (256 % 256) ∧
    (Parse3DFace.step {} ⟨62, "256", 256, 256, 256⟩).clr = colorAt (256 % 256) ∧
    g_aclrDxfIndexColors.length = 256 ∧
    256 % 256 < g_aclrDxfIndexColors.length ∧
    g_aclrDxfIndexColors[256 % 256]? = some (colorAt (256 % 256)) ∧
    ((256 : Nat) = 256 →
      (ParsePolyLineVertex.step {} ⟨62, "256", 256, 256, 256⟩).clr = colorAt 0 ∧
      (Parse3DFace.step {} ⟨62, "256", 256, 256, 256⟩).clr = colorAt 0) :=
  colour_index_wraps {} {} ⟨62, "256", 256, 256, 256⟩ rfl

/-! ## Structure of the expansion -/

theorem insertOne_eq (bl : Nat) (m : BlockMap) (blocks : List Block) (ins : InsertBlock) :
    ExpandBlockReferences.insertOne bl m blocks ins =
      modifyAt (fun b => { b with lines := b.lines ++ insertedLines m blocks ins }) blocks bl := by
  cases hm : m ins.name with
  | none =>
    have hl : insertedLines m blocks ins = [] := by simp [insertedLines, hm]
    rw [insertOne_unresolved bl m blocks ins hm, hl]
    exact (modifyAt_id _ _ _ (fun a => by simp)).symm
  | some i =>
    cases hs : blocks[i]? with
    | none =>
      have hl : insertedLines m blocks ins = [] := by simp [insertedLines, hm, hs]
      rw [hl]
      simp only [ExpandBlockReferences.insertOne, hm, hs]
      exact (modifyAt_id _ _ _ (fun a => by simp)).symm
    | some src =>
      have hl : insertedLines m blocks ins =
          src.lines.map (ExpandBlockReferences.copy src ins) := by
        simp [insertedLines, hm, hs]
      rw [hl]
      exact insertOne_resolved bl i m blocks ins src hm hs

theorem insertedLines_modifyAt (bl : Nat) (m : BlockMap) (blocks : List Block)
    (f : Block → Block) (ins : InsertBlock) (h : m ins.name ≠ some bl) :
    insertedLines m (modifyAt f blocks bl) ins = insertedLines m blocks ins := by
  cases hm : m ins.name with
  | none => simp [insertedLines, hm]
  | some i =>
    have hi : i ≠ bl := fun hc => h (by rw [hm, hc])
    simp only [insertedLines, hm, modifyAt_getElem?, hi, if_false]

theorem run_distinct (bl : Nat) (m : BlockMap) (L : List InsertBlock) (blocks : List Block)
    (h : ∀ ins ∈ L, m ins.name ≠ some bl) :
    ExpandBlockReferences.run bl m L blocks =
      modifyAt (fun b => { b with lines := b.lines ++ L.flatMap (insertedLines m blocks) })
        blocks bl := by
  induction L generalizing blocks with
  | nil =>
    rw [run_nil]
    exact (modifyAt_id _ _ _ (fun a => by simp)).symm
  | cons ins rest ih =>
    rw [run_cons, ih _ (fun x hx => h x (List.mem_cons_of_mem _ hx)), insertOne_eq,
      modifyAt_modifyAt]
    apply modifyAt_congr
    intro a
    have hrest : rest.flatMap (insertedLines m
        (modifyAt (fun b => { b with lines := b.lines ++ insertedLines m blocks ins }) blocks bl)) =
        rest.flatMap (insertedLines m blocks) := by
      have : ∀ x ∈ rest, insertedLines m
          (modifyAt (fun b => { b with lines := b.lines ++ insertedLines m blocks ins }) blocks bl)
          x = insertedLines m blocks x :=
        fun x hx => insertedLines_modifyAt bl m blocks _ x (h x (List.mem_cons_of_mem _ hx))
      simp only [List.flatMap, List.map_congr_left this]
    simp only [hrest, List.flatMap_cons, List.append_assoc]

theorem copy_fields (bl_src : Block) (insert : InsertBlock) (pl : PolyLine) :
    (ExpandBlockReferences.copy bl_src insert pl).colors = pl.colors ∧
    (ExpandBlockReferences.copy bl_src insert pl).indices = pl.indices ∧
    (ExpandBlockReferences.copy bl_src insert pl).counts = pl.counts ∧
    (ExpandBlockReferences.copy bl_src insert pl).layer = pl.layer ∧
    (ExpandBlockReferences.copy bl_src insert pl).flags = pl.flags ∧
    (ExpandBlockReferences.copy bl_src insert pl).positions.length = pl.positions.length := by
  rw [copy_eq]
  simp

theorem insertedLines_length (m : BlockMap) (blocks : List Block) (ins : InsertBlock) :
    (insertedLines m blocks ins).length =
      match m ins.name with
      | none => 0
      | some i =>
        match blocks[i]? with
        | none => 0
        | some bl_src => bl_src.lines.length := by
  cases hm : m ins.name with
  | none => simp [insertedLines, hm]
  | some i =>
    cases hs : blocks[i]? with
    | none => simp [insertedLines, hm, hs]
    | some src => simp [insertedLines, hm, hs]

/-- C13: when no insertion of the target resolves to the target itself, the
polylines of the target after `ExpandBlockReferences` are its original
polylines followed, insertion by insertion in order, by one copy of every
polyline of the resolved source block in the order of the source (nothing for
an insertion that does not resolve); the number of polylines grows by the sum
of the polyline counts of the resolved sources; and a copy has the colours,
indices, counts, layer and flags of its source polyline and as many
positions. -/
theorem expansion_structure (blocks : List Block) (bl : Nat) (blocks_by_name : BlockMap)
    (target : Block) (ht : blocks[bl]? = some target)
    (hsrc : ∀ ins ∈ target.insertions, blocks_by_name ins.name ≠ some bl) :
    (ExpandBlockReferences blocks bl blocks_by_name)[bl]? =
      some { target with
        lines := target.lines ++ target.insertions.flatMap (fun ins =>
          match blocks_by_name ins.name with
          | none => []
          | some i =>
            match blocks[i]? with
            | none => []
            | some bl_src => bl_src.lines.map (ExpandBlockReferences.copy bl_src ins)) } ∧
    ((ExpandBlockReferences blocks bl blocks_by_name)[bl]?).map (fun b => b.lines.length) =
      some (target.lines.length + (target.insertions.map (fun ins =>
        match blocks_by_name ins.name with
        | none => 0
        | some i =>
          match blocks[i]? with
          | none => 0
          | some bl_src => bl_src.lines.length)).sum) ∧
    (∀ (bl_src : Block) (ins : InsertBlock) (pl : PolyLine),
      (ExpandBlockReferences.copy bl_src ins pl).colors = pl.colors ∧
      (ExpandBlockReferences.copy bl_src ins pl).indices = pl.indices ∧
      (ExpandBlockReferences.copy bl_src ins pl).counts = pl.counts ∧
      (ExpandBlockReferences.copy bl_src ins pl).layer = pl.layer ∧
      (ExpandBlockReferences.copy bl_src ins pl).flags = pl.flags ∧
      (ExpandBlockReferences.copy bl_src ins pl).positions.length = pl.positions.length) := by
  have hrun : (ExpandBlockReferences blocks bl blocks_by_name)[bl]? =
      some { target with
        lines := target.lines ++ target.insertions.flatMap (insertedLines blocks_by_name blocks) } := by
    simp only [ExpandBlockReferences, ht]
    rw [run_distinct bl blocks_by_name _ blocks hsrc, modifyAt_getElem?]
    simp [ht]
  refine ⟨hrun, ?_, copy_fields⟩
  rw [hrun]
  simp only [Option.map_some', List.length_append, List.length_flatMap, Option.some.injEq,
    Nat.add_left_cancel_iff]
  congr 1
  apply List.map_congr_left
  intro ins _
  exact insertedLines_length blocks_by_name blocks ins

theorem sampleNested_copy :
    ExpandBlockReferences.copy
        { name := "B", base := ⟨3, 0, 0⟩, lines := [samplePointB], insertions := [{ name := "C" }] }
        sampleInsertB samplePointB =
      { samplePointB with positions := [⟨9, 0, 0⟩] } := by
  rw [copy_eq]
  simp [insertedPosition, samplePointB, sampleInsertB]
  norm_num

theorem expansion_structure_witness :
    (ExpandBlockReferences sampleNested 0 sampleNestedMap)[0]? =
      some { name := AI_DXF_ENTITIES_MAGIC_BLOCK
             insertions := [sampleInsertB, { name := "MISSING" }]
             lines := [{ samplePointB with positions := [⟨9, 0, 0⟩] }] } :=
  (expansion_structure sampleNested 0 sampleNestedMap
    { name := AI_DXF_ENTITIES_MAGIC_BLOCK, insertions := [sampleInsertB, { name := "MISSING" }] }
    (by simp [sampleNested])
    (by
      intro ins hins
      simp only [List.mem_cons, List.mem_singleton, List.not_mem_nil, or_false] at hins
      rcases hins with h | h <;> subst h <;>
        simp [sampleNestedMap, sampleInsertB, AI_DXF_ENTITIES_MAGIC_BLOCK])).1.trans
    (by
      simp [sampleNested, sampleNestedMap, sampleInsertB, AI_DXF_ENTITIES_MAGIC_BLOCK]
      exact sampleNested_copy)

theorem index_map (bls : List Block) (k : Nat) (m0 : BlockMap) (e0 : Option Nat)
    (name : String) :
    (ConvertMeshes.index bls k m0 e0).1 name =
      match lastNamed bls name with
      | some i => some (k + i)
      | none => m0 name := by
  induction bls generalizing k m0 e0 with
  | nil => simp [ConvertMeshes.index, lastNamed]
  | cons b bs ih =>
    simp only [ConvertMeshes.index, lastNamed]
    rw [ih]
    cases hl : lastNamed bs name with
    | some i => simp only; congr 1; omega
    | none =>
      simp only
      by_cases hn : b.name = name
      · simp [hn]
      · have hn2 : ¬ name = b.name := fun hc => hn hc.symm
        simp [hn, hn2]

theorem lastNamed_none (bls : List Block) (name : String) :
    lastNamed bls name = none ↔ ∀ b ∈ bls, b.name ≠ name := by
  induction bls with
  | nil => simp [lastNamed]
  | cons b bs ih =>
    simp only [lastNamed]
    cases hl : lastNamed bs name with
    | some i =>
      simp only [reduceCtorEq, false_iff]
      intro hall
      have := ih.mpr (fun c hc => hall c (List.mem_cons_of_mem _ hc))
      rw [hl] at this
      cases this
    | none =>
      have hbs := ih.mp hl
      by_cases hn : b.name = name
      · simp [hn]
      · simp only [hn, if_false, true_iff]
        intro c hc
        rcases List.mem_cons.mp hc with h | h
        · subst h; exact hn
        · exact hbs c h

theorem lastNamed_some (bls : List Block) (name : String) (i : Nat) :
    lastNamed bls name = some i ↔
      (∃ b, bls[i]? = some b ∧ b.name = name) ∧
        ∀ (j : Nat) (b : Block), i < j → bls[j]? = some b → b.name ≠ name := by
  induction bls generalizing i with
  | nil => simp [lastNamed]
  | cons b bs ih =>
    simp only [lastNamed]
    cases hl : lastNamed bs name with
    | some i0 =>
      have h0 := (ih i0).mp hl
      simp only [Option.some.injEq]
      constructor
      · intro hi
        subst hi
        refine ⟨by simpa using h0.1, ?_⟩
        intro j c hj hc
        cases j with
        | zero => omega
        | succ j => exact h0.2 j c (by omega) (by simpa using hc)
      · rintro ⟨⟨c, hc, hcn⟩, hlast⟩
        cases i with
        | zero =>
          obtain ⟨c0, hc0, hc0n⟩ := h0.1
          exact absurd hc0n (hlast (i0 + 1) c0 (by omega) (by simpa using hc0))
        | succ i =>
          have : lastNamed bs name = some i :=
            (ih i).mpr ⟨⟨c, by simpa using hc, hcn⟩,
              fun j d hj hd => hlast (j + 1) d (by omega) (by simpa using hd)⟩
          rw [hl] at this
          injection this with this
          rw [this]
    | none =>
      have hbs := (lastNamed_none bs name).mp hl
      simp only
      constructor
      · intro hi
        split at hi
        · rename_i hn
          injection hi with hi
          subst hi
          refine ⟨⟨b, by simp, hn⟩, ?_⟩
          intro j c hj hc
          cases j with
          | zero => omega
          | succ j => exact hbs c (List.getElem?_mem (by simpa using hc))
        · cases hi
      · rintro ⟨⟨c, hc, hcn⟩, _⟩
        cases i with
        | zero =>
          simp only [List.getElem?_cons_zero, Option.some.injEq] at hc
          subst hc
          simp [hcn]
        | succ i =>
          exact absurd hcn (hbs c (List.getElem?_mem (by simpa using hc)))

/-- C16: the name map built by `ConvertMeshes` sends a name to the position of
the last block of the list that carries it, and to nothing when no block
carries it; so an insertion of a name that several blocks carry is expanded
from the last of them. For two blocks named "B" the entity block receives the
polyline of the second. -/
theorem block_map_last_wins (blocks : List Block) (name : String) :
    (∀ i : Nat, (ConvertMeshes.index blocks 0 (fun _ => none) none).1 name = some i ↔
      (∃ b, blocks[i]? = some b ∧ b.name = name) ∧
        ∀ (j : Nat) (b : Block), i < j → blocks[j]? = some b → b.name ≠ name) ∧
    ((ConvertMeshes.index blocks 0 (fun _ => none) none).1 name = none ↔
      ∀ b ∈ blocks, b.name ≠ name) ∧
    (∀ (bl i : Nat) (ins : InsertBlock) (src : Block), ins.name = name →
      blocks[i]? = some src → src.name = name →
      (∀ (j : Nat) (b : Block), i < j → blocks[j]? = some b → b.name ≠ name) →
      ExpandBlockReferences.insertOne bl (ConvertMeshes.index blocks 0 (fun _ => none) none).1
          blocks ins =
        modifyAt
          (fun b => { b with lines := b.lines ++ src.lines.map (ExpandBlockReferences.copy src ins) })
          blocks bl) ∧
    ((ExpandBlockReferences sampleDuplicateName 0
        (ConvertMeshes.index sampleDuplicateName 0 (fun _ => none) none).1)[0]?).map
          (fun b => b.lines) = some [samplePointC] := by
  have hmap : (ConvertMeshes.index blocks 0 (fun _ => none) none).1 name =
      lastNamed blocks name := by
    rw [index_map]
    cases lastNamed blocks name with
    | none => rfl
    | some i => simp
  refine ⟨?_, ?_, ?_, ?_⟩
  · intro i
    rw [hmap]
    exact lastNamed_some blocks name i
  · rw [hmap]
    exact lastNamed_none blocks name
  · intro bl i ins src hn hs hsn hlast
    have : (ConvertMeshes.index blocks 0 (fun _ => none) none).1 ins.name = some i := by
      rw [hn, hmap]
      exact (lastNamed_some blocks name i).mpr ⟨⟨src, hs, hsn⟩, hlast⟩
    exact insertOne_resolved bl i _ blocks ins src this hs
  · have h1 : (ConvertMeshes.index sampleDuplicateName 0 (fun _ => none) none).1 "B" = some 2 := by
      rw [index_map]
      simp [sampleDuplicateName, lastNamed, AI_DXF_ENTITIES_MAGIC_BLOCK]
    simp only [ExpandBlockReferences, sampleDuplicateName, List.getElem?_cons_zero, run_cons,
      run_nil]
    rw [insertOne_resolved 0 2 _ _ _ { name := "B", lines := [samplePointC] } h1 (by simp)]
    simp only [modifyAt, List.getElem?_cons_zero, Option.map_some', List.nil_append,
      List.map_cons, List.map_nil, Option.some.injEq, List.cons.injEq, and_true]
    rw [copy_eq]
    simp [insertedPosition, samplePointC]

/-! ## Face entities -/

theorem lastWith_snoc (grp : List Record) (r : Record) (code : Int) :
    lastWith (grp ++ [r]) code = if r.GroupCode = code then some r else lastWith grp code := by
  unfold lastWith
  rw [List.filter_append]
  by_cases h : r.GroupCode = code
  · simp [List.filter, h, getLast?_snoc]
  · simp [List.filter, h]

theorem floatOf_snoc (grp : List Record) (r : Record) (code : Int) :
    floatOf (grp ++ [r]) code = if r.GroupCode = code then r.ValueAsFloat else floatOf grp code := by
  unfold floatOf
  rw [lastWith_snoc]
  split_ifs <;> rfl

theorem hasCorner_snoc (grp : List Record) (r : Record) (k : Nat) :
    hasCorner (grp ++ [r]) k =
      (hasCorner grp k ||
        decide (r.GroupCode = 10 + k ∨ r.GroupCode = 20 + k ∨ r.GroupCode = 30 + k)) := by
  simp [hasCorner]

theorem groupColor_snoc (grp : List Record) (r : Record) :
    groupColor (grp ++ [r]) =
      if r.GroupCode = 62 then colorAt (r.ValueAsUnsignedInt % AI_DXF_NUM_INDEX_COLORS)
      else groupColor grp := by
  unfold groupColor
  rw [lastWith_snoc]
  split_ifs <;> rfl

theorem groupLayer_snoc (grp : List Record) (r : Record) :
    groupLayer (grp ++ [r]) = if r.GroupCode = 8 then r.Value else groupLayer grp := by
  unfold groupLayer
  rw [lastWith_snoc]
  split_ifs <;> rfl

theorem Parse3DFace_loop_eq (reader : LineReader) (st : FaceState) :
    Parse3DFace.loop reader st =
      (reader.dropWhile (fun r => decide (r.GroupCode ≠ 0)),
        (entityGroup reader).foldl Parse3DFace.step st) := by
  induction reader generalizing st with
  | nil => simp [Parse3DFace.loop, entityGroup]
  | cons r rs ih =>
    simp only [Parse3DFace.loop]
    by_cases h : r.GroupCode = 0
    · simp [h, entityGroup, List.dropWhile, List.takeWhile]
    · simp only [h, if_false, ih]
      simp [entityGroup, List.dropWhile, List.takeWhile, h]

theorem Parse3DFace_step_stateOf (grp : List Record) (r : Record) :
    Parse3DFace.step (faceStateOf grp) r = faceStateOf (grp ++ [r]) := by
  have hcases : r.GroupCode = 8 ∨ r.GroupCode = 10 ∨ r.GroupCode = 20 ∨ r.GroupCode = 30 ∨
      r.GroupCode = 11 ∨ r.GroupCode = 21 ∨ r.GroupCode = 31 ∨
      r.GroupCode = 12 ∨ r.GroupCode = 22 ∨ r.GroupCode = 32 ∨
      r.GroupCode = 13 ∨ r.GroupCode = 23 ∨ r.GroupCode = 33 ∨ r.GroupCode = 62 ∨
      (r.GroupCode ≠ 8 ∧ r.GroupCode ≠ 10 ∧ r.GroupCode ≠ 20 ∧ r.GroupCode ≠ 30 ∧
        r.GroupCode ≠ 11 ∧ r.GroupCode ≠ 21 ∧ r.GroupCode ≠ 31 ∧
        r.GroupCode ≠ 12 ∧ r.GroupCode ≠ 22 ∧ r.GroupCode ≠ 32 ∧
        r.GroupCode ≠ 13 ∧ r.GroupCode ≠ 23 ∧ r.GroupCode ≠ 33 ∧ r.GroupCode ≠ 62) := by
    omega
  rcases hcases with h | h | h | h | h | h | h | h | h | h | h | h | h | h | h
  all_goals
    simp [Parse3DFace.step, faceStateOf, groupCorner, floatOf_snoc, hasCorner_snoc,
      groupColor_snoc, groupLayer_snoc, h]

theorem Parse3DFace_fold_eq (grp : List Record) :
    grp.foldl Parse3DFace.step {} = faceStateOf grp := by
  induction grp using List.reverseRecOn with
  | nil => simp [faceStateOf, groupLayer, groupCorner, groupColor, hasCorner, floatOf, lastWith]
  | append_singleton l a ih =>
    rw [List.foldl_append, ih]
    simp only [List.foldl_cons, List.foldl_nil]
    exact Parse3DFace_step_stateOf l a

theorem modifyBack_nil (f : Block → Block) (rq : List Nat) :
    modifyBack f { blocks := [], reserved := rq } = { blocks := [], reserved := rq } := by
  simp [modifyBack, noteReserved]

theorem modifyBack_snoc (f : Block → Block) (bs : List Block) (b : Block) (rq : List Nat) :
    modifyBack f { blocks := bs ++ [b], reserved := rq } =
      { blocks := bs ++ [f b], reserved := rq } := by
  simp [modifyBack, noteReserved, getLast?_snoc]

theorem modifyBack_reserved (f : Block → Block) (output : FileData) :
    (modifyBack f output).reserved = output.reserved := by
  unfold modifyBack
  split <;> rfl

theorem modifyBack_noteReserved (f : Block → Block) (output : FileData) (rq : List Nat) :
    modifyBack f (noteReserved output rq) = noteReserved (modifyBack f output) rq := by
  unfold modifyBack noteReserved
  simp only
  split <;> rfl

theorem pushLine_noteReserved (output : FileData) (rq : List Nat) (line : PolyLine) :
    pushLine (noteReserved output rq) line = noteReserved (pushLine output line) rq :=
  modifyBack_noteReserved _ output rq

theorem noteReserved_blocks (output : FileData) (rq : List Nat) :
    (noteReserved output rq).blocks = output.blocks := rfl

theorem noteReserved_nil (output : FileData) : noteReserved output [] = output := by
  cases output with
  | mk blocks reserved => simp [noteReserved]

theorem popLine_pushLine (output : FileData) (line : PolyLine) :
    popLine (pushLine output line) = output := by
  cases output with
  | mk blocks reserved =>
    rcases List.eq_nil_or_concat blocks with h | ⟨bs, b, h⟩
    · subst h; simp [popLine, pushLine, modifyBack_nil]
    · subst h; simp [popLine, pushLine, modifyBack_snoc]

theorem setBackLine_pushLine (output : FileData) (line0 line : PolyLine) :
    setBackLine (pushLine output line0) line = pushLine output line := by
  cases output with
  | mk blocks reserved =>
    rcases List.eq_nil_or_concat blocks with h | ⟨bs, b, h⟩
    · subst h; simp [setBackLine, pushLine, modifyBack_nil]
    · subst h; simp [setBackLine, pushLine, modifyBack_snoc]

theorem pushLine_snoc (bs : List Block) (b : Block) (line : PolyLine) (rq : List Nat) :
    pushLine { blocks := bs ++ [b], reserved := rq } line =
      { blocks := bs ++ [{ b with lines := b.lines ++ [line] }], reserved := rq } := by
  simp [pushLine, modifyBack_snoc]

theorem Parse3DFace_emit_valid (st : FaceState) (h2 : st.b2 = true) (h3 : st.b3 = true)
    (h10 : st.b1 = true → st.b0 = true) :
    Parse3DFace.emit st =
      some
        { layer := st.layer
          counts := [2 + (if st.b0 then 1 else 0) + (if st.b1 then 1 else 0)]
          positions :=
            (List.range (2 + (if st.b0 then 1 else 0) + (if st.b1 then 1 else 0))).map st.vip
          colors :=
            List.replicate (2 + (if st.b0 then 1 else 0) + (if st.b1 then 1 else 0)) st.clr
          indices := List.range (2 + (if st.b0 then 1 else 0) + (if st.b1 then 1 else 0)) } := by
  cases hb0 : st.b0 <;> cases hb1 : st.b1
  · simp [Parse3DFace.emit, hb0, hb1, h2, h3, List.range, List.range.loop, List.replicate]
  · simp [hb0, hb1] at h10
  · simp [Parse3DFace.emit, hb0, hb1, h2, h3, List.range, List.range.loop, List.replicate]
  · simp [Parse3DFace.emit, hb0, hb1, h2, h3, List.range, List.range.loop, List.replicate]

theorem faceStateOf_vip (grp : List Record) (i : Nat) (h : i < 4) :
    (faceStateOf grp).vip i = groupCorner grp i := by
  have : i = 0 ∨ i = 1 ∨ i = 2 ∨ i = 3 := by omega
  rcases this with h | h | h | h <;> subst h <;> rfl

theorem cornerCount_le (grp : List Record) : cornerCount grp ≤ 4 := by
  unfold cornerCount
  split_ifs <;> omega

theorem Parse3DFace_emit_stateOf (grp : List Record) (h : ValidFace grp) :
    Parse3DFace.emit (faceStateOf grp) = some (faceLine grp) := by
  rw [Parse3DFace_emit_valid (faceStateOf grp) h.1 h.2.1 h.2.2]
  have hm : (List.range (cornerCount grp)).map (faceStateOf grp).vip =
      (List.range (cornerCount grp)).map (groupCorner grp) := by
    apply List.map_congr_left
    intro i hi
    exact faceStateOf_vip grp i (lt_of_lt_of_le (List.mem_range.mp hi) (cornerCount_le grp))
  unfold faceLine
  rw [← hm]
  rfl

/-- C17: for a record group that passes the validity rule, `Parse3DFace`
appends exactly one polyline to the block under construction: it has the
single face count `cnt = 2 + (third corner present) + (fourth corner present)`,
the corners 1 to `cnt` as positions in this order (a coordinate without a
record is 0), `cnt` copies of the colour of the entity, the indices
`0, 1, ..., cnt - 1` and the layer of the entity. The reader is left on the
first record of group code 0. -/
theorem face_emission (reader : LineReader) (output : FileData)
    (hvalid : ValidFace (entityGroup reader)) :
    (Parse3DFace reader output).2 = pushLine output (faceLine (entityGroup reader)) ∧
    (∀ (bs : List Block) (b : Block), output.blocks = bs ++ [b] →
      (Parse3DFace reader output).2.blocks =
        bs ++ [{ b with lines := b.lines ++ [faceLine (entityGroup reader)] }]) ∧
    (Parse3DFace reader output).1 = reader.dropWhile (fun r => decide (r.GroupCode ≠ 0)) ∧
    (faceLine (entityGroup reader)).counts = [cornerCount (entityGroup reader)] ∧
    (faceLine (entityGroup reader)).positions =
      (List.range (cornerCount (entityGroup reader))).map (groupCorner (entityGroup reader)) ∧
    (faceLine (entityGroup reader)).colors =
      List.replicate (cornerCount (entityGroup reader)) (groupColor (entityGroup reader)) ∧
    (faceLine (entityGroup reader)).indices = List.range (cornerCount (entityGroup reader)) ∧
    cornerCount (entityGroup reader) =
      2 + (if hasCorner (entityGroup reader) 2 then 1 else 0) +
        (if hasCorner (entityGroup reader) 3 then 1 else 0) := by
  have hp : Parse3DFace reader output =
      (reader.dropWhile (fun r => decide (r.GroupCode ≠ 0)),
        pushLine output (faceLine (entityGroup reader))) := by
    unfold Parse3DFace
    simp only [Parse3DFace_loop_eq, Parse3DFace_fold_eq, Parse3DFace_emit_stateOf _ hvalid,
      setBackLine_pushLine]
  refine ⟨by rw [hp], ?_, by rw [hp], rfl, rfl, rfl, rfl, rfl⟩
  intro bs b hb
  rw [hp]
  cases output with
  | mk blocks reserved =>
    simp only at hb
    subst hb
    simp only [pushLine_snoc]

theorem face_emission_witness :
    ValidFace (entityGroup sampleLine) ∧
    (Parse3DFace sampleLine { blocks := [{}] }).2 =
      { blocks := [{ lines := [
        { positions := [⟨1, 2, 0⟩, ⟨3, 0, 4⟩]
          colors := [AI_DXF_DEFAULT_COLOR, AI_DXF_DEFAULT_COLOR]
          counts := [2]
          indices := [0, 1]
          layer := "L" }] }] } :=
  ⟨by simp [ValidFace, hasCorner, entityGroup, sampleLine],
    (face_emission sampleLine { blocks := [{}] }
      (by simp [ValidFace, hasCorner, entityGroup, sampleLine])).1.trans
      (by
        simp [pushLine, modifyBack, noteReserved, faceLine, cornerCount, hasCorner, groupCorner, floatOf,
          lastWith, groupColor, groupLayer, entityGroup, sampleLine, List.range,
          List.range.loop, List.replicate, List.filter])⟩

theorem Parse3DFace_emit_none (st : FaceState) :
    Parse3DFace.emit st = none ↔
      (st.b2 = false ∨ st.b3 = false ∨ (st.b1 = true ∧ st.b0 = false)) := by
  unfold Parse3DFace.emit
  cases st.b0 <;> cases st.b1 <;> cases st.b2 <;> cases st.b3 <;> simp

/-- C18: `Parse3DFace` discards the entity exactly when the first corner (no
record of code 10, 20 or 30) or the second corner (11, 21, 31) is absent, or
the fourth corner (13, 23, 33) is present while the third (12, 22, 32) is
absent. When the entity is discarded the file data, and with it the polyline
list of the block under construction, is the same after the call as before;
otherwise one polyline is appended. -/
theorem face_validity_and_discard (reader : LineReader) (output : FileData) :
    (Parse3DFace.emit (Parse3DFace.loop reader {}).2 = none ↔
      (hasCorner (entityGroup reader) 0 = false ∨ hasCorner (entityGroup reader) 1 = false ∨
        (hasCorner (entityGroup reader) 3 = true ∧ hasCorner (entityGroup reader) 2 = false))) ∧
    (Parse3DFace.emit (Parse3DFace.loop reader {}).2 = none →
      (Parse3DFace reader output).2 = output) ∧
    (∀ line, Parse3DFace.emit (Parse3DFace.loop reader {}).2 = some line →
      (Parse3DFace reader output).2 = pushLine output line) ∧
    (∀ (k : Nat), hasCorner (entityGroup reader) k = true ↔
      ∃ r ∈ entityGroup reader,
        r.GroupCode = 10 + k ∨ r.GroupCode = 20 + k ∨ r.GroupCode = 30 + k) := by
  refine ⟨?_, ?_, ?_, ?_⟩
  · rw [Parse3DFace_loop_eq, Parse3DFace_fold_eq, Parse3DFace_emit_none]
    rfl
  · intro h
    unfold Parse3DFace
    simp only [h, popLine_pushLine]
  · intro line h
    unfold Parse3DFace
    simp only [h, setBackLine_pushLine]
  · intro k
    simp [hasCorner]

/-! ## Polyface meshes and the end of a polyline -/

theorem samplePolyfaceShort_loop :
    (ParsePolyLine.loop samplePolyfaceShort {}).2.line =
      { positions := [⟨1, 0, 0⟩], colors := [AI_DXF_DEFAULT_COLOR], flags := 64 } := by
  simp [samplePolyfaceShort, ParsePolyLine.loop, ParsePolyLine.step, ParsePolyLineVertex,
    ParsePolyLineVertex.loop, ParsePolyLineVertex.step, ParsePolyLineVertex.emit,
    VertexState.cnti, toUnsigned, GroupCode_XComp, GroupCode_YComp, GroupCode_ZComp,
    Record.Is, LineReader.Is]

theorem samplePolyface_loop :
    (ParsePolyLine.loop samplePolyface {}).2.line = samplePolyfaceLine := by
  simp [samplePolyface, samplePolyfaceLine, ParsePolyLine.loop, ParsePolyLine.step,
    ParsePolyLineVertex, ParsePolyLineVertex.loop, ParsePolyLineVertex.step,
    ParsePolyLineVertex.emit, ParsePolyLineVertex.pushIndices, decBack,
    VertexState.cnti, toUnsigned, GroupCode_XComp, GroupCode_YComp, GroupCode_ZComp,
    Record.Is, LineReader.Is]

/-- C19: a POLYLINE whose flags have the polyface bit (0x40) set and which ends
with fewer than 3 positions or fewer than 3 indices leaves the blocks of the
file data, and with them the polyline list of the block under construction, as
they were before the call; with at least 3 positions and at least 3 indices
the polyline is appended exactly as the loop parsed it (indices and counts
unchanged, no segments added). Apart from the blocks, the file data only
records the calls of `reserve` made for the count hints of the polyline. -/
theorem malformed_polyface_discard (reader : LineReader) (output : FileData)
    (hflag : (ParsePolyLine.loop reader {}).2.line.flags &&& 0x40 ≠ 0) :
    (((ParsePolyLine.loop reader {}).2.line.positions.length < 3 ∨
        (ParsePolyLine.loop reader {}).2.line.indices.length < 3) →
      (ParsePolyLine reader output).2 =
        noteReserved output (ParsePolyLine.loop reader {}).2.reserved ∧
      (ParsePolyLine reader output).2.blocks = output.blocks) ∧
    (3 ≤ (ParsePolyLine.loop reader {}).2.line.positions.length →
      3 ≤ (ParsePolyLine.loop reader {}).2.line.indices.length →
      (ParsePolyLine reader output).2 =
        pushLine (noteReserved output (ParsePolyLine.loop reader {}).2.reserved)
          (ParsePolyLine.loop reader {}).2.line ∧
      (ParsePolyLine reader output).2.blocks =
        (pushLine output (ParsePolyLine.loop reader {}).2.line).blocks) := by
  have hflag2 : (ParsePolyLine.loop reader {}).2.line.flags &&&
      DXF_POLYLINE_FLAG_POLYFACEMESH ≠ 0 := hflag
  constructor
  · intro hshort
    have h : (ParsePolyLine reader output).2 =
        noteReserved output (ParsePolyLine.loop reader {}).2.reserved := by
      unfold ParsePolyLine
      simp only [ParsePolyLine.finish, hflag2, hshort, if_true, ne_eq, not_false_eq_true,
        ← pushLine_noteReserved, popLine_pushLine]
    exact ⟨h, by rw [h]; rfl⟩
  · intro hp hi
    have hlong : ¬ ((ParsePolyLine.loop reader {}).2.line.positions.length < 3 ∨
        (ParsePolyLine.loop reader {}).2.line.indices.length < 3) := by omega
    have h : (ParsePolyLine reader output).2 =
        pushLine (noteReserved output (ParsePolyLine.loop reader {}).2.reserved)
          (ParsePolyLine.loop reader {}).2.line := by
      unfold ParsePolyLine
      simp only [ParsePolyLine.finish, hflag2, hlong, if_true, if_false, ne_eq,
        not_false_eq_true, ← pushLine_noteReserved, setBackLine_pushLine]
    exact ⟨h, by rw [h, pushLine_noteReserved]; rfl⟩

theorem samplePolyfaceShort_reserved :
    (ParsePolyLine.loop samplePolyfaceShort {}).2.reserved = [] := by
  simp [samplePolyfaceShort, ParsePolyLine.loop, ParsePolyLine.step, ParsePolyLineVertex,
    ParsePolyLineVertex.loop, ParsePolyLineVertex.step, ParsePolyLineVertex.emit,
    VertexState.cnti, toUnsigned, GroupCode_XComp, GroupCode_YComp, GroupCode_ZComp,
    Record.Is, LineReader.Is]

theorem samplePolyface_reserved :
    (ParsePolyLine.loop samplePolyface {}).2.reserved = [] := by
  simp [samplePolyface, ParsePolyLine.loop, ParsePolyLine.step,
    ParsePolyLineVertex, ParsePolyLineVertex.loop, ParsePolyLineVertex.step,
    ParsePolyLineVertex.emit, ParsePolyLineVertex.pushIndices, decBack,
    VertexState.cnti, toUnsigned, GroupCode_XComp, GroupCode_YComp, GroupCode_ZComp,
    Record.Is, LineReader.Is]

theorem malformed_polyface_discard_witness :
    (ParsePolyLine samplePolyfaceShort { blocks := [{}] }).2 = { blocks := [{}] } ∧
    (ParsePolyLine samplePolyface { blocks := [{}] }).2 =
      { blocks := [{ lines := [samplePolyfaceLine] }] } :=
  ⟨((malformed_polyface_discard samplePolyfaceShort { blocks := [{}] }
      (by rw [samplePolyfaceShort_loop]; decide)).1
      (Or.inl (by rw [samplePolyfaceShort_loop]; decide))).1.trans
      (by rw [samplePolyfaceShort_reserved]; rfl),
    ((malformed_polyface_discard samplePolyface { blocks := [{}] }
      (by rw [samplePolyface_loop]; decide)).2
      (by rw [samplePolyface_loop]; decide) (by rw [samplePolyface_loop]; decide)).1.trans
      (by
        rw [samplePolyface_loop, samplePolyface_reserved]
        simp [pushLine, modifyBack, noteReserved])⟩

theorem Record.Is_vertex {r : Record} (h : r.Is 0 "VERTEX" = true) :
    r.GroupCode = 0 ∧ r.Is 0 "ENDSEC" = false ∧ r.Is 0 "SEQEND" = false := by
  simp only [Record.Is, decide_eq_true_eq] at h
  simp [Record.Is, h.1, h.2]

theorem ParsePolyLineVertex_loop_append (body rest : LineReader) (st : VertexState)
    (hbody : ∀ r ∈ body, r.GroupCode ≠ 0)
    (hrest : rest = [] ∨ ∃ r rs, rest = r :: rs ∧ r.GroupCode = 0) :
    ParsePolyLineVertex.loop (body ++ rest) st =
      (rest, body.foldl ParsePolyLineVertex.step st) := by
  induction body generalizing st with
  | nil =>
    rcases hrest with h | ⟨r, rs, h, hr⟩
    · subst h; simp [ParsePolyLineVertex.loop]
    · subst h; simp [ParsePolyLineVertex.loop, hr]
  | cons b bs ih =>
    have hb : b.GroupCode ≠ 0 := hbody b (List.mem_cons_self _ _)
    simp only [List.cons_append, ParsePolyLineVertex.loop, hb, if_false, List.foldl_cons]
    exact ih _ (fun r hr => hbody r (List.mem_cons_of_mem _ hr))

theorem ParsePolyLineVertex_loop_prefix (a : LineReader) (v : Record) (hv : v.GroupCode = 0)
    (st : VertexState) :
    ∃ (q : LineReader) (st1 : VertexState), q.length ≤ a.length ∧ (∀ r ∈ q, r ∈ a) ∧
      (q = [] ∨ ∃ r rs, q = r :: rs ∧ r.GroupCode = 0) ∧
      ∀ t : LineReader, ParsePolyLineVertex.loop (a ++ v :: t) st = (q ++ v :: t, st1) := by
  induction a generalizing st with
  | nil =>
    exact ⟨[], st, by simp, by simp, Or.inl rfl, fun t => by simp [ParsePolyLineVertex.loop, hv]⟩
  | cons r rs ih =>
    by_cases hr : r.GroupCode = 0
    · exact ⟨r :: rs, st, by simp, by simp, Or.inr ⟨r, rs, rfl, hr⟩,
        fun t => by simp [ParsePolyLineVertex.loop, hr]⟩
    · obtain ⟨q, st1, hq1, hq2, hq3, hq4⟩ := ih (ParsePolyLineVertex.step st r)
      refine ⟨q, st1, ?_, ?_, hq3, ?_⟩
      · simp only [List.length_cons]; omega
      · intro x hx; exact List.mem_cons_of_mem _ (hq2 x hx)
      · intro t
        simp only [List.cons_append, ParsePolyLineVertex.loop, hr, if_false]
        exact hq4 t

theorem ParsePolyLine_loop_vertex (r : Record) (rs : LineReader) (st : PolyLineState)
    (h : r.Is 0 "VERTEX" = true) :
    ParsePolyLine.loop (r :: rs) st =
      if (ParsePolyLineVertex rs st.line).1.Is 0 "SEQEND" then
        ((ParsePolyLineVertex rs st.line).1, { st with line := (ParsePolyLineVertex rs st.line).2 })
      else
        ParsePolyLine.loop (ParsePolyLineVertex rs st.line).1
          { st with line := (ParsePolyLineVertex rs st.line).2 } := by
  rw [ParsePolyLine.loop]
  simp only [(Record.Is_vertex h).2.1, h, if_true, Bool.false_eq_true, if_false]

theorem ParsePolyLine_loop_other (r : Record) (rs : LineReader) (st : PolyLineState)
    (h1 : r.Is 0 "ENDSEC" = false) (h2 : r.Is 0 "VERTEX" = false) :
    ParsePolyLine.loop (r :: rs) st = ParsePolyLine.loop rs (ParsePolyLine.step st r) := by
  rw [ParsePolyLine.loop]
  simp only [h1, h2, Bool.false_eq_true, if_false]

theorem ParsePolyLine_loop_vertices (n : Nat) :
    ∀ (a : LineReader) (v : Record) (body : LineReader) (st : PolyLineState),
      a.length ≤ n → (∀ r ∈ a, r.GroupCode = 0 → r.Is 0 "VERTEX" = true) →
      v.Is 0 "VERTEX" = true → (∀ r ∈ body, r.GroupCode ≠ 0) →
      ∃ st1 : PolyLineState, ∀ rest : LineReader,
        (rest = [] ∨ ∃ s rs, rest = s :: rs ∧ s.Is 0 "SEQEND" = true) →
        ParsePolyLine.loop (a ++ v :: (body ++ rest)) st = (rest, st1) := by
  induction n with
  | zero =>
    intro a v body st ha hva hv hbody
    have ha0 : a = [] := List.length_eq_zero.mp (Nat.le_zero.mp ha)
    subst ha0
    refine ⟨{ st with
      line := ParsePolyLineVertex.emit (body.foldl ParsePolyLineVertex.step {}) st.line }, ?_⟩
    intro rest hrest
    have hrest2 : rest = [] ∨ ∃ r rs, rest = r :: rs ∧ r.GroupCode = 0 := by
      rcases hrest with h | ⟨s, rs, h, hs⟩
      · exact Or.inl h
      · exact Or.inr ⟨s, rs, h, Record.Is_code hs⟩
    rw [List.nil_append, ParsePolyLine_loop_vertex v _ st hv]
    simp only [ParsePolyLineVertex, ParsePolyLineVertex_loop_append body rest {} hbody hrest2]
    rcases hrest with h | ⟨s, rs, h, hs⟩
    · subst h
      simp [LineReader.Is, ParsePolyLine.loop]
    · subst h
      simp [LineReader.Is, hs]
  | succ n ih =>
    intro a v body st ha hva hv hbody
    cases a with
    | nil => exact ih [] v body st (by simp) hva hv hbody
    | cons r a1 =>
      have ha1 : a1.length ≤ n := by simpa using ha
      have hva1 : ∀ x ∈ a1, x.GroupCode = 0 → x.Is 0 "VERTEX" = true :=
        fun x hx => hva x (List.mem_cons_of_mem _ hx)
      by_cases hr : r.GroupCode = 0
      · have hrv := hva r (List.mem_cons_self _ _) hr
        obtain ⟨q, vs, hq1, hq2, hq3, hq4⟩ :=
          ParsePolyLineVertex_loop_prefix a1 v (Record.Is_vertex hv).1 {}
        obtain ⟨st1, hst1⟩ := ih q v body
          { st with line := ParsePolyLineVertex.emit vs st.line } (le_trans hq1 ha1)
          (fun x hx => hva1 x (hq2 x hx)) hv hbody
        refine ⟨st1, ?_⟩
        intro rest hrest
        rw [List.cons_append, ParsePolyLine_loop_vertex r _ st hrv]
        simp only [ParsePolyLineVertex, hq4]
        have hns : LineReader.Is (q ++ v :: (body ++ rest)) 0 "SEQEND" = false := by
          rcases hq3 with h | ⟨x, xs, h, hx⟩
          · subst h
            simp [LineReader.Is, (Record.Is_vertex hv).2.2]
          · subst h
            have := hva1 x (hq2 x (List.mem_cons_self _ _)) hx
            simp [LineReader.Is, (Record.Is_vertex this).2.2]
        simp only [hns, Bool.false_eq_true, if_false]
        exact hst1 rest hrest
      · obtain ⟨st1, hst1⟩ := ih a1 v body (ParsePolyLine.step st r) ha1 hva1 hv hbody
        refine ⟨st1, ?_⟩
        intro rest hrest
        rw [List.cons_append,
          ParsePolyLine_loop_other r _ st (Record.Is_zero_of_ne hr _) (Record.Is_zero_of_ne hr _)]
        exact hst1 rest hrest

theorem ParsePolyLine_loop_stop (reader : LineReader) (st : PolyLineState) :
    (ParsePolyLine.loop reader st).1 = [] ∨
      LineReader.Is (ParsePolyLine.loop reader st).1 0 "ENDSEC" = true ∨
      LineReader.Is (ParsePolyLine.loop reader st).1 0 "SEQEND" = true := by
  induction reader, st using ParsePolyLine.loop.induct with
  | case1 st => simp [ParsePolyLine.loop]
  | case2 st r rs h =>
    rw [ParsePolyLine.loop]
    simp [h, LineReader.Is]
  | case3 st r rs h1 h2 res h3 =>
    rw [ParsePolyLine.loop]; simp only [h1, h2]
    simp only [res] at h3
    simp [h3]
  | case4 st r rs h1 h2 res h3 ih =>
    rw [ParsePolyLine.loop]; simp only [h1, h2]
    simp only [res] at h3 ih
    simp only [h3, if_true, Bool.false_eq_true, if_false]
    exact ih
  | case5 st r rs h1 h2 ih =>
    rw [ParsePolyLine.loop]; simp only [h1, h2, if_true, Bool.false_eq_true, if_false]
    exact ih

/-- C20 (as amended): `ParsePolyLine` stops, leaving the record current, only
at the end of the stream, at an ENDSEC record met at the level of the
polyline, or at a SEQEND record on which the vertex parser returned; every
other record of group code 0 that is not a VERTEX is passed over like any
other record. When the only group-0 records of the polyline are VERTEX
records, there is at least one, and a SEQEND follows the last vertex, the
parser stops on that SEQEND and the file data is the one parsed from the
records of the polyline alone: nothing after the SEQEND is read. -/
theorem polyline_stops_at_seqend (a body tail : LineReader) (v s : Record) (output : FileData)
    (ha : ∀ r ∈ a, r.GroupCode = 0 → r.Is 0 "VERTEX" = true)
    (hv : v.Is 0 "VERTEX" = true) (hbody : ∀ r ∈ body, r.GroupCode ≠ 0)
    (hs : s.Is 0 "SEQEND" = true) :
    (ParsePolyLine (a ++ v :: (body ++ s :: tail)) output).1 = s :: tail ∧
    (ParsePolyLine (a ++ v :: (body ++ s :: tail)) output).2 =
      (ParsePolyLine (a ++ v :: body) output).2 ∧
    (∀ (reader : LineReader) (st : PolyLineState),
      (ParsePolyLine.loop reader st).1 = [] ∨
        LineReader.Is (ParsePolyLine.loop reader st).1 0 "ENDSEC" = true ∨
        LineReader.Is (ParsePolyLine.loop reader st).1 0 "SEQEND" = true) ∧
    (∀ (r : Record) (rs : LineReader) (st : PolyLineState),
      r.Is 0 "ENDSEC" = false → r.Is 0 "VERTEX" = false →
      ParsePolyLine.loop (r :: rs) st = ParsePolyLine.loop rs (ParsePolyLine.step st r)) := by
  obtain ⟨st1, hst1⟩ := ParsePolyLine_loop_vertices a.length a v body {} (le_refl _) ha hv hbody
  have h1 := hst1 (s :: tail) (Or.inr ⟨s, tail, rfl, hs⟩)
  have h2 := hst1 [] (Or.inl rfl)
  rw [List.append_nil] at h2
  refine ⟨?_, ?_, ParsePolyLine_loop_stop, ParsePolyLine_loop_other⟩
  · unfold ParsePolyLine
    simp only [h1]
    split <;> rfl
  · unfold ParsePolyLine
    simp only [h1, h2]
    split <;> rfl

theorem polyline_stops_at_seqend_witness :
    (ParsePolyLine
      (⟨8, "A", 0, 0, 0⟩ :: ⟨0, "VERTEX", 0, 0, 0⟩ ::
        ([⟨10, "1", 1, 1, 1⟩] ++ ⟨0, "SEQEND", 0, 0, 0⟩ ::
          [⟨0, "3DFACE", 0, 0, 0⟩, ⟨8, "B", 0, 0, 0⟩, ⟨0, "ENDSEC", 0, 0, 0⟩]))
      { blocks := [{}] }).1 =
      [⟨0, "SEQEND", 0, 0, 0⟩, ⟨0, "3DFACE", 0, 0, 0⟩, ⟨8, "B", 0, 0, 0⟩,
        ⟨0, "ENDSEC", 0, 0, 0⟩] :=
  (polyline_stops_at_seqend [⟨8, "A", 0, 0, 0⟩] [⟨10, "1", 1, 1, 1⟩]
    [⟨0, "3DFACE", 0, 0, 0⟩, ⟨8, "B", 0, 0, 0⟩, ⟨0, "ENDSEC", 0, 0, 0⟩]
    ⟨0, "VERTEX", 0, 0, 0⟩ ⟨0, "SEQEND", 0, 0, 0⟩ { blocks := [{}] }
    (by simp) (by simp [Record.Is]) (by simp) (by simp [Record.Is])).1

/-- C20, counterexample: a POLYLINE on layer "A" with one VERTEX and no SEQEND
is followed by a 3DFACE on layer "B". The parser does not stop at the 3DFACE
record: it passes over it, takes the layer "B" of the face for the polyline,
and returns on the ENDSEC record, so the face is never dispatched. -/
theorem polyline_swallows_following_entity :
    ParsePolyLine samplePolylineNoSeqend { blocks := [{}] } =
      ([⟨0, "ENDSEC", 0, 0, 0⟩],
        { blocks := [{ lines := [
          { positions := [⟨1, 0, 0⟩], colors := [AI_DXF_DEFAULT_COLOR], layer := "B" }] }] }) ∧
    (ParsePolyLine samplePolylineNoSeqend { blocks := [{}] }).1 ≠
      samplePolylineNoSeqend.drop 3 := by
  have h : ParsePolyLine.loop samplePolylineNoSeqend {} =
      ([⟨0, "ENDSEC", 0, 0, 0⟩],
        { line := { positions := [⟨1, 0, 0⟩], colors := [AI_DXF_DEFAULT_COLOR], layer := "B" } }) := by
    simp [samplePolylineNoSeqend, ParsePolyLine.loop, ParsePolyLine.step, ParsePolyLineVertex,
      ParsePolyLineVertex.loop, ParsePolyLineVertex.step, ParsePolyLineVertex.emit,
      VertexState.cnti, toUnsigned, GroupCode_XComp, GroupCode_YComp, GroupCode_ZComp,
      Record.Is, LineReader.Is]
  have h2 : ParsePolyLine samplePolylineNoSeqend { blocks := [{}] } =
      ([⟨0, "ENDSEC", 0, 0, 0⟩],
        { blocks := [{ lines := [
          { positions := [⟨1, 0, 0⟩], colors := [AI_DXF_DEFAULT_COLOR], layer := "B" }] }] }) := by
    unfold ParsePolyLine
    simp only [h]
    simp [ParsePolyLine.finish, ParsePolyLine.segments, ParsePolyLine.pairs, setBackLine,
      pushLine, modifyBack, noteReserved, DXF_POLYLINE_FLAG_POLYFACEMESH, DXF_POLYLINE_FLAG_CLOSED,
      List.range, List.range.loop]
  refine ⟨h2, ?_⟩
  rw [h2]
  simp [samplePolylineNoSeqend]

/-! ## Sizes of a mesh -/

theorem consecutiveFaces_flatten (cs : List Nat) (s : Nat) :
    ((consecutiveFaces cs s).map (fun f => f.mIndices)).flatten = List.range' s cs.sum := by
  induction cs generalizing s with
  | nil => simp [consecutiveFaces]
  | cons c cs ih =>
    simp only [consecutiveFaces, List.map_cons, List.flatten_cons, ih, List.sum_cons]
    rw [show s + c = s + 1 * c by omega, show c + cs.sum = cs.sum + c by omega]
    exact List.range'_append s c cs.sum 1

theorem allCounts_sum (pls : List PolyLine) :
    (allCounts pls).sum = (pls.map (fun pl => pl.counts.sum)).sum := by
  induction pls with
  | nil => simp [allCounts]
  | cons p ps ih => simp [allCounts, ih]

theorem allCounts_length (pls : List PolyLine) :
    (allCounts pls).length = (pls.map (fun pl => pl.counts.length)).sum := by
  induction pls with
  | nil => simp [allCounts]
  | cons p ps ih => simp [allCounts, ih]

theorem sampleTwoFaces_safe : ∀ pl ∈ [sampleTwoFaces, sampleSegment], ReadSafe pl := by
  intro pl hpl
  simp only [List.mem_cons, List.mem_singleton, List.not_mem_nil, or_false] at hpl
  rcases hpl with h | h <;> subst h <;>
    simp [ReadSafe, walked, sampleTwoFaces, sampleSegment]

/-- C12: in the mesh built for a layer bucket the vertex count is the sum
over the polylines of the bucket of the sums of their face counts, and the
vertex and the colour array have that many entries; the face count is the sum
of the numbers of face counts, and the face array has that many entries; the
index lists of the faces, one after the other in face order, are
`0, 1, ..., mNumVertices - 1`, so the numbering starts at 0 in every mesh. -/
theorem mesh_sizes (name : String) (bucket : List PolyLine) (mesh : aiMesh)
    (h : ConvertMeshes.buildMesh name bucket = Except.ok mesh) :
    mesh.mNumVertices = (bucket.map (fun pl => pl.counts.sum)).sum ∧
    mesh.mVertices.length = mesh.mNumVertices ∧
    mesh.mColors.length = mesh.mNumVertices ∧
    mesh.mNumFaces = (bucket.map (fun pl => pl.counts.length)).sum ∧
    mesh.mFaces.length = mesh.mNumFaces ∧
    (mesh.mFaces.map (fun f => f.mIndices)).flatten = List.range mesh.mNumVertices := by
  have hsafe := buildMesh_inv name bucket mesh h
  rw [buildMesh_ok name bucket hsafe] at h
  injection h with h
  subst h
  have hv : (cornerPositions bucket).length = (bucket.map (fun pl => pl.counts.sum)).sum :=
    (cornerPositions_length bucket hsafe).trans (allCounts_sum bucket)
  have hc : (cornerColors bucket).length = (bucket.map (fun pl => pl.counts.sum)).sum :=
    (cornerColors_length bucket hsafe).trans (allCounts_sum bucket)
  refine ⟨rfl, hv, hc, rfl, ?_, ?_⟩
  · simp only [meshOf, consecutiveFaces_length, allCounts_length]
  · simp only [meshOf, consecutiveFaces_flatten, allCounts_sum]
    exact (List.range_eq_range' _).symm

theorem mesh_sizes_witness :
    ConvertMeshes.buildMesh "L" [sampleTwoFaces, sampleSegment] =
      Except.ok (meshOf "L" [sampleTwoFaces, sampleSegment]) ∧
    (meshOf "L" [sampleTwoFaces, sampleSegment]).mNumVertices = 8 ∧
    (meshOf "L" [sampleTwoFaces, sampleSegment]).mNumFaces = 3 ∧
    ((meshOf "L" [sampleTwoFaces, sampleSegment]).mFaces.map (fun f => f.mIndices)).flatten =
      List.range (meshOf "L" [sampleTwoFaces, sampleSegment]).mNumVertices ∧
    sampleTwoFaces.positions.length + sampleSegment.positions.length = 5 :=
  ⟨buildMesh_ok "L" _ sampleTwoFaces_safe,
    by simp [meshOf, sampleTwoFaces, sampleSegment],
    by simp [meshOf, sampleTwoFaces, sampleSegment],
    (mesh_sizes "L" [sampleTwoFaces, sampleSegment] _
      (buildMesh_ok "L" _ sampleTwoFaces_safe)).2.2.2.2.2,
    by simp [sampleTwoFaces, sampleSegment]⟩

/-! ## The failure policy of `ConvertMeshes` -/

theorem index_entities_some (bls : List Block) (i : Nat) (m : BlockMap) (e : Nat) :
    (ConvertMeshes.index bls i m (some e)).2 = some e := by
  induction bls generalizing i m with
  | nil => rfl
  | cons b bs ih =>
    simp only [ConvertMeshes.index, Option.isNone_some, Bool.false_eq_true, false_and, if_false]
    exact ih _ _

theorem index_entities_none (bls : List Block) (i : Nat) (m : BlockMap) :
    (ConvertMeshes.index bls i m none).2 = none ↔
      ∀ b ∈ bls, b.name ≠ AI_DXF_ENTITIES_MAGIC_BLOCK := by
  induction bls generalizing i m with
  | nil => simp [ConvertMeshes.index]
  | cons b bs ih =>
    simp only [ConvertMeshes.index, Option.isNone_none, true_and]
    by_cases hb : b.name = AI_DXF_ENTITIES_MAGIC_BLOCK
    · simp only [hb, if_true, index_entities_some]
      simp [hb]
    · simp only [hb, if_false, ih]
      simp [hb]

theorem insertedLines_mem (m : BlockMap) (blocks : List Block) (ins : InsertBlock)
    (pl : PolyLine) (h : pl ∈ insertedLines m blocks ins) :
    ∃ src ∈ blocks, ∃ pl0 ∈ src.lines, pl = ExpandBlockReferences.copy src ins pl0 := by
  unfold insertedLines at h
  split at h
  · simp at h
  · rename_i i hm
    split at h
    · simp at h
    · rename_i src hs
      obtain ⟨pl0, hpl0, heq⟩ := List.mem_map.mp h
      exact ⟨src, List.getElem?_mem hs, pl0, hpl0, heq.symm⟩

theorem insertOne_wellFormed (bl : Nat) (m : BlockMap) (blocks : List Block) (ins : InsertBlock)
    (h : ∀ b ∈ blocks, ∀ pl ∈ b.lines,
      pl.counts.sum = pl.indices.length ∧ pl.colors.length = pl.positions.length) :
    ∀ b ∈ ExpandBlockReferences.insertOne bl m blocks ins, ∀ pl ∈ b.lines,
      pl.counts.sum = pl.indices.length ∧ pl.colors.length = pl.positions.length := by
  intro b hb pl hpl
  rw [insertOne_eq] at hb
  obtain ⟨k, hk⟩ := List.getElem?_of_mem hb
  rw [modifyAt_getElem?] at hk
  split at hk
  · cases hs : blocks[k]? with
    | none => rw [hs] at hk; cases hk
    | some b0 =>
      rw [hs] at hk
      simp only [Option.map_some', Option.some.injEq] at hk
      subst hk
      simp only [List.mem_append] at hpl
      rcases hpl with hpl | hpl
      · exact h b0 (List.getElem?_mem hs) pl hpl
      · obtain ⟨src, hsrc, pl0, hpl0, heq⟩ := insertedLines_mem m blocks ins pl hpl
        have h0 := h src hsrc pl0 hpl0
        have hf := copy_fields src ins pl0
        subst heq
        rw [hf.1, hf.2.1, hf.2.2.1, hf.2.2.2.2.2]
        exact h0
  · exact h b (List.getElem?_mem hk) pl hpl

theorem run_wellFormed (bl : Nat) (m : BlockMap) (L : List InsertBlock) (blocks : List Block)
    (h : ∀ b ∈ blocks, ∀ pl ∈ b.lines,
      pl.counts.sum = pl.indices.length ∧ pl.colors.length = pl.positions.length) :
    ∀ b ∈ ExpandBlockReferences.run bl m L blocks, ∀ pl ∈ b.lines,
      pl.counts.sum = pl.indices.length ∧ pl.colors.length = pl.positions.length := by
  induction L generalizing blocks with
  | nil => rw [run_nil]; exact h
  | cons ins rest ih =>
    rw [run_cons]
    exact ih _ (insertOne_wellFormed bl m blocks ins h)

theorem entityLines_wellFormed (output : FileData)
    (h : ∀ b ∈ output.blocks, ∀ pl ∈ b.lines,
      pl.counts.sum = pl.indices.length ∧ pl.colors.length = pl.positions.length) :
    ∀ pl ∈ entityLines output,
      pl.counts.sum = pl.indices.length ∧ pl.colors.length = pl.positions.length := by
  intro pl hpl
  unfold entityLines at hpl
  split at hpl
  · simp at hpl
  · rename_i m e _
    have hwf : ∀ b ∈ ExpandBlockReferences output.blocks e m, ∀ pl ∈ b.lines,
        pl.counts.sum = pl.indices.length ∧ pl.colors.length = pl.positions.length := by
      unfold ExpandBlockReferences
      split
      · exact h
      · exact run_wellFormed e m _ _ h
    rw [List.getD_eq_getElem?_getD] at hpl
    cases hg : (ExpandBlockReferences output.blocks e m)[e]? with
    | none => rw [hg] at hpl; simp at hpl
    | some b =>
      rw [hg] at hpl
      exact hwf b (List.getElem?_mem hg) pl hpl

theorem ConvertMeshes_eq_assemble (output : FileData) (hne : output.blocks ≠ [])
    (hent : ¬ ∀ b ∈ output.blocks, b.name ≠ AI_DXF_ENTITIES_MAGIC_BLOCK) :
    ConvertMeshes output = ConvertMeshes.assemble (entityLines output) := by
  have hsome : (ConvertMeshes.index output.blocks 0 (fun _ => none) none).2 ≠ none :=
    fun hc => hent ((index_entities_none _ _ _).mp hc)
  unfold ConvertMeshes entityLines
  simp only [hne, if_false]
  cases hidx : ConvertMeshes.index output.blocks 0 (fun _ => none) none with
  | mk m ent =>
    cases ent with
    | none =>
      rw [hidx] at hsome
      exact absurd rfl hsome
    | some e => rfl

theorem firstSeenLayers_eq_nil (lines : List PolyLine) :
    (firstSeenLayers lines).length = 0 ↔ ∀ pl ∈ lines, pl.positions = [] := by
  constructor
  · intro h pl hpl
    by_contra hpos
    have := (bucket_inv lines).seen pl hpl hpos
    rw [List.length_eq_zero.mp h] at this
    simp at this
  · intro h
    by_contra hne
    obtain ⟨name, hname⟩ := List.exists_mem_of_ne_nil (firstSeenLayers lines)
      (fun hc => hne (by rw [hc]; rfl))
    obtain ⟨pl, hpl, hpos, _⟩ := firstSeenLayers_mem lines name hname
    exact hpos (h pl hpl)

theorem assemble_wellFormed (lines : List PolyLine)
    (hwf : ∀ pl ∈ lines,
      pl.counts.sum = pl.indices.length ∧ pl.colors.length = pl.positions.length) :
    ((∀ pl ∈ lines, pl.positions = []) →
      ConvertMeshes.assemble lines =
        Except.error (ImportError.deadly "DXF: this file contains no 3d data")) ∧
    (¬ (∀ pl ∈ lines, pl.positions = []) →
      (∃ pl ∈ lines, pl.positions ≠ [] ∧ ∃ i ∈ pl.indices, pl.positions.length ≤ i) →
      ConvertMeshes.assemble lines =
        Except.error (ImportError.deadly "DXF: vertex index out of bounds")) ∧
    (¬ (∀ pl ∈ lines, pl.positions = []) →
      ¬ (∃ pl ∈ lines, pl.positions ≠ [] ∧ ∃ i ∈ pl.indices, pl.positions.length ≤ i) →
      ∃ scene, ConvertMeshes.assemble lines = Except.ok scene ∧
        scene.mNumMeshes = (firstSeenLayers lines).length ∧ 1 ≤ scene.mNumMeshes) := by
  refine ⟨?_, ?_, ?_⟩
  · intro h
    rw [assemble_eq]
    simp only [(firstSeenLayers_eq_nil lines).mpr h, if_true]
  · intro hc hbad
    have hD : (firstSeenLayers lines).length ≠ 0 := fun h => hc ((firstSeenLayers_eq_nil lines).mp h)
    obtain ⟨pl, hpl, hpos, hi⟩ := hbad
    have inv := bucket_inv lines
    rw [assemble_eq]
    simp only [hD, if_false]
    obtain ⟨idx, hidx2⟩ := List.getElem?_of_mem (inv.seen pl hpl hpos)
    have he : (pl.layer, idx) ∈ (ConvertMeshes.bucket lines).layers := (inv.layers _ _).mpr hidx2
    rw [meshes_oob]
    · intro e hem p hp
      rw [(bucket_entry lines e hem).1] at hp
      exact hwf p (layerBucket_mem hp).1
    · refine ⟨_, he, pl, ?_, hi⟩
      rw [(bucket_entry lines _ he).1]
      exact mem_layerBucket hpl hpos
  · intro hc hgood
    have hD : (firstSeenLayers lines).length ≠ 0 := fun h => hc ((firstSeenLayers_eq_nil lines).mp h)
    have hsafe : ∀ pl ∈ lines, pl.positions ≠ [] → ReadSafe pl := by
      intro pl hpl hpos
      refine ⟨Nat.le_of_eq (hwf pl hpl).1, ?_⟩
      intro i hi
      have hi2 : i ∈ pl.indices := List.mem_of_mem_take hi
      have : i < pl.positions.length := by
        by_contra hcon
        exact hgood ⟨pl, hpl, hpos, i, hi2, Nat.le_of_not_lt hcon⟩
      exact ⟨this, by rw [(hwf pl hpl).2]; exact this⟩
    rw [assemble_eq]
    simp only [hD, if_false]
    rw [meshes_ok _ _ _ (assemble_buckets_safe lines hsafe)]
    refine ⟨_, rfl, (scene_meshes _).2, ?_⟩
    rw [(scene_meshes _).2]
    exact Nat.one_le_iff_ne_zero.mpr hD

/-- C11: on file data whose polylines have as many indices as their face
counts add up to (and, as the invariant of a polyline asks, as many colours as
positions), `ConvertMeshes` fails exactly when (a) there is no block, or (b) no
block has the reserved entities name, or (c) after the insertions are expanded
no polyline of the entity block has a position, or (d) some polyline of the
entity block with a position has an index at or beyond its number of
positions. In every other case it returns a scene with at least one mesh. -/
theorem convert_failure_policy (output : FileData)
    (hwf : ∀ b ∈ output.blocks, ∀ pl ∈ b.lines,
      pl.counts.sum = pl.indices.length ∧ pl.colors.length = pl.positions.length) :
    ((∃ e, ConvertMeshes output = Except.error e) ↔
      (output.blocks = [] ∨
        (∀ b ∈ output.blocks, b.name ≠ AI_DXF_ENTITIES_MAGIC_BLOCK) ∨
        (∀ pl ∈ entityLines output, pl.positions = []) ∨
        (∃ pl ∈ entityLines output,
          pl.positions ≠ [] ∧ ∃ i ∈ pl.indices, pl.positions.length ≤ i))) ∧
    (¬ (output.blocks = [] ∨
        (∀ b ∈ output.blocks, b.name ≠ AI_DXF_ENTITIES_MAGIC_BLOCK) ∨
        (∀ pl ∈ entityLines output, pl.positions = []) ∨
        (∃ pl ∈ entityLines output,
          pl.positions ≠ [] ∧ ∃ i ∈ pl.indices, pl.positions.length ≤ i)) →
      ∃ scene, ConvertMeshes output = Except.ok scene ∧ 1 ≤ scene.mNumMeshes) := by
  have hA := assemble_wellFormed (entityLines output) (entityLines_wellFormed output hwf)
  have hok : ¬ (output.blocks = [] ∨
        (∀ b ∈ output.blocks, b.name ≠ AI_DXF_ENTITIES_MAGIC_BLOCK) ∨
        (∀ pl ∈ entityLines output, pl.positions = []) ∨
        (∃ pl ∈ entityLines output,
          pl.positions ≠ [] ∧ ∃ i ∈ pl.indices, pl.positions.length ≤ i)) →
      ∃ scene, ConvertMeshes output = Except.ok scene ∧ 1 ≤ scene.mNumMeshes := by
    intro hn
    simp only [not_or] at hn
    obtain ⟨h1, h2, h3, h4⟩ := hn
    rw [ConvertMeshes_eq_assemble output h1 h2]
    obtain ⟨scene, hs, _, hs2⟩ := hA.2.2 h3 h4
    exact ⟨scene, hs, hs2⟩
  refine ⟨⟨?_, ?_⟩, hok⟩
  · rintro ⟨e, he⟩
    by_contra hn
    obtain ⟨scene, hs, _⟩ := hok hn
    rw [hs] at he
    cases he
  · intro h
    by_cases h1 : output.blocks = []
    · refine ⟨ImportError.deadly "DXF: no data blocks loaded", ?_⟩
      unfold ConvertMeshes
      simp only [h1, if_true]
    by_cases h2 : ∀ b ∈ output.blocks, b.name ≠ AI_DXF_ENTITIES_MAGIC_BLOCK
    · have hnone := (index_entities_none output.blocks 0 (fun _ => none)).mpr h2
      refine ⟨ImportError.deadly "DXF: no ENTITIES data block loaded", ?_⟩
      unfold ConvertMeshes
      simp only [h1, if_false]
      split
      · rfl
      · rename_i m e hidx
        rw [hidx] at hnone
        cases hnone
    rw [ConvertMeshes_eq_assemble output h1 h2]
    by_cases h3 : ∀ pl ∈ entityLines output, pl.positions = []
    · exact ⟨_, hA.1 h3⟩
    rcases h with h | h | h | h
    · exact absurd h h1
    · exact absurd h h2
    · exact absurd h h3
    · exact ⟨_, hA.2.1 h3 h⟩

theorem convert_failure_policy_witness :
    (∀ b ∈ sampleTwoFacesData.blocks, ∀ pl ∈ b.lines,
      pl.counts.sum = pl.indices.length ∧ pl.colors.length = pl.positions.length) ∧
    ∃ scene, ConvertMeshes sampleTwoFacesData = Except.ok scene ∧ 1 ≤ scene.mNumMeshes :=
  ⟨by simp [sampleTwoFacesData, sampleTwoFaces, sampleSegment],
    (convert_failure_policy sampleTwoFacesData
      (by simp [sampleTwoFacesData, sampleTwoFaces, sampleSegment])).2
      (by
        have hl : entityLines sampleTwoFacesData = [sampleTwoFaces, sampleSegment] := by
          simp [entityLines, sampleTwoFacesData, ConvertMeshes.index, ExpandBlockReferences,
            run_nil]
        rw [hl]
        simp [sampleTwoFacesData, sampleTwoFaces, sampleSegment])⟩

/-! ## Invariants of the parsed polylines -/

theorem AllLines_modifyBack (P : PolyLine → Prop) (f : Block → Block) (output : FileData)
    (hf : ∀ b : Block, (∀ pl ∈ b.lines, P pl) → ∀ pl ∈ (f b).lines, P pl)
    (h : AllLines P output) : AllLines P (modifyBack f output) := by
  cases output with
  | mk blocks reserved =>
    rcases List.eq_nil_or_concat blocks with hb | ⟨bs, b, hb⟩
    · subst hb; rw [modifyBack_nil]; exact h
    · rw [List.concat_eq_append] at hb
      subst hb
      rw [modifyBack_snoc]
      intro c hc pl hpl
      simp only [List.mem_append, List.mem_singleton] at hc
      rcases hc with hc | hc
      · exact h c (List.mem_append_left _ hc) pl hpl
      · subst hc
        exact hf b (h b (List.mem_append_right _ (List.mem_singleton_self _))) pl hpl

theorem AllLines_pushLine (P : PolyLine → Prop) (output : FileData) (line : PolyLine)
    (h : AllLines P output) (hl : P line) : AllLines P (pushLine output line) := by
  apply AllLines_modifyBack P _ output _ h
  intro b hb pl hpl
  simp only [List.mem_append, List.mem_singleton] at hpl
  rcases hpl with hpl | hpl
  · exact hb pl hpl
  · subst hpl; exact hl

theorem AllLines_pushBlock (P : PolyLine → Prop) (output : FileData) (b : Block)
    (hb : b.lines = []) (h : AllLines P output) :
    AllLines P { output with blocks := output.blocks ++ [b] } := by
  intro c hc pl hpl
  simp only [List.mem_append, List.mem_singleton] at hc
  rcases hc with hc | hc
  · exact h c hc pl hpl
  · subst hc; rw [hb] at hpl; simp at hpl

/-- The outcome of `ParsePolyLine` on the file data: the requests of the count
hints are recorded, and the blocks get nothing, or one polyline more, the one
that the final part of the function returns. -/
theorem ParsePolyLine_output (reader : LineReader) (output : FileData) :
    (ParsePolyLine.finish (ParsePolyLine.loop reader {}).2.line = none ∧
      (ParsePolyLine reader output).2 =
        noteReserved output (ParsePolyLine.loop reader {}).2.reserved) ∨
    ∃ line, ParsePolyLine.finish (ParsePolyLine.loop reader {}).2.line = some line ∧
      (ParsePolyLine reader output).2 =
        pushLine (noteReserved output (ParsePolyLine.loop reader {}).2.reserved) line := by
  cases h : ParsePolyLine.finish (ParsePolyLine.loop reader {}).2.line with
  | none =>
    refine Or.inl ⟨rfl, ?_⟩
    unfold ParsePolyLine
    simp only [h, ← pushLine_noteReserved, popLine_pushLine]
  | some line =>
    refine Or.inr ⟨line, rfl, ?_⟩
    unfold ParsePolyLine
    simp only [h, ← pushLine_noteReserved, setBackLine_pushLine]

/-- The outcome of `Parse3DFace` on the file data. -/
theorem Parse3DFace_output (reader : LineReader) (output : FileData) :
    (Parse3DFace.emit (Parse3DFace.loop reader {}).2 = none ∧
      (Parse3DFace reader output).2 = output) ∨
    ∃ line, Parse3DFace.emit (Parse3DFace.loop reader {}).2 = some line ∧
      (Parse3DFace reader output).2 = pushLine output line := by
  cases h : Parse3DFace.emit (Parse3DFace.loop reader {}).2 with
  | none =>
    refine Or.inl ⟨rfl, ?_⟩
    unfold Parse3DFace
    simp only [h, popLine_pushLine]
  | some line =>
    refine Or.inr ⟨line, rfl, ?_⟩
    unfold Parse3DFace
    simp only [h, setBackLine_pushLine]

theorem AllLines_ParsePolyLine (P : PolyLine → Prop) (hpoly : PolyLineParserYields P)
    (reader : LineReader) (output : FileData)
    (h : AllLines P output) : AllLines P (ParsePolyLine reader output).2 := by
  rcases ParsePolyLine_output reader output with ⟨_, h2⟩ | ⟨line, h1, h2⟩
  · rw [h2]; exact h
  · rw [h2]; exact AllLines_pushLine P _ line h (hpoly reader line h1)

theorem AllLines_Parse3DFace (P : PolyLine → Prop) (hface : FaceParserYields P)
    (reader : LineReader) (output : FileData)
    (h : AllLines P output) : AllLines P (Parse3DFace reader output).2 := by
  rcases Parse3DFace_output reader output with ⟨_, h2⟩ | ⟨line, h1, h2⟩
  · rw [h2]; exact h
  · rw [h2]; exact AllLines_pushLine P output line h (hface _ line h1)

theorem AllLines_ParseInsertion (P : PolyLine → Prop)
    (reader : LineReader) (output : FileData)
    (h : AllLines P output) : AllLines P (ParseInsertion reader output).2 := by
  unfold ParseInsertion
  exact AllLines_modifyBack P _ output (fun b hb => hb) h

theorem AllLines_header (P : PolyLine → Prop)
    (r : Record) (output : FileData) (h : AllLines P output) :
    AllLines P (modifyBack (fun b => ParseBlock.header b r) output) := by
  apply AllLines_modifyBack P _ output _ h
  intro b hb
  unfold ParseBlock.header
  split_ifs <;> exact hb

theorem AllLines_ParseBlock_body (P : PolyLine → Prop) (hpoly : PolyLineParserYields P) (hface : FaceParserYields P)
    (r : Record) (rs : LineReader) (output : FileData)
    (h : AllLines P output) :
    ∀ (s : Step), ParseBlock.body r rs output = s →
      match s with
      | Step.next _ output1 => AllLines P output1
      | Step.done _ output1 => AllLines P output1 := by
  have hh := AllLines_header P r output h
  have hp := AllLines_ParsePolyLine P hpoly rs _ hh
  have hf := AllLines_Parse3DFace P hface rs _ hh
  intro s hs
  subst hs
  unfold ParseBlock.body
  simp only [ParseLWPolyLine, Parse3DSolid, ParseMesh, ParseSurface, ParseAcShClass]
  split_ifs
  · exact h
  · exact hp
  · exact hh
  · exact hh
  · exact hf
  · exact hh
  · exact hh
  · exact hh
  · exact hh
  · exact hh

theorem AllLines_ParseBlock_loop (P : PolyLine → Prop) (hpoly : PolyLineParserYields P) (hface : FaceParserYields P)
    (reader : LineReader) (output : FileData)
    (h : AllLines P output) : AllLines P (ParseBlock.loop reader output).2 := by
  induction reader, output using ParseBlock.loop.induct with
  | case1 output => rw [ParseBlock_loop_nil]; exact h
  | case2 output r rs reader1 output1 hb =>
    rw [ParseBlock_loop_cons, hb]
    exact AllLines_ParseBlock_body P hpoly hface r rs output h _ hb
  | case3 output r rs reader1 output1 hb ih =>
    rw [ParseBlock_loop_cons, hb]
    exact ih (AllLines_ParseBlock_body P hpoly hface r rs output h _ hb)

theorem AllLines_ParseBlock (P : PolyLine → Prop) (hpoly : PolyLineParserYields P) (hface : FaceParserYields P)
    (reader : LineReader) (output : FileData)
    (h : AllLines P output) : AllLines P (ParseBlock reader output).2 :=
  AllLines_ParseBlock_loop P hpoly hface reader _ (AllLines_pushBlock P output {} rfl h)

theorem AllLines_ParseBlocks (P : PolyLine → Prop) (hpoly : PolyLineParserYields P) (hface : FaceParserYields P)
    (reader : LineReader) (output : FileData)
    (h : AllLines P output) : AllLines P (ParseBlocks reader output).2 := by
  induction reader, output using ParseBlocks.induct with
  | case1 output => rw [ParseBlocks]; exact h
  | case2 output r rs h1 => rw [ParseBlocks]; simp only [h1, if_true]; exact h
  | case3 output r rs h1 h2 res ih =>
    rw [ParseBlocks]; simp only [h1, h2, if_true, Bool.false_eq_true, if_false]
    exact ih (AllLines_ParseBlock P hpoly hface rs output h)
  | case4 output r rs h1 h2 ih =>
    rw [ParseBlocks]; simp only [h1, h2, if_true, Bool.false_eq_true, if_false]
    exact ih h

theorem AllLines_ParseEntities_body (P : PolyLine → Prop) (hpoly : PolyLineParserYields P) (hface : FaceParserYields P)
    (r : Record) (rs : LineReader) (output : FileData)
    (h : AllLines P output) :
    ∀ (s : Step), ParseEntities.body r rs output = s →
      match s with
      | Step.next _ output1 => AllLines P output1
      | Step.done _ output1 => AllLines P output1 := by
  have hp := AllLines_ParsePolyLine P hpoly rs _ h
  have hf := AllLines_Parse3DFace P hface rs _ h
  have hi := AllLines_ParseInsertion P rs _ h
  intro s hs
  subst hs
  unfold ParseEntities.body
  simp only [ParseLWPolyLine, Parse3DSolid, ParseMesh, ParseSurface, ParseAcShClass]
  split_ifs
  · exact h
  · exact hp
  · exact h
  · exact hi
  · exact hf
  · exact h
  · exact h
  · exact h
  · exact h
  · exact h

theorem AllLines_ParseEntities_loop (P : PolyLine → Prop) (hpoly : PolyLineParserYields P) (hface : FaceParserYields P)
    (reader : LineReader) (output : FileData)
    (h : AllLines P output) : AllLines P (ParseEntities.loop reader output).2 := by
  induction reader, output using ParseEntities.loop.induct with
  | case1 output => rw [ParseEntities_loop_nil]; exact h
  | case2 output r rs reader1 output1 hb =>
    rw [ParseEntities_loop_cons, hb]
    exact AllLines_ParseEntities_body P hpoly hface r rs output h _ hb
  | case3 output r rs reader1 output1 hb ih =>
    rw [ParseEntities_loop_cons, hb]
    exact ih (AllLines_ParseEntities_body P hpoly hface r rs output h _ hb)

theorem AllLines_ParseEntities (P : PolyLine → Prop) (hpoly : PolyLineParserYields P) (hface : FaceParserYields P)
    (reader : LineReader) (output : FileData)
    (h : AllLines P output) : AllLines P (ParseEntities reader output).2 :=
  AllLines_ParseEntities_loop P hpoly hface reader _
    (AllLines_pushBlock P output { name := AI_DXF_ENTITIES_MAGIC_BLOCK } rfl h)

theorem AllLines_InternReadFile_body (P : PolyLine → Prop) (hpoly : PolyLineParserYields P) (hface : FaceParserYields P)
    (r : Record) (rs : LineReader) (output : FileData)
    (h : AllLines P output) :
    ∀ (s : Step), InternReadFile.body r rs output = s →
      match s with
      | Step.next _ output1 => AllLines P output1
      | Step.done _ output1 => AllLines P output1 := by
  have hb := AllLines_ParseBlocks P hpoly hface (r :: rs) output h
  have he := AllLines_ParseEntities P hpoly hface (r :: rs) output h
  have hh : AllLines P (ParseHeader (r :: rs) output).2 := by
    rw [ParseHeader_output]; exact h
  intro s hs
  subst hs
  unfold InternReadFile.body
  split_ifs
  · exact hb
  · exact he
  · exact h
  · exact hh
  · exact h
  · exact h
  · exact h

theorem AllLines_InternReadFile_loop (P : PolyLine → Prop) (hpoly : PolyLineParserYields P) (hface : FaceParserYields P)
    (reader : LineReader) (output : FileData)
    (h : AllLines P output) : AllLines P (InternReadFile.loop reader output) := by
  induction reader, output using InternReadFile.loop.induct with
  | case1 output => rw [InternReadFile_loop_nil]; exact h
  | case2 output r rs reader1 output1 hb =>
    rw [InternReadFile_loop_cons, hb]
    exact AllLines_InternReadFile_body P hpoly hface r rs output h _ hb
  | case3 output r rs reader1 output1 hb ih =>
    rw [InternReadFile_loop_cons, hb]
    exact ih (AllLines_InternReadFile_body P hpoly hface r rs output h _ hb)

/-! ## Invariants of one polyline -/

theorem ParsePolyLine_loop_invariant (Q : PolyLine → Prop)
    (hflags : ∀ (l : PolyLine) (f : Nat), Q l → Q { l with flags := f })
    (hlayer : ∀ (l : PolyLine) (s : String), Q l → Q { l with layer := s })
    (hv : ∀ (st : VertexState) (l : PolyLine), st.indices.length ≤ 4 → Q l →
      Q (ParsePolyLineVertex.emit st l))
    (reader : LineReader) (st : PolyLineState) (h : Q st.line) :
    Q (ParsePolyLine.loop reader st).2.line := by
  have hvertex : ∀ (rs : LineReader) (l : PolyLine), Q l → Q (ParsePolyLineVertex rs l).2 := by
    intro rs l hl
    obtain ⟨vs, hvs, heq⟩ := ParsePolyLineVertex_line rs l
    rw [heq]
    exact hv vs l hvs hl
  induction reader, st using ParsePolyLine.loop.induct with
  | case1 st => rw [ParsePolyLine.loop]; exact h
  | case2 st r rs h1 => rw [ParsePolyLine.loop]; simp only [h1, if_true]; exact h
  | case3 st r rs h1 h2 res h3 =>
    rw [ParsePolyLine.loop]; simp only [h1, h2]
    simp only [res] at h3
    simp only [h3, if_true, Bool.false_eq_true, if_false]
    exact hvertex rs st.line h
  | case4 st r rs h1 h2 res h3 ih =>
    rw [ParsePolyLine.loop]; simp only [h1, h2]
    simp only [res] at h3 ih
    simp only [h3, if_true, Bool.false_eq_true, if_false]
    exact ih (hvertex rs st.line h)
  | case5 st r rs h1 h2 ih =>
    rw [ParsePolyLine.loop]; simp only [h1, h2, if_true, Bool.false_eq_true, if_false]
    apply ih
    unfold ParsePolyLine.step
    split_ifs
    · exact hflags _ _ h
    · exact h
    · exact h
    · exact h
    · exact hlayer _ _ h
    · exact h

theorem segments_eq (line : PolyLine) :
    ParsePolyLine.segments line =
      { line with
        indices := line.indices ++ List.range (2 * (line.positions.length / 2)) ++
          (if line.flags &&& DXF_POLYLINE_FLAG_CLOSED ≠ 0
            then [sizeMinusOne line.positions.length, 0] else [])
        counts := line.counts ++ List.replicate (line.positions.length / 2) 2 ++
          (if line.flags &&& DXF_POLYLINE_FLAG_CLOSED ≠ 0 then [2] else []) } := by
  unfold ParsePolyLine.segments ParsePolyLine.pairs
  rw [pairs_foldl]
  simp only
  split <;> simp

theorem emit_counts_sum (st : VertexState) (l : PolyLine) (hst : st.indices.length ≤ 4)
    (h : l.counts.sum = l.indices.length) :
    (ParsePolyLineVertex.emit st l).counts.sum = (ParsePolyLineVertex.emit st l).indices.length := by
  rw [emit_spec st l hst]
  split
  · exact h
  · simp only [List.length_append, List.length_map]
    split
    · rename_i h0
      rw [h0, h]
      rfl
    · simp [h]

theorem finish_counts_sum (line out : PolyLine) (h : line.counts.sum = line.indices.length)
    (hf : ParsePolyLine.finish line = some out) : out.counts.sum = out.indices.length := by
  unfold ParsePolyLine.finish at hf
  split_ifs at hf with h1 h2 h3
  · injection hf with hf; subst hf; exact h
  · injection hf with hf; subst hf
    rw [segments_eq]
    have hi : line.indices = [] := List.length_eq_zero.mp h3.1
    have hc : line.counts = [] := List.length_eq_zero.mp h3.2
    simp only [hi, hc, List.nil_append]
    split <;> simp <;> omega
  · injection hf with hf; subst hf; exact h

theorem polyline_yields_counts_sum :
    PolyLineParserYields (fun pl => pl.counts.sum = pl.indices.length) := by
  intro reader line hf
  refine finish_counts_sum _ line ?_ hf
  exact ParsePolyLine_loop_invariant (fun pl => pl.counts.sum = pl.indices.length)
    (fun l f h => h) (fun l s h => h) emit_counts_sum reader {} rfl

theorem face_yields_counts_sum :
    FaceParserYields (fun pl => pl.counts.sum = pl.indices.length) := by
  intro st line hf
  unfold Parse3DFace.emit at hf
  split at hf
  · cases hf
  · injection hf with hf
    subst hf
    cases st.b0 <;> cases st.b1 <;> simp [List.range, List.range.loop]

theorem insertOne_allLines (P : PolyLine → Prop)
    (hcopy : ∀ (src : Block) (ins : InsertBlock) (pl : PolyLine), P pl →
      P (ExpandBlockReferences.copy src ins pl))
    (bl : Nat) (m : BlockMap) (blocks : List Block) (ins : InsertBlock)
    (h : ∀ b ∈ blocks, ∀ pl ∈ b.lines, P pl) :
    ∀ b ∈ ExpandBlockReferences.insertOne bl m blocks ins, ∀ pl ∈ b.lines, P pl := by
  intro b hb pl hpl
  rw [insertOne_eq] at hb
  obtain ⟨k, hk⟩ := List.getElem?_of_mem hb
  rw [modifyAt_getElem?] at hk
  split at hk
  · cases hs : blocks[k]? with
    | none => rw [hs] at hk; cases hk
    | some b0 =>
      rw [hs] at hk
      simp only [Option.map_some', Option.some.injEq] at hk
      subst hk
      simp only [List.mem_append] at hpl
      rcases hpl with hpl | hpl
      · exact h b0 (List.getElem?_mem hs) pl hpl
      · obtain ⟨src, hsrc, pl0, hpl0, heq⟩ := insertedLines_mem m blocks ins pl hpl
        subst heq
        exact hcopy src ins pl0 (h src hsrc pl0 hpl0)
  · exact h b (List.getElem?_mem hk) pl hpl

theorem expand_allLines (P : PolyLine → Prop)
    (hcopy : ∀ (src : Block) (ins : InsertBlock) (pl : PolyLine), P pl →
      P (ExpandBlockReferences.copy src ins pl))
    (blocks : List Block) (bl : Nat) (m : BlockMap)
    (h : ∀ b ∈ blocks, ∀ pl ∈ b.lines, P pl) :
    ∀ b ∈ ExpandBlockReferences blocks bl m, ∀ pl ∈ b.lines, P pl := by
  have hrun : ∀ (L : List InsertBlock) (bs : List Block),
      (∀ b ∈ bs, ∀ pl ∈ b.lines, P pl) →
      ∀ b ∈ ExpandBlockReferences.run bl m L bs, ∀ pl ∈ b.lines, P pl := by
    intro L
    induction L with
    | nil => intro bs hbs; rw [run_nil]; exact hbs
    | cons ins rest ih =>
      intro bs hbs
      rw [run_cons]
      exact ih _ (insertOne_allLines P hcopy bl m bs ins hbs)
  unfold ExpandBlockReferences
  split
  · exact h
  · exact hrun _ _ h

theorem entityLines_allLines (P : PolyLine → Prop)
    (hcopy : ∀ (src : Block) (ins : InsertBlock) (pl : PolyLine), P pl →
      P (ExpandBlockReferences.copy src ins pl))
    (output : FileData) (h : AllLines P output) : ∀ pl ∈ entityLines output, P pl := by
  intro pl hpl
  unfold entityLines at hpl
  split at hpl
  · simp at hpl
  · rename_i m e _
    have hwf := expand_allLines P hcopy output.blocks e m h
    rw [List.getD_eq_getElem?_getD] at hpl
    cases hg : (ExpandBlockReferences output.blocks e m)[e]? with
    | none => rw [hg] at hpl; simp at hpl
    | some b =>
      rw [hg] at hpl
      exact hwf b (List.getElem?_mem hg) pl hpl

/-- C22: in every polyline of every block parsed from any record stream the
face counts add up to the number of indices; `ParsePolyLine` (with
`ParsePolyLineVertex`) and `Parse3DFace` keep this true of the file data, and
so does `ExpandBlockReferences`, whose copies have the counts and the indices
of their source polyline. -/
theorem counts_sum_invariant (reader : LineReader) :
    (∀ b ∈ (InternReadFile.loop reader {}).blocks, ∀ pl ∈ b.lines,
      pl.counts.sum = pl.indices.length) ∧
    (∀ (bl : Nat) (m : BlockMap),
      ∀ b ∈ ExpandBlockReferences (InternReadFile.loop reader {}).blocks bl m,
        ∀ pl ∈ b.lines, pl.counts.sum = pl.indices.length) ∧
    (∀ (rd : LineReader) (output : FileData),
      AllLines (fun pl => pl.counts.sum = pl.indices.length) output →
      AllLines (fun pl => pl.counts.sum = pl.indices.length) (ParsePolyLine rd output).2 ∧
      AllLines (fun pl => pl.counts.sum = pl.indices.length) (Parse3DFace rd output).2) ∧
    (∀ (rd : LineReader) (line : PolyLine), line.counts.sum = line.indices.length →
      (ParsePolyLineVertex rd line).2.counts.sum = (ParsePolyLineVertex rd line).2.indices.length) ∧
    (∀ (src : Block) (ins : InsertBlock) (pl : PolyLine),
      (ExpandBlockReferences.copy src ins pl).counts = pl.counts ∧
      (ExpandBlockReferences.copy src ins pl).indices = pl.indices) := by
  have hcopy : ∀ (src : Block) (ins : InsertBlock) (pl : PolyLine),
      pl.counts.sum = pl.indices.length →
      (ExpandBlockReferences.copy src ins pl).counts.sum =
        (ExpandBlockReferences.copy src ins pl).indices.length := by
    intro src ins pl h
    rw [(copy_fields src ins pl).2.1, (copy_fields src ins pl).2.2.1]
    exact h
  have hparsed := AllLines_InternReadFile_loop _ polyline_yields_counts_sum
    face_yields_counts_sum reader {} (by intro b hb; simp at hb)
  refine ⟨hparsed, ?_, ?_, ?_, ?_⟩
  · intro bl m
    exact expand_allLines _ hcopy _ bl m hparsed
  · intro rd output h
    exact ⟨AllLines_ParsePolyLine _ polyline_yields_counts_sum rd output h,
      AllLines_Parse3DFace _ face_yields_counts_sum rd output h⟩
  · intro rd line h
    obtain ⟨vs, hvs, heq⟩ := ParsePolyLineVertex_line rd line
    rw [heq]
    exact emit_counts_sum vs line hvs h
  · intro src ins pl
    exact ⟨(copy_fields src ins pl).2.2.1, (copy_fields src ins pl).2.1⟩

theorem emit_colors (st : VertexState) (l : PolyLine) (hst : st.indices.length ≤ 4)
    (h : l.colors.length = l.positions.length) :
    (ParsePolyLineVertex.emit st l).colors.length =
      (ParsePolyLineVertex.emit st l).positions.length := by
  rw [emit_spec st l hst]
  split
  · simp [h]
  · exact h

theorem finish_fields (line out : PolyLine) (hf : ParsePolyLine.finish line = some out) :
    out.positions = line.positions ∧ out.colors = line.colors ∧ out.flags = line.flags ∧
      out.layer = line.layer := by
  unfold ParsePolyLine.finish at hf
  split_ifs at hf with h1 h2 h3
  · injection hf with hf; subst hf; exact ⟨rfl, rfl, rfl, rfl⟩
  · injection hf with hf; subst hf
    rw [segments_eq]
    exact ⟨rfl, rfl, rfl, rfl⟩
  · injection hf with hf; subst hf; exact ⟨rfl, rfl, rfl, rfl⟩

theorem polyline_yields_colors :
    PolyLineParserYields (fun pl => pl.colors.length = pl.positions.length) := by
  intro reader line hf
  obtain ⟨h1, h2, _⟩ := finish_fields _ line hf
  show line.colors.length = line.positions.length
  rw [h1, h2]
  exact ParsePolyLine_loop_invariant (fun pl => pl.colors.length = pl.positions.length)
    (fun l f h => h) (fun l s h => h) emit_colors reader {} rfl

theorem face_yields_colors :
    FaceParserYields (fun pl => pl.colors.length = pl.positions.length) := by
  intro st line hf
  unfold Parse3DFace.emit at hf
  split at hf
  · cases hf
  · injection hf with hf
    subst hf
    cases st.b0 <;> cases st.b1 <;> simp [List.range, List.range.loop]

/-- C23: every polyline of every block parsed from any record stream has as
many colours as positions, and so has every copy made by
`ExpandBlockReferences`; in particular every polyline of the entity block that
`ConvertMeshes` walks has, so the assertion in its loop holds. -/
theorem colors_match_positions (reader : LineReader) :
    (∀ b ∈ (InternReadFile.loop reader {}).blocks, ∀ pl ∈ b.lines,
      pl.colors.length = pl.positions.length) ∧
    (∀ (bl : Nat) (m : BlockMap),
      ∀ b ∈ ExpandBlockReferences (InternReadFile.loop reader {}).blocks bl m,
        ∀ pl ∈ b.lines, pl.colors.length = pl.positions.length) ∧
    (∀ pl ∈ entityLines (InternReadFile.loop reader {}),
      pl.positions.length = pl.colors.length) ∧
    (∀ (rd : LineReader) (output : FileData),
      AllLines (fun pl => pl.colors.length = pl.positions.length) output →
      AllLines (fun pl => pl.colors.length = pl.positions.length) (ParsePolyLine rd output).2 ∧
      AllLines (fun pl => pl.colors.length = pl.positions.length) (Parse3DFace rd output).2) ∧
    (∀ (src : Block) (ins : InsertBlock) (pl : PolyLine),
      (ExpandBlockReferences.copy src ins pl).colors = pl.colors ∧
      (ExpandBlockReferences.copy src ins pl).positions.length = pl.positions.length) := by
  have hcopy : ∀ (src : Block) (ins : InsertBlock) (pl : PolyLine),
      pl.colors.length = pl.positions.length →
      (ExpandBlockReferences.copy src ins pl).colors.length =
        (ExpandBlockReferences.copy src ins pl).positions.length := by
    intro src ins pl h
    rw [(copy_fields src ins pl).1, (copy_fields src ins pl).2.2.2.2.2]
    exact h
  have hparsed := AllLines_InternReadFile_loop _ polyline_yields_colors
    face_yields_colors reader {} (by intro b hb; simp at hb)
  refine ⟨hparsed, ?_, ?_, ?_, ?_⟩
  · intro bl m
    exact expand_allLines _ hcopy _ bl m hparsed
  · intro pl hpl
    exact (entityLines_allLines _ hcopy _ hparsed pl hpl).symm
  · intro rd output h
    exact ⟨AllLines_ParsePolyLine _ polyline_yields_colors rd output h,
      AllLines_Parse3DFace _ face_yields_colors rd output h⟩
  · intro src ins pl
    exact ⟨(copy_fields src ins pl).1, (copy_fields src ins pl).2.2.2.2.2⟩

/-! ## The range of the indices -/

/-- C24, counterexample: the file `sampleIndexBeyond` is parsed to an entity
block whose polyline has one position and the indices `4, 4`: the index of a
face record is stored as it is read, whatever the number of positions. -/
theorem parsed_index_beyond_positions :
    InternReadFile.loop sampleIndexBeyond {} =
      { blocks := [{ name := AI_DXF_ENTITIES_MAGIC_BLOCK, lines := [sampleIndexBeyondLine] }] } ∧
    ¬ (∀ b ∈ (InternReadFile.loop sampleIndexBeyond {}).blocks, ∀ pl ∈ b.lines,
      ∀ i ∈ pl.indices, i < pl.positions.length) := by
  have h : InternReadFile.loop sampleIndexBeyond {} =
      { blocks := [{ name := AI_DXF_ENTITIES_MAGIC_BLOCK, lines := [sampleIndexBeyondLine] }] } := by
    simp [sampleIndexBeyond, sampleIndexBeyondLine, InternReadFile_loop_cons,
      InternReadFile_loop_nil, InternReadFile.body, ParseEntities, ParseEntities_loop_cons,
      ParseEntities_loop_nil, ParseEntities.body, Record.Is, LineReader.Is, isFaceEntity,
      isSolidEntity, isSurfaceEntity, isAcShEntity,
      ParsePolyLine, noteReserved, ParsePolyLine.loop, ParsePolyLine.step,
      ParsePolyLine.finish,
      ParsePolyLineVertex, ParsePolyLineVertex.loop, ParsePolyLineVertex.step,
      ParsePolyLineVertex.emit, ParsePolyLineVertex.pushIndices, VertexState.cnti, toUnsigned,
      GroupCode_XComp, GroupCode_YComp, GroupCode_ZComp, pushLine, popLine, setBackLine,
      modifyBack, noteReserved, DXF_POLYLINE_FLAG_POLYFACEMESH, decBack]
  refine ⟨h, ?_⟩
  rw [h]
  intro hall
  have := hall _ (List.mem_singleton_self _) sampleIndexBeyondLine (by simp) 4
    (by simp [sampleIndexBeyondLine])
  simp [sampleIndexBeyondLine] at this

theorem face_emit_index_range (st : FaceState) (line : PolyLine)
    (h : Parse3DFace.emit st = some line) : ∀ i ∈ line.indices, i < line.positions.length := by
  unfold Parse3DFace.emit at h
  split at h
  · cases h
  · injection h with h
    subst h
    cases st.b0 <;> cases st.b1 <;> simp [List.range, List.range.loop]

theorem segments_index_range (line : PolyLine) (hi : line.indices = [])
    (hp : line.positions ≠ []) :
    ∀ i ∈ (ParsePolyLine.segments line).indices,
      i < (ParsePolyLine.segments line).positions.length := by
  have hn : 1 ≤ line.positions.length := by
    rcases Nat.eq_zero_or_pos line.positions.length with h | h
    · exact absurd (List.length_eq_zero.mp h) hp
    · exact h
  rw [segments_eq]
  simp only [hi, List.nil_append]
  intro i hmem
  simp only [List.mem_append, List.mem_range] at hmem
  rcases hmem with hmem | hmem
  · omega
  · split at hmem
    · simp only [List.mem_cons, List.mem_singleton, List.not_mem_nil, or_false] at hmem
      have hs : sizeMinusOne line.positions.length = line.positions.length - 1 := by
        unfold sizeMinusOne
        have : line.positions.length ≠ 0 := by omega
        simp [this]
      rcases hmem with hmem | hmem
      · rw [hmem, hs]; omega
      · rw [hmem]; omega
    · simp at hmem

/-- C24 (as amended): every polyline that `Parse3DFace` emits has all its
indices below its number of positions; and so has every polyline that
`ParsePolyLine` keeps when the records gave at least one position and no index
(its indices are then the segments that the parser makes up). The indices of
face records are stored as read. -/
theorem synthesized_index_range :
    (∀ (st : FaceState) (line : PolyLine), Parse3DFace.emit st = some line →
      ∀ i ∈ line.indices, i < line.positions.length) ∧
    (∀ (reader : LineReader) (line : PolyLine),
      (ParsePolyLine.loop reader {}).2.line.indices = [] →
      (ParsePolyLine.loop reader {}).2.line.positions ≠ [] →
      ParsePolyLine.finish (ParsePolyLine.loop reader {}).2.line = some line →
      ∀ i ∈ line.indices, i < line.positions.length) ∧
    (∀ (reader : LineReader) (output : FileData),
      AllLines (fun pl => ∀ i ∈ pl.indices, i < pl.positions.length) output →
      AllLines (fun pl => ∀ i ∈ pl.indices, i < pl.positions.length)
        (Parse3DFace reader output).2) := by
  refine ⟨face_emit_index_range, ?_, ?_⟩
  · intro reader line hi hp hf
    have hc : (ParsePolyLine.loop reader {}).2.line.counts = [] :=
      ParsePolyLine_loop_noCounts reader {} (fun _ => rfl) hi
    unfold ParsePolyLine.finish at hf
    split_ifs at hf with h1 h2 h3
    · injection hf with hf; subst hf; rw [hi]; simp
    · injection hf with hf; subst hf
      exact segments_index_range _ hi hp
    · injection hf with hf; subst hf; rw [hi]; simp
  · intro reader output h
    exact AllLines_Parse3DFace _ face_emit_index_range reader output h

/-! ## The scene -/

theorem ConvertMeshes_ok_assemble (output : FileData) (scene : aiScene)
    (h : ConvertMeshes output = Except.ok scene) :
    ConvertMeshes.assemble (entityLines output) = Except.ok scene := by
  unfold ConvertMeshes at h
  unfold entityLines
  split_ifs at h with h1
  cases hidx : ConvertMeshes.index output.blocks 0 (fun _ => none) none with
  | mk m ent =>
    rw [hidx] at h
    cases ent with
    | none => cases h
    | some e => exact h

/-- The meshes of an assembled scene: mesh `i` is the mesh of the bucket of
the `i`-th layer name, and the root node is the one that `GenerateHierarchy`
builds over these meshes. -/
theorem assemble_scene (lines : List PolyLine) (scene : aiScene)
    (h : ConvertMeshes.assemble lines = Except.ok scene) :
    scene.mNumMeshes = (firstSeenLayers lines).length ∧
    scene.mMeshes.length = (firstSeenLayers lines).length ∧
    1 ≤ (firstSeenLayers lines).length ∧
    (∀ (i : Nat) (name : String), (firstSeenLayers lines)[i]? = some name →
      scene.mMeshes[i]? = some (some (meshOf name (layerBucket lines name)))) ∧
    scene.mRootNode =
      (GenerateHierarchy { mNumMeshes := scene.mNumMeshes, mMeshes := scene.mMeshes }).mRootNode := by
  obtain ⟨h1, h2, h3⟩ := assemble_ok_safe lines scene h
  have hsc := scene_meshes
    { mNumMeshes := (firstSeenLayers lines).length
      mMeshes := storedMeshes (ConvertMeshes.bucket lines).corr
        (ConvertMeshes.bucket lines).layers
        (List.replicate (firstSeenLayers lines).length none) }
  rw [← h3] at hsc
  refine ⟨hsc.2, ?_, Nat.one_le_iff_ne_zero.mpr h1, ?_, ?_⟩
  · rw [hsc.1]; simp [storedMeshes_length]
  · intro i name hi
    have inv := bucket_inv lines
    have he : (name, i) ∈ (ConvertMeshes.bucket lines).layers := (inv.layers _ _).mpr hi
    have hb := (bucket_entry lines _ he).1
    have hlt : i < (firstSeenLayers lines).length := (List.getElem?_eq_some_iff.mp hi).1
    rw [hsc.1]
    have := storedMeshes_get (ConvertMeshes.bucket lines).corr
      (ConvertMeshes.bucket lines).layers
      (List.replicate (firstSeenLayers lines).length none) (name, i) he inv.idxNodup
      (by simpa using hlt)
    simp only at this
    rw [this, hb]
  · rw [hsc.1, hsc.2, h3]
    unfold GenerateMaterials GenerateHierarchy
    split <;> rfl

theorem sampleTwoLayers_convert :
    ConvertMeshes sampleTwoLayersData = Except.ok sampleTwoLayersScene := by
  simp [sampleTwoLayersData, sampleTwoLayersScene, sampleSegmentB, sampleTriangleA, ConvertMeshes,
    ConvertMeshes.index, AI_DXF_ENTITIES_MAGIC_BLOCK, ExpandBlockReferences,
    ExpandBlockReferences.run, ConvertMeshes.assemble, ConvertMeshes.bucket,
    ConvertMeshes.bucketOne, mapFind, mapInsert, modifyAt, ConvertMeshes.meshes,
    ConvertMeshes.buildMesh, ConvertMeshes.lines, ConvertMeshes.faces, ConvertMeshes.corners,
    primitiveBit, meshOf, cornerPositions, cornerColors, walked, consecutiveFaces, allCounts,
    List.range']

/-- C25 (amended): after a successful `ConvertMeshes` with `k` meshes (`k` is
at least 1) the root node is named "<DXF_ROOT>". With `k = 1` the root refers
to mesh 0 and has no child. With `k ≥ 2` the root refers to no mesh and has
`k` children; child `m` carries the name of mesh `m`, which is what
`aiString::Set` stores for the `m`-th layer name (the layer name when that has
fewer than 1024 bytes, the empty name otherwise), refers to mesh `m` alone and
has no children of its own. The parent of a child is the root, the node that
lists it. -/
theorem scene_hierarchy (output : FileData) (scene : aiScene)
    (h : ConvertMeshes output = Except.ok scene) :
    1 ≤ scene.mNumMeshes ∧ scene.mMeshes.length = scene.mNumMeshes ∧
    ∃ root, scene.mRootNode = some root ∧ root.mName = "<DXF_ROOT>" ∧
      (scene.mNumMeshes = 1 → root.mMeshes = [0] ∧ root.mChildren = []) ∧
      (2 ≤ scene.mNumMeshes → root.mMeshes = [] ∧
        root.mChildren.length = scene.mNumMeshes ∧
        ∀ m, m < scene.mNumMeshes → ∃ mesh name, scene.mMeshes[m]? = some (some mesh) ∧
          (firstSeenLayers (entityLines output))[m]? = some name ∧
          mesh.mName = aiString.Set name ∧
          (name.utf8ByteSize < 1024 → mesh.mName = name) ∧
          (1024 ≤ name.utf8ByteSize → mesh.mName = "") ∧
          root.mChildren[m]? = some (aiNode.mk mesh.mName {} [m] [])) := by
  obtain ⟨h1, h2, h3, h4, h5⟩ :=
    assemble_scene (entityLines output) scene (ConvertMeshes_ok_assemble output scene h)
  refine ⟨by rw [h1]; exact h3, by rw [h1, h2], ?_⟩
  rw [h5]
  unfold GenerateHierarchy
  by_cases hk : scene.mNumMeshes = 1
  · simp only [hk, if_true]
    exact ⟨_, rfl, rfl, fun _ => ⟨rfl, rfl⟩, fun h2 => absurd h2 (by omega)⟩
  · rw [if_neg hk]
    refine ⟨_, rfl, rfl, fun hc => absurd hc hk, fun _ => ⟨rfl, ?_, ?_⟩⟩
    · simp [aiNode.mChildren]
    · intro m hm
      have hlt : m < (firstSeenLayers (entityLines output)).length := by rw [← h1]; exact hm
      have hname : (firstSeenLayers (entityLines output))[m]? =
          some ((firstSeenLayers (entityLines output))[m]) := List.getElem?_eq_getElem hlt
      have hmesh := h4 m _ hname
      refine ⟨_, _, hmesh, hname, rfl, aiString_Set_short _, aiString_Set_long _, ?_⟩
      simp only [aiNode.mChildren, List.getElem?_map, List.getElem?_range hm, Option.map_some',
        List.getD_eq_getElem?_getD, hmesh, Option.getD_some]

theorem scene_hierarchy_witness :
    ∃ root, sampleTwoLayersScene.mRootNode = some root ∧ root.mName = "<DXF_ROOT>" ∧
      root.mMeshes = [] ∧
      root.mChildren = [aiNode.mk "B" {} [0] [], aiNode.mk "A" {} [1] []] := by
  obtain ⟨_, _, root, hr, hn, _, h2⟩ :=
    scene_hierarchy sampleTwoLayersData sampleTwoLayersScene sampleTwoLayers_convert
  have hk : sampleTwoLayersScene.mNumMeshes = 2 := by
    simp [sampleTwoLayersScene, GenerateMaterials, GenerateHierarchy]
  obtain ⟨hm, hl, hc⟩ := h2 (by rw [hk])
  refine ⟨root, hr, hn, hm, ?_⟩
  rw [hk] at hl hc
  obtain ⟨m0, _, hm0, _, _, _, _, hc0⟩ := hc 0 (by omega)
  obtain ⟨m1, _, hm1, _, _, _, _, hc1⟩ := hc 1 (by omega)
  have e0 : m0 = meshOf "B" [sampleSegmentB] := by
    simp [sampleTwoLayersScene, GenerateMaterials, GenerateHierarchy] at hm0
    exact hm0.symm
  have e1 : m1 = meshOf "A" [sampleTriangleA] := by
    simp [sampleTwoLayersScene, GenerateMaterials, GenerateHierarchy] at hm1
    exact hm1.symm
  subst e0 e1
  apply List.ext_getElem?
  intro i
  rcases i with _ | _ | i
  · rw [hc0]; rfl
  · rw [hc1]; rfl
  · have : (root.mChildren)[i + 1 + 1]? = none := by
      apply List.getElem?_eq_none
      omega
    rw [this]
    rfl

/-! ## Primitive types -/

theorem consecutiveFaces_prims (cs : List Nat) (s p : Nat) :
    (consecutiveFaces cs s).foldl (fun q f => q ||| primitiveBit f.mIndices.length) p =
      cs.foldl (fun q c => q ||| primitiveBit c) p := by
  induction cs generalizing s p with
  | nil => rfl
  | cons c cs ih =>
    simp only [consecutiveFaces, List.foldl_cons, List.length_range']
    exact ih _ _

theorem scene_mesh_of (lines : List PolyLine) (scene : aiScene)
    (h : ConvertMeshes.assemble lines = Except.ok scene) (m : Nat) (mesh : aiMesh)
    (hm : scene.mMeshes[m]? = some (some mesh)) :
    ∃ name, (firstSeenLayers lines)[m]? = some name ∧
      mesh = meshOf name (layerBucket lines name) := by
  obtain ⟨_, h2, _, h4, _⟩ := assemble_scene lines scene h
  have hlt : m < (firstSeenLayers lines).length := by
    rw [← h2]
    exact (List.getElem?_eq_some_iff.mp hm).1
  have hname : (firstSeenLayers lines)[m]? = some ((firstSeenLayers lines)[m]) :=
    List.getElem?_eq_getElem hlt
  refine ⟨_, hname, ?_⟩
  have := h4 m _ hname
  rw [hm] at this
  injection this with this
  injection this

/-- C26: in every mesh of a scene that `ConvertMeshes` returns, the primitive
types are the bitwise OR, over the faces of the mesh, of the bit of the number
of corners of the face: POINT for 1 corner, LINE for 2, TRIANGLE for 3 and
POLYGON for any other number. A mesh without faces has the primitive types
0. -/
theorem primitive_type_flags (output : FileData) (scene : aiScene) (m : Nat) (mesh : aiMesh)
    (h : ConvertMeshes output = Except.ok scene)
    (hm : scene.mMeshes[m]? = some (some mesh)) :
    mesh.mPrimitiveTypes =
      mesh.mFaces.foldl (fun p f => p ||| primitiveBit f.mIndices.length) 0 ∧
    (mesh.mFaces = [] → mesh.mPrimitiveTypes = 0) ∧
    primitiveBit 1 = aiPrimitiveType_POINT ∧
    primitiveBit 2 = aiPrimitiveType_LINE ∧
    primitiveBit 3 = aiPrimitiveType_TRIANGLE ∧
    (∀ n, n ≠ 1 → n ≠ 2 → n ≠ 3 → primitiveBit n = aiPrimitiveType_POLYGON) := by
  obtain ⟨name, _, hmesh⟩ := scene_mesh_of (entityLines output) scene
    (ConvertMeshes_ok_assemble output scene h) m mesh hm
  have hp : mesh.mPrimitiveTypes =
      mesh.mFaces.foldl (fun p f => p ||| primitiveBit f.mIndices.length) 0 := by
    rw [hmesh]
    simp only [meshOf, consecutiveFaces_prims]
  refine ⟨hp, ?_, rfl, rfl, rfl, ?_⟩
  · intro hf
    rw [hp, hf]
    rfl
  · intro n h1 h2 h3
    simp [primitiveBit, h1, h2, h3]

theorem primitive_type_flags_witness :
    (meshOf "A" [sampleTriangleA]).mPrimitiveTypes = aiPrimitiveType_TRIANGLE ∧
    (meshOf "A" [sampleTriangleA]).mPrimitiveTypes =
      (meshOf "A" [sampleTriangleA]).mFaces.foldl
        (fun p f => p ||| primitiveBit f.mIndices.length) 0 :=
  ⟨by simp [meshOf, allCounts, sampleTriangleA, primitiveBit, aiPrimitiveType_TRIANGLE],
    (primitive_type_flags sampleTwoLayersData sampleTwoLayersScene 1
      (meshOf "A" [sampleTriangleA]) sampleTwoLayers_convert
      (by simp [sampleTwoLayersScene, GenerateMaterials, GenerateHierarchy])).1⟩

/-! ## Insertions -/

theorem floatOr_snoc (grp : List Record) (r : Record) (code : Int) (d : ℚ) :
    floatOr (grp ++ [r]) code d =
      if r.GroupCode = code then r.ValueAsFloat else floatOr grp code d := by
  unfold floatOr
  rw [lastWith_snoc]
  split_ifs <;> rfl

theorem textOf_snoc (grp : List Record) (r : Record) (code : Int) :
    textOf (grp ++ [r]) code = if r.GroupCode = code then r.Value else textOf grp code := by
  unfold textOf
  rw [lastWith_snoc]
  split_ifs <;> rfl

theorem ParseInsertion_loop_eq (reader : LineReader) (bl : InsertBlock) :
    ParseInsertion.loop reader bl =
      (reader.dropWhile (fun r => decide (r.GroupCode ≠ 0)),
        (entityGroup reader).foldl ParseInsertion.step bl) := by
  induction reader generalizing bl with
  | nil => simp [ParseInsertion.loop, entityGroup]
  | cons r rs ih =>
    simp only [ParseInsertion.loop]
    by_cases h : r.GroupCode = 0
    · simp [h, entityGroup, List.dropWhile, List.takeWhile]
    · simp only [h, if_false, ih]
      simp [entityGroup, List.dropWhile, List.takeWhile, h]

theorem ParseInsertion_step_of (grp : List Record) (r : Record) :
    ParseInsertion.step (insertionOf grp) r = insertionOf (grp ++ [r]) := by
  have hcases : r.GroupCode = 2 ∨ r.GroupCode = 10 ∨ r.GroupCode = 20 ∨ r.GroupCode = 30 ∨
      r.GroupCode = 41 ∨ r.GroupCode = 42 ∨ r.GroupCode = 43 ∨ r.GroupCode = 50 ∨
      (r.GroupCode ≠ 2 ∧ r.GroupCode ≠ 10 ∧ r.GroupCode ≠ 20 ∧ r.GroupCode ≠ 30 ∧
        r.GroupCode ≠ 41 ∧ r.GroupCode ≠ 42 ∧ r.GroupCode ≠ 43 ∧ r.GroupCode ≠ 50) := by
    omega
  rcases hcases with h | h | h | h | h | h | h | h | h
  all_goals
    simp [ParseInsertion.step, insertionOf, floatOf_snoc, floatOr_snoc, textOf_snoc,
      GroupCode_Name, GroupCode_XComp, GroupCode_YComp, GroupCode_ZComp, h]

theorem ParseInsertion_fold_eq (grp : List Record) :
    grp.foldl ParseInsertion.step {} = insertionOf grp := by
  induction grp using List.reverseRecOn with
  | nil => simp [insertionOf, floatOf, floatOr, textOf, lastWith]
  | append_singleton l a ih =>
    rw [List.foldl_append, ih]
    simp only [List.foldl_cons, List.foldl_nil]
    exact ParseInsertion_step_of l a

theorem entityGroup_append (pre tail : LineReader) (r : Record)
    (hpre : ∀ x ∈ pre, x.GroupCode ≠ 0) (hr : r.GroupCode = 0) :
    entityGroup (pre ++ r :: tail) = pre ∧
      (pre ++ r :: tail).dropWhile (fun x => decide (x.GroupCode ≠ 0)) = r :: tail := by
  induction pre with
  | nil => simp [entityGroup, List.takeWhile, List.dropWhile, hr]
  | cons p ps ih =>
    have hp : p.GroupCode ≠ 0 := hpre p (List.mem_cons_self _ _)
    have := ih (fun x hx => hpre x (List.mem_cons_of_mem _ hx))
    have hd : decide (p.GroupCode ≠ 0) = true := by simp [hp]
    unfold entityGroup at this ⊢
    rw [List.cons_append, List.takeWhile_cons, List.dropWhile_cons]
    simp only [hd, if_true]
    exact ⟨congrArg (List.cons p) this.1, this.2⟩

theorem lastWith_filter (grp : List Record) (p : Record → Bool) (code : Int)
    (hp : ∀ r : Record, r.GroupCode = code → p r = true) :
    lastWith (grp.filter p) code = lastWith grp code := by
  unfold lastWith
  rw [List.filter_filter]
  congr 1
  apply List.filter_congr
  intro r _
  by_cases h : r.GroupCode = code
  · simp [h, hp r h]
  · simp [h]

theorem lastWith_none (grp : List Record) (code : Int) (h : ∀ r ∈ grp, r.GroupCode ≠ code) :
    lastWith grp code = none := by
  unfold lastWith
  have : grp.filter (fun r => decide (r.GroupCode = code)) = [] := by
    rw [List.filter_eq_nil_iff]
    intro r hr
    simp [h r hr]
  rw [this]
  rfl

/-- C27: `ParseInsertion` appends exactly one insertion to the last block and
stops on the first record of group code 0, whatever its value, leaving it
current. The insertion has the name of the last record of code 2, the position
of the last records of 10, 20, 30, the scale of the last records of 41, 42, 43
and the angle of the last record of 50 before that record; a scale component
without a record is 1, and records of other codes change nothing. -/
theorem insertion_parse (reader : LineReader) (output : FileData) :
    (ParseInsertion reader output).2 =
      modifyBack
        (fun b => { b with insertions := b.insertions ++ [insertionOf (entityGroup reader)] })
        output ∧
    (∀ (bs : List Block) (b : Block), output.blocks = bs ++ [b] →
      (ParseInsertion reader output).2.blocks =
        bs ++ [{ b with insertions := b.insertions ++ [insertionOf (entityGroup reader)] }]) ∧
    (∀ (pre tail : LineReader) (r : Record), (∀ x ∈ pre, x.GroupCode ≠ 0) → r.GroupCode = 0 →
      reader = pre ++ r :: tail →
      (ParseInsertion reader output).1 = r :: tail ∧ entityGroup reader = pre) ∧
    ((∀ x ∈ reader, x.GroupCode ≠ 0) →
      (ParseInsertion reader output).1 = [] ∧ entityGroup reader = reader) ∧
    (∀ grp : List Record,
      ((∀ r ∈ grp, r.GroupCode ≠ 41) → (insertionOf grp).scale.x = 1) ∧
      ((∀ r ∈ grp, r.GroupCode ≠ 42) → (insertionOf grp).scale.y = 1) ∧
      ((∀ r ∈ grp, r.GroupCode ≠ 43) → (insertionOf grp).scale.z = 1) ∧
      insertionOf (grp.filter isInsertionCode) = insertionOf grp) := by
  have hp : ParseInsertion reader output =
      (reader.dropWhile (fun r => decide (r.GroupCode ≠ 0)),
        modifyBack
          (fun b => { b with insertions := b.insertions ++ [insertionOf (entityGroup reader)] })
          output) := by
    unfold ParseInsertion
    simp only [ParseInsertion_loop_eq, ParseInsertion_fold_eq]
  refine ⟨by rw [hp], ?_, ?_, ?_, ?_⟩
  · intro bs b hb
    rw [hp]
    cases output with
    | mk blocks reserved =>
      simp only at hb
      subst hb
      simp only [modifyBack_snoc]
  · intro pre tail r hpre hr heq
    rw [hp, heq]
    exact ⟨(entityGroup_append pre tail r hpre hr).2, (entityGroup_append pre tail r hpre hr).1⟩
  · intro hall
    rw [hp]
    constructor
    · simp only [List.dropWhile_eq_nil_iff]
      intro x hx
      simp [hall x hx]
    · unfold entityGroup
      rw [List.takeWhile_eq_self_iff]
      intro x hx
      simp [hall x hx]
  · intro grp
    refine ⟨?_, ?_, ?_, ?_⟩
    · intro h; simp [insertionOf, floatOr, lastWith_none grp 41 h]
    · intro h; simp [insertionOf, floatOr, lastWith_none grp 42 h]
    · intro h; simp [insertionOf, floatOr, lastWith_none grp 43 h]
    · simp only [insertionOf, floatOf, floatOr, textOf]
      rw [lastWith_filter grp _ 2 (by intro r h; simp [isInsertionCode, h]),
        lastWith_filter grp _ 10 (by intro r h; simp [isInsertionCode, h]),
        lastWith_filter grp _ 20 (by intro r h; simp [isInsertionCode, h]),
        lastWith_filter grp _ 30 (by intro r h; simp [isInsertionCode, h]),
        lastWith_filter grp _ 41 (by intro r h; simp [isInsertionCode, h]),
        lastWith_filter grp _ 42 (by intro r h; simp [isInsertionCode, h]),
        lastWith_filter grp _ 43 (by intro r h; simp [isInsertionCode, h]),
        lastWith_filter grp _ 50 (by intro r h; simp [isInsertionCode, h])]

theorem sampleInsertGroup_parse :
    ParseInsertion sampleInsertGroup { blocks := [{}] } =
      ([⟨0, "LINE", 0, 0, 0⟩, ⟨10, "7", 7, 7, 7⟩],
        { blocks := [{ insertions := [
          { name := "B", pos := ⟨5, 0, 0⟩, scale := ⟨3, 1, 1⟩, angle := 90 }] }] }) := by
  simp [sampleInsertGroup, ParseInsertion, ParseInsertion.loop, ParseInsertion.step, modifyBack, noteReserved,
    GroupCode_Name, GroupCode_XComp, GroupCode_YComp, GroupCode_ZComp]

/-! ## Vertex records -/

theorem ParsePolyLineVertex_loop_eq (reader : LineReader) (st : VertexState) :
    ParsePolyLineVertex.loop reader st =
      (reader.dropWhile (fun r => decide (r.GroupCode ≠ 0)),
        (entityGroup reader).foldl ParsePolyLineVertex.step st) := by
  induction reader generalizing st with
  | nil => simp [ParsePolyLineVertex.loop, entityGroup]
  | cons r rs ih =>
    simp only [ParsePolyLineVertex.loop]
    by_cases h : r.GroupCode = 0
    · simp [h, entityGroup, List.dropWhile, List.takeWhile]
    · simp only [h, if_false, ih]
      simp [entityGroup, List.dropWhile, List.takeWhile, h]

theorem vertex_step_out_clr (st : VertexState) (r : Record) :
    (ParsePolyLineVertex.step st r).out =
      ⟨if r.GroupCode = 10 then r.ValueAsFloat else st.out.x,
        if r.GroupCode = 20 then r.ValueAsFloat else st.out.y,
        if r.GroupCode = 30 then r.ValueAsFloat else st.out.z⟩ ∧
    (ParsePolyLineVertex.step st r).clr =
      if r.GroupCode = 62 then colorAt (r.ValueAsUnsignedInt % AI_DXF_NUM_INDEX_COLORS)
      else st.clr := by
  unfold ParsePolyLineVertex.step
  generalize colorAt (r.ValueAsUnsignedInt % AI_DXF_NUM_INDEX_COLORS) = c
  simp only [GroupCode_XComp, GroupCode_YComp, GroupCode_ZComp]
  constructor <;> split_ifs <;> first | rfl | omega

theorem vertex_step_indices (st : VertexState) (r : Record) :
    ((ParsePolyLineVertex.step st r).indices = [] ↔
      st.indices = [] ∧ hasIndexSlot [r] = false) := by
  by_cases hs : r.GroupCode = 71 ∨ r.GroupCode = 72 ∨ r.GroupCode = 73 ∨ r.GroupCode = 74
  · have h8 : r.GroupCode ≠ 8 := by omega
    have h70 : r.GroupCode ≠ 70 := by omega
    have h10 : r.GroupCode ≠ 10 := by omega
    have h20 : r.GroupCode ≠ 20 := by omega
    have h30 : r.GroupCode ≠ 30 := by omega
    have hslot : hasIndexSlot [r] = true := by simp [hasIndexSlot, hs]
    have hne : (ParsePolyLineVertex.step st r).indices ≠ [] := by
      unfold ParsePolyLineVertex.step
      simp only [GroupCode_XComp, GroupCode_YComp, GroupCode_ZComp, h8, h70, h10, h20, h30, hs,
        if_false, if_true, VertexState.cnti]
      split_ifs with h4
      · intro hc; rw [hc] at h4; simp at h4
      · simp
      · simp
    simp [hne, hslot]
  · have hslot : hasIndexSlot [r] = false := by
      simp only [not_or] at hs
      simp [hasIndexSlot, hs]
    have heq : (ParsePolyLineVertex.step st r).indices = st.indices := by
      unfold ParsePolyLineVertex.step
      generalize colorAt (r.ValueAsUnsignedInt % AI_DXF_NUM_INDEX_COLORS) = c
      simp only [hs, if_false]
      split_ifs <;> rfl
    simp [heq, hslot]

theorem vertex_fold_eq (grp : List Record) :
    (grp.foldl ParsePolyLineVertex.step {}).out =
      ⟨floatOf grp 10, floatOf grp 20, floatOf grp 30⟩ ∧
    (grp.foldl ParsePolyLineVertex.step {}).clr = groupColor grp ∧
    ((grp.foldl ParsePolyLineVertex.step {}).indices = [] ↔ hasIndexSlot grp = false) := by
  induction grp using List.reverseRecOn with
  | nil => simp [floatOf, groupColor, hasIndexSlot, lastWith]
  | append_singleton l a ih =>
    rw [List.foldl_append]
    simp only [List.foldl_cons, List.foldl_nil]
    obtain ⟨h1, h2, h3⟩ := ih
    refine ⟨?_, ?_, ?_⟩
    · rw [(vertex_step_out_clr _ a).1, h1]
      simp only [floatOf_snoc]
    · rw [(vertex_step_out_clr _ a).2, h2, groupColor_snoc]
    · rw [vertex_step_indices, h3]
      simp [hasIndexSlot]

/-- C29: a VERTEX group without an index slot (no record of code 71 to 74)
appends exactly one position and one colour to the polyline and leaves its
indices, counts, flags and layer alone; the position has the values of the
last records of 10, 20 and 30 (0 for a missing coordinate), the colour is the
table entry of the last record of 62, or the default colour
(0.6, 0.6, 0.6, 0.6) without such a record. A group with an index slot
appends no position and no colour. -/
theorem raw_vertex_sample (reader : LineReader) (line : PolyLine) :
    (hasIndexSlot (entityGroup reader) = false →
      (ParsePolyLineVertex reader line).2 =
        { line with
          positions := line.positions ++
            [⟨floatOf (entityGroup reader) 10, floatOf (entityGroup reader) 20,
              floatOf (entityGroup reader) 30⟩]
          colors := line.colors ++ [groupColor (entityGroup reader)] }) ∧
    (hasIndexSlot (entityGroup reader) = true →
      (ParsePolyLineVertex reader line).2.positions = line.positions ∧
      (ParsePolyLineVertex reader line).2.colors = line.colors) ∧
    ((∀ r ∈ entityGroup reader, r.GroupCode ≠ 62) →
      groupColor (entityGroup reader) = ⟨0.6, 0.6, 0.6, 0.6⟩) ∧
    (∀ r, lastWith (entityGroup reader) 62 = some r →
      groupColor (entityGroup reader) = colorAt (r.ValueAsUnsignedInt % 256)) := by
  obtain ⟨h1, h2, h3⟩ := vertex_fold_eq (entityGroup reader)
  have hlen : ((entityGroup reader).foldl ParsePolyLineVertex.step {}).indices.length ≤ 4 := by
    have := vertex_loop_cnti reader {} (Or.inl rfl)
    rw [ParsePolyLineVertex_loop_eq] at this
    simp only at this
    omega
  have hp : (ParsePolyLineVertex reader line).2 =
      ParsePolyLineVertex.emit ((entityGroup reader).foldl ParsePolyLineVertex.step {}) line := by
    unfold ParsePolyLineVertex
    simp only [ParsePolyLineVertex_loop_eq]
  refine ⟨?_, ?_, ?_, ?_⟩
  · intro hs
    rw [hp, emit_spec _ _ hlen, if_pos (h3.mpr hs), h1, h2]
  · intro hs
    have hne : ¬ ((entityGroup reader).foldl ParsePolyLineVertex.step {}).indices = [] := by
      intro hc
      rw [h3.mp hc] at hs
      cases hs
    rw [hp, emit_spec _ _ hlen, if_neg hne]
    exact ⟨rfl, rfl⟩
  · intro hno
    simp only [groupColor, lastWith_none _ 62 hno]
    simp [AI_DXF_DEFAULT_COLOR]
  · intro r hr
    simp only [groupColor, hr, AI_DXF_NUM_INDEX_COLORS_eq]

/-- C28, the code at a face record with the index slots `71 = 0` and
`72 = 3`: one corner is zero and one is not, so one index `2` and the face
count 1 are due; the parser appends the index twice and the face count 2,
because each slot is stored twice before the zero slots are dropped. -/
theorem zero_slot_face_is_doubled :
    ParsePolyLineVertex sampleZeroSlot {} =
      ([⟨0, "SEQEND", 0, 0, 0⟩], { indices := [2, 2], counts := [2] }) := by
  simp [sampleZeroSlot, ParsePolyLineVertex, ParsePolyLineVertex.loop, ParsePolyLineVertex.step,
    ParsePolyLineVertex.emit, ParsePolyLineVertex.pushIndices, VertexState.cnti, toUnsigned,
    GroupCode_XComp, GroupCode_YComp, GroupCode_ZComp, decBack]

/-! ## The flags of a polyline -/

theorem polyline_step_flags (st : PolyLineState) (r : Record) :
    (ParsePolyLine.step st r).line.flags =
      if r.GroupCode = 70 ∧ st.line.flags = 0 then toUnsigned r.ValueAsSignedInt
      else st.line.flags := by
  unfold ParsePolyLine.step
  split_ifs <;> first | rfl | omega

theorem polyline_fold_flags (hdr : List Record) (st : PolyLineState) :
    (hdr.foldl ParsePolyLine.step st).line.flags =
      if st.line.flags ≠ 0 then st.line.flags else firstNonZeroFlag hdr := by
  induction hdr generalizing st with
  | nil =>
    simp only [List.foldl_nil, firstNonZeroFlag]
    split_ifs with h
    · rfl
    · exact not_not.mp h
  | cons r rs ih =>
    simp only [List.foldl_cons, ih, polyline_step_flags, firstNonZeroFlag]
    by_cases h0 : st.line.flags = 0
    · by_cases h70 : r.GroupCode = 70
      · by_cases hv : toUnsigned r.ValueAsSignedInt = 0
        · simp [h0, h70, hv]
        · simp [h0, h70, hv]
      · simp [h0, h70]
    · simp [h0]

theorem ParsePolyLine_loop_header (hdr rest : LineReader) (st : PolyLineState)
    (hhdr : ∀ r ∈ hdr, r.GroupCode ≠ 0) :
    ParsePolyLine.loop (hdr ++ rest) st =
      ParsePolyLine.loop rest (hdr.foldl ParsePolyLine.step st) := by
  induction hdr generalizing st with
  | nil => rfl
  | cons r rs ih =>
    have hr : r.GroupCode ≠ 0 := hhdr r (List.mem_cons_self _ _)
    rw [List.cons_append,
      ParsePolyLine_loop_other r _ st (Record.Is_zero_of_ne hr _) (Record.Is_zero_of_ne hr _)]
    exact ih _ (fun x hx => hhdr x (List.mem_cons_of_mem _ hx))

theorem ParsePolyLineVertex_flags (rd : LineReader) (line : PolyLine) :
    (ParsePolyLineVertex rd line).2.flags = line.flags ∧
      (ParsePolyLineVertex rd line).2.layer = line.layer := by
  obtain ⟨vs, hvs, heq⟩ := ParsePolyLineVertex_line rd line
  rw [heq, emit_spec vs line hvs]
  split <;> exact ⟨rfl, rfl⟩

theorem ParsePolyLine_loop_flags_sticky (reader : LineReader) (st : PolyLineState)
    (h : st.line.flags ≠ 0) : (ParsePolyLine.loop reader st).2.line.flags = st.line.flags := by
  induction reader, st using ParsePolyLine.loop.induct with
  | case1 st => rw [ParsePolyLine.loop]
  | case2 st r rs h1 => rw [ParsePolyLine.loop]; simp only [h1, if_true]
  | case3 st r rs h1 h2 res h3 =>
    rw [ParsePolyLine.loop]; simp only [h1, h2]
    simp only [res] at h3
    simp only [h3, if_true, Bool.false_eq_true, if_false]
    exact (ParsePolyLineVertex_flags rs st.line).1
  | case4 st r rs h1 h2 res h3 ih =>
    rw [ParsePolyLine.loop]; simp only [h1, h2]
    simp only [res] at h3 ih
    simp only [h3, if_true, Bool.false_eq_true, if_false]
    have hf := (ParsePolyLineVertex_flags rs st.line).1
    rw [ih (by rw [hf]; exact h)]
    exact hf
  | case5 st r rs h1 h2 ih =>
    rw [ParsePolyLine.loop]; simp only [h1, h2, if_true, Bool.false_eq_true, if_false]
    have hf : (ParsePolyLine.step st r).line.flags = st.line.flags := by
      rw [polyline_step_flags]
      simp [h]
    rw [ih (by rw [hf]; exact h)]
    exact hf

theorem ParsePolyLine_loop_vertices_flags (n : Nat) :
    ∀ (a : LineReader) (v : Record) (body : LineReader) (st : PolyLineState),
      a.length ≤ n → (∀ r ∈ a, r.GroupCode = 0 → r.Is 0 "VERTEX" = true) →
      (a = [] ∨ ∃ r rs, a = r :: rs ∧ r.GroupCode = 0) →
      v.Is 0 "VERTEX" = true → (∀ r ∈ body, r.GroupCode ≠ 0) →
      ∀ rest : LineReader,
        (rest = [] ∨ ∃ s rs, rest = s :: rs ∧ s.Is 0 "SEQEND" = true) →
        (ParsePolyLine.loop (a ++ v :: (body ++ rest)) st).2.line.flags = st.line.flags := by
  induction n with
  | zero =>
    intro a v body st ha hva hhead hv hbody rest hrest
    have ha0 : a = [] := List.length_eq_zero.mp (Nat.le_zero.mp ha)
    subst ha0
    have hrest2 : rest = [] ∨ ∃ r rs, rest = r :: rs ∧ r.GroupCode = 0 := by
      rcases hrest with h | ⟨s, rs, h, hs⟩
      · exact Or.inl h
      · exact Or.inr ⟨s, rs, h, Record.Is_code hs⟩
    rw [List.nil_append, ParsePolyLine_loop_vertex v _ st hv]
    have hf := (ParsePolyLineVertex_flags (body ++ rest) st.line).1
    have h1 : (ParsePolyLineVertex (body ++ rest) st.line).1 = rest := by
      simp only [ParsePolyLineVertex, ParsePolyLineVertex_loop_append body rest {} hbody hrest2]
    rw [h1]
    rcases hrest with h | ⟨s, rs, h, hs⟩
    · subst h
      simp only [LineReader.Is, Bool.false_eq_true, if_false]
      rw [ParsePolyLine.loop]
      exact hf
    · subst h
      simp only [LineReader.Is, hs, if_true]
      exact hf
  | succ n ih =>
    intro a v body st ha hva hhead hv hbody rest hrest
    cases a with
    | nil => exact ih [] v body st (by simp) hva (Or.inl rfl) hv hbody rest hrest
    | cons r a1 =>
      have ha1 : a1.length ≤ n := by simpa using ha
      have hva1 : ∀ x ∈ a1, x.GroupCode = 0 → x.Is 0 "VERTEX" = true :=
        fun x hx => hva x (List.mem_cons_of_mem _ hx)
      have hr : r.GroupCode = 0 := by
        rcases hhead with h | ⟨x, xs, h, hx⟩
        · cases h
        · injection h with h1 h2
          rw [h1]; exact hx
      have hrv := hva r (List.mem_cons_self _ _) hr
      obtain ⟨q, vs, hq1, hq2, hq3, hq4⟩ :=
        ParsePolyLineVertex_loop_prefix a1 v (Record.Is_vertex hv).1 {}
      rw [List.cons_append, ParsePolyLine_loop_vertex r _ st hrv]
      have hf := (ParsePolyLineVertex_flags (a1 ++ v :: (body ++ rest)) st.line).1
      have h1 : (ParsePolyLineVertex (a1 ++ v :: (body ++ rest)) st.line).1 =
          q ++ v :: (body ++ rest) := by
        simp only [ParsePolyLineVertex, hq4]
      have hns : LineReader.Is (q ++ v :: (body ++ rest)) 0 "SEQEND" = false := by
        rcases hq3 with h | ⟨x, xs, h, hx⟩
        · subst h
          simp [LineReader.Is, (Record.Is_vertex hv).2.2]
        · subst h
          have := hva1 x (hq2 x (List.mem_cons_self _ _)) hx
          simp [LineReader.Is, (Record.Is_vertex this).2.2]
      rw [h1]
      simp only [hns, Bool.false_eq_true, if_false]
      rw [ih q v body _ (le_trans hq1 ha1) (fun x hx => hva1 x (hq2 x hx)) hq3 hv hbody rest
        hrest]
      exact hf

/-- C30, counterexample: the first flags record of the POLYLINE has the value
0 and the second the value 1. The polyline is stored with the flags 1, and as
a closed polyline it gets the closing segment: the value 0 of the first record
does not win. -/
theorem polyline_flags_zero_is_overridden :
    (ParsePolyLine sampleFlagsZeroFirst { blocks := [{}] }).2 =
      { blocks := [{ lines := [
        { positions := [⟨1, 0, 0⟩]
          colors := [AI_DXF_DEFAULT_COLOR]
          indices := [0, 0]
          counts := [2]
          flags := 1 }] }] } ∧
    (sampleFlagsZeroFirst.filter (fun r => decide (r.GroupCode = 70))).map
      (fun r => toUnsigned r.ValueAsSignedInt) = [0, 1] := by
  have h : (ParsePolyLine.loop sampleFlagsZeroFirst {}).2.line =
      { positions := [⟨1, 0, 0⟩], colors := [AI_DXF_DEFAULT_COLOR], flags := 1 } := by
    simp [sampleFlagsZeroFirst, ParsePolyLine.loop, ParsePolyLine.step, ParsePolyLineVertex,
      ParsePolyLineVertex.loop, ParsePolyLineVertex.step, ParsePolyLineVertex.emit,
      VertexState.cnti, toUnsigned, GroupCode_XComp, GroupCode_YComp, GroupCode_ZComp,
      Record.Is, LineReader.Is]
  have hr : (ParsePolyLine.loop sampleFlagsZeroFirst {}).2.reserved = [] := by
    simp [sampleFlagsZeroFirst, ParsePolyLine.loop, ParsePolyLine.step, ParsePolyLineVertex,
      ParsePolyLineVertex.loop, ParsePolyLineVertex.step, ParsePolyLineVertex.emit,
      VertexState.cnti, toUnsigned, GroupCode_XComp, GroupCode_YComp, GroupCode_ZComp,
      Record.Is, LineReader.Is]
  constructor
  · unfold ParsePolyLine
    simp only [h, hr]
    simp [ParsePolyLine.finish, ParsePolyLine.segments, ParsePolyLine.pairs, setBackLine,
      pushLine, modifyBack, noteReserved, DXF_POLYLINE_FLAG_POLYFACEMESH, DXF_POLYLINE_FLAG_CLOSED,
      sizeMinusOne, List.range, List.range.loop]
  · simp [sampleFlagsZeroFirst, toUnsigned, List.filter]

/-- C30 (as amended): let the records of a POLYLINE be a header without a
record of group code 0, followed by VERTEX groups (every record of group code
0 is a VERTEX) and a SEQEND. The flags of the polyline are then the value of
the first record of code 70 of the header that is not zero, and zero when
there is none: a first value 0 does not win over a later non-zero value.
Whatever follows the header, a non-zero value is kept to the end, and the
vertex parser never changes the flags. -/
theorem polyline_flags_first_nonzero (hdr a body tail : LineReader) (v s : Record)
    (hhdr : ∀ r ∈ hdr, r.GroupCode ≠ 0)
    (ha : ∀ r ∈ a, r.GroupCode = 0 → r.Is 0 "VERTEX" = true)
    (hhead : a = [] ∨ ∃ r rs, a = r :: rs ∧ r.GroupCode = 0)
    (hv : v.Is 0 "VERTEX" = true) (hbody : ∀ r ∈ body, r.GroupCode ≠ 0)
    (hs : s.Is 0 "SEQEND" = true) :
    (ParsePolyLine.loop (hdr ++ (a ++ v :: (body ++ s :: tail))) {}).2.line.flags =
      firstNonZeroFlag hdr ∧
    (∀ line, ParsePolyLine.finish
        (ParsePolyLine.loop (hdr ++ (a ++ v :: (body ++ s :: tail))) {}).2.line = some line →
      line.flags = firstNonZeroFlag hdr) ∧
    (∀ rest : LineReader, firstNonZeroFlag hdr ≠ 0 →
      (ParsePolyLine.loop (hdr ++ rest) {}).2.line.flags = firstNonZeroFlag hdr) ∧
    (∀ (rd : LineReader) (line : PolyLine), (ParsePolyLineVertex rd line).2.flags = line.flags) := by
  have hfold : (hdr.foldl ParsePolyLine.step {}).line.flags = firstNonZeroFlag hdr := by
    rw [polyline_fold_flags]
    simp
  have hmain : (ParsePolyLine.loop (hdr ++ (a ++ v :: (body ++ s :: tail))) {}).2.line.flags =
      firstNonZeroFlag hdr := by
    rw [ParsePolyLine_loop_header hdr _ {} hhdr,
      ParsePolyLine_loop_vertices_flags a.length a v body _ (le_refl _) ha hhead hv hbody
        (s :: tail) (Or.inr ⟨s, tail, rfl, hs⟩)]
    exact hfold
  refine ⟨hmain, ?_, ?_, fun rd line => (ParsePolyLineVertex_flags rd line).1⟩
  · intro line hf
    rw [(finish_fields _ line hf).2.2.1]
    exact hmain
  · intro rest hne
    rw [ParsePolyLine_loop_header hdr rest {} hhdr,
      ParsePolyLine_loop_flags_sticky rest _ (by rw [hfold]; exact hne)]
    exact hfold

theorem polyline_flags_first_nonzero_witness :
    (ParsePolyLine.loop
      ([⟨70, "0", 0, 0, 0⟩, ⟨70, "1", 1, 1, 1⟩, ⟨70, "2", 2, 2, 2⟩] ++
        ([] ++ ⟨0, "VERTEX", 0, 0, 0⟩ :: ([⟨10, "1", 1, 1, 1⟩] ++ ⟨0, "SEQEND", 0, 0, 0⟩ :: [])))
      {}).2.line.flags = 1 :=
  (polyline_flags_first_nonzero
    [⟨70, "0", 0, 0, 0⟩, ⟨70, "1", 1, 1, 1⟩, ⟨70, "2", 2, 2, 2⟩] [] [⟨10, "1", 1, 1, 1⟩] []
    ⟨0, "VERTEX", 0, 0, 0⟩ ⟨0, "SEQEND", 0, 0, 0⟩
    (by simp) (by simp) (Or.inl rfl) (by simp [Record.Is]) (by simp) (by simp [Record.Is])).1.trans
    (by simp [firstNonZeroFlag, toUnsigned])

/-! ## Termination -/

theorem ParseBlocks_cons (r : Record) (rs : LineReader) (output : FileData) :
    ParseBlocks (r :: rs) output =
      if r.Is 0 "ENDSEC" then (r :: rs, output)
      else if r.Is 0 "BLOCK" then ParseBlocks (ParseBlock rs output).1 (ParseBlock rs output).2
      else ParseBlocks rs output := by
  rw [ParseBlocks]

theorem ParsePolyLine_loop_unfold (r : Record) (rs : LineReader) (st : PolyLineState) :
    ParsePolyLine.loop (r :: rs) st =
      if r.Is 0 "ENDSEC" then (r :: rs, st)
      else if r.Is 0 "VERTEX" then
        if (ParsePolyLineVertex rs st.line).1.Is 0 "SEQEND" then
          ((ParsePolyLineVertex rs st.line).1,
            { st with line := (ParsePolyLineVertex rs st.line).2 })
        else
          ParsePolyLine.loop (ParsePolyLineVertex rs st.line).1
            { st with line := (ParsePolyLineVertex rs st.line).2 }
      else ParsePolyLine.loop rs (ParsePolyLine.step st r) := by
  rw [ParsePolyLine.loop]

/-- C21: parsing terminates on every finite record stream. Every parser is a
total function of the stream. The reader a parser returns is never longer than
the reader it was given; at the end of the stream every loop is left at once;
a loop that reads one record per pass continues on the records after the
current one; and in the loops that dispatch to other parsers a pass that
enters the loop again has consumed at least the current record. A stream that
breaks off inside a VERTEX of a POLYLINE is parsed to the polyline read so
far, and `InternReadFile` returns a scene or an error on every stream,
whatever the allocator grants. -/
theorem parsing_terminates (reader : LineReader) (output : FileData) (line : PolyLine) :
    ((ParsePolyLineVertex reader line).1.length ≤ reader.length ∧
      (Parse3DFace reader output).1.length ≤ reader.length ∧
      (ParseInsertion reader output).1.length ≤ reader.length ∧
      (ParsePolyLine reader output).1.length ≤ reader.length ∧
      (ParseBlock reader output).1.length ≤ reader.length ∧
      (ParseBlocks reader output).1.length ≤ reader.length ∧
      (ParseEntities reader output).1.length ≤ reader.length ∧
      (SkipSection reader).length ≤ reader.length ∧
      (ParseHeader reader output).1.length ≤ reader.length) ∧
    ((ParsePolyLineVertex [] line).1 = [] ∧
      (Parse3DFace [] output).1 = [] ∧
      (ParseInsertion [] output).1 = [] ∧
      (ParsePolyLine [] output).1 = [] ∧
      (ParseBlock [] output).1 = [] ∧
      (ParseBlocks [] output).1 = [] ∧
      (ParseEntities [] output).1 = [] ∧
      SkipSection [] = [] ∧
      (ParseHeader [] output).1 = [] ∧
      InternReadFile.loop [] output = output) ∧
    ((∀ (r : Record) (rs : LineReader) (st : VertexState),
        ParsePolyLineVertex.loop (r :: rs) st =
          if r.GroupCode = 0 then (r :: rs, st)
          else ParsePolyLineVertex.loop rs (ParsePolyLineVertex.step st r)) ∧
      (∀ (r : Record) (rs : LineReader) (st : FaceState),
        Parse3DFace.loop (r :: rs) st =
          if r.GroupCode = 0 then (r :: rs, st)
          else Parse3DFace.loop rs (Parse3DFace.step st r)) ∧
      (∀ (r : Record) (rs : LineReader) (bl : InsertBlock),
        ParseInsertion.loop (r :: rs) bl =
          if r.GroupCode = 0 then (r :: rs, bl)
          else ParseInsertion.loop rs (ParseInsertion.step bl r)) ∧
      (∀ (r : Record) (rs : LineReader),
        SkipSection (r :: rs) = if r.Is 0 "ENDSEC" then r :: rs else SkipSection rs) ∧
      (∀ (r : Record) (rs : LineReader) (out : FileData),
        ParseHeader (r :: rs) out =
          if r.Is 0 "ENDSEC" then (r :: rs, out) else ParseHeader rs out) ∧
      (∀ (r : Record) (rs : LineReader),
        ParseBlock.skipAttribs (r :: rs) =
          if r.Is 0 "ATTRIB" || r.Is 0 "SEQEND" then ParseBlock.skipAttribs rs else r :: rs)) ∧
    ((∀ (r : Record) (rs : LineReader) (st : PolyLineState),
        ParsePolyLine.loop (r :: rs) st =
          if r.Is 0 "ENDSEC" then (r :: rs, st)
          else if r.Is 0 "VERTEX" then
            if (ParsePolyLineVertex rs st.line).1.Is 0 "SEQEND" then
              ((ParsePolyLineVertex rs st.line).1,
                { st with line := (ParsePolyLineVertex rs st.line).2 })
            else
              ParsePolyLine.loop (ParsePolyLineVertex rs st.line).1
                { st with line := (ParsePolyLineVertex rs st.line).2 }
          else ParsePolyLine.loop rs (ParsePolyLine.step st r)) ∧
      (∀ (rs : LineReader) (l : PolyLine),
        (ParsePolyLineVertex rs l).1.length ≤ rs.length) ∧
      (∀ (r : Record) (rs : LineReader) (out : FileData),
        ParseBlocks (r :: rs) out =
          if r.Is 0 "ENDSEC" then (r :: rs, out)
          else if r.Is 0 "BLOCK" then ParseBlocks (ParseBlock rs out).1 (ParseBlock rs out).2
          else ParseBlocks rs out) ∧
      (∀ (rs : LineReader) (out : FileData), (ParseBlock rs out).1.length ≤ rs.length)) ∧
    ((∀ (r : Record) (rs : LineReader) (out : FileData),
        ParseBlock.loop (r :: rs) out =
          match ParseBlock.body r rs out with
          | Step.done reader1 output1 => (reader1, output1)
          | Step.next reader1 output1 => ParseBlock.loop reader1 output1) ∧
      (∀ (r : Record) (rs reader1 : LineReader) (out output1 : FileData),
        ParseBlock.body r rs out = Step.next reader1 output1 →
        reader1.length < (r :: rs).length) ∧
      (∀ (r : Record) (rs : LineReader) (out : FileData),
        ParseEntities.loop (r :: rs) out =
          match ParseEntities.body r rs out with
          | Step.done reader1 output1 => (reader1, output1)
          | Step.next reader1 output1 => ParseEntities.loop reader1 output1) ∧
      (∀ (r : Record) (rs reader1 : LineReader) (out output1 : FileData),
        ParseEntities.body r rs out = Step.next reader1 output1 →
        reader1.length < (r :: rs).length) ∧
      (∀ (r : Record) (rs : LineReader) (out : FileData),
        InternReadFile.loop (r :: rs) out =
          match InternReadFile.body r rs out with
          | Step.done _ output1 => output1
          | Step.next reader1 output1 => InternReadFile.loop reader1 output1) ∧
      (∀ (r : Record) (rs reader1 : LineReader) (out output1 : FileData),
        InternReadFile.body r rs out = Step.next reader1 output1 →
        reader1.length < (r :: rs).length)) ∧
    InternReadFile.loop sampleTruncated {} =
      { blocks := [{ name := AI_DXF_ENTITIES_MAGIC_BLOCK
                     lines := [{ positions := [⟨1, 0, 0⟩]
                                 colors := [AI_DXF_DEFAULT_COLOR]
                                 layer := "L" }] }] } ∧
    (∀ available : Nat, (∃ scene, InternReadFile available reader = Except.ok scene) ∨
      ∃ e, InternReadFile available reader = Except.error e) := by
  refine ⟨⟨ParsePolyLineVertex_length_le _ _, Parse3DFace_length_le _ _,
      ParseInsertion_length_le _ _, ParsePolyLine_length_le _ _, ParseBlock_length_le _ _,
      ParseBlocks_length_le _ _, ?_, SkipSection_length_le _, ParseHeader_length_le _ _⟩,
    ⟨rfl, ?_, rfl, ?_, ?_, ?_, ?_, rfl, rfl, InternReadFile_loop_nil _⟩,
    ⟨fun _ _ _ => rfl, fun _ _ _ => rfl, fun _ _ _ => rfl, fun _ _ => rfl, fun _ _ _ => rfl,
      fun _ _ => rfl⟩,
    ⟨ParsePolyLine_loop_unfold, ParsePolyLineVertex_length_le, ParseBlocks_cons,
      ParseBlock_length_le⟩,
    ⟨ParseBlock_loop_cons, fun r rs reader1 out output1 h =>
        Nat.lt_succ_of_le (ParseBlock_body_next_le h),
      ParseEntities_loop_cons, fun r rs reader1 out output1 h =>
        Nat.lt_succ_of_le (ParseEntities_body_next_le h),
      InternReadFile_loop_cons, fun r rs reader1 out output1 h =>
        Nat.lt_succ_of_le (InternReadFile_body_next_le h)⟩, ?_, ?_⟩
  · exact ParseEntities_loop_length_le _ _
  · unfold Parse3DFace; simp only [Parse3DFace.loop]; split <;> rfl
  · unfold ParsePolyLine
    have : ParsePolyLine.loop [] {} = ([], {}) := by rw [ParsePolyLine.loop]
    simp only [this]
    split <;> rfl
  · unfold ParseBlock; rw [ParseBlock_loop_nil]
  · rw [ParseBlocks]
  · unfold ParseEntities; rw [ParseEntities_loop_nil]
  · simp [sampleTruncated, InternReadFile_loop_cons,
      InternReadFile_loop_nil, InternReadFile.body, ParseEntities, ParseEntities_loop_cons,
      ParseEntities_loop_nil, ParseEntities.body, Record.Is, LineReader.Is, isFaceEntity,
      isSolidEntity, isSurfaceEntity, isAcShEntity,
      ParsePolyLine, noteReserved, ParsePolyLine.loop, ParsePolyLine.step,
      ParsePolyLine.finish,
      ParsePolyLine.segments, ParsePolyLine.pairs,
      ParsePolyLineVertex, ParsePolyLineVertex.loop, ParsePolyLineVertex.step,
      ParsePolyLineVertex.emit, VertexState.cnti, toUnsigned,
      GroupCode_XComp, GroupCode_YComp, GroupCode_ZComp, pushLine, popLine, setBackLine,
      modifyBack, noteReserved, DXF_POLYLINE_FLAG_POLYFACEMESH, DXF_POLYLINE_FLAG_CLOSED]
  · intro available
    cases h : InternReadFile available reader with
    | ok scene => exact Or.inl ⟨scene, rfl⟩
    | error e => exact Or.inr ⟨e, rfl⟩

/-! ## The range of the face counts -/

theorem emit_counts_range (st : VertexState) (l : PolyLine) (hst : st.indices.length ≤ 4)
    (h : ∀ c ∈ l.counts, 1 ≤ c ∧ c ≤ 4) :
    ∀ c ∈ (ParsePolyLineVertex.emit st l).counts, 1 ≤ c ∧ c ≤ 4 := by
  rw [emit_spec st l hst]
  split
  · exact h
  · simp only
    split
    · exact h
    · rename_i h0
      intro c hc
      simp only [List.mem_append, List.mem_singleton] at hc
      rcases hc with hc | hc
      · exact h c hc
      · have hle := List.length_filter_le (fun i => decide (i ≠ 0)) st.indices
        subst hc
        constructor
        · exact Nat.one_le_iff_ne_zero.mpr h0
        · omega

theorem finish_counts_range (line out : PolyLine) (h : ∀ c ∈ line.counts, 1 ≤ c ∧ c ≤ 4)
    (hf : ParsePolyLine.finish line = some out) : ∀ c ∈ out.counts, 1 ≤ c ∧ c ≤ 4 := by
  unfold ParsePolyLine.finish at hf
  split_ifs at hf with h1 h2 h3
  · injection hf with hf; subst hf; exact h
  · injection hf with hf; subst hf
    rw [segments_eq]
    have hc : line.counts = [] := List.length_eq_zero.mp h3.2
    simp only [hc, List.nil_append]
    intro c hmem
    simp only [List.mem_append, List.mem_replicate] at hmem
    rcases hmem with hmem | hmem
    · rw [hmem.2]; exact ⟨by omega, by omega⟩
    · split at hmem
      · simp only [List.mem_singleton] at hmem
        rw [hmem]; exact ⟨by omega, by omega⟩
      · simp at hmem
  · injection hf with hf; subst hf; exact h

theorem polyline_yields_counts_range :
    PolyLineParserYields (fun pl => ∀ c ∈ pl.counts, 1 ≤ c ∧ c ≤ 4) := by
  intro reader line hf
  refine finish_counts_range _ line ?_ hf
  exact ParsePolyLine_loop_invariant (fun pl => ∀ c ∈ pl.counts, 1 ≤ c ∧ c ≤ 4)
    (fun l f h => h) (fun l s h => h) emit_counts_range reader {} (by intro c hc; simp at hc)

theorem face_yields_counts_range :
    FaceParserYields (fun pl => ∀ c ∈ pl.counts, 1 ≤ c ∧ c ≤ 4) := by
  intro st line hf
  unfold Parse3DFace.emit at hf
  split at hf
  · cases hf
  · injection hf with hf
    subst hf
    cases st.b0 <;> cases st.b1 <;> simp [List.range, List.range.loop]

/-- C37: every face count of every polyline of every block parsed from any
record stream is at least 1 and at most 4; a VERTEX group adds at most one
face count, within this range, however many records of code 71 to 74 it
has. -/
theorem face_counts_in_range (reader : LineReader) :
    (∀ b ∈ (InternReadFile.loop reader {}).blocks, ∀ pl ∈ b.lines,
      ∀ c ∈ pl.counts, 1 ≤ c ∧ c ≤ 4) ∧
    (∀ (rd : LineReader) (line : PolyLine), (∀ c ∈ line.counts, 1 ≤ c ∧ c ≤ 4) →
      (∀ c ∈ (ParsePolyLineVertex rd line).2.counts, 1 ≤ c ∧ c ≤ 4) ∧
      (ParsePolyLineVertex rd line).2.counts.length ≤ line.counts.length + 1) ∧
    (∀ (st : FaceState) (line : PolyLine), Parse3DFace.emit st = some line →
      ∀ c ∈ line.counts, 1 ≤ c ∧ c ≤ 4) := by
  refine ⟨?_, ?_, face_yields_counts_range⟩
  · exact AllLines_InternReadFile_loop _ polyline_yields_counts_range
      face_yields_counts_range reader {} (by intro b hb; simp at hb)
  · intro rd line h
    obtain ⟨vs, hvs, heq⟩ := ParsePolyLineVertex_line rd line
    rw [heq]
    refine ⟨emit_counts_range vs line hvs h, ?_⟩
    rw [emit_spec vs line hvs]
    split
    · simp
    · simp only
      split <;> simp

/-! ## Index safety of the geometry the parser makes up -/

theorem ConvertMeshes_eq_assemble_of_lines (output : FileData) (hne : entityLines output ≠ []) :
    ConvertMeshes output = ConvertMeshes.assemble (entityLines output) := by
  have hblocks : output.blocks ≠ [] := by
    intro hb
    apply hne
    unfold entityLines
    rw [hb]
    rfl
  have hent : ¬ ∀ b ∈ output.blocks, b.name ≠ AI_DXF_ENTITIES_MAGIC_BLOCK := by
    intro hc
    apply hne
    have hnone := (index_entities_none output.blocks 0 (fun _ => none)).mpr hc
    unfold entityLines
    cases hidx : ConvertMeshes.index output.blocks 0 (fun _ => none) none with
    | mk m ent =>
      rw [hidx] at hnone
      simp only at hnone
      subst hnone
      rfl
  exact ConvertMeshes_eq_assemble output hblocks hent

/-- C38: every polyline that `Parse3DFace` emits, and every polyline that
`ParsePolyLine` keeps for records that gave at least one position and no
index, has all its indices below its number of positions (and as many indices
as its face counts add up to, and as many colours as positions). When all
polylines of the entity block are of this kind, `ConvertMeshes` does not fail
with "DXF: vertex index out of bounds": it returns a scene. -/
theorem synthesized_geometry_is_index_safe :
    (∀ (st : FaceState) (line : PolyLine), Parse3DFace.emit st = some line →
      line.positions ≠ [] ∧ line.counts.sum = line.indices.length ∧
      line.colors.length = line.positions.length ∧
      ∀ i ∈ line.indices, i < line.positions.length) ∧
    (∀ (reader : LineReader) (line : PolyLine),
      (ParsePolyLine.loop reader {}).2.line.indices = [] →
      (ParsePolyLine.loop reader {}).2.line.positions ≠ [] →
      ParsePolyLine.finish (ParsePolyLine.loop reader {}).2.line = some line →
      line.positions ≠ [] ∧ line.counts.sum = line.indices.length ∧
      line.colors.length = line.positions.length ∧
      ∀ i ∈ line.indices, i < line.positions.length) ∧
    (∀ output : FileData, entityLines output ≠ [] →
      (∀ pl ∈ entityLines output,
        pl.positions ≠ [] ∧ pl.counts.sum = pl.indices.length ∧
        pl.colors.length = pl.positions.length ∧
        ∀ i ∈ pl.indices, i < pl.positions.length) →
      ConvertMeshes output ≠
        Except.error (ImportError.deadly "DXF: vertex index out of bounds") ∧
      ∃ scene, ConvertMeshes output = Except.ok scene) := by
  refine ⟨?_, ?_, ?_⟩
  · intro st line h
    refine ⟨?_, face_yields_counts_sum st line h, face_yields_colors st line h,
      face_emit_index_range st line h⟩
    unfold Parse3DFace.emit at h
    split at h
    · cases h
    · injection h with h
      subst h
      cases st.b0 <;> cases st.b1 <;> simp [List.range, List.range.loop]
  · intro reader line hi hp hf
    obtain ⟨f1, f2, _⟩ := finish_fields _ line hf
    refine ⟨by rw [f1]; exact hp, polyline_yields_counts_sum reader line hf,
      polyline_yields_colors reader line hf, ?_⟩
    have hc : (ParsePolyLine.loop reader {}).2.line.counts = [] :=
      ParsePolyLine_loop_noCounts reader {} (fun _ => rfl) hi
    unfold ParsePolyLine.finish at hf
    split_ifs at hf with h1 h2 h3
    · injection hf with hf; subst hf; rw [hi]; simp
    · injection hf with hf; subst hf
      exact segments_index_range _ hi hp
    · injection hf with hf; subst hf; rw [hi]; simp
  · intro output hne hall
    rw [ConvertMeshes_eq_assemble_of_lines output hne]
    have hA := assemble_wellFormed (entityLines output)
      (fun pl hpl => ⟨(hall pl hpl).2.1, (hall pl hpl).2.2.1⟩)
    obtain ⟨pl0, hpl0⟩ := List.exists_mem_of_ne_nil _ hne
    have h3 : ¬ ∀ pl ∈ entityLines output, pl.positions = [] :=
      fun hc => (hall pl0 hpl0).1 (hc pl0 hpl0)
    have h4 : ¬ ∃ pl ∈ entityLines output,
        pl.positions ≠ [] ∧ ∃ i ∈ pl.indices, pl.positions.length ≤ i := by
      rintro ⟨pl, hpl, _, i, hi, hle⟩
      have := (hall pl hpl).2.2.2 i hi
      omega
    obtain ⟨scene, hs, _⟩ := hA.2.2 h3 h4
    rw [hs]
    exact ⟨(fun hc => by cases hc), scene, rfl⟩

/-! ## Meshes without faces -/

theorem firstSeenLayers_fold_skip (l : List PolyLine) (seen : List String)
    (h : ∀ q ∈ l, q.positions = []) :
    l.foldl
      (fun seen pl => if pl.positions ≠ [] ∧ pl.layer ∉ seen then seen ++ [pl.layer] else seen)
      seen = seen := by
  induction l generalizing seen with
  | nil => rfl
  | cons q qs ih =>
    simp only [List.foldl_cons, h q (List.mem_cons_self _ _), ne_eq, not_true_eq_false,
      false_and, if_false]
    exact ih seen (fun x hx => h x (List.mem_cons_of_mem _ hx))

theorem firstSeenLayers_single (l1 l2 : List PolyLine) (pl : PolyLine)
    (h1 : ∀ q ∈ l1, q.positions = []) (h2 : ∀ q ∈ l2, q.positions = [])
    (hp : pl.positions ≠ []) : firstSeenLayers (l1 ++ pl :: l2) = [pl.layer] := by
  unfold firstSeenLayers
  rw [List.foldl_append, firstSeenLayers_fold_skip l1 [] h1, List.foldl_cons]
  simp only [hp, ne_eq, not_false_eq_true, List.not_mem_nil, and_self, if_true, List.nil_append]
  exact firstSeenLayers_fold_skip l2 _ h2

theorem layerBucket_single (l1 l2 : List PolyLine) (pl : PolyLine)
    (h1 : ∀ q ∈ l1, q.positions = []) (h2 : ∀ q ∈ l2, q.positions = [])
    (hp : pl.positions ≠ []) : layerBucket (l1 ++ pl :: l2) pl.layer = [pl] := by
  have hf : ∀ l : List PolyLine, (∀ q ∈ l, q.positions = []) →
      l.filter (fun q => decide (q.positions ≠ [] ∧ q.layer = pl.layer)) = [] := by
    intro l hl
    rw [List.filter_eq_nil_iff]
    intro q hq
    simp [hl q hq]
  unfold layerBucket
  rw [List.filter_append, hf l1 h1, List.filter_cons, hf l2 h2]
  simp [hp]

theorem assemble_ok_of_safe (lines : List PolyLine) (hne : firstSeenLayers lines ≠ [])
    (hsafe : ∀ pl ∈ lines, pl.positions ≠ [] → ReadSafe pl) :
    ∃ scene, ConvertMeshes.assemble lines = Except.ok scene := by
  rw [assemble_eq]
  have hl : (firstSeenLayers lines).length ≠ 0 := fun h => hne (List.length_eq_zero.mp h)
  simp only [hl, if_false]
  rw [meshes_ok _ _ _ (assemble_buckets_safe lines hsafe)]
  exact ⟨_, rfl⟩

theorem firstSeenLayers_iff (lines : List PolyLine) (name : String) :
    name ∈ firstSeenLayers lines ↔ ∃ pl ∈ lines, pl.positions ≠ [] ∧ pl.layer = name := by
  constructor
  · exact firstSeenLayers_mem lines name
  · rintro ⟨pl, hpl, hpos, hname⟩
    rw [← hname]
    exact (bucket_inv lines).seen pl hpl hpos

theorem firstSeenLayers_length (lines : List PolyLine) :
    (firstSeenLayers lines).length =
      ((lines.filter (fun q => decide (q.positions ≠ []))).map (fun q => q.layer)).dedup.length := by
  apply List.Perm.length_eq
  rw [List.perm_ext_iff_of_nodup (bucket_inv lines).nodup (List.nodup_dedup _)]
  intro name
  rw [firstSeenLayers_iff, List.mem_dedup, List.mem_map]
  constructor
  · rintro ⟨pl, hpl, hpos, hname⟩
    exact ⟨pl, List.mem_filter.mpr ⟨hpl, by simp [hpos]⟩, hname⟩
  · rintro ⟨pl, hpl, hname⟩
    obtain ⟨h1, h2⟩ := List.mem_filter.mp hpl
    exact ⟨pl, h1, by simpa using h2, hname⟩

theorem single_positioned_scene (output : FileData) (l1 l2 : List PolyLine) (pl : PolyLine)
    (hl : entityLines output = l1 ++ pl :: l2)
    (h1 : ∀ q ∈ l1, q.positions = []) (h2 : ∀ q ∈ l2, q.positions = [])
    (hpos : pl.positions ≠ []) (hsafe : ReadSafe pl) :
    ∃ scene, ConvertMeshes output = Except.ok scene ∧ scene.mNumMeshes = 1 ∧
      scene.mMeshes = [some (meshOf pl.layer [pl])] := by
  have hne : entityLines output ≠ [] := by rw [hl]; simp
  rw [ConvertMeshes_eq_assemble_of_lines output hne, hl]
  have hfs := firstSeenLayers_single l1 l2 pl h1 h2 hpos
  have hall : ∀ q ∈ l1 ++ pl :: l2, q.positions ≠ [] → ReadSafe q := by
    intro q hq hqp
    simp only [List.mem_append, List.mem_cons] at hq
    rcases hq with hq | hq | hq
    · exact absurd (h1 q hq) hqp
    · subst hq
      exact hsafe
    · exact absurd (h2 q hq) hqp
  obtain ⟨scene, hs⟩ := assemble_ok_of_safe (l1 ++ pl :: l2) (by rw [hfs]; simp) hall
  obtain ⟨a1, a2, _, a4, _⟩ := assemble_scene _ scene hs
  rw [hfs] at a1 a2 a4
  refine ⟨scene, hs, a1, ?_⟩
  have h0 := a4 0 pl.layer rfl
  rw [layerBucket_single l1 l2 pl h1 h2 hpos] at h0
  apply List.ext_getElem?
  intro i
  cases i with
  | zero => rw [h0]; rfl
  | succ i =>
    rw [List.getElem?_eq_none (by rw [a2]; simp)]
    rfl

/-- C40: when the only polyline of the entity block that has a position has
exactly one position, no index and no face count (a plain polyline that is not
closed, for which no segment is made up), `ConvertMeshes` returns a scene with
exactly one mesh, with 0 vertices, 0 faces and the primitive types 0; its name
is what `aiString::Set` stores for the layer name. In general the number of
meshes of a scene is the number of distinct layer names among the polylines
with at least one position. -/
theorem single_position_polyline_gives_empty_mesh (output : FileData) (l1 l2 : List PolyLine)
    (pl : PolyLine) (p : aiVector3D)
    (hl : entityLines output = l1 ++ pl :: l2)
    (h1 : ∀ q ∈ l1, q.positions = []) (h2 : ∀ q ∈ l2, q.positions = [])
    (hp : pl.positions = [p]) (hi : pl.indices = []) (hc : pl.counts = []) :
    (∃ scene, ConvertMeshes output = Except.ok scene ∧ scene.mNumMeshes = 1 ∧
      scene.mMeshes = [some (emptyMesh (aiString.Set pl.layer))] ∧
      ∃ mesh, scene.mMeshes = [some mesh] ∧ mesh.mNumVertices = 0 ∧ mesh.mNumFaces = 0 ∧
        mesh.mVertices = [] ∧ mesh.mFaces = [] ∧ mesh.mPrimitiveTypes = 0) ∧
    (∀ (lines : List PolyLine) (scene : aiScene),
      ConvertMeshes.assemble lines = Except.ok scene →
      scene.mNumMeshes =
        ((lines.filter (fun q => decide (q.positions ≠ []))).map
          (fun q => q.layer)).dedup.length) ∧
    (∀ line : PolyLine, line.positions.length = 1 → line.indices = [] → line.counts = [] →
      line.flags &&& DXF_POLYLINE_FLAG_POLYFACEMESH = 0 →
      line.flags &&& DXF_POLYLINE_FLAG_CLOSED = 0 →
      ParsePolyLine.finish line = some line) := by
  have hpos : pl.positions ≠ [] := by rw [hp]; simp
  refine ⟨?_, ?_, ?_⟩
  · obtain ⟨scene, hs, a1, a2⟩ := single_positioned_scene output l1 l2 pl hl h1 h2 hpos
      (by simp [ReadSafe, walked, hc, hi])
    have hm : meshOf pl.layer [pl] = emptyMesh (aiString.Set pl.layer) := by
      simp [meshOf, emptyMesh, cornerPositions, cornerColors, walked, allCounts,
        consecutiveFaces, hc, hi]
    rw [hm] at a2
    exact ⟨scene, hs, a1, a2, _, a2, rfl, rfl, rfl, rfl, rfl⟩
  · intro lines scene hs
    rw [(assemble_scene lines scene hs).1]
    exact firstSeenLayers_length lines
  · intro line hn hi2 hc2 hf1 hf2
    cases line with
    | mk positions colors indices counts flags layer =>
      simp only at hi2 hc2 hn hf1 hf2
      subst hi2 hc2
      have hseg : ParsePolyLine.segments ⟨positions, colors, [], [], flags, layer⟩ =
          ⟨positions, colors, [], [], flags, layer⟩ := by
        rw [segments_eq]
        simp [hn, hf2]
      simp [ParsePolyLine.finish, hf1, hseg]

theorem single_position_polyline_gives_empty_mesh_witness :
    ∃ scene, ConvertMeshes sampleSinglePoint = Except.ok scene ∧ scene.mNumMeshes = 1 ∧
      scene.mMeshes = [some (emptyMesh "L")] := by
  obtain ⟨scene, h1, h2, h3, _⟩ :=
    (single_position_polyline_gives_empty_mesh sampleSinglePoint [] []
      { positions := [⟨1, 2, 3⟩], colors := [AI_DXF_DEFAULT_COLOR], layer := "L" } ⟨1, 2, 3⟩
      (by
        simp [entityLines, sampleSinglePoint, ConvertMeshes.index, ExpandBlockReferences,
          run_nil])
      (by simp) (by simp) rfl rfl rfl).1
  exact ⟨scene, h1, h2, h3⟩

/-! ## Layer names of 1024 bytes and more -/

/-- C8 (the claim as stated fails): the entity block of `sampleLongLayerData`
has one polyline with a position, on a layer whose name has 1024 bytes.
`ConvertMeshes` returns a scene with one mesh for this layer, and the name of
the mesh is empty: mesh 0 is not named after the first layer seen. -/
theorem long_layer_name_is_not_the_mesh_name :
    sampleLongLayer.utf8ByteSize = 1024 ∧
    firstSeenLayers (entityLines sampleLongLayerData) = [sampleLongLayer] ∧
    ∃ scene mesh, ConvertMeshes sampleLongLayerData = Except.ok scene ∧
      scene.mMeshes = [some mesh] ∧ mesh.mName = "" ∧ mesh.mName ≠ sampleLongLayer := by
  have hl : entityLines sampleLongLayerData =
      [] ++ ({ positions := [⟨1, 2, 3⟩], colors := [AI_DXF_DEFAULT_COLOR],
               layer := sampleLongLayer } : PolyLine) :: [] := by
    simp [entityLines, sampleLongLayerData, ConvertMeshes.index, ExpandBlockReferences, run_nil]
  refine ⟨sampleLongLayer_size, ?_, ?_⟩
  · rw [hl]
    exact firstSeenLayers_single [] [] _ (by simp) (by simp) (by simp)
  · obtain ⟨scene, hs, _, hm⟩ := single_positioned_scene sampleLongLayerData [] [] _ hl
      (by simp) (by simp) (by simp) (by simp [ReadSafe, walked])
    have hname : (meshOf sampleLongLayer
        [({ positions := [⟨1, 2, 3⟩], colors := [AI_DXF_DEFAULT_COLOR],
            layer := sampleLongLayer } : PolyLine)]).mName = "" := by
      simp only [meshOf, aiString_Set_sampleLongLayer]
    refine ⟨scene, _, hs, hm, hname, ?_⟩
    rw [hname]
    exact fun hc => sampleLongLayer_ne_empty hc.symm

/-- C25 (the claim as stated fails): the entity block of `sampleLongLayerTwo`
has a polyline on a layer whose name has 1024 bytes and a polyline on the
layer "B". `ConvertMeshes` returns a scene with two meshes, and the root has
the two children named "" and "B": child 0 has the empty name of mesh 0, not
the name of the first layer. -/
theorem long_layer_name_is_not_the_child_name :
    firstSeenLayers (entityLines sampleLongLayerTwo) = [sampleLongLayer, "B"] ∧
    sampleLongLayer.utf8ByteSize = 1024 ∧ sampleLongLayer ≠ "" ∧
    ∃ scene root, ConvertMeshes sampleLongLayerTwo = Except.ok scene ∧ scene.mNumMeshes = 2 ∧
      scene.mRootNode = some root ∧
      root.mChildren = [aiNode.mk "" {} [0] [], aiNode.mk "B" {} [1] []] := by
  have hl : entityLines sampleLongLayerTwo =
      [({ positions := [⟨1, 2, 3⟩], colors := [AI_DXF_DEFAULT_COLOR],
          layer := sampleLongLayer } : PolyLine),
        { positions := [⟨4, 5, 6⟩], colors := [AI_DXF_DEFAULT_COLOR], layer := "B" }] := by
    simp [entityLines, sampleLongLayerTwo, ConvertMeshes.index, ExpandBlockReferences, run_nil]
  have hB : ¬ "B" = sampleLongLayer := fun hc => sampleLongLayer_ne_B hc.symm
  have hfs : firstSeenLayers (entityLines sampleLongLayerTwo) = [sampleLongLayer, "B"] := by
    rw [hl]
    simp [firstSeenLayers, hB]
  refine ⟨hfs, sampleLongLayer_size, sampleLongLayer_ne_empty, ?_⟩
  have hne : entityLines sampleLongLayerTwo ≠ [] := by rw [hl]; simp
  have hsafe : ∀ q ∈ entityLines sampleLongLayerTwo, q.positions ≠ [] → ReadSafe q := by
    intro q hq _
    rw [hl] at hq
    simp only [List.mem_cons, List.mem_singleton, List.not_mem_nil, or_false] at hq
    rcases hq with hq | hq <;> subst hq <;> simp [ReadSafe, walked]
  obtain ⟨scene, hs⟩ := assemble_ok_of_safe (entityLines sampleLongLayerTwo)
    (by rw [hfs]; simp) hsafe
  obtain ⟨a1, a2, _, a4, a5⟩ := assemble_scene _ scene hs
  rw [hfs] at a1 a2 a4
  have h0 := a4 0 sampleLongLayer rfl
  have h1 := a4 1 "B" rfl
  have hk : ¬ scene.mNumMeshes = 1 := by rw [a1]; simp
  have hroot : scene.mRootNode =
      some (aiNode.mk "<DXF_ROOT>" {} [] [aiNode.mk "" {} [0] [], aiNode.mk "B" {} [1] []]) := by
    rw [a5]
    unfold GenerateHierarchy
    simp only [hk, if_false, a1]
    simp only [List.length_cons, List.length_nil, List.range, List.range.loop, List.map_cons,
      List.map_nil, List.getD_eq_getElem?_getD, h0, h1, Option.getD_some, Option.map_some',
      meshOf, aiString_Set_sampleLongLayer, aiString_Set_B]
    rfl
  refine ⟨scene, _, ?_, a1, hroot, rfl⟩
  rw [ConvertMeshes_eq_assemble_of_lines sampleLongLayerTwo hne]
  exact hs

/-! ## The root transformation -/

theorem assemble_root (lines : List PolyLine) (scene : aiScene)
    (h : ConvertMeshes.assemble lines = Except.ok scene) :
    ∃ meshes children, scene.mRootNode = some (aiNode.mk "<DXF_ROOT>" {} meshes children) := by
  rw [(assemble_scene lines scene h).2.2.2.2]
  unfold GenerateHierarchy
  split_ifs
  · exact ⟨_, _, rfl⟩
  · exact ⟨_, _, rfl⟩

theorem sampleFaceWithoutPositions_import (available : Nat) :
    ∃ scene, InternReadFile available sampleFaceWithoutPositions = Except.ok scene := by
  unfold InternReadFile
  simp only [sampleFaceWithoutPositions_parse]
  simp [sampleFaceWithoutPositionsData, ConvertMeshes, ConvertMeshes.index,
    AI_DXF_ENTITIES_MAGIC_BLOCK, ExpandBlockReferences, ExpandBlockReferences.run,
    ConvertMeshes.assemble, ConvertMeshes.bucket, ConvertMeshes.bucketOne, mapFind, mapInsert,
    modifyAt, ConvertMeshes.meshes, ConvertMeshes.buildMesh, ConvertMeshes.lines,
    ConvertMeshes.faces, ConvertMeshes.corners, primitiveBit, GenerateHierarchy,
    GenerateMaterials, Except.map, aiPrimitiveType_LINE]

theorem InternReadFile_root (available : Nat) (reader : LineReader) (scene : aiScene)
    (h : InternReadFile available reader = Except.ok scene) :
    ∃ meshes children,
      scene.mRootNode = some (aiNode.mk "<DXF_ROOT>" (RotationX 0 (-1)) meshes children) := by
  unfold InternReadFile at h
  by_cases hres : (InternReadFile.loop reader {}).reserved.any (reserveThrows available) = true
  · simp only [hres, if_true] at h
    cases h
  · simp only [hres, Bool.false_eq_true, if_false] at h
    cases hc : ConvertMeshes (InternReadFile.loop reader {}) with
    | error e =>
      simp only [hc] at h
      cases h
    | ok pScene =>
      simp only [hc, Except.ok.injEq] at h
      obtain ⟨meshes, children, hroot⟩ :=
        assemble_root _ pScene (ConvertMeshes_ok_assemble _ pScene hc)
      refine ⟨meshes, children, ?_⟩
      rw [← h, hroot]
      simp [aiMatrix4x4.mul, RotationX, aiNode.mName, aiNode.mTransformation, aiNode.mMeshes,
        aiNode.mChildren]

/-- C35 (the claim as stated fails): the import of `sampleFaceWithoutPositions`
succeeds, whatever the allocator grants, and the transformation of its root
node is the rotation about the x axis with cosine 0 and sine -1, the quarter
turn by -90 degrees; it is not the quarter turn by +90 degrees, which has sine
+1: the root transformation sends the point `(0,1,0)` to `(0,0,-1)`, the turn
by +90 degrees sends it to `(0,0,1)`. -/
theorem root_rotation_is_not_plus_quarter_turn :
    (∀ available : Nat, ∃ scene root,
      InternReadFile available sampleFaceWithoutPositions = Except.ok scene ∧
      scene.mRootNode = some root ∧
      root.mTransformation = RotationX 0 (-1) ∧
      root.mTransformation ≠ RotationX 0 1 ∧
      aiMatrix4x4.transform root.mTransformation ⟨0, 1, 0⟩ = ⟨0, 0, -1⟩) ∧
    aiMatrix4x4.transform (RotationX 0 1) ⟨0, 1, 0⟩ = ⟨0, 0, 1⟩ := by
  constructor
  · intro available
    obtain ⟨scene, hs⟩ := sampleFaceWithoutPositions_import available
    obtain ⟨meshes, children, hroot⟩ := InternReadFile_root available _ scene hs
    refine ⟨scene, _, hs, hroot, rfl, ?_, ?_⟩
    · simp [RotationX, aiNode.mTransformation]
      norm_num
    · simp [aiMatrix4x4.transform, RotationX, aiNode.mTransformation]
  · simp [aiMatrix4x4.transform, RotationX]

/-- C35 (amended): after a successful import the scene has a root node named
"<DXF_ROOT>" whose transformation is exactly the matrix with the rows
`(1,0,0,0)`, `(0,0,1,0)`, `(0,-1,0,0)`, `(0,0,0,1)`, the product of that matrix
with the identity that `GenerateHierarchy` leaves on the root. It sends every
point `(x, y, z)` to `(x, z, -y)`: x is fixed, y and z are swapped with one
sign flip, which is the rotation about the x axis by -90 degrees. -/
theorem root_coordinate_correction (available : Nat) (reader : LineReader) (scene : aiScene)
    (h : InternReadFile available reader = Except.ok scene) :
    ∃ root, scene.mRootNode = some root ∧
      root.mName = "<DXF_ROOT>" ∧
      root.mTransformation =
        { a1 := 1, a2 := 0, a3 := 0, a4 := 0
          b1 := 0, b2 := 0, b3 := 1, b4 := 0
          c1 := 0, c2 := -1, c3 := 0, c4 := 0
          d1 := 0, d2 := 0, d3 := 0, d4 := 1 } ∧
      root.mTransformation =
        aiMatrix4x4.mul
          { a1 := 1, a2 := 0, a3 := 0, a4 := 0
            b1 := 0, b2 := 0, b3 := 1, b4 := 0
            c1 := 0, c2 := -1, c3 := 0, c4 := 0
            d1 := 0, d2 := 0, d3 := 0, d4 := 1 } {} ∧
      root.mTransformation = RotationX 0 (-1) ∧
      ∀ v : aiVector3D, aiMatrix4x4.transform root.mTransformation v = ⟨v.x, v.z, -v.y⟩ := by
  obtain ⟨meshes, children, hroot⟩ := InternReadFile_root available reader scene h
  refine ⟨_, hroot, rfl, ?_, ?_, rfl, ?_⟩
  · simp [RotationX, aiNode.mTransformation]
  · simp [aiMatrix4x4.mul, RotationX, aiNode.mTransformation]
  · intro v
    simp [aiMatrix4x4.transform, RotationX, aiNode.mTransformation]

theorem root_coordinate_correction_witness :
    ∃ scene root, InternReadFile 0 sampleFaceWithoutPositions = Except.ok scene ∧
      scene.mRootNode = some root ∧ root.mName = "<DXF_ROOT>" ∧
      root.mTransformation = RotationX 0 (-1) ∧
      aiMatrix4x4.transform root.mTransformation ⟨1, 2, 3⟩ = ⟨1, 3, -2⟩ := by
  obtain ⟨scene, hs⟩ := sampleFaceWithoutPositions_import 0
  obtain ⟨root, h1, h2, _, _, h3, h4⟩ :=
    root_coordinate_correction 0 sampleFaceWithoutPositions scene hs
  exact ⟨scene, root, hs, h1, h2, h3, h4 ⟨1, 2, 3⟩⟩

/-! ## The source blocks of an expansion -/

/-- C34: when no insertion of the target block resolves to the target itself,
`ExpandBlockReferences` changes no block but the target: every other block of
the registry is afterwards what it was before, with its polylines, origin and
insertions. The target keeps its name, origin and insertions, and gets, after
its own polylines, for each insertion in order the copies of the polylines of
the block the insertion resolves to in the registry as it was before the
expansion; so two insertions of the same block give two lists of copies, each
made from the original polylines of the source (colours, indices, counts,
layer and flags as in the source, positions mapped from the source positions),
none from the other copy. -/
theorem expansion_leaves_sources_unchanged (blocks : List Block) (bl : Nat)
    (blocks_by_name : BlockMap) (target : Block) (ht : blocks[bl]? = some target)
    (hsrc : ∀ ins ∈ target.insertions, blocks_by_name ins.name ≠ some bl) :
    (∀ j, j ≠ bl → (ExpandBlockReferences blocks bl blocks_by_name)[j]? = blocks[j]?) ∧
    (ExpandBlockReferences blocks bl blocks_by_name)[bl]? =
      some { target with
        lines := target.lines ++
          target.insertions.flatMap (fun ins =>
            match blocks_by_name ins.name with
            | none => []
            | some i =>
              match blocks[i]? with
              | none => []
              | some bl_src => bl_src.lines.map (ExpandBlockReferences.copy bl_src ins)) } ∧
    (∀ (bl_src : Block) (ins : InsertBlock) (pl : PolyLine),
      (ExpandBlockReferences.copy bl_src ins pl).colors = pl.colors ∧
      (ExpandBlockReferences.copy bl_src ins pl).indices = pl.indices ∧
      (ExpandBlockReferences.copy bl_src ins pl).counts = pl.counts ∧
      (ExpandBlockReferences.copy bl_src ins pl).layer = pl.layer ∧
      (ExpandBlockReferences.copy bl_src ins pl).flags = pl.flags ∧
      ((ExpandBlockReferences.copy bl_src ins pl).positions = pl.positions ∨
        (ExpandBlockReferences.copy bl_src ins pl).positions =
          pl.positions.map
            (aiMatrix4x4.transform
              (((aiMatrix4x4.Translation bl_src.base.neg).mul
                (aiMatrix4x4.Translation ins.pos)).mul (aiMatrix4x4.Scaling ins.scale))))) := by
  have hrun : ExpandBlockReferences blocks bl blocks_by_name =
      modifyAt (fun b => { b with
        lines := b.lines ++ target.insertions.flatMap (insertedLines blocks_by_name blocks) })
        blocks bl := by
    simp only [ExpandBlockReferences, ht]
    exact run_distinct bl blocks_by_name target.insertions blocks hsrc
  refine ⟨?_, ?_, ?_⟩
  · intro j hj
    rw [hrun, modifyAt_getElem?, if_neg hj]
  · rw [hrun, modifyAt_getElem?, if_pos rfl, ht]
    rfl
  · intro bl_src ins pl
    obtain ⟨h1, h2, h3, h4, h5, _⟩ := copy_fields bl_src ins pl
    refine ⟨h1, h2, h3, h4, h5, ?_⟩
    unfold ExpandBlockReferences.copy
    split_ifs
    · exact Or.inr rfl
    · exact Or.inl rfl

theorem expansion_leaves_sources_unchanged_witness :
    (∀ j, j ≠ 0 → (ExpandBlockReferences sampleTwice 0 sampleTwiceMap)[j]? = sampleTwice[j]?) ∧
    (ExpandBlockReferences sampleTwice 0 sampleTwiceMap)[0]? =
      some
        { name := AI_DXF_ENTITIES_MAGIC_BLOCK
          insertions := [sampleInsertB, { name := "B" }]
          lines := [{ positions := [⟨12, 0, 0⟩], colors := [AI_DXF_DEFAULT_COLOR], layer := "B" },
            { positions := [⟨1, 0, 0⟩], colors := [AI_DXF_DEFAULT_COLOR], layer := "B" }] } := by
  have h := expansion_leaves_sources_unchanged sampleTwice 0 sampleTwiceMap
    { name := AI_DXF_ENTITIES_MAGIC_BLOCK, insertions := [sampleInsertB, { name := "B" }] } rfl
    (by
      intro ins hins
      simp only [List.mem_cons, List.mem_singleton, List.not_mem_nil, or_false] at hins
      rcases hins with h | h <;> subst h <;> simp [sampleTwiceMap, sampleInsertB])
  refine ⟨h.1, ?_⟩
  rw [h.2.1]
  simp [sampleTwice, sampleTwiceMap, sampleInsertB, samplePointB, ExpandBlockReferences.copy,
    aiVector3D.LengthNonzero, aiMatrix4x4.mul, aiMatrix4x4.transform, aiMatrix4x4.Translation,
    aiMatrix4x4.Scaling, aiVector3D.neg]
  norm_num

/-! ## The first block with the reserved name -/

theorem index_names (bls bls2 : List Block) (k : Nat) (m : BlockMap) (e : Option Nat)
    (h : bls.map (fun b => b.name) = bls2.map (fun b => b.name)) :
    ConvertMeshes.index bls k m e = ConvertMeshes.index bls2 k m e := by
  induction bls generalizing bls2 k m e with
  | nil =>
    cases bls2 with
    | nil => rfl
    | cons c cs => simp at h
  | cons b bs ih =>
    cases bls2 with
    | nil => simp at h
    | cons c cs =>
      simp only [List.map_cons, List.cons.injEq] at h
      simp only [ConvertMeshes.index, h.1]
      exact ih cs _ _ _ h.2

theorem index_entities_first (pre post : List Block) (e : Block) (k : Nat) (m : BlockMap)
    (hpre : ∀ b ∈ pre, b.name ≠ AI_DXF_ENTITIES_MAGIC_BLOCK)
    (he : e.name = AI_DXF_ENTITIES_MAGIC_BLOCK) :
    (ConvertMeshes.index (pre ++ e :: post) k m none).2 = some (k + pre.length) := by
  induction pre generalizing k m with
  | nil =>
    simp only [List.nil_append, ConvertMeshes.index, Option.isNone_none, he, true_and, if_true,
      index_entities_some, List.length_nil, Nat.add_zero]
  | cons b bs ih =>
    have hb : b.name ≠ AI_DXF_ENTITIES_MAGIC_BLOCK := hpre b (List.mem_cons_self _ _)
    simp only [List.cons_append, ConvertMeshes.index, hb, and_false, if_false, List.length_cons]
    have := ih (k + 1) (fun name => if name = b.name then some k else m name)
      (fun x hx => hpre x (List.mem_cons_of_mem _ hx))
    rw [show k + (bs.length + 1) = k + 1 + bs.length by omega]
    exact this

theorem sameButEntityBlocks_names (post post2 : List Block) (h : SameButEntityBlocks post post2) :
    post.map (fun b => b.name) = post2.map (fun b => b.name) := by
  unfold SameButEntityBlocks at h
  induction h with
  | nil => rfl
  | cons hab _ ih => simp only [List.map_cons, hab.1, ih]

theorem sameButEntityBlocks_get (post post2 : List Block) (h : SameButEntityBlocks post post2)
    (i : Nat) (b : Block) (hb : post[i]? = some b)
    (hn : b.name ≠ AI_DXF_ENTITIES_MAGIC_BLOCK) : post2[i]? = some b := by
  unfold SameButEntityBlocks at h
  induction h generalizing i with
  | nil => simp at hb
  | cons hab _ ih =>
    cases i with
    | zero =>
      simp only [List.getElem?_cons_zero, Option.some.injEq] at hb ⊢
      subst hb
      exact (hab.2 hn).symm
    | succ i =>
      simp only [List.getElem?_cons_succ] at hb ⊢
      exact ih i hb

theorem later_entity_blocks_get (pre post post2 : List Block) (e : Block)
    (h : SameButEntityBlocks post post2) (i : Nat) (b : Block)
    (hb : (pre ++ e :: post)[i]? = some b) (hn : b.name ≠ AI_DXF_ENTITIES_MAGIC_BLOCK) :
    (pre ++ e :: post2)[i]? = some b := by
  by_cases hi : i < pre.length
  · rw [List.getElem?_append_left hi] at hb ⊢
    exact hb
  · have hi2 : pre.length ≤ i := Nat.le_of_not_lt hi
    rw [List.getElem?_append_right hi2] at hb ⊢
    generalize i - pre.length = k at hb ⊢
    cases k with
    | zero =>
      simp only [List.getElem?_cons_zero] at hb ⊢
      exact hb
    | succ k =>
      simp only [List.getElem?_cons_succ] at hb ⊢
      exact sameButEntityBlocks_get post post2 h k b hb hn

theorem index_resolves_name (blocks : List Block) (name : String) (i : Nat)
    (h : (ConvertMeshes.index blocks 0 (fun _ => none) none).1 name = some i) :
    ∃ b, blocks[i]? = some b ∧ b.name = name := by
  rw [index_map] at h
  cases hl : lastNamed blocks name with
  | none =>
    rw [hl] at h
    cases h
  | some j =>
    rw [hl] at h
    simp only [Nat.zero_add, Option.some.injEq] at h
    subst h
    exact ((lastNamed_some blocks name j).mp hl).1

theorem entityLines_first (pre post : List Block) (e : Block)
    (hpre : ∀ b ∈ pre, b.name ≠ AI_DXF_ENTITIES_MAGIC_BLOCK)
    (he : e.name = AI_DXF_ENTITIES_MAGIC_BLOCK)
    (hins : ∀ ins ∈ e.insertions, ins.name ≠ AI_DXF_ENTITIES_MAGIC_BLOCK) :
    entityLines { blocks := pre ++ e :: post } =
      e.lines ++ e.insertions.flatMap
        (insertedLines (ConvertMeshes.index (pre ++ e :: post) 0 (fun _ => none) none).1
          (pre ++ e :: post)) := by
  have hent := index_entities_first pre post e 0 (fun _ => none) hpre he
  have hget : (pre ++ e :: post)[pre.length]? = some e := by
    rw [List.getElem?_append_right (Nat.le_refl _)]
    simp
  unfold entityLines
  cases hidx : ConvertMeshes.index (pre ++ e :: post) 0 (fun _ => none) none with
  | mk m ent =>
    rw [hidx] at hent
    simp only [Nat.zero_add] at hent
    subst hent
    simp only
    have hsrc : ∀ ins ∈ e.insertions, m ins.name ≠ some pre.length := by
      intro ins hi hc
      have hm : (ConvertMeshes.index (pre ++ e :: post) 0 (fun _ => none) none).1 ins.name =
          some pre.length := by rw [hidx]; exact hc
      obtain ⟨b, hb1, hb2⟩ := index_resolves_name _ _ _ hm
      rw [hget] at hb1
      simp only [Option.some.injEq] at hb1
      subst hb1
      exact hins ins hi (hb2.symm.trans he)
    simp only [ExpandBlockReferences, hget]
    rw [run_distinct pre.length m e.insertions _ hsrc, List.getD_eq_getElem?_getD,
      modifyAt_getElem?, if_pos rfl, hget]
    rfl

/-- C39: the block that `ConvertMeshes` takes as the entity block is the first
block of the list that has the reserved name, and only its insertions are
expanded. When none of its insertions names the reserved name, its polylines
after expansion are its own followed by the copies for its insertions, and
the later blocks with the reserved name have no influence on the scene:
replacing their polylines, insertions and origins by any others leaves the
result of `ConvertMeshes` unchanged. -/
theorem only_first_entities_block_is_assembled (pre post post2 : List Block) (e : Block)
    (hpre : ∀ b ∈ pre, b.name ≠ AI_DXF_ENTITIES_MAGIC_BLOCK)
    (he : e.name = AI_DXF_ENTITIES_MAGIC_BLOCK)
    (hrel : SameButEntityBlocks post post2)
    (hins : ∀ ins ∈ e.insertions, ins.name ≠ AI_DXF_ENTITIES_MAGIC_BLOCK) :
    (ConvertMeshes.index (pre ++ e :: post) 0 (fun _ => none) none).2 = some pre.length ∧
    (∀ m, ExpandBlockReferences (pre ++ e :: post) pre.length m =
      ExpandBlockReferences.run pre.length m e.insertions (pre ++ e :: post)) ∧
    ConvertMeshes { blocks := pre ++ e :: post } =
      ConvertMeshes.assemble
        (e.lines ++ e.insertions.flatMap
          (insertedLines (ConvertMeshes.index (pre ++ e :: post) 0 (fun _ => none) none).1
            (pre ++ e :: post))) ∧
    ConvertMeshes { blocks := pre ++ e :: post2 } = ConvertMeshes { blocks := pre ++ e :: post } := by
  have hget : ∀ p : List Block, (pre ++ e :: p)[pre.length]? = some e := by
    intro p
    rw [List.getElem?_append_right (Nat.le_refl _)]
    simp
  have hconv : ∀ p : List Block, ConvertMeshes { blocks := pre ++ e :: p } =
      ConvertMeshes.assemble
        (e.lines ++ e.insertions.flatMap
          (insertedLines (ConvertMeshes.index (pre ++ e :: p) 0 (fun _ => none) none).1
            (pre ++ e :: p))) := by
    intro p
    rw [← entityLines_first pre p e hpre he hins]
    apply ConvertMeshes_eq_assemble
    · simp
    · intro hc
      exact hc e (by simp) he
  refine ⟨?_, ?_, hconv post, ?_⟩
  · simpa using index_entities_first pre post e 0 (fun _ => none) hpre he
  · intro m
    simp only [ExpandBlockReferences, hget post]
  · rw [hconv post, hconv post2]
    have hnames : (pre ++ e :: post2).map (fun b => b.name) =
        (pre ++ e :: post).map (fun b => b.name) := by
      simp only [List.map_append, List.map_cons, sameButEntityBlocks_names post post2 hrel]
    rw [index_names _ _ 0 (fun _ => none) none hnames]
    congr 2
    apply List.flatMap_congr
    intro ins hi
    cases hm : (ConvertMeshes.index (pre ++ e :: post) 0 (fun _ => none) none).1 ins.name with
    | none => simp [insertedLines, hm]
    | some i =>
      obtain ⟨b, hb1, hb2⟩ := index_resolves_name _ _ _ hm
      have hn : b.name ≠ AI_DXF_ENTITIES_MAGIC_BLOCK := by
        rw [hb2]
        exact hins ins hi
      have hb3 := later_entity_blocks_get pre post post2 e hrel i b hb1 hn
      simp only [insertedLines, hm, hb1, hb3]

theorem only_first_entities_block_is_assembled_witness :
    (ConvertMeshes.index sampleTwoEntityBlocks 0 (fun _ => none) none).2 = some 1 ∧
    ConvertMeshes
        { blocks :=
            [{ name := "B", lines := [samplePointB] },
              { name := AI_DXF_ENTITIES_MAGIC_BLOCK, lines := [samplePointC],
                insertions := [{ name := "B" }] },
              { name := AI_DXF_ENTITIES_MAGIC_BLOCK }] } =
      ConvertMeshes { blocks := sampleTwoEntityBlocks } := by
  have h := only_first_entities_block_is_assembled
    [{ name := "B", lines := [samplePointB] }]
    [{ name := AI_DXF_ENTITIES_MAGIC_BLOCK, lines := [samplePointB, samplePointC] }]
    [{ name := AI_DXF_ENTITIES_MAGIC_BLOCK }]
    { name := AI_DXF_ENTITIES_MAGIC_BLOCK, lines := [samplePointC], insertions := [{ name := "B" }] }
    (by simp [AI_DXF_ENTITIES_MAGIC_BLOCK]) rfl
    (List.Forall₂.cons ⟨rfl, fun hc => absurd rfl hc⟩ List.Forall₂.nil)
    (by simp [AI_DXF_ENTITIES_MAGIC_BLOCK])
  exact ⟨h.1, h.2.2.2⟩

/-! ## The end of the file inside a section -/

/-- C36 (evaluation of the code): the two streams `sampleEofInSection` and
`sampleEofInSectionCut` agree up to and including their first EOF record, the
third record, which stands inside an ENTITIES section. The LINE entity after
the EOF record of the first stream is parsed into the entity block, so the two
streams do not parse to the same file data. At the top level, outside a
section, the loop does stop at the EOF record: the records after it have no
influence. -/
theorem records_after_eof_inside_section_are_read :
    sampleEofInSection.take 3 = sampleEofInSectionCut ∧
    sampleEofInSectionCut.take 3 = sampleEofInSectionCut ∧
    sampleEofInSectionCut[2]? = some ⟨0, "EOF", 0, 0, 0⟩ ∧
    InternReadFile.loop sampleEofInSection {} =
      { blocks := [{ name := AI_DXF_ENTITIES_MAGIC_BLOCK, lines := [sampleUnitSegment] }] } ∧
    InternReadFile.loop sampleEofInSectionCut {} =
      { blocks := [{ name := AI_DXF_ENTITIES_MAGIC_BLOCK }] } ∧
    InternReadFile.loop sampleEofInSection {} ≠ InternReadFile.loop sampleEofInSectionCut {} ∧
    (∀ (r : Record) (rest rest2 : LineReader) (output : FileData), r.Is 0 "EOF" = true →
      InternReadFile.loop (r :: rest) output = output ∧
      InternReadFile.loop (r :: rest) output = InternReadFile.loop (r :: rest2) output) := by
  have h1 : InternReadFile.loop sampleEofInSection {} =
      { blocks := [{ name := AI_DXF_ENTITIES_MAGIC_BLOCK, lines := [sampleUnitSegment] }] } := by
    simp [sampleEofInSection, sampleUnitSegment, InternReadFile_loop_cons,
      InternReadFile_loop_nil, InternReadFile.body, ParseEntities, ParseEntities_loop_cons,
      ParseEntities_loop_nil, ParseEntities.body, Record.Is, LineReader.Is, isFaceEntity,
      isSolidEntity, isSurfaceEntity, isAcShEntity,
      Parse3DFace, Parse3DFace.loop, Parse3DFace.step, Parse3DFace.emit, FaceState.vip,
      GroupCode_XComp, GroupCode_YComp, GroupCode_ZComp, pushLine, popLine, setBackLine,
      modifyBack, noteReserved, List.range, List.range.loop]
  have h2 : InternReadFile.loop sampleEofInSectionCut {} =
      { blocks := [{ name := AI_DXF_ENTITIES_MAGIC_BLOCK }] } := by
    simp [sampleEofInSectionCut, InternReadFile_loop_cons,
      InternReadFile_loop_nil, InternReadFile.body, ParseEntities, ParseEntities_loop_cons,
      ParseEntities_loop_nil, ParseEntities.body, Record.Is, LineReader.Is, isFaceEntity,
      isSolidEntity, isSurfaceEntity, isAcShEntity]
  have hstop : ∀ (r : Record) (rest : LineReader) (output : FileData), r.Is 0 "EOF" = true →
      InternReadFile.loop (r :: rest) output = output := by
    intro r rest output hr
    have hc : r.GroupCode = 0 := Record.Is_code hr
    have hv : r.Value = "EOF" := by
      simp only [Record.Is, decide_eq_true_eq] at hr
      exact hr.2
    rw [InternReadFile_loop_cons]
    simp [InternReadFile.body, Record.Is, hc, hv]
  refine ⟨rfl, rfl, rfl, h1, h2, ?_, ?_⟩
  · rw [h1, h2]
    simp [sampleUnitSegment]
  · intro r rest rest2 output hr
    exact ⟨hstop r rest output hr, (hstop r rest output hr).trans (hstop r rest2 output hr).symm⟩

/-! ## Unsupported entities -/

theorem modifyBack_self (f : Block → Block) (output : FileData) (hf : ∀ b, f b = b) :
    modifyBack f output = output := by
  cases output with
  | mk blocks reserved =>
    rcases List.eq_nil_or_concat blocks with h | ⟨bs, b, h⟩
    · subst h
      exact modifyBack_nil f _
    · rw [List.concat_eq_append] at h
      subst h
      rw [modifyBack_snoc, hf]

theorem header_zero (b : Block) (r : Record) (h : r.GroupCode = 0) :
    ParseBlock.header b r = b := by
  simp [ParseBlock.header, h, GroupCode_Name, GroupCode_XComp, GroupCode_YComp, GroupCode_ZComp]

theorem unsupported_dispatch (u : Record) (h : isUnsupportedEntity u = true) :
    u.GroupCode = 0 ∧ u.Is 0 "ENDSEC" = false ∧ u.Is 0 "ENDBLK" = false ∧
      u.Is 0 "POLYLINE" = false ∧ u.Is 0 "INSERT" = false ∧ isFaceEntity u = false := by
  cases u with
  | mk gc v f s n =>
    simp only [isUnsupportedEntity, isSolidEntity, isSurfaceEntity, isAcShEntity, Record.Is,
      Bool.or_eq_true, decide_eq_true_eq] at h
    have hgc : gc = 0 := by
      rcases h with (((h | h) | h) | h) | h
      · exact h.1
      · rcases h with (h | h) | h <;> exact h.1
      · exact h.1
      · rcases h with (((((h | h) | h) | h) | h) | h) | h <;> exact h.1
      · rcases h with (((((((((((((((h | h) | h) | h) | h) | h) | h) | h) | h) | h) | h) | h) | h)
          | h) | h) | h) <;> exact h.1
    subst hgc
    simp only [true_and] at h
    refine ⟨rfl, ?_, ?_, ?_, ?_, ?_⟩ <;>
      simp only [isFaceEntity, Record.Is, true_and, Bool.or_eq_false_iff, decide_eq_false_iff_not] <;>
      (try refine ⟨⟨⟨?_, ?_⟩, ?_⟩, ?_⟩) <;>
      (intro hv; subst hv; simp at h)

theorem ParseEntities_body_unsupported (u : Record) (rs : LineReader) (output : FileData)
    (h : isUnsupportedEntity u = true) : ParseEntities.body u rs output = Step.next rs output := by
  obtain ⟨_, h1, _, h3, h4, h5⟩ := unsupported_dispatch u h
  unfold ParseEntities.body
  simp only [h1, h3, h4, h5, ParseLWPolyLine, Parse3DSolid, ParseMesh, ParseSurface,
    ParseAcShClass, Bool.false_eq_true, if_false]
  split_ifs <;> rfl

theorem ParseEntities_loop_skip (recs rest : LineReader) (output : FileData)
    (hrecs : ∀ r ∈ recs, r.GroupCode ≠ 0) :
    ParseEntities.loop (recs ++ rest) output = ParseEntities.loop rest output := by
  induction recs with
  | nil => rfl
  | cons r rs ih =>
    rw [List.cons_append, ParseEntities_loop_cons,
      ParseEntities_body_of_ne (hrecs r (List.mem_cons_self _ _))]
    exact ih (fun x hx => hrecs x (List.mem_cons_of_mem _ hx))

theorem ParseBlock_body_unsupported (u : Record) (rs : LineReader) (output : FileData)
    (h : isUnsupportedEntity u = true) : ParseBlock.body u rs output = Step.next rs output := by
  obtain ⟨h0, _, h2, h3, h4, h5⟩ := unsupported_dispatch u h
  unfold ParseBlock.body
  simp only [h2, h3, h4, h5, ParseLWPolyLine, Parse3DSolid, ParseMesh, ParseSurface,
    ParseAcShClass, Bool.false_eq_true, if_false,
    modifyBack_self _ output (fun b => header_zero b u h0)]
  split_ifs <;> rfl

theorem ParseBlock_body_of_ne (r : Record) (rs : LineReader) (output : FileData)
    (h : r.GroupCode ≠ 0) :
    ParseBlock.body r rs output =
      Step.next rs (modifyBack (fun b => ParseBlock.header b r) output) := by
  simp [ParseBlock.body, Record.Is_zero_of_ne h, isFaceEntity, isSolidEntity,
    isSurfaceEntity, isAcShEntity, ParseLWPolyLine, Parse3DSolid, ParseMesh, ParseSurface,
    ParseAcShClass]

theorem ParseBlock_loop_records (recs rest : LineReader) (output : FileData)
    (hrecs : ∀ r ∈ recs, r.GroupCode ≠ 0) :
    ParseBlock.loop (recs ++ rest) output =
      ParseBlock.loop rest
        (recs.foldl (fun out r => modifyBack (fun b => ParseBlock.header b r) out) output) := by
  induction recs generalizing output with
  | nil => rfl
  | cons r rs ih =>
    rw [List.cons_append, ParseBlock_loop_cons,
      ParseBlock_body_of_ne r _ output (hrecs r (List.mem_cons_self _ _))]
    exact ih _ (fun x hx => hrecs x (List.mem_cons_of_mem _ hx))

/-- C33 (evaluation of the code): in an ENTITIES section an unsupported entity
with records of non-zero group code is passed over without effect. In a BLOCK
body it is not: the loop of `ParseBlock` reads every record it passes over as
a record of the block header, so the record of group code 10 of the
LWPOLYLINE in `sampleBlockWithLwPolyline` overwrites the x coordinate of the
origin of block "B", which is 5 with the entity and 1 without it. -/
theorem unsupported_entity_in_block_changes_origin :
    InternReadFile.loop sampleBlockWithLwPolyline {} =
      { blocks := [{ name := "B", base := ⟨5, 0, 0⟩ }] } ∧
    InternReadFile.loop sampleBlockPlain {} = { blocks := [{ name := "B", base := ⟨1, 0, 0⟩ }] } ∧
    InternReadFile.loop sampleBlockWithLwPolyline {} ≠ InternReadFile.loop sampleBlockPlain {} ∧
    isUnsupportedEntity ⟨0, "LWPOLYLINE", 0, 0, 0⟩ = true ∧
    (∀ (u : Record) (recs rest : LineReader) (output : FileData),
      isUnsupportedEntity u = true → (∀ r ∈ recs, r.GroupCode ≠ 0) →
      ParseEntities.loop (u :: (recs ++ rest)) output = ParseEntities.loop rest output) ∧
    (∀ (u : Record) (recs rest : LineReader) (output : FileData),
      isUnsupportedEntity u = true → (∀ r ∈ recs, r.GroupCode ≠ 0) →
      ParseBlock.loop (u :: (recs ++ rest)) output =
        ParseBlock.loop rest
          (recs.foldl (fun out r => modifyBack (fun b => ParseBlock.header b r) out) output)) := by
  have h1 : InternReadFile.loop sampleBlockWithLwPolyline {} =
      { blocks := [{ name := "B", base := ⟨5, 0, 0⟩ }] } := by
    simp [sampleBlockWithLwPolyline, InternReadFile_loop_cons, InternReadFile_loop_nil,
      InternReadFile.body, ParseBlocks_cons, ParseBlocks, ParseBlock, ParseBlock_loop_cons,
      ParseBlock_loop_nil, ParseBlock.body, ParseBlock.header, ParseLWPolyLine, Record.Is,
      LineReader.Is, isFaceEntity, isSolidEntity, isSurfaceEntity, isAcShEntity,
      GroupCode_Name, GroupCode_XComp, GroupCode_YComp, GroupCode_ZComp, modifyBack, noteReserved]
  have h2 : InternReadFile.loop sampleBlockPlain {} =
      { blocks := [{ name := "B", base := ⟨1, 0, 0⟩ }] } := by
    simp [sampleBlockPlain, InternReadFile_loop_cons, InternReadFile_loop_nil,
      InternReadFile.body, ParseBlocks_cons, ParseBlocks, ParseBlock, ParseBlock_loop_cons,
      ParseBlock_loop_nil, ParseBlock.body, ParseBlock.header, ParseLWPolyLine, Record.Is,
      LineReader.Is, isFaceEntity, isSolidEntity, isSurfaceEntity, isAcShEntity,
      GroupCode_Name, GroupCode_XComp, GroupCode_YComp, GroupCode_ZComp, modifyBack, noteReserved]
  refine ⟨h1, h2, ?_, by decide, ?_, ?_⟩
  · rw [h1, h2]
    simp
  · intro u recs rest output hu hrecs
    rw [ParseEntities_loop_cons, ParseEntities_body_unsupported u _ output hu]
    exact ParseEntities_loop_skip recs rest output hrecs
  · intro u recs rest output hu hrecs
    rw [ParseBlock_loop_cons, ParseBlock_body_unsupported u _ output hu]
    exact ParseBlock_loop_records recs rest output hrecs

/-! ## An INSERT inside a block -/

theorem hintsErased_zero (b : Bool) (r : Record) (rs : LineReader) (h : r.GroupCode = 0) :
    hintsErased b (r :: rs) = r :: hintsErased (r.Is 0 "VERTEX") rs := by
  simp [hintsErased, h]

theorem hintsErased_head (b : Bool) (reader : LineReader) (what : String) :
    (hintsErased b reader).Is 0 what = reader.Is 0 what := by
  cases reader with
  | nil => rfl
  | cons r rs =>
    by_cases h : r.GroupCode = 0
    · rw [hintsErased_zero b r rs h]
      rfl
    · simp only [hintsErased, h, if_false]
      split_ifs <;> simp [LineReader.Is, Record.Is, h]

theorem hintsErased_vertex (rs : LineReader) (st : VertexState) :
    ParsePolyLineVertex.loop (hintsErased true rs) st =
      (hintsErased false (ParsePolyLineVertex.loop rs st).1,
        (ParsePolyLineVertex.loop rs st).2) := by
  induction rs generalizing st with
  | nil => rfl
  | cons r rs ih =>
    by_cases h : r.GroupCode = 0
    · rw [hintsErased_zero true r rs h]
      simp only [ParsePolyLineVertex.loop, h, if_true]
      rw [hintsErased_zero false r rs h]
    · simp only [hintsErased, h, if_false, Bool.true_eq_false, false_and,
        ParsePolyLineVertex.loop]
      exact ih _

theorem hintsErased_ParsePolyLineVertex (rs : LineReader) (line : PolyLine) :
    ParsePolyLineVertex (hintsErased true rs) line =
      (hintsErased false (ParsePolyLineVertex rs line).1, (ParsePolyLineVertex rs line).2) := by
  unfold ParsePolyLineVertex
  simp only [hintsErased_vertex]

theorem step_line (st1 st2 : PolyLineState) (r : Record) (h : st1.line = st2.line) :
    (ParsePolyLine.step st1 r).line = (ParsePolyLine.step st2 r).line := by
  unfold ParsePolyLine.step
  rw [h]
  split_ifs <;> simp [h]

theorem step_hint_line (st : PolyLineState) (r : Record)
    (h : r.GroupCode = 71 ∨ r.GroupCode = 72) : (ParsePolyLine.step st r).line = st.line := by
  unfold ParsePolyLine.step
  rcases h with h | h <;> simp [h]

theorem hintsErased_loop (reader : LineReader) (st2 : PolyLineState) :
    ∀ st1 : PolyLineState, st1.line = st2.line →
      (ParsePolyLine.loop (hintsErased false reader) st1).1 =
          hintsErased false (ParsePolyLine.loop reader st2).1 ∧
        (ParsePolyLine.loop (hintsErased false reader) st1).2.line =
          (ParsePolyLine.loop reader st2).2.line := by
  induction reader, st2 using ParsePolyLine.loop.induct with
  | case1 st2 =>
    intro st1 h
    simp [ParsePolyLine.loop, hintsErased, h]
  | case2 st2 r rs h1 =>
    intro st1 h
    have h0 : r.GroupCode = 0 := Record.Is_code h1
    rw [hintsErased_zero false r rs h0, ParsePolyLine_loop_unfold, ParsePolyLine_loop_unfold]
    simp only [h1, if_true]
    exact ⟨(hintsErased_zero false r rs h0).symm, h⟩
  | case3 st2 r rs h1 h2 res h3 =>
    intro st1 h
    have h0 : r.GroupCode = 0 := Record.Is_code h2
    simp only [res] at h3
    rw [hintsErased_zero false r rs h0, h2, ParsePolyLine_loop_vertex _ _ _ h2,
      ParsePolyLine_loop_vertex _ _ _ h2, hintsErased_ParsePolyLineVertex, h]
    simp only [hintsErased_head, h3, if_true]
    exact ⟨trivial, trivial⟩
  | case4 st2 r rs h1 h2 res h3 ih =>
    intro st1 h
    have h0 : r.GroupCode = 0 := Record.Is_code h2
    simp only [res] at h3 ih
    rw [hintsErased_zero false r rs h0, h2, ParsePolyLine_loop_vertex _ _ _ h2,
      ParsePolyLine_loop_vertex _ _ _ h2, hintsErased_ParsePolyLineVertex, h]
    simp only [hintsErased_head, h3, if_false]
    exact ih _ rfl
  | case5 st2 r rs h1 h2 ih =>
    intro st1 h
    have h1f : r.Is 0 "ENDSEC" = false := by simpa using h1
    have h2f : r.Is 0 "VERTEX" = false := by simpa using h2
    rw [ParsePolyLine_loop_other r rs st2 h1f h2f]
    by_cases h0 : r.GroupCode = 0
    · rw [hintsErased_zero false r rs h0, h2f, ParsePolyLine_loop_other r _ st1 h1f h2f]
      exact ih _ (step_line st1 st2 r h)
    · by_cases hh : r.GroupCode = 71 ∨ r.GroupCode = 72
      · have he : hintsErased false (r :: rs) =
            { GroupCode := r.GroupCode, Value := "" } :: hintsErased false rs := by
          simp [hintsErased, h0, hh]
        rw [he, ParsePolyLine_loop_other ⟨r.GroupCode, "", 0, 0, 0⟩ _ st1
          (by simp [Record.Is, h0]) (by simp [Record.Is, h0])]
        apply ih
        rw [step_hint_line st1 ⟨r.GroupCode, "", 0, 0, 0⟩ hh, step_hint_line st2 r hh, h]
      · have he : hintsErased false (r :: rs) = r :: hintsErased false rs := by
          simp [hintsErased, h0, hh]
        rw [he, ParsePolyLine_loop_other r _ st1 h1f h2f]
        exact ih _ (step_line st1 st2 r h)

theorem hintsErased_header (hdr rest : LineReader) (hhdr : ∀ r ∈ hdr, r.GroupCode ≠ 0)
    (a b : Record) (hab : a.GroupCode = b.GroupCode)
    (ha : a.GroupCode = 71 ∨ a.GroupCode = 72) :
    hintsErased false (hdr ++ a :: rest) = hintsErased false (hdr ++ b :: rest) := by
  induction hdr with
  | nil =>
    have ha0 : a.GroupCode ≠ 0 := by rcases ha with h | h <;> rw [h] <;> decide
    have hb : b.GroupCode = 71 ∨ b.GroupCode = 72 := by rw [← hab]; exact ha
    have hb0 : b.GroupCode ≠ 0 := by rw [← hab]; exact ha0
    simp [hintsErased, ha0, hb0, ha, hb, hab]
  | cons r rs ih =>
    have hr : r.GroupCode ≠ 0 := hhdr r (List.mem_cons_self _ _)
    have := ih (fun x hx => hhdr x (List.mem_cons_of_mem _ hx))
    simp only [List.cons_append, hintsErased, hr, if_false]
    simp only [List.append_eq, this]

theorem ParsePolyLine_blocks_of_line (r1 r2 : LineReader) (output : FileData)
    (h : (ParsePolyLine.loop r1 {}).2.line = (ParsePolyLine.loop r2 {}).2.line) :
    (ParsePolyLine r1 output).2.blocks = (ParsePolyLine r2 output).2.blocks := by
  rcases ParsePolyLine_output r1 output with ⟨a1, a2⟩ | ⟨l1, a1, a2⟩ <;>
    rcases ParsePolyLine_output r2 output with ⟨b1, b2⟩ | ⟨l2, b1, b2⟩
  · rw [a2, b2]
    rfl
  · rw [h, b1] at a1
    cases a1
  · rw [h, b1] at a1
    cases a1
  · rw [h, b1] at a1
    injection a1 with a1
    subst a1
    rw [a2, b2, pushLine_noteReserved, pushLine_noteReserved]
    rfl

theorem sampleHugeHint_parse :
    InternReadFile.loop sampleHugeHint {} =
      { blocks := sampleHintBlocks, reserved := [24000000000] } := by
  simp [sampleHugeHint, sampleHintBlocks, InternReadFile_loop_cons,
    InternReadFile_loop_nil, InternReadFile.body, ParseEntities, ParseEntities_loop_cons,
    ParseEntities_loop_nil, ParseEntities.body, Record.Is, LineReader.Is, isFaceEntity,
    isSolidEntity, isSurfaceEntity, isAcShEntity,
    ParsePolyLine, noteReserved, ParsePolyLine.loop, ParsePolyLine.step,
    ParsePolyLine.finish, ParsePolyLine.segments, ParsePolyLine.pairs,
    ParsePolyLineVertex, ParsePolyLineVertex.loop, ParsePolyLineVertex.step,
    ParsePolyLineVertex.emit, VertexState.cnti, toUnsigned,
    GroupCode_XComp, GroupCode_YComp, GroupCode_ZComp, pushLine, popLine, setBackLine,
    modifyBack, DXF_POLYLINE_FLAG_POLYFACEMESH, DXF_POLYLINE_FLAG_CLOSED,
    sizeof_aiVector3D, List.range, List.range.loop]

theorem sampleSmallHint_parse :
    InternReadFile.loop sampleSmallHint {} =
      { blocks := sampleHintBlocks, reserved := [24] } := by
  simp [sampleSmallHint, sampleHintBlocks, InternReadFile_loop_cons,
    InternReadFile_loop_nil, InternReadFile.body, ParseEntities, ParseEntities_loop_cons,
    ParseEntities_loop_nil, ParseEntities.body, Record.Is, LineReader.Is, isFaceEntity,
    isSolidEntity, isSurfaceEntity, isAcShEntity,
    ParsePolyLine, noteReserved, ParsePolyLine.loop, ParsePolyLine.step,
    ParsePolyLine.finish, ParsePolyLine.segments, ParsePolyLine.pairs,
    ParsePolyLineVertex, ParsePolyLineVertex.loop, ParsePolyLineVertex.step,
    ParsePolyLineVertex.emit, VertexState.cnti, toUnsigned,
    GroupCode_XComp, GroupCode_YComp, GroupCode_ZComp, pushLine, popLine, setBackLine,
    modifyBack, DXF_POLYLINE_FLAG_POLYFACEMESH, DXF_POLYLINE_FLAG_CLOSED,
    sizeof_aiVector3D, List.range, List.range.loop]

theorem sampleSmallHint_import (available : Nat) (h : 24 ≤ available) :
    ∃ scene, InternReadFile available sampleSmallHint = Except.ok scene := by
  have hr : reserveThrows available 24 = false := by
    simp [reserveThrows]
    omega
  unfold InternReadFile
  simp only [sampleSmallHint_parse]
  simp [hr, sampleHintBlocks, ConvertMeshes, ConvertMeshes.index,
    AI_DXF_ENTITIES_MAGIC_BLOCK, ExpandBlockReferences, ExpandBlockReferences.run,
    ConvertMeshes.assemble, ConvertMeshes.bucket, ConvertMeshes.bucketOne, mapFind, mapInsert,
    modifyAt, ConvertMeshes.meshes, ConvertMeshes.buildMesh, ConvertMeshes.lines,
    ConvertMeshes.faces, ConvertMeshes.corners, primitiveBit, GenerateHierarchy,
    GenerateMaterials, Except.map, aiPrimitiveType_LINE]

/-- C31 (evaluation of the code): the streams `sampleHugeHint` and
`sampleSmallHint` differ only in the value of the vertex count hint of their
POLYLINE, 2000000000 against 2, both non-negative. They parse to the same
blocks, but the hint is passed to `line.positions.reserve`: the first stream
asks for 24000000000 bytes, the second for 24. With an allocator that grants
24 bytes and less than 24000000000 the import of the second stream returns a
scene and the import of the first ends with the allocation error: the hint is
fatal. In general two streams that differ at most in the values of the count
hints give the same blocks and the same kept or dropped polyline; only the
requests to the allocator differ. -/
theorem large_count_hint_aborts_import :
    SameButHints (sampleHugeHint.drop 3) (sampleSmallHint.drop 3) ∧
    (InternReadFile.loop sampleHugeHint {}).reserved = [24000000000] ∧
    (InternReadFile.loop sampleSmallHint {}).reserved = [24] ∧
    (InternReadFile.loop sampleHugeHint {}).blocks =
      (InternReadFile.loop sampleSmallHint {}).blocks ∧
    (∀ available : Nat, available < 24000000000 →
      InternReadFile available sampleHugeHint = Except.error ImportError.badAlloc) ∧
    (∀ available : Nat, 24 ≤ available →
      ∃ scene, InternReadFile available sampleSmallHint = Except.ok scene) ∧
    (∀ (reader1 reader2 : LineReader) (output : FileData), SameButHints reader1 reader2 →
      (ParsePolyLine reader1 output).2.blocks = (ParsePolyLine reader2 output).2.blocks ∧
      ParsePolyLine.finish (ParsePolyLine.loop reader1 {}).2.line =
        ParsePolyLine.finish (ParsePolyLine.loop reader2 {}).2.line ∧
      (ParsePolyLine.loop reader1 {}).2.line = (ParsePolyLine.loop reader2 {}).2.line) := by
  refine ⟨?_, ?_, ?_, ?_, ?_, sampleSmallHint_import, ?_⟩
  · simp [SameButHints, hintsErased, sampleHugeHint, sampleSmallHint, Record.Is]
  · rw [sampleHugeHint_parse]
  · rw [sampleSmallHint_parse]
  · rw [sampleHugeHint_parse, sampleSmallHint_parse]
  · intro available h
    have hr : reserveThrows available 24000000000 = true := by
      simp [reserveThrows]
      omega
    unfold InternReadFile
    simp only [sampleHugeHint_parse]
    simp [hr]
  · intro reader1 reader2 output hs
    unfold SameButHints at hs
    obtain ⟨_, a2⟩ := hintsErased_loop reader1 {} {} rfl
    obtain ⟨_, b2⟩ := hintsErased_loop reader2 {} {} rfl
    rw [hs] at a2
    have k1 := a2.symm.trans b2
    exact ⟨ParsePolyLine_blocks_of_line _ _ output k1, by rw [k1], k1⟩

end DXFImporter
